import Mathlib

/-!
# Secure session lifecycle of the MTE Go samples

A shallow embedding of the handshake, state-store and reseed-rotation code of
the sample programs (`ecdhHandshake.go`, `multipleClients.go`, `fileUpload.go`,
`mteSwitching.go`), of the chunked runs of `fileUpload.go` and `testChunker.go`, and of
the console demos `mteCoreDemo.go` and `goJail.go`.
The programs talk to collaborators that are not part of the
repository (the ECDH package, the MTE engine, the HTTP transport, the JSON and
base64 codecs, the AES-GCM cipher, the random sources).  These are collected in the
record `Env`; every program function takes the environment and an explicit `World`
holding the package-level variables together with a trace of the calls made to the
collaborators.
-/

set_option autoImplicit false

namespace MteSamples

/-- Byte slices. -/
abbrev Bytes := List Nat

/-- A Go `error` value: `none` is `nil`, `some msg` an error whose text is `msg`. -/
abbrev GoError := Option String

/-- The engine object types the programs construct:
`mte.NewEncDef`, `mte.NewDecDef`, `mte.NewMkeEncDef`, `mte.NewMkeDecDef`, and in the
jailbreak demo `mte.NewEncOpt` and `mte.NewDecOpt` with the options fixed there. -/
inductive Kind where
  | EncDef
  | DecDef
  | MkeEncDef
  | MkeDecDef
  | EncOpt
  | DecOpt
  deriving DecidableEq, Repr

/-- The two ECDH contexts of a handshake (`encoderEcdh`, `decoderEcdh`). -/
inductive Dir where
  | encoder
  | decoder
  deriving DecidableEq, Repr

/-- `mte.Status_mte_status_success`. -/
def statusSuccess : Nat := 0

/-- `HandshakeModel` of the programs. -/
structure HandshakeModel where
  TimeStamp : String := ""
  ConversationIdentifier : String := ""
  ClientEncoderPublicKey : String := ""
  ClientDecoderPublicKey : String := ""
  deriving DecidableEq, Repr

/-- `LoginModel` of the switching program. -/
structure LoginModel where
  Password : String := ""
  UserName : String := ""
  deriving DecidableEq, Repr

/-- `ResponseModel[T]`; `access_token` only exists in the switching program. -/
structure ResponseModel (T : Type) where
  Message : String := ""
  Success : Bool := false
  ResultCode : String := ""
  access_token : String := ""
  ExceptionUid : String := ""
  Data : T

/-- Calls made to the collaborators, recorded in the world's trace. -/
inductive Event where
  | handshake (clientId : String)
  | getPublicKey (d : Dir)
  | httpPost (route : String) (headers : List (String × String)) (payload : String)
  | httpGet (route : String)
  | createSharedSecret (d : Dir) (peer : Bytes)
  | clearContainer (d : Dir)
  | initLicense
  | mteNew (k : Kind)
  | instantiate (k : Kind) (entropy : Bytes) (nonce : Nat) (identity : String)
  | saveState (k : Kind)
  | restoreState (k : Kind)
  | encode (k : Kind) (message : String)
  | decode (k : Kind) (payload : String)
  | uninstantiate (k : Kind)
  | finishEncrypt
  | finishDecrypt
  | startEncrypt
  | encryptChunk (buf : Bytes)
  | startDecrypt
  | decryptChunk (buf : Bytes)
  | pipeWrite (data : Bytes)
  | fileWrite (name : String) (data : Bytes)
  | print (msg : String)
  | readNonce
  | cacheGet (key : String)
  | cacheDel (key : String)
  | cacheSet (key : String) (value : Bytes)
  | wgDone
  | wgAdd (delta : Int)
  | goStart (clientId : String) (clientNum : Int)
  | wgWait
  | mathRead (length : Nat)
  | newCipher (key : Bytes)
  | httpDo (uri : String) (headers : List (String × String)) (contentLength : Nat)
  | encodeBytes (k : Kind) (data : Bytes)
  | nonceCallback (algo : Nat) (seed : Nat)
  deriving DecidableEq, Repr

/-- The package-level variables of the programs and the trace of collaborator calls
(most recent call first).  `stateCache` is used by the multi-client program,
`encoderState`/`decoderState` by the file-upload and switching programs,
`access_token` by the switching program.  `retcode` is the package variable of the
multi-client and handshake programs and the variable of `main` in the file-upload
program. -/
structure World where
  retcode : Int := 0
  maxSeed : Nat := 0
  encoderState : String := ""
  decoderState : String := ""
  access_token : String := ""
  stateCache : List (String × Bytes) := []
  trace : List Event := []
  deriving DecidableEq, Repr

/-- Record a collaborator call. -/
def World.emit (w : World) (e : Event) : World :=
  { w with trace := e :: w.trace }

/-- Index handed to the collaborators whose answers may differ from call to call
(key generation, transport, random sources): the number of calls made so far. -/
def World.now (w : World) : Nat := w.trace.length

/-- Number of times `PerformHandshakeWithServer` was entered for a client. -/
def World.handshakes (w : World) (clientId : String) : Nat :=
  w.trace.count (.handshake clientId)

/-! ## The state cache (`freecache`) as a finite map -/

/-- `stateCache.Get`. -/
def cacheLookup (key : String) : List (String × Bytes) → Option Bytes
  | [] => none
  | (k, v) :: rest => if k = key then some v else cacheLookup key rest

/-- `stateCache.Del`. -/
def cacheErase (key : String) : List (String × Bytes) → List (String × Bytes)
  | [] => []
  | (k, v) :: rest => if k = key then cacheErase key rest else (k, v) :: cacheErase key rest

/-- `stateCache.Set`: the new entry replaces an entry under the same key. -/
def cacheInsert (key : String) (value : Bytes) (c : List (String × Bytes)) :
    List (String × Bytes) :=
  (key, value) :: cacheErase key c

/-- `stateCache.Get(key)` on the world: the slice is `nil` when the key is missing. -/
def World.cacheGet (w : World) (key : String) : Bytes × World :=
  ((cacheLookup key w.stateCache).getD [], w.emit (.cacheGet key))

/-- `stateCache.Del(key)` on the world. -/
def World.cacheDel (w : World) (key : String) : World :=
  { w with stateCache := cacheErase key w.stateCache, trace := .cacheDel key :: w.trace }

/-- `stateCache.Set(key, value, cacheExpire)` on the world. -/
def World.cacheSet (w : World) (key : String) (value : Bytes) : World :=
  { w with stateCache := cacheInsert key value w.stateCache,
           trace := .cacheSet key value :: w.trace }

deriving instance DecidableEq for Except

/-! ## The collaborators -/

/-- The MTE engine (package `mte`), over the internal state `σ` of an engine object.
Every method takes the Go type of the object it is called on.  `SetEntropy` and
`SetNonceInt` followed by `InstantiateStr` is one call with the entropy, the nonce and
the identity.  Statuses are numbers, `statusSuccess` being success; a `nil` slice is
`none`.  `InitLicense` is given the index of the call (`World.now`).  `EncryptChunk`
works in place: its value holds the content of the buffer after the call.
`Status_mte_status_license_error` and `JailAlgoNone` are constants of the package.
`InstantiateJail algo seed entropy personal` is `InstantiateStr(personal)` on a decoder
that was given the entropy and a nonce callback with the algorithm `algo` and the nonce
seed `seed`; next to the status it yields the mutated nonce the callback retains. -/
structure Mte (σ : Type) where
  newObj : Kind → σ
  InitLicense : Nat → String → String → Bool
  GetStatusName : Nat → String
  GetStatusDescription : Nat → String
  StatusIsError : Nat → Bool
  InstantiateStr : Kind → Bytes → Nat → String → σ → Nat × σ
  GetDrbgsReseedInterval : Kind → σ → Nat
  GetReseedCounter : Kind → σ → Nat
  SaveState : Kind → σ → Bytes
  SaveStateB64 : Kind → σ → String
  RestoreState : Kind → Bytes → σ → Nat × σ
  RestoreStateB64 : Kind → String → σ → Nat × σ
  Uninstantiate : Kind → σ → Nat × σ
  EncodeStrB64 : Kind → String → σ → (String × Nat) × σ
  DecodeStrB64 : Kind → String → σ → (String × Nat) × σ
  FinishEncrypt : Kind → σ → (Option Bytes × Nat) × σ
  StartDecrypt : Kind → σ → Nat × σ
  DecryptChunk : Kind → Bytes → σ → Option Bytes × σ
  FinishDecrypt : Kind → σ → (Option Bytes × Nat) × σ
  StartEncrypt : Kind → σ → Nat × σ
  EncryptChunk : Kind → Bytes → σ → (Bytes × Nat) × σ
  EncryptFinishBytes : Kind → σ → Nat
  GetDrbgsEntropyMinBytes : Kind → σ → Nat
  Status_mte_status_license_error : Nat
  EncodeB64 : Kind → Bytes → σ → (String × Nat) × σ
  JailAlgoNone : Nat
  InstantiateJail : Nat → Nat → Bytes → String → σ → (Nat × Bytes) × σ

/-- The ECDH package `eclypsesEcdh`.  A context is identified by the index of the call
(`World.now`) that generated its key pair: `GetPublicKey i` is the public key of the
pair made at index `i`, `CreateSharedSecret i peer` the secret that pair derives with
the partner's public key `peer`. -/
structure Ecdh where
  GetPublicKey : Nat → Except String Bytes
  CreateSharedSecret : Nat → Bytes → Except String Bytes

/-- What the transport does with a request: `client.Do` / `http.Post` / `http.Get`
fails, reading the body fails, or a body arrives. -/
inductive HttpReply where
  | sendError (msg : String)
  | readError (msg : String)
  | body (s : String)
  deriving DecidableEq, Repr

/-- Package `net/http`: the answer to a request with a route, headers and a payload,
made at a call index (`World.now`).  `Do` answers a request whose body is streamed
from a pipe, given its address, headers and `ContentLength`.  `NewRequest method url`
is the error of `http.NewRequest(method, url, body)`, which returns a `nil` request
with an error when the method is not valid or the address does not parse (a control
character in it, for one). -/
structure Http where
  post : Nat → String → List (String × String) → String → HttpReply
  get : Nat → String → HttpReply
  Do : Nat → String → List (String × String) → Nat → HttpReply
  NewRequest : String → String → GoError

/-- The cipher `gcm` built by `GenerateAesCipher` (process-wide key fixed).
`Seal nonce plaintext` is what `gcm.Seal` appends to its destination. -/
structure Gcm where
  NonceSize : Nat
  Seal : Bytes → Bytes → Bytes
  Open : Bytes → Bytes → Except String Bytes

/-- Packages `encoding/base64`, `encoding/json` and `unicode`.  `json.Unmarshal`
fills a zero-valued response and its error is ignored by the programs, so it is a
total function here.  `unicodeToUpper` and `unicodeToLower` are `unicode.ToUpper` and
`unicode.ToLower` on the runes outside ASCII.  `unmarshalString` gives the content of
the document under the names of the six fields of `ResponseModel`. -/
structure Codec where
  base64Encode : Bytes → String
  base64Decode : String → Except String Bytes
  marshalHandshake : HandshakeModel → Except String String
  unmarshalHandshake : String → ResponseModel HandshakeModel
  unmarshalString : String → ResponseModel String
  unicodeToUpper : Char → Char
  unicodeToLower : Char → Char
  marshalLogin : LoginModel → Except String Bytes

/-- The random sources: `crypto/rand` (byte `i` of the read made at a call index, and
whether that read fails) and `math/rand` (`Intn`, and byte `i` of the `Read` made at a
call index). -/
structure Rand where
  cryptoByte : Nat → Nat → Nat
  cryptoError : Nat → GoError
  Intn : Nat → Nat → Nat
  mathByte : Nat → Nat → Nat

/-- Everything outside the repository. -/
structure Env (σ : Type) where
  mte : Mte σ
  ecdh : Ecdh
  http : Http
  gcm : Gcm
  codec : Codec
  rand : Rand

/-! ## Library functions with a fixed meaning -/

/-- Value of a decimal digit character. -/
def digitValue (c : Char) : Option Nat :=
  if 48 ≤ c.toNat ∧ c.toNat ≤ 57 then some (c.toNat - 48) else none

/-- Accumulate decimal digits, left to right. -/
def parseDigits : List Char → Nat → Option Nat
  | [], acc => some acc
  | c :: cs, acc =>
    match digitValue c with
    | none => none
    | some d => parseDigits cs (acc * 10 + d)

/-- Go `strconv.ParseUint(s, 10, 64)`: the string must be a non-empty run of decimal
digits whose value fits in 64 bits; otherwise an error is returned (its text is
shortened to the cause). -/
def ParseUint (s : String) : Except String Nat :=
  match s.data with
  | [] => .error "invalid syntax"
  | cs =>
    match parseDigits cs 0 with
    | none => .error "invalid syntax"
    | some v => if v < 2 ^ 64 then .ok v else .error "value out of range"

/-- Number of binary digits of `n`, computed with `fuel` halvings. -/
def bitLength : Nat → Nat → Nat
  | 0, _ => 0
  | fuel + 1, n => if n = 0 then 0 else bitLength fuel (n / 2) + 1

/-- Round a natural number to the nearest one with at most 53 significant bits, ties
to even: the value of the Go conversion `float64(n)` and of a float64 product whose
exact value is `n` units. -/
def roundToFloat64 (n : Nat) : Nat :=
  if n < 2 ^ 53 then n
  else
    let e := bitLength n n - 53
    let q := n / 2 ^ e
    let r := n % 2 ^ e
    if 2 ^ e < 2 * r ∨ (2 * r = 2 ^ e ∧ q % 2 = 1) then (q + 1) * 2 ^ e else q * 2 ^ e

/-- The float64 nearest to the constant `reseedPercent = .9` is
`8106479329266893 * 2^-53`. -/
def reseedPercentMantissa : Nat := 8106479329266893

/-- The test `currentSeed > (float64(maxSeed) * float64(reseedPercent))` with
`currentSeed := float64(counter)`, both sides scaled by `2^53`.  The counter and
`maxSeed` are `uint64`. -/
def reseedExceeded (counter maxSeed : Nat) : Bool :=
  decide (roundToFloat64 (roundToFloat64 (maxSeed % 2 ^ 64) * reseedPercentMantissa)
    < roundToFloat64 (counter % 2 ^ 64) * 2 ^ 53)

/-- Go `strings.ToUpper`: every rune is mapped to upper case, the ASCII letters
`a`-`z` to `A`-`Z`. -/
def ToUpper {σ : Type} (env : Env σ) (s : String) : String :=
  String.mk (s.data.map fun c =>
    if c.toNat < 128 then (if 97 ≤ c.toNat ∧ c.toNat ≤ 122 then Char.ofNat (c.toNat - 32) else c)
    else env.codec.unicodeToUpper c)

/-- Go `strconv.Itoa`. -/
def Itoa (n : Int) : String := toString n

/-- Go `strings.ToLower`: every rune is mapped to lower case, the ASCII letters
`A`-`Z` to `a`-`z`. -/
def ToLower {σ : Type} (env : Env σ) (s : String) : String :=
  String.mk (s.data.map fun c =>
    if c.toNat < 128 then (if 65 ≤ c.toNat ∧ c.toNat ≤ 90 then Char.ofNat (c.toNat + 32) else c)
    else env.codec.unicodeToLower c)

/-- The two calls `strings.Replace(s, "\n", "", -1)` and `strings.Replace(s, "\r", "", -1)`
the programs apply to a line read from the terminal: every line feed, then every
carriage return, is removed. -/
def stripNewlines (s : String) : String :=
  String.mk ((s.data.filter (fun c => c ≠ Char.ofNat 10)).filter (fun c => c ≠ Char.ofNat 13))

/-- The digits loop of Go `strconv.ParseUint` in base 10 with the largest value
`maxVal`: a character that is no digit ends it with 0, a value above `maxVal` ends it
with `maxVal`. -/
def parseUintLoop (maxVal : Nat) : List Char → Nat → Nat
  | [], n => n
  | c :: cs, n =>
    match digitValue c with
    | none => 0
    | some d => if maxVal < n * 10 + d then maxVal else parseUintLoop maxVal cs (n * 10 + d)

/-- The value of Go `strconv.ParseUint(s, 10, bitSize)` when its error is discarded:
0 on a syntax error, the largest value of `bitSize` bits on a range error. -/
def parseUintValue (s : String) (bitSize : Nat) : Nat :=
  parseUintLoop (2 ^ bitSize - 1) s.data 0

/-- The Go conversion `[]byte(s)`: the UTF-8 encoding of the string. -/
def utf8Bytes (s : String) : Bytes :=
  (s.data.map String.utf8EncodeChar).flatten.map UInt8.toNat

/-- The error of Go `aes.NewCipher(key)`: a key of 16, 24 or 32 bytes is accepted, any
other length is a `KeySizeError`. -/
def aesNewCipher (key : Bytes) : GoError :=
  if key.length = 16 ∨ key.length = 24 ∨ key.length = 32 then none
  else some ("crypto/aes: invalid key size " ++ toString key.length)

/-! ## `multipleClients.go` -/

namespace MultipleClients

def jsonContent : String := "application/json"
def textContent : String := "text/plain"
def clientIdHeader : String := "x-client-id"
def encPrefix : String := "enc_"
def decPrefix : String := "dec_"
def maxNumTrips : Nat := 20
def restAPIName : String := "https://dev-echo.eclypses.com"
def handshakeRoute : String := "/api/handshake"
def multiClientRoute : String := "/api/multiclient"
def companyName : String := ""
def companyLicense : String := ""
def errorMarshalJson : Int := 102
def errorReadingResponse : Int := 104
def errorHttpGet : Int := 105
def errorInvalidConnectionMethod : Int := 106
def errorFromServer : Int := 107
def errorDecodingData : Int := 114
def errorRetrievingState : Int := 116
def errorDecryptingState : Int := 117
def errorRestoringState : Int := 118
def errorEncodingData : Int := 119
def errorEncryptingState : Int := 120
def errorCreatingPK : Int := 121
def errorCreatingSS : Int := 122
def errorDecodingPK : Int := 123
def errorMteLicense : Int := 124
def errorParsingUint : Int := 125

variable {σ : Type}

/-- `MakeHttpCall` (lines 683-742).  The result `retcode` of the source is a named
result, not the package variable. -/
def MakeHttpCall (env : Env σ) (route connectionMethod clientId contentType payload : String)
    (w : World) : (String × Int × GoError) × World :=
  if ToUpper env connectionMethod = "POST" then
    let headers := [(clientIdHeader, clientId), ("Content-Type", contentType)]
    match env.http.post w.now route headers payload with
    | .sendError e => (("", errorReadingResponse, some e), w.emit (.httpPost route headers payload))
    | .readError e => (("", errorReadingResponse, some e), w.emit (.httpPost route headers payload))
    | .body returnString => ((returnString, 0, none), w.emit (.httpPost route headers payload))
  else if ToUpper env connectionMethod = "GET" then
    match env.http.get w.now route with
    | .sendError e => (("", errorHttpGet, some e), w.emit (.httpGet route))
    | .readError e => (("", errorReadingResponse, some e), w.emit (.httpGet route))
    | .body returnString => ((returnString, 0, none), w.emit (.httpGet route))
  else
    (("", errorInvalidConnectionMethod, some "invalid connection request"), w)

/-- The three statements that build an envelope, as they stand in `SendMultiToServer`
(lines 383-394 and 408-419), `CreateMteEncoder` (601-612) and `CreateMteDecoder`
(653-664): a nonce of `gcm.NonceSize()` bytes read from `crypto/rand`, then
`gcm.Seal(aesNonce, aesNonce, state, nil)`, which appends the sealed state to the
nonce. -/
def sealState (env : Env σ) (state : Bytes) (w : World) : Except String Bytes × World :=
  match env.rand.cryptoError w.now with
  | some e => (.error e, w.emit .readNonce)
  | none =>
    let aesNonce := (List.range env.gcm.NonceSize).map (env.rand.cryptoByte w.now)
    (.ok (aesNonce ++ env.gcm.Seal aesNonce state), w.emit .readNonce)

/-- `CreateMteEncoder` (lines 566-618). -/
def CreateMteEncoder (env : Env σ) (timestamp clientId : String) (encoderEntropy : Bytes)
    (w : World) : (Int × GoError) × World :=
  let w := w.emit (.mteNew .EncDef)
  let encoder := env.mte.newObj .EncDef
  match ParseUint timestamp with
  | .error e => ((0, some e), { w with retcode := errorParsingUint })
  | .ok nonce =>
    let w := w.emit (.instantiate .EncDef encoderEntropy nonce clientId)
    let (status, encoder) := env.mte.InstantiateStr .EncDef encoderEntropy nonce clientId encoder
    if status ≠ statusSuccess then
      ((status, some ("encoder instantiate error (" ++ env.mte.GetStatusName status ++ "):"
        ++ env.mte.GetStatusDescription status)), w)
    else
      let w := { w with maxSeed :=
        if w.maxSeed = 0 then env.mte.GetDrbgsReseedInterval .EncDef encoder % 2 ^ 64
        else w.maxSeed }
      let w := w.emit (.saveState .EncDef)
      let encoderState := env.mte.SaveState .EncDef encoder
      match sealState env encoderState w with
      | (.error e, w) => ((0, some e), { w with retcode := errorEncryptingState })
      | (.ok encryptedState, w) => ((0, none), w.cacheSet (encPrefix ++ clientId) encryptedState)

/-- `CreateMteDecoder` (lines 623-669). -/
def CreateMteDecoder (env : Env σ) (timestamp clientId : String) (decoderEntropy : Bytes)
    (w : World) : (Int × GoError) × World :=
  let w := w.emit (.mteNew .DecDef)
  let decoder := env.mte.newObj .DecDef
  match ParseUint timestamp with
  | .error e => ((0, some e), { w with retcode := errorParsingUint })
  | .ok nonce =>
    let w := w.emit (.instantiate .DecDef decoderEntropy nonce clientId)
    let (status, decoder) := env.mte.InstantiateStr .DecDef decoderEntropy nonce clientId decoder
    if status ≠ statusSuccess then
      ((status, some ("decoder instantiate error (" ++ env.mte.GetStatusName status ++ "):"
        ++ env.mte.GetStatusDescription status)), w)
    else
      let w := w.emit (.saveState .DecDef)
      let decoderState := env.mte.SaveState .DecDef decoder
      match sealState env decoderState w with
      | (.error e, w) => ((0, some e), { w with retcode := errorEncryptingState })
      | (.ok encryptedState, w) => ((0, none), w.cacheSet (decPrefix ++ clientId) encryptedState)

/-- `PerformHandshakeWithServer` (lines 436-561).  The two ECDH contexts are named by
the index of the call that generates their key pair.  At the licence check the named
result `err` still holds the `nil` of the last shared-secret call. -/
def PerformHandshakeWithServer (env : Env σ) (_num : Int) (clientId : String) (w : World) :
    (Int × GoError) × World :=
  let w := w.emit (.handshake clientId)
  let encoderEcdh := w.now
  let w := w.emit (.getPublicKey .encoder)
  match env.ecdh.GetPublicKey encoderEcdh with
  | .error e => ((errorCreatingPK, some e), w)
  | .ok clientEncoderPKBytes =>
  let decoderEcdh := w.now
  let w := w.emit (.getPublicKey .decoder)
  match env.ecdh.GetPublicKey decoderEcdh with
  | .error e => ((errorCreatingPK, some e), w)
  | .ok clientDecoderPKBytes =>
  let handshakeModel : HandshakeModel :=
    { ConversationIdentifier := clientId
      ClientEncoderPublicKey := env.codec.base64Encode clientEncoderPKBytes
      ClientDecoderPublicKey := env.codec.base64Encode clientDecoderPKBytes }
  match env.codec.marshalHandshake handshakeModel with
  | .error e => ((errorMarshalJson, some e), w)
  | .ok handshakeString =>
  match MakeHttpCall env (restAPIName ++ handshakeRoute) "POST" clientId jsonContent
      handshakeString w with
  | ((_, errorcode, some e), w) => ((errorcode, some e), w)
  | ((hsModelString, _, none), w) =>
  let serverResponse := env.codec.unmarshalHandshake hsModelString
  if !serverResponse.Success then
    ((errorFromServer, some serverResponse.Message), w)
  else
  match env.codec.base64Decode serverResponse.Data.ClientEncoderPublicKey with
  | .error e => ((errorDecodingPK, some e), w)
  | .ok partnerEncoderPublicKeyBytes =>
  match env.codec.base64Decode serverResponse.Data.ClientDecoderPublicKey with
  | .error e => ((errorDecodingPK, some e), w)
  | .ok partnerDecoderPublicKeyBytes =>
  let w := w.emit (.createSharedSecret .encoder partnerEncoderPublicKeyBytes)
  match env.ecdh.CreateSharedSecret encoderEcdh partnerEncoderPublicKeyBytes with
  | .error e => ((errorCreatingSS, some e), w)
  | .ok enSSBytes =>
  let w := w.emit (.createSharedSecret .decoder partnerDecoderPublicKeyBytes)
  match env.ecdh.CreateSharedSecret decoderEcdh partnerDecoderPublicKeyBytes with
  | .error e => ((errorCreatingSS, some e), w)
  | .ok deSSBytes =>
  let w := (w.emit (.clearContainer .encoder)).emit (.clearContainer .decoder)
  let licensed := env.mte.InitLicense w.now companyName companyLicense
  let w := w.emit .initLicense
  if !licensed then
    ((0, none), { w with retcode := errorMteLicense })
  else
  match CreateMteEncoder env serverResponse.Data.TimeStamp clientId enSSBytes w with
  | ((retcode, some e), w) => ((retcode, some e), w)
  | ((_, none), w) =>
  match CreateMteDecoder env serverResponse.Data.TimeStamp clientId deSSBytes w with
  | ((retcode, some e), w) => ((retcode, some e), w)
  | ((_, none), w) => ((0, none), w)

/-- The get path of `SendMultiToServer` (lines 249-263 for the encoder, 279-293 for
the decoder): fetch the envelope, split it at `gcm.NonceSize()` and open it.  On
failure the value is the code the caller stores in `retcode` before returning. -/
def fetchState (env : Env σ) (key : String) (w : World) : Except Int Bytes × World :=
  let (encoderState, w) := w.cacheGet key
  let nonceSize := env.gcm.NonceSize
  if encoderState.length < nonceSize then
    (.error errorRetrievingState, w)
  else
    match env.gcm.Open (encoderState.take nonceSize) (encoderState.drop nonceSize) with
    | .error _ => (.error errorDecryptingState, w)
    | .ok decryptedState => (.ok decryptedState, w)

/-- The put path of `SendMultiToServer` (lines 377-397 for the encoder, 402-422 for
the decoder): delete the key, build the envelope, set it.  The flag is `false` when
reading the nonce failed, in which case the caller returns. -/
def storeState (env : Env σ) (key : String) (state : Bytes) (w : World) : Bool × World :=
  let w := w.cacheDel key
  match sealState env state w with
  | (.error _, w) => (false, { w with retcode := errorEncryptingState })
  | (.ok encryptedState, w) => (true, w.cacheSet key encryptedState)

/-- The reseed check that ends a message round of `SendMultiToServer` (lines
352-372), on the encoder that encoded the message; `i` is the loop counter the source
passes to the handshake.  The value is the encoder the loop goes on with. -/
def reseedCheck (env : Env σ) (i : Nat) (clientId : String) (encoder : σ) (w : World) :
    σ × World :=
  let currentSeed := env.mte.GetReseedCounter .EncDef encoder
  if reseedExceeded currentSeed w.maxSeed then
    let w := w.emit (.uninstantiate .EncDef)
    let (encoderStatus, encoder) := env.mte.Uninstantiate .EncDef encoder
    let w := { w with retcode := if encoderStatus ≠ statusSuccess then encoderStatus else w.retcode }
    let (_, w) := PerformHandshakeWithServer env i clientId w
    (encoder, w)
  else
    (encoder, w)

/-- Key under which the state of a direction is kept for a client: `encPrefix + clientId`
or `decPrefix + clientId`. -/
def stateKey (direction : Dir) (clientId : String) : String :=
  match direction with
  | .encoder => encPrefix ++ clientId
  | .decoder => decPrefix ++ clientId

/-- How the message loop of `SendMultiToServer` ends: by one of its `return`
statements, or by running out of messages with the two sessions it holds. -/
inductive LoopExit (σ : Type) where
  | returned (w : World)
  | finished (encoder decoder : σ) (w : World)

/-- The loop `for i := 1; i <= randNum; i++` of `SendMultiToServer` (lines 305-373),
with `remaining` iterations to go from message number `i`. -/
def sendLoop (env : Env σ) (clientId : String) (clientNum : Int) :
    Nat → Nat → σ → σ → World → LoopExit σ
  | 0, _, encoder, decoder, w => .finished encoder decoder w
  | remaining + 1, i, encoder, decoder, w =>
    let message := "Hello from client " ++ Itoa clientNum ++ " : " ++ clientId ++ " for the "
      ++ Itoa i ++ " time"
    let w := w.emit (.encode .EncDef message)
    let ((encoded, encoderStatus), encoder) := env.mte.EncodeStrB64 .EncDef message encoder
    if encoderStatus ≠ statusSuccess then
      .returned { w with retcode := errorEncodingData }
    else
    match MakeHttpCall env (restAPIName ++ multiClientRoute) "POST" clientId textContent
        encoded w with
    | ((_, errorcode, some _), w) => .returned { w with retcode := errorcode }
    | ((hsModelString, _, none), w) =>
    let serverResponse := env.codec.unmarshalString hsModelString
    if !serverResponse.Success then
      .returned { w with retcode := errorMarshalJson }
    else
    let w := w.emit (.decode .DecDef serverResponse.Data)
    let ((_, decoderStatus), decoder) := env.mte.DecodeStrB64 .DecDef serverResponse.Data decoder
    if env.mte.StatusIsError decoderStatus then
      .returned { w with retcode := errorDecodingData }
    else
    let (encoder, w) := reseedCheck env i clientId encoder w
    sendLoop env clientId clientNum remaining (i + 1) encoder decoder w

/-- The body of `SendMultiToServer` (lines 240-422), before the deferred `wg.Done()`. -/
def sendMultiBody (env : Env σ) (clientId : String) (clientNum : Int) (w : World) : World :=
  let randNum := env.rand.Intn w.now (maxNumTrips - 1) % (maxNumTrips - 1) + 1
  let w := w.emit (.mteNew .EncDef)
  let encoder := env.mte.newObj .EncDef
  match fetchState env (encPrefix ++ clientId) w with
  | (.error code, w) => { w with retcode := code }
  | (.ok decryptedState, w) =>
  let w := w.emit (.restoreState .EncDef)
  let (encoderStatus, encoder) := env.mte.RestoreState .EncDef decryptedState encoder
  if encoderStatus ≠ statusSuccess then
    { w with retcode := errorRestoringState }
  else
  let w := w.emit (.mteNew .DecDef)
  let decoder := env.mte.newObj .DecDef
  match fetchState env (decPrefix ++ clientId) w with
  | (.error code, w) => { w with retcode := code }
  | (.ok decryptedState, w) =>
  let w := w.emit (.restoreState .DecDef)
  let (decoderStatus, decoder) := env.mte.RestoreState .DecDef decryptedState decoder
  if decoderStatus ≠ statusSuccess then
    { w with retcode := errorRestoringState }
  else
  match sendLoop env clientId clientNum randNum 1 encoder decoder w with
  | .returned w => w
  | .finished encoder decoder w =>
  let w := w.emit (.saveState .EncDef)
  match storeState env (encPrefix ++ clientId) (env.mte.SaveState .EncDef encoder) w with
  | (false, w) => w
  | (true, w) =>
  let w := w.emit (.saveState .DecDef)
  (storeState env (decPrefix ++ clientId) (env.mte.SaveState .DecDef decoder) w).2

/-- `SendMultiToServer` (lines 235-423): the body, then the deferred `wg.Done()`. -/
def SendMultiToServer (env : Env σ) (clientId : String) (clientNum : Int) (w : World) : World :=
  (sendMultiBody env clientId clientNum w).emit .wgDone

end MultipleClients

/-- Result of a function of the file-upload or switching program, where
`CreateMteEncoder` and `CreateMteDecoder` call `panic`: the function returns, or the
goroutine panics. -/
inductive Run (α : Type) where
  | done (a : α) (w : World)
  | panic (msg : String) (w : World)
  deriving DecidableEq, Repr

/-- Forget the value a run returns. -/
def Run.void {α : Type} : Run α → Run Unit
  | .done _ w => .done () w
  | .panic msg w => .panic msg w

/-- World in which a run ends. -/
def Run.world {α : Type} : Run α → World
  | .done _ w => w
  | .panic _ w => w

/-! ## `fileUpload.go` -/

namespace FileUpload

def jsonContent : String := "application/json"
def clientIdHeader : String := "x-client-id"
def restAPIName : String := "https://dev-echo.eclypses.com"
def handshakeRoute : String := "/api/handshake"
def companyName : String := ""
def companyLicense : String := ""
def errorMarshalJson : Int := 102
def errorHttpPost : Int := 103
def errorReadingResponse : Int := 104
def errorHttpGet : Int := 105
def errorInvalidConnectionMethod : Int := 106
def errorFromServer : Int := 107
def errorDecodingPK : Int := 108
def errorCreatingPK : Int := 109
def errorCreatingSS : Int := 110
def errorDecodingData : Int := 114

variable {σ : Type}

/-- `MakeHttpCall` (lines 641-692); `http.Post` sends no client-id header. -/
def MakeHttpCall (env : Env σ) (route connectionMethod _clientId contentType payload : String)
    (w : World) : (String × Int × GoError) × World :=
  if ToUpper env connectionMethod = "POST" then
    let headers := [("Content-Type", contentType)]
    match env.http.post w.now route headers payload with
    | .sendError e => (("", errorHttpPost, some e), w.emit (.httpPost route headers payload))
    | .readError e => (("", errorReadingResponse, some e), w.emit (.httpPost route headers payload))
    | .body returnString => ((returnString, 0, none), w.emit (.httpPost route headers payload))
  else if ToUpper env connectionMethod = "GET" then
    match env.http.get w.now route with
    | .sendError e => (("", errorHttpGet, some e), w.emit (.httpGet route))
    | .readError e => (("", errorReadingResponse, some e), w.emit (.httpGet route))
    | .body returnString => ((returnString, 0, none), w.emit (.httpGet route))
  else
    (("", errorInvalidConnectionMethod, some "invalid connection request"), w)

/-- `CreateMteEncoder` (lines 568-600). -/
def CreateMteEncoder (env : Env σ) (timestamp clientId : String) (encoderEntropy : Bytes)
    (w : World) : Run (Int × GoError) :=
  let w := w.emit (.mteNew .MkeEncDef)
  let encoder := env.mte.newObj .MkeEncDef
  match ParseUint timestamp with
  | .error e => .panic e w
  | .ok nonce =>
    let w := w.emit (.instantiate .MkeEncDef encoderEntropy nonce clientId)
    let (status, encoder) :=
      env.mte.InstantiateStr .MkeEncDef encoderEntropy nonce clientId encoder
    if status ≠ statusSuccess then
      .done (status, some ("encoder instantiate error (" ++ env.mte.GetStatusName status ++ "):"
        ++ env.mte.GetStatusDescription status)) w
    else
      let w := { w with maxSeed :=
        if w.maxSeed = 0 then env.mte.GetDrbgsReseedInterval .MkeEncDef encoder % 2 ^ 64
        else w.maxSeed }
      let w := w.emit (.saveState .MkeEncDef)
      .done (0, none) { w with encoderState := env.mte.SaveStateB64 .MkeEncDef encoder }

/-- `CreateMteDecoder` (lines 602-627); the object is made with `mte.NewMkeEncDef()`. -/
def CreateMteDecoder (env : Env σ) (timestamp clientId : String) (decoderEntropy : Bytes)
    (w : World) : Run (Int × GoError) :=
  let w := w.emit (.mteNew .MkeEncDef)
  let decoder := env.mte.newObj .MkeEncDef
  match ParseUint timestamp with
  | .error e => .panic e w
  | .ok nonce =>
    let w := w.emit (.instantiate .MkeEncDef decoderEntropy nonce clientId)
    let (status, decoder) :=
      env.mte.InstantiateStr .MkeEncDef decoderEntropy nonce clientId decoder
    if status ≠ statusSuccess then
      .done (status, some ("decoder instantiate error (" ++ env.mte.GetStatusName status ++ "):"
        ++ env.mte.GetStatusDescription status)) w
    else
      let w := w.emit (.saveState .MkeEncDef)
      .done (0, none) { w with decoderState := env.mte.SaveStateB64 .MkeEncDef decoder }

/-- `PerformHandshakeWithServer` (lines 442-566).  At the licence check a bare
`return` yields the named results, `out = 0` and the `nil` left in `err`. -/
def PerformHandshakeWithServer (env : Env σ) (clientId : String) (w : World) :
    Run (Int × GoError) :=
  let w := w.emit (.handshake clientId)
  let encoderEcdh := w.now
  let w := w.emit (.getPublicKey .encoder)
  match env.ecdh.GetPublicKey encoderEcdh with
  | .error e => .done (errorCreatingPK, some e) w
  | .ok clientEncoderPKBytes =>
  let decoderEcdh := w.now
  let w := w.emit (.getPublicKey .decoder)
  match env.ecdh.GetPublicKey decoderEcdh with
  | .error e => .done (errorCreatingPK, some e) w
  | .ok clientDecoderPKBytes =>
  let handshakeModel : HandshakeModel :=
    { ConversationIdentifier := clientId
      ClientEncoderPublicKey := env.codec.base64Encode clientEncoderPKBytes
      ClientDecoderPublicKey := env.codec.base64Encode clientDecoderPKBytes }
  match env.codec.marshalHandshake handshakeModel with
  | .error e => .done (errorMarshalJson, some e) w
  | .ok handshakeString =>
  match MakeHttpCall env (restAPIName ++ handshakeRoute) "POST" clientId jsonContent
      handshakeString w with
  | ((_, errorcode, some e), w) => .done (errorcode, some e) w
  | ((hsModelString, _, none), w) =>
  let serverResponse := env.codec.unmarshalHandshake hsModelString
  if !serverResponse.Success then
    .done (errorFromServer, some serverResponse.Message) w
  else
  match env.codec.base64Decode serverResponse.Data.ClientEncoderPublicKey with
  | .error e => .done (errorDecodingPK, some e) w
  | .ok partnerEncoderPublicKeyBytes =>
  match env.codec.base64Decode serverResponse.Data.ClientDecoderPublicKey with
  | .error e => .done (errorDecodingPK, some e) w
  | .ok partnerDecoderPublicKeyBytes =>
  let w := w.emit (.createSharedSecret .encoder partnerEncoderPublicKeyBytes)
  match env.ecdh.CreateSharedSecret encoderEcdh partnerEncoderPublicKeyBytes with
  | .error e => .done (errorCreatingSS, some e) w
  | .ok enSSBytes =>
  let w := w.emit (.createSharedSecret .decoder partnerDecoderPublicKeyBytes)
  match env.ecdh.CreateSharedSecret decoderEcdh partnerDecoderPublicKeyBytes with
  | .error e => .done (errorCreatingSS, some e) w
  | .ok deSSBytes =>
  let w := (w.emit (.clearContainer .encoder)).emit (.clearContainer .decoder)
  let licensed := env.mte.InitLicense w.now companyName companyLicense
  let w := w.emit .initLicense
  if !licensed then
    .done (0, none) w
  else
  match CreateMteEncoder env serverResponse.Data.TimeStamp clientId enSSBytes w with
  | .panic msg w => .panic msg w
  | .done (retcode, some e) w => .done (retcode, some e) w
  | .done (_, none) w =>
  match CreateMteDecoder env serverResponse.Data.TimeStamp clientId deSSBytes w with
  | .panic msg w => .panic msg w
  | .done (retcode, some e) w => .done (retcode, some e) w
  | .done (_, none) w => .done (0, none) w

/-- The reseed check of the producer goroutine of `main` (lines 230-256), on the
encoder that finished the chunked run.  `retcode` is the variable of `main` captured
by the goroutine. -/
def encoderReseedCheck (env : Env σ) (clientId : String) (encoder : σ) (w : World) :
    Run Unit :=
  let currentSeed := env.mte.GetReseedCounter .MkeEncDef encoder
  if reseedExceeded currentSeed w.maxSeed then
    let w := w.emit (.uninstantiate .MkeEncDef)
    let (encoderStatus, _) := env.mte.Uninstantiate .MkeEncDef encoder
    let w := { w with retcode := if encoderStatus ≠ statusSuccess then encoderStatus else w.retcode }
    (PerformHandshakeWithServer env clientId w).void
  else
    let w := w.emit (.saveState .MkeEncDef)
    .done () { w with encoderState := env.mte.SaveStateB64 .MkeEncDef encoder }

/-- The end-of-file branch of the producer goroutine of `main` (lines 212-257, with
`useMte = true`), run on the encoder that encrypted the chunks: finish the chunked
run, write the trailing bytes, then the reseed check. -/
def producerAtEOF (env : Env σ) (clientId : String) (encoder : σ) (w : World) : Run Unit :=
  let w := w.emit .finishEncrypt
  let ((finishEncode, _), encoder) := env.mte.FinishEncrypt .MkeEncDef encoder
  let w := match finishEncode with
    | some bytes => w.emit (.pipeWrite bytes)
    | none => w
  encoderReseedCheck env clientId encoder w

/-- The reseed check after the response is decoded in `main` (lines 370-395), on the
decoder that finished the chunked run. -/
def decoderReseedCheck (env : Env σ) (clientId : String) (decoder : σ) (w : World) :
    Run Unit :=
  let currentSeed := env.mte.GetReseedCounter .MkeDecDef decoder
  if reseedExceeded currentSeed w.maxSeed then
    let w := w.emit (.uninstantiate .MkeDecDef)
    let (decoderStatus, _) := env.mte.Uninstantiate .MkeDecDef decoder
    let w := { w with retcode := if decoderStatus ≠ statusSuccess then decoderStatus else w.retcode }
    (PerformHandshakeWithServer env clientId w).void
  else
    let w := w.emit (.saveState .MkeDecDef)
    .done () { w with decoderState := env.mte.SaveStateB64 .MkeDecDef decoder }

/-- The decoding of the server response in `main` (lines 307-395, with
`useMte = true`).  The value is `none` when `main` returns, and the decoded text when
it goes on to print it. -/
def decodeResponse (env : Env σ) (clientId : String) (serverResponse : ResponseModel String)
    (w : World) : Run (Option Bytes) :=
  let w := w.emit (.mteNew .MkeDecDef)
  let decoder := env.mte.newObj .MkeDecDef
  match env.codec.base64Decode serverResponse.Data with
  | .error _ => .done none { w with retcode := errorDecodingData }
  | .ok encodedData =>
  let w := w.emit (.restoreState .MkeDecDef)
  let (decoderStatus, decoder) := env.mte.RestoreStateB64 .MkeDecDef w.decoderState decoder
  if decoderStatus ≠ statusSuccess then
    .done none { w with retcode := decoderStatus }
  else
  let (decoderStatus, decoder) := env.mte.StartDecrypt .MkeDecDef decoder
  if decoderStatus ≠ statusSuccess then
    .done none { w with retcode := decoderStatus }
  else
  let w := w.emit (.decode .MkeDecDef serverResponse.Data)
  match env.mte.DecryptChunk .MkeDecDef encodedData decoder with
  | (none, _) => .done none { w with retcode := errorDecodingData }
  | (some decodedData, decoder) =>
  let w := w.emit .finishDecrypt
  let ((finishDecodeChunk, decoderStatus), decoder) := env.mte.FinishDecrypt .MkeDecDef decoder
  if decoderStatus ≠ statusSuccess then
    .done none { w with retcode := decoderStatus }
  else
  let decodedText := match finishDecodeChunk with
    | some bytes => decodedData ++ bytes
    | none => decodedData
  match decoderReseedCheck env clientId decoder w with
  | .panic msg w => .panic msg w
  | .done _ w => .done (some decodedText) w

end FileUpload

/-! ## `mteSwitching.go` -/

namespace MteSwitching

def jsonContent : String := "application/json"
def textContent : String := "text/plain"
def clientIdHeader : String := "x-client-id"
def restAPIName : String := "https://dev-echo.eclypses.com"
def handshakeRoute : String := "/api/handshake"
def companyName : String := ""
def companyLicense : String := ""
def errorMarshalJson : Int := 102
def errorHttpPost : Int := 103
def errorReadingResponse : Int := 104
def errorHttpGet : Int := 105
def errorInvalidConnectionMethod : Int := 106
def errorFromServer : Int := 107
def errorDecodingPK : Int := 108
def errorCreatingPK : Int := 109
def errorCreatingSS : Int := 110
def errorDecodingData : Int := 114

variable {σ : Type}

/-- `MakeHttpCall` (lines 782-840). -/
def MakeHttpCall (env : Env σ) (route connectionMethod clientId contentType payload : String)
    (w : World) : (String × Int × GoError) × World :=
  if ToUpper env connectionMethod = "POST" then
    let headers := [(clientIdHeader, clientId), ("Content-Type", contentType)]
    match env.http.post w.now route headers payload with
    | .sendError e => (("", errorReadingResponse, some e), w.emit (.httpPost route headers payload))
    | .readError e => (("", errorReadingResponse, some e), w.emit (.httpPost route headers payload))
    | .body returnString => ((returnString, 0, none), w.emit (.httpPost route headers payload))
  else if ToUpper env connectionMethod = "GET" then
    match env.http.get w.now route with
    | .sendError e => (("", errorHttpGet, some e), w.emit (.httpGet route))
    | .readError e => (("", errorReadingResponse, some e), w.emit (.httpGet route))
    | .body returnString => ((returnString, 0, none), w.emit (.httpGet route))
  else
    (("", errorInvalidConnectionMethod, some "invalid connection request"), w)

/-- `CreateMteEncoder` (lines 708-740). -/
def CreateMteEncoder (env : Env σ) (timestamp clientId : String) (encoderEntropy : Bytes)
    (w : World) : Run (Int × GoError) :=
  let w := w.emit (.mteNew .MkeEncDef)
  let encoder := env.mte.newObj .MkeEncDef
  match ParseUint timestamp with
  | .error e => .panic e w
  | .ok nonce =>
    let w := w.emit (.instantiate .MkeEncDef encoderEntropy nonce clientId)
    let (status, encoder) :=
      env.mte.InstantiateStr .MkeEncDef encoderEntropy nonce clientId encoder
    if status ≠ statusSuccess then
      .done (status, some ("encoder instantiate error (" ++ env.mte.GetStatusName status ++ "):"
        ++ env.mte.GetStatusDescription status)) w
    else
      let w := { w with maxSeed :=
        if w.maxSeed = 0 then env.mte.GetDrbgsReseedInterval .MkeEncDef encoder % 2 ^ 64
        else w.maxSeed }
      let w := w.emit (.saveState .MkeEncDef)
      .done (0, none) { w with encoderState := env.mte.SaveStateB64 .MkeEncDef encoder }

/-- `CreateMteDecoder` (lines 742-768); the object is made with `mte.NewMkeEncDef()`. -/
def CreateMteDecoder (env : Env σ) (timestamp clientId : String) (decoderEntropy : Bytes)
    (w : World) : Run (Int × GoError) :=
  let w := w.emit (.mteNew .MkeEncDef)
  let decoder := env.mte.newObj .MkeEncDef
  match ParseUint timestamp with
  | .error e => .panic e w
  | .ok nonce =>
    let w := w.emit (.instantiate .MkeEncDef decoderEntropy nonce clientId)
    let (status, decoder) :=
      env.mte.InstantiateStr .MkeEncDef decoderEntropy nonce clientId decoder
    if status ≠ statusSuccess then
      .done (status, some ("decoder instantiate error (" ++ env.mte.GetStatusName status ++ "):"
        ++ env.mte.GetStatusDescription status)) w
    else
      let w := w.emit (.saveState .MkeEncDef)
      .done (0, none) { w with decoderState := env.mte.SaveStateB64 .MkeEncDef decoder }

/-- `PerformHandshakeWithServer` (lines 581-706).  At the licence check a bare
`return` yields the named results, `out = 0` and the `nil` left in `err`. -/
def PerformHandshakeWithServer (env : Env σ) (clientId : String) (w : World) :
    Run (Int × GoError) :=
  let w := w.emit (.handshake clientId)
  let encoderEcdh := w.now
  let w := w.emit (.getPublicKey .encoder)
  match env.ecdh.GetPublicKey encoderEcdh with
  | .error e => .done (errorCreatingPK, some e) w
  | .ok clientEncoderPKBytes =>
  let decoderEcdh := w.now
  let w := w.emit (.getPublicKey .decoder)
  match env.ecdh.GetPublicKey decoderEcdh with
  | .error e => .done (errorCreatingPK, some e) w
  | .ok clientDecoderPKBytes =>
  let handshakeModel : HandshakeModel :=
    { ConversationIdentifier := clientId
      ClientEncoderPublicKey := env.codec.base64Encode clientEncoderPKBytes
      ClientDecoderPublicKey := env.codec.base64Encode clientDecoderPKBytes }
  match env.codec.marshalHandshake handshakeModel with
  | .error e => .done (errorMarshalJson, some e) w
  | .ok handshakeString =>
  match MakeHttpCall env (restAPIName ++ handshakeRoute) "POST" clientId jsonContent
      handshakeString w with
  | ((_, errorcode, some e), w) => .done (errorcode, some e) w
  | ((hsModelString, _, none), w) =>
  let serverResponse := env.codec.unmarshalHandshake hsModelString
  if !serverResponse.Success then
    .done (errorFromServer, some serverResponse.Message) w
  else
  match env.codec.base64Decode serverResponse.Data.ClientEncoderPublicKey with
  | .error e => .done (errorDecodingPK, some e) w
  | .ok partnerEncoderPublicKeyBytes =>
  match env.codec.base64Decode serverResponse.Data.ClientDecoderPublicKey with
  | .error e => .done (errorDecodingPK, some e) w
  | .ok partnerDecoderPublicKeyBytes =>
  let w := w.emit (.createSharedSecret .encoder partnerEncoderPublicKeyBytes)
  match env.ecdh.CreateSharedSecret encoderEcdh partnerEncoderPublicKeyBytes with
  | .error e => .done (errorCreatingSS, some e) w
  | .ok enSSBytes =>
  let w := w.emit (.createSharedSecret .decoder partnerDecoderPublicKeyBytes)
  match env.ecdh.CreateSharedSecret decoderEcdh partnerDecoderPublicKeyBytes with
  | .error e => .done (errorCreatingSS, some e) w
  | .ok deSSBytes =>
  let w := (w.emit (.clearContainer .encoder)).emit (.clearContainer .decoder)
  let licensed := env.mte.InitLicense w.now companyName companyLicense
  let w := w.emit .initLicense
  if !licensed then
    .done (0, none) w
  else
  match CreateMteEncoder env serverResponse.Data.TimeStamp clientId enSSBytes w with
  | .panic msg w => .panic msg w
  | .done (retcode, some e) w => .done (retcode, some e) w
  | .done (_, none) w =>
  match CreateMteDecoder env serverResponse.Data.TimeStamp clientId deSSBytes w with
  | .panic msg w => .panic msg w
  | .done (retcode, some e) w => .done (retcode, some e) w
  | .done (_, none) w => .done (0, none) w

/-- The reseed check of the producer goroutine of `UploadFile` (lines 270-295), on
the encoder that finished the chunked run.  A failing `Uninstantiate` is only
printed. -/
def encoderReseedCheck (env : Env σ) (clientId : String) (encoder : σ) (w : World) :
    Run Unit :=
  let currentSeed := env.mte.GetReseedCounter .MkeEncDef encoder
  if reseedExceeded currentSeed w.maxSeed then
    let w := w.emit (.uninstantiate .MkeEncDef)
    let (_encoderStatus, _) := env.mte.Uninstantiate .MkeEncDef encoder
    (PerformHandshakeWithServer env clientId w).void
  else
    let w := w.emit (.saveState .MkeEncDef)
    .done () { w with encoderState := env.mte.SaveStateB64 .MkeEncDef encoder }

/-- The end-of-file branch of the producer goroutine of `UploadFile` (lines 252-296,
with `useMte = true`), run on the encoder that encrypted the chunks. -/
def producerAtEOF (env : Env σ) (clientId : String) (encoder : σ) (w : World) : Run Unit :=
  let w := w.emit .finishEncrypt
  let ((finishEncode, _), encoder) := env.mte.FinishEncrypt .MkeEncDef encoder
  let w := match finishEncode with
    | some bytes => w.emit (.pipeWrite bytes)
    | none => w
  encoderReseedCheck env clientId encoder w

/-- The reseed check after the response is decoded in `UploadFile` (lines 418-445),
on the decoder that finished the chunked run.  The value is `some (out, err)` when
`UploadFile` returns these. -/
def decoderReseedCheck (env : Env σ) (clientId : String) (decoder : σ) (w : World) :
    Run (Option (Int × GoError)) :=
  let currentSeed := env.mte.GetReseedCounter .MkeDecDef decoder
  if reseedExceeded currentSeed w.maxSeed then
    let w := w.emit (.uninstantiate .MkeDecDef)
    let (decoderStatus, _) := env.mte.Uninstantiate .MkeDecDef decoder
    if decoderStatus ≠ statusSuccess then
      .done (some (decoderStatus, some ("Decoder uninstantiate error ("
        ++ env.mte.GetStatusName decoderStatus ++ "): "
        ++ env.mte.GetStatusDescription decoderStatus ++ "\n"))) w
    else
    match PerformHandshakeWithServer env clientId w with
    | .panic msg w => .panic msg w
    | .done (retcode, some e) w => .done (some (retcode, some e)) w
    | .done (_, none) w => .done none w
  else
    let w := w.emit (.saveState .MkeDecDef)
    .done none { w with decoderState := env.mte.SaveStateB64 .MkeDecDef decoder }

/-- The decoding of the server response in `UploadFile` (lines 358-445, with
`useMte = true`).  The value is `some (out, err)` when `UploadFile` returns these, and
`none` when it goes on to print the decoded text. -/
def decodeResponse (env : Env σ) (clientId : String) (serverResponse : ResponseModel String)
    (w : World) : Run (Option (Int × GoError)) :=
  let w := w.emit (.mteNew .MkeDecDef)
  let decoder := env.mte.newObj .MkeDecDef
  match env.codec.base64Decode serverResponse.Data with
  | .error e => .done (some (errorDecodingData, some ("Error base64 decode encoded data: " ++ e
      ++ " Code: " ++ Itoa errorDecodingData))) w
  | .ok encodedData =>
  let w := w.emit (.restoreState .MkeDecDef)
  let (decoderStatus, decoder) := env.mte.RestoreStateB64 .MkeDecDef w.decoderState decoder
  if decoderStatus ≠ statusSuccess then
    .done (some (decoderStatus, some ("Decoder restore error ("
      ++ env.mte.GetStatusName decoderStatus ++ "): "
      ++ env.mte.GetStatusDescription decoderStatus))) w
  else
  let (decoderStatus, decoder) := env.mte.StartDecrypt .MkeDecDef decoder
  if decoderStatus ≠ statusSuccess then
    .done (some (decoderStatus, some ("MTE Decoder StartDecrypt error ("
      ++ env.mte.GetStatusName decoderStatus ++ "): "
      ++ env.mte.GetStatusDescription decoderStatus))) w
  else
  let w := w.emit (.decode .MkeDecDef serverResponse.Data)
  match env.mte.DecryptChunk .MkeDecDef encodedData decoder with
  | (none, _) => .done (some (errorDecodingData, some "Decode error.")) w
  | (some _, decoder) =>
  let w := w.emit .finishDecrypt
  let ((_, decoderStatus), decoder) := env.mte.FinishDecrypt .MkeDecDef decoder
  if decoderStatus ≠ statusSuccess then
    .done (some (decoderStatus, some ("MTE Decoder FinishDecrypt error ("
      ++ env.mte.GetStatusName decoderStatus ++ "): "
      ++ env.mte.GetStatusDescription decoderStatus))) w
  else
  decoderReseedCheck env clientId decoder w

end MteSwitching

/-! ## `ecdhHandshake.go` -/

namespace EcdhHandshake

/-- `HandshakeResponse`. -/
structure HandshakeResponse where
  encoderSharedSecret : String := ""
  decoderSharedSecret : String := ""
  deriving DecidableEq, Repr

def jsonContent : String := "application/json"
def restAPIName : String := "https://dev-echo.eclypses.com"
def handshakeRoute : String := "/api/handshake"
def errorMarshalJson : Int := 102
def errorHttpPost : Int := 103
def errorReadingResponse : Int := 104
def errorHttpGet : Int := 105
def errorInvalidConnectionMethod : Int := 106
def errorFromServer : Int := 107
def errorDecodingPK : Int := 108
def errorCreatingPK : Int := 109
def errorCreatingSS : Int := 110

variable {σ : Type}

/-- `MakeHttpCall` (lines 248-299); the method is compared as it is given. -/
def MakeHttpCall (env : Env σ) (route connectionMethod _clientId contentType payload : String)
    (w : World) : (String × Int × GoError) × World :=
  if connectionMethod = "POST" then
    let headers := [("Content-Type", contentType)]
    match env.http.post w.now route headers payload with
    | .sendError e => (("", errorHttpPost, some e), w.emit (.httpPost route headers payload))
    | .readError e => (("", errorReadingResponse, some e), w.emit (.httpPost route headers payload))
    | .body returnString => ((returnString, 0, none), w.emit (.httpPost route headers payload))
  else if connectionMethod = "GET" then
    match env.http.get w.now route with
    | .sendError e => (("", errorHttpGet, some e), w.emit (.httpGet route))
    | .readError e => (("", errorReadingResponse, some e), w.emit (.httpGet route))
    | .body returnString => ((returnString, 0, none), w.emit (.httpGet route))
  else
    (("", errorInvalidConnectionMethod, some "Invalid connection request."), w)

/-- `PerformHandshakeWithServer` (lines 137-234). -/
def PerformHandshakeWithServer (env : Env σ) (clientId : String) (w : World) :
    (HandshakeResponse × Int × GoError) × World :=
  let w := w.emit (.handshake clientId)
  let handshakeResponse : HandshakeResponse := {}
  let encoderEcdh := w.now
  let w := w.emit (.getPublicKey .encoder)
  match env.ecdh.GetPublicKey encoderEcdh with
  | .error e => ((handshakeResponse, errorCreatingPK, some e), w)
  | .ok clientEncoderPKBytes =>
  let decoderEcdh := w.now
  let w := w.emit (.getPublicKey .decoder)
  match env.ecdh.GetPublicKey decoderEcdh with
  | .error e => ((handshakeResponse, errorCreatingPK, some e), w)
  | .ok clientDecoderPKBytes =>
  let handshakeModel : HandshakeModel :=
    { ConversationIdentifier := clientId
      ClientEncoderPublicKey := env.codec.base64Encode clientEncoderPKBytes
      ClientDecoderPublicKey := env.codec.base64Encode clientDecoderPKBytes }
  match env.codec.marshalHandshake handshakeModel with
  | .error e => ((handshakeResponse, errorMarshalJson, some e), w)
  | .ok handshakeString =>
  match MakeHttpCall env (restAPIName ++ handshakeRoute) "POST" clientId jsonContent
      handshakeString w with
  | ((_, errorcode, some e), w) => ((handshakeResponse, errorcode, some e), w)
  | ((hsModelString, _, none), w) =>
  let serverResponse := env.codec.unmarshalHandshake hsModelString
  if !serverResponse.Success then
    ((handshakeResponse, errorFromServer, some serverResponse.Message), w)
  else
  match env.codec.base64Decode serverResponse.Data.ClientEncoderPublicKey with
  | .error e => ((handshakeResponse, errorDecodingPK, some e), w)
  | .ok partnerEncoderPublicKeyBytes =>
  match env.codec.base64Decode serverResponse.Data.ClientDecoderPublicKey with
  | .error e => ((handshakeResponse, errorDecodingPK, some e), w)
  | .ok partnerDecoderPublicKeyBytes =>
  let w := w.emit (.createSharedSecret .encoder partnerEncoderPublicKeyBytes)
  match env.ecdh.CreateSharedSecret encoderEcdh partnerEncoderPublicKeyBytes with
  | .error e => ((handshakeResponse, errorCreatingSS, some e), w)
  | .ok enSSBytes =>
  let handshakeResponse :=
    { handshakeResponse with encoderSharedSecret := env.codec.base64Encode enSSBytes }
  let w := w.emit (.createSharedSecret .decoder partnerDecoderPublicKeyBytes)
  match env.ecdh.CreateSharedSecret decoderEcdh partnerDecoderPublicKeyBytes with
  | .error e => ((handshakeResponse, errorCreatingSS, some e), w)
  | .ok deSSBytes =>
  let handshakeResponse :=
    { handshakeResponse with decoderSharedSecret := env.codec.base64Encode deSSBytes }
  let w := (w.emit (.clearContainer .encoder)).emit (.clearContainer .decoder)
  ((handshakeResponse, 0, none), w)

end EcdhHandshake

/-! ## A small concrete environment

Deterministic stand-ins for the collaborators, used to run the programs on concrete
inputs. -/

namespace Demo

/-- Engine state of the stand-in engine. -/
structure Session where
  instantiated : Bool := false
  seed : Nat := 0
  counter : Nat := 0
  deriving DecidableEq, Repr

/-- Tag of an engine object type inside an exported state. -/
def kindTag : Kind → Nat
  | .EncDef => 1
  | .DecDef => 2
  | .MkeEncDef => 3
  | .MkeDecDef => 4
  | .EncOpt => 5
  | .DecOpt => 6

/-- Exported state: type tag, seed, counter. -/
def exportState (k : Kind) (s : Session) : Bytes :=
  if s.instantiated then [kindTag k, s.seed, s.counter] else []

/-- Import of an exported state into an object of type `k`. -/
def importState (k : Kind) (blob : Bytes) (s : Session) : Nat × Session :=
  match blob with
  | [t, seed, counter] =>
    if t = kindTag k then (0, { instantiated := true, seed := seed, counter := counter })
    else (5, s)
  | _ => (5, s)

/-- Text form of a byte slice and back. -/
def text (b : Bytes) : String := String.mk (b.map Char.ofNat)

/-- Bytes of a text; the text `"!"` stands for an undecodable one. -/
def bytes (s : String) : Except String Bytes :=
  if s = "!" then .error "illegal base64 data" else .ok (s.data.map Char.toNat)

/-- One use of a session. -/
def advance (s : Session) : Session := { s with counter := s.counter + 1 }

/-- Settings of the stand-in environment: the body the server answers a handshake
with, the answer of `InitLicense`, the reseed interval of the DRBG, the status
`Uninstantiate` reports, and the value `mrand.Intn` returns. -/
structure Config where
  reply : String := "ok"
  licensed : Bool := true
  interval : Nat := 1
  uninst : Nat := 0
  intn : Nat := 0

/-- The stand-in engine.  It needs two bytes of entropy, and it refuses to encrypt a
chunk whose first byte is 255. -/
def mte (cfg : Config) : Mte Session where
  newObj := fun _ => {}
  InitLicense := fun _ _ _ => cfg.licensed
  GetStatusName := fun _ => "mte_status"
  GetStatusDescription := fun _ => "engine failure"
  StatusIsError := fun s => decide (s ≠ 0)
  InstantiateStr := fun k entropy nonce identity s =>
    if entropy.length < 2 then (2, s)
    else (0, { instantiated := true,
               seed := (kindTag k + entropy.sum + nonce + identity.length) % 1000, counter := 0 })
  GetDrbgsReseedInterval := fun _ _ => cfg.interval
  GetReseedCounter := fun _ s => s.counter
  SaveState := exportState
  SaveStateB64 := fun k s => text (exportState k s)
  RestoreState := importState
  RestoreStateB64 := fun k blob s => importState k (blob.data.map Char.toNat) s
  Uninstantiate := fun _ _ => (cfg.uninst, {})
  EncodeStrB64 := fun _ message s =>
    if s.instantiated then ((message, 0), advance s) else (("", 3), s)
  DecodeStrB64 := fun _ payload s =>
    if s.instantiated then ((payload, 0), advance s) else (("", 3), s)
  FinishEncrypt := fun _ s =>
    if s.instantiated then ((some [0], 0), advance s) else ((none, 3), s)
  StartDecrypt := fun _ s => (if s.instantiated then 0 else 3, s)
  DecryptChunk := fun _ data s => if s.instantiated then (some data, s) else (none, s)
  FinishDecrypt := fun _ s => if s.instantiated then ((none, 0), advance s) else ((none, 3), s)
  StartEncrypt := fun _ s => (if s.instantiated then 0 else 3, s)
  EncryptChunk := fun _ buf s =>
    if s.instantiated && buf.head? != some 255 then ((buf.map (fun b => (b + 1) % 256), 0), s)
    else ((buf, 3), s)
  EncryptFinishBytes := fun _ _ => 1
  GetDrbgsEntropyMinBytes := fun _ _ => 4
  Status_mte_status_license_error := 7
  EncodeB64 := fun _ data s =>
    if s.instantiated then ((text data, 0), advance s) else (("", 3), s)
  JailAlgoNone := 0
  InstantiateJail := fun algo seed entropy personal s =>
    if entropy.length < 2 then ((2, []), s)
    else ((0, [(seed + algo) % 256]),
      { instantiated := true, seed := (entropy.sum + seed + algo + personal.length) % 1000,
        counter := 0 })

/-- Key pairs are named by the index of the call that made them. -/
def ecdh : Ecdh where
  GetPublicKey := fun i => .ok [i]
  CreateSharedSecret := fun i peer => .ok (i :: peer)

/-- A cipher whose tag is the sum of the nonce. -/
def gcm : Gcm where
  NonceSize := 12
  Seal := fun nonce plaintext => plaintext ++ [nonce.sum]
  Open := fun nonce ciphertext =>
    if ciphertext.getLast? = some nonce.sum then .ok ciphertext.dropLast
    else .error "cipher: message authentication failed"

/-- The stand-in server answers a handshake with the body `reply`, echoes every
other request with a payload, and answers an upload with the body `"done"`; an address
that holds a control character makes no request. -/
def http (reply : String) : Http where
  post := fun _ route _ payload =>
    if route = "https://dev-echo.eclypses.com/api/handshake" then .body reply else .body payload
  get := fun _ _ => .body ""
  Do := fun _ _ _ _ => .body "done"
  NewRequest := fun _ url =>
    if url.data.any (fun c => c.toNat < 32 || c.toNat == 127) then
      some "net/url: invalid control character in URL"
    else none

/-- The handshake body `"ok"` parses to a successful envelope with the timestamp
`"1700000000"` and the keys `"SE"` and `"SD"`, the body `"badkey"` to a successful
envelope whose decoder key is undecodable, the body `"shortkey"` to one whose decoder
key is empty; any other handshake body parses to a rejection carrying the body as its
message. -/
def codec : Codec where
  base64Encode := text
  base64Decode := bytes
  marshalHandshake := fun m => .ok (m.ConversationIdentifier ++ "|" ++ m.ClientEncoderPublicKey
    ++ "|" ++ m.ClientDecoderPublicKey)
  unmarshalHandshake := fun s =>
    if s = "ok" then
      { Success := true, Data := { TimeStamp := "1700000000", ClientEncoderPublicKey := "SE",
                                   ClientDecoderPublicKey := "SD" } }
    else if s = "badkey" then
      { Success := true, Data := { TimeStamp := "1700000000", ClientEncoderPublicKey := "SE",
                                   ClientDecoderPublicKey := "!" } }
    else if s = "shortkey" then
      { Success := true, Data := { TimeStamp := "1700000000", ClientEncoderPublicKey := "SE",
                                   ClientDecoderPublicKey := "" } }
    else { Message := s, Success := false, Data := {} }
  unmarshalString := fun s => { Success := true, Data := s }
  unicodeToUpper := fun c => c
  unicodeToLower := fun c => c
  marshalLogin := fun m => .ok ((m.UserName ++ ":" ++ m.Password).data.map Char.toNat)

/-- Random sources: nonce byte `j` of the read made at index `i` is `i + j`, byte `j`
of a `math/rand` read is `i + 7 * j`. -/
def rand (cfg : Config) : Rand where
  cryptoByte := fun i j => i + j
  cryptoError := fun _ => none
  Intn := fun _ _ => cfg.intn
  mathByte := fun i j => i + 7 * j

/-- The stand-in environment. -/
def env (cfg : Config) : Env Session where
  mte := mte cfg
  ecdh := ecdh
  http := http cfg.reply
  gcm := gcm
  codec := codec
  rand := rand cfg

/-- A world of the multi-client program whose store holds the sealed states `enc` and
`dec` for a client, with the cached reseed interval `maxSeed`. -/
def stored (cfg : Config) (maxSeed : Nat) (clientId : String) (enc dec : Bytes) : World :=
  (MultipleClients.storeState (env cfg) (MultipleClients.decPrefix ++ clientId) dec
    (MultipleClients.storeState (env cfg) (MultipleClients.encPrefix ++ clientId) enc
      { maxSeed := maxSeed }).2).2

end Demo

/-! ## The chunked runs -/

/-- What one `Read(buf)` on an open file returns: some bytes with a `nil` error, no
byte with `io.EOF`, or no byte with another error.  The bytes are those `Read` placed
at the front of `buf`, so there are at most `len(buf)` of them.  A file is given by the
results of its successive reads; once these are used up it is at its end. -/
inductive ReadResult where
  | data (b : Bytes)
  | eof
  | failure (msg : String)
  deriving DecidableEq, Repr

/-- Number of bytes a call writes into the request pipe. -/
def Event.pipeBytes : Event → Nat
  | .pipeWrite data => data.length
  | _ => 0

/-- Number of bytes written into the request pipe so far. -/
def World.pipeBytes (w : World) : Nat := (w.trace.map Event.pipeBytes).sum

/-- Bytes a call appends to the file `name`. -/
def Event.written (name : String) : Event → Bytes
  | .fileWrite n data => if n = name then data else []
  | _ => []

/-- Content written to the file `name` so far, oldest write first. -/
def World.fileContent (w : World) (name : String) : Bytes :=
  w.trace.foldr (fun e acc => acc ++ Event.written name e) []

/-- The buffers handed to `EncryptChunk` so far, oldest call first. -/
def World.encryptedChunks (w : World) : List Bytes :=
  w.trace.foldr (fun e acc => match e with
    | .encryptChunk buf => acc ++ [buf]
    | _ => acc) []

/-- Number of `ClearContainer` calls made so far on the ECDH context of a direction. -/
def World.cleared (w : World) (d : Dir) : Nat := w.trace.count (.clearContainer d)

/-- Store key a call reads, deletes or writes. -/
def Event.cacheKey : Event → Option String
  | .cacheGet key => some key
  | .cacheDel key => some key
  | .cacheSet key _ => some key
  | _ => none

/-- Keys of all store accesses made so far. -/
def World.cacheKeys (w : World) : List String := w.trace.filterMap Event.cacheKey

/-- Number of store accesses (get, delete, set) made so far under a key. -/
def World.accesses (w : World) (key : String) : Nat := w.cacheKeys.count key

/-- World in which the message loop of `SendMultiToServer` ends. -/
def MultipleClients.LoopExit.world {σ : Type} : MultipleClients.LoopExit σ → World
  | .returned w => w
  | .finished _ _ w => w

/-- Whether an answer to the handshake request lets both shared secrets be derived by
the contexts `encoderEcdh` and `decoderEcdh`: a body arrived, its envelope reports
success, both returned keys decode, and both `CreateSharedSecret` calls return a
secret.  These are the tests every `PerformHandshakeWithServer` makes between the
return of `MakeHttpCall` and the two `ClearContainer` calls. -/
def secretsDerived {σ : Type} (env : Env σ) (encoderEcdh decoderEcdh : Nat) (reply : HttpReply) :
    Bool :=
  match reply with
  | .body hsModelString =>
    let serverResponse := env.codec.unmarshalHandshake hsModelString
    serverResponse.Success &&
      match env.codec.base64Decode serverResponse.Data.ClientEncoderPublicKey,
        env.codec.base64Decode serverResponse.Data.ClientDecoderPublicKey with
      | .ok partnerEncoderPublicKeyBytes, .ok partnerDecoderPublicKeyBytes =>
        (env.ecdh.CreateSharedSecret encoderEcdh partnerEncoderPublicKeyBytes).toBool &&
          (env.ecdh.CreateSharedSecret decoderEcdh partnerDecoderPublicKeyBytes).toBool
      | _, _ => false
  | _ => false

/-- The consecutive chunks of `size` bytes of a content, the last one holding what is
left: what a file yields when every read fills the buffer it is given, except
possibly the last one. -/
def chunksOf (size : Nat) : Nat → Bytes → List Bytes
  | 0, _ => []
  | fuel + 1, content =>
    if content = [] then [] else content.take size :: chunksOf size fuel (content.drop size)

/-- Length of an optional slice (`nil` has length 0). -/
def sliceLen : Option Bytes → Nat
  | some b => b.length
  | none => 0

namespace FileUpload

variable {σ : Type}

def chunkSize : Nat := 1024

/-- `totalSize` in `main` (lines 192-197, with `useMte = true`), assigned to
`req.ContentLength` (line 283): the size of the file plus `EncryptFinishBytes()` of the
encoder that started the chunked run. -/
def contentLength (env : Env σ) (fileSize : Nat) (encoder : σ) : Nat :=
  fileSize + env.mte.EncryptFinishBytes .MkeEncDef encoder

/-- The loop of the producer goroutine of `main` (lines 208-279, with `useMte = true`)
over the results of the successive `file.Read(buf)`.  After `buf = buf[:n]` (taken when
`n < chunkSize`) the buffer handed to `EncryptChunk` holds exactly the `n` bytes read,
and `wr.Write(buf[:n])` writes its first `n` bytes.  A read error other than `io.EOF`
and a failing `EncryptChunk` leave the loop without finishing the chunked run. -/
def producerLoop (env : Env σ) (clientId : String) : List ReadResult → σ → World → Run Unit
  | [], encoder, w => producerAtEOF env clientId encoder w
  | .eof :: _, encoder, w => producerAtEOF env clientId encoder w
  | .failure _ :: _, _, w => .done () w
  | .data b :: rest, encoder, w =>
    let w := w.emit (.encryptChunk b)
    let ((buf, encoderStatus), encoder) := env.mte.EncryptChunk .MkeEncDef b encoder
    if encoderStatus ≠ statusSuccess then
      .done () w
    else
      producerLoop env clientId rest encoder (w.emit (.pipeWrite (buf.take b.length)))

/-- Engine state after `EncryptChunk` was called on each chunk in turn, when every call
reported success and left a buffer of the length it was given; `none` otherwise. -/
def encryptsInPlace (env : Env σ) : List Bytes → σ → Option σ
  | [], encoder => some encoder
  | b :: rest, encoder =>
    let ((buf, encoderStatus), encoder) := env.mte.EncryptChunk .MkeEncDef b encoder
    if encoderStatus = statusSuccess ∧ buf.length = b.length then encryptsInPlace env rest encoder
    else none

end FileUpload

/-! ## `testChunker.go` -/

namespace TestChunker

variable {σ : Type}

def bufferSize : Nat := 1024

/-- The loop that encrypts the file (lines 179-218) over the results of the successive
`f.Read(buf)`, each on a fresh buffer of `bufferSize` bytes; `buf` is cut to the
`amountRead` bytes read before it is handed to `EncryptChunk`.  A `Write` is recorded
when it is issued (the source prints its error and goes on); the messages to
`os.Stderr` are left out. -/
def encryptLoop (env : Env σ) (fPath encodedFileName : String) :
    List ReadResult → σ → World → σ × World
  | [], encoder, w => (encoder, w)
  | .eof :: _, encoder, w => (encoder, w)
  | .failure err :: _, encoder, w =>
    (encoder, w.emit (.print ("Error trying to read file " ++ fPath ++ ", err: " ++ err)))
  | .data b :: rest, encoder, w =>
    if b.length = 0 then
      (encoder, w)
    else
      let w := w.emit (.encryptChunk b)
      let ((buf, status), encoder) := env.mte.EncryptChunk .MkeEncDef b encoder
      if status ≠ statusSuccess then
        (encoder, w)
      else
        encryptLoop env fPath encodedFileName rest encoder (w.emit (.fileWrite encodedFileName buf))

/-- The encoding half of `main` (lines 157-242) on an instantiated encoder.  The value
is `none` when `main` returns, else the encoder after `FinishEncrypt`.  `retcode` is
the variable of `main` the deferred `os.Exit` reads. -/
def encodeFile (env : Env σ) (fPath encodedFileName : String) (reads : List ReadResult)
    (encoder : σ) (w : World) : Option σ × World :=
  let w := w.emit .startEncrypt
  let (status, encoder) := env.mte.StartEncrypt .MkeEncDef encoder
  if status ≠ statusSuccess then
    (none, { w with retcode := status })
  else
    let (encoder, w) := encryptLoop env fPath encodedFileName reads encoder w
    let w := w.emit .finishEncrypt
    let ((finishEncode, _), encoder) := env.mte.FinishEncrypt .MkeEncDef encoder
    let w := match finishEncode with
      | some bytes => w.emit (.fileWrite encodedFileName bytes)
      | none => w
    (some encoder, w.emit (.print ("Finished creating " ++ encodedFileName ++ " file\n")))

/-- The loop that decrypts the encoded file (lines 289-326) over the results of the
successive `fRead.Read(buf)`. -/
def decryptLoop (env : Env σ) (encodedFileName decodedFileName : String) :
    List ReadResult → σ → World → σ × World
  | [], decoder, w => (decoder, w)
  | .eof :: _, decoder, w => (decoder, w)
  | .failure err :: _, decoder, w =>
    (decoder, w.emit (.print ("Error trying to read file " ++ encodedFileName ++ ", err: " ++ err)))
  | .data b :: rest, decoder, w =>
    if b.length = 0 then
      (decoder, w)
    else
      let w := w.emit (.decryptChunk b)
      match env.mte.DecryptChunk .MkeDecDef b decoder with
      | (none, decoder) => (decoder, w)
      | (some decoded, decoder) =>
        decryptLoop env encodedFileName decodedFileName rest decoder
          (w.emit (.fileWrite decodedFileName decoded))

/-- The decoding half of `main` (lines 264-345) on an instantiated decoder. -/
def decodeFile (env : Env σ) (encodedFileName decodedFileName : String)
    (reads : List ReadResult) (decoder : σ) (w : World) : World :=
  let w := w.emit .startDecrypt
  let (status, decoder) := env.mte.StartDecrypt .MkeDecDef decoder
  if status ≠ statusSuccess then
    { w with retcode := status }
  else
    let (decoder, w) := decryptLoop env encodedFileName decodedFileName reads decoder w
    let w := w.emit .finishDecrypt
    let ((finishDecodeChunk, status), _) := env.mte.FinishDecrypt .MkeDecDef decoder
    if status ≠ statusSuccess then
      { w with retcode := status }
    else
      let w := match finishDecodeChunk with
        | some bytes => w.emit (.fileWrite decodedFileName bytes)
        | none => w
      w.emit (.print ("Finished creating " ++ decodedFileName ++ " file\n"))

/-- Content of the buffers after `EncryptChunk` was called on each chunk in turn, one
after the other, and the engine state after the last call, when every call reported
success; `none` otherwise. -/
def encryptAll (env : Env σ) : List Bytes → σ → Option (Bytes × σ)
  | [], encoder => some ([], encoder)
  | b :: rest, encoder =>
    let ((buf, status), encoder) := env.mte.EncryptChunk .MkeEncDef b encoder
    if status = statusSuccess then
      (encryptAll env rest encoder).map (fun p => (buf ++ p.1, p.2))
    else none

end TestChunker

namespace Demo

/-- A transport that answers like `http` up to the call index `failFrom` and fails to
send from then on. -/
def flaky (reply : String) (failFrom : Nat) : Http where
  post := fun i route headers payload =>
    if failFrom ≤ i then .sendError "connection refused" else (http reply).post i route headers payload
  get := fun i route =>
    if failFrom ≤ i then .sendError "connection refused" else (http reply).get i route
  Do := fun i uri headers contentLength =>
    if failFrom ≤ i then .sendError "connection refused"
    else (http reply).Do i uri headers contentLength
  NewRequest := (http reply).NewRequest

/-- The stand-in environment on the transport `flaky`. -/
def envFlaky (cfg : Config) (failFrom : Nat) : Env Session :=
  { env cfg with http := flaky cfg.reply failFrom }

/-- Key pairs that derive no secret from an empty partner key. -/
def ecdhStrict : Ecdh where
  GetPublicKey := fun i => .ok [i]
  CreateSharedSecret := fun i peer =>
    if peer = [] then .error "invalid public key" else .ok (i :: peer)

/-- The stand-in environment on the key pairs `ecdhStrict`. -/
def envStrict (cfg : Config) : Env Session :=
  { env cfg with ecdh := ecdhStrict }

/-- The stand-in environment on an engine that fails to decrypt a chunk whose first byte
is 255 and whose `FinishDecrypt` returns the trailing byte 7 with success. -/
def envPicky (cfg : Config) : Env Session :=
  { env cfg with mte :=
      { mte cfg with
        DecryptChunk := fun _ data s =>
          if s.instantiated && data.head? != some 255 then (some data, s) else (none, s)
        FinishDecrypt := fun _ s => ((some [7], 0), s) } }

end Demo

/-! ## The rest of `multipleClients.go`: the cipher key and `main` -/

namespace MultipleClients

variable {σ : Type}

def errorValidation : Int := 115
def errorNewCipher : Int := 126
def errorNewGCM : Int := 127
def endProgram : Int := 130

/-- The alphabet `chars` (line 747). -/
def chars : String := "abcdefghijklmnopqrstuvwxyzABCDEFGHIJKLMNOPQRSTUVWXYZ1234567890-"

/-- The bytes of `chars`; `len(chars)` is their number and `chars[i]` the byte at
index `i`. -/
def charsBytes : Bytes := chars.data.map Char.toNat

/-- The loop `for i := 0; i < length; i++ { b[i] = chars[int(b[i])%ll] }` of `shortID`
(lines 753-755) over the bytes of `b`; `none` when an index is outside `chars`, where
the program panics. -/
def pickChars : Bytes → Option Bytes
  | [] => some []
  | x :: rest =>
    match charsBytes[x % charsBytes.length]? with
    | none => none
    | some c => (pickChars rest).map (fun picked => c :: picked)

/-- `shortID` (lines 749-757) for a length that is not negative: `b` is filled by
`mrand.Read`, then every byte is replaced by a byte of `chars`.  The value is the bytes
of the string returned. -/
def shortID (env : Env σ) (length : Nat) (w : World) : Run Bytes :=
  let b := (List.range length).map (fun i => env.rand.mathByte w.now i % 256)
  let w := w.emit (.mathRead length)
  match pickChars b with
  | none => .panic "index out of range" w
  | some id => .done id w

/-- `GenerateAesCipher` (lines 762-784).  `cipher.NewGCM` fails only on a cipher whose
block size is not 16 bytes, which an AES cipher never is, so its error branch (lines
778-782) is not taken.  `retcode` is the package variable. -/
def GenerateAesCipher (env : Env σ) (w : World) : Run GoError :=
  match shortID env 32 w with
  | .panic msg w => .panic msg w
  | .done aesKey w =>
    let w := w.emit (.newCipher aesKey)
    match aesNewCipher aesKey with
    | some e => .done (some e) { w with retcode := errorNewCipher }
    | none => .done none w

/-- The handshake loop of `main` (lines 176-192), with `remaining` clients to go from
client number `i`; `clients i` is the id `uuid.New()` makes for client `i`.  The
`retcode` that receives the code of the handshake is declared by `:=` inside the loop
body, so the package variable `retcode` is not assigned here.  The flag is `false` when
`main` returns. -/
def handshakeAll (env : Env σ) (clients : Int → String) : Nat → Int → World → Bool × World
  | 0, _, w => (true, w)
  | remaining + 1, i, w =>
    match PerformHandshakeWithServer env i (clients i) w with
    | ((retcode, some e), w) =>
      (false, w.emit (.print ("Error: " ++ e ++ " Code: " ++ Itoa retcode)))
    | ((_, none), w) => handshakeAll env clients remaining (i + 1) w

/-- The loop `for i := 1; i <= numClients; i++ { go SendMultiToServer(clients[i], i, &wg) }`
(lines 204-206), with `remaining` workers to start from client number `i`, under the
schedule in which a worker runs to its end as soon as it is started. -/
def startWorkers (env : Env σ) (clients : Int → String) : Nat → Int → World → World
  | 0, _, w => w
  | remaining + 1, i, w =>
    startWorkers env clients remaining (i + 1)
      (SendMultiToServer env (clients i) i (w.emit (.goStart (clients i) i)))

end MultipleClients

/-- What a call adds to the counter of the wait group: `Add(delta)` adds `delta`,
`Done()` subtracts one. -/
def Event.wgDelta : Event → Int
  | .wgAdd delta => delta
  | .wgDone => -1
  | _ => 0

/-- Sum of what the calls made so far added to the counter of a wait group. -/
def World.wgCounter (w : World) : Int := (w.trace.map Event.wgDelta).sum

/-- The workers started so far, oldest first: client id and client number. -/
def World.workers (w : World) : List (String × Int) :=
  w.trace.foldr (fun e acc => match e with
    | .goStart clientId clientNum => acc ++ [(clientId, clientNum)]
    | _ => acc) []

namespace MultipleClients

variable {σ : Type}

/-- One round of `main` (lines 199-209): a fresh wait group, `wg.Add(numClients)`, the
workers, `wg.Wait()`.  `Add` panics on a negative counter; `Wait` returns when the
counter of the wait group, which started at zero, is zero again, and otherwise blocks
for ever (the run then ends with all goroutines asleep). -/
def round (env : Env σ) (clients : Int → String) (numClients : Int) (w : World) : Run Unit :=
  let w0 := w
  let w := w.emit (.wgAdd numClients)
  if numClients < 0 then
    .panic "sync: negative WaitGroup counter" w
  else
    let w := startWorkers env clients numClients.toNat 1 w
    let w := w.emit .wgWait
    if w.wgCounter - w0.wgCounter = 0 then .done () w
    else .panic "all goroutines are asleep - deadlock!" w

/-- The loop `for { ... }` of `main` (lines 196-229) over the lines the user answers the
prompt with; it is followed as long as there are answers. -/
def roundsLoop (env : Env σ) (clients : Int → String) (numClients : Int) :
    List String → World → Run Unit
  | [], w => .done () w
  | sendAgain :: rest, w =>
    match round env clients numClients w with
    | .panic msg w => .panic msg w
    | .done _ w =>
      if ToLower env (stripNewlines sendAgain) = "n" then
        .done () { w.emit (.print "Program stopped.") with retcode := endProgram }
      else
        roundsLoop env clients numClients rest w

/-- `main` (lines 144-230); `scanned` is the result of `fmt.Scanf("%d", &numClients)`.
The process ends with `os.Exit(retcode)` on the package variable `retcode`, which is
the `retcode` of the world the run ends in. -/
def main (env : Env σ) (clients : Int → String) (scanned : Except String Int)
    (answers : List String) (w : World) : Run Unit :=
  let w := { w with retcode := 0 }
  match GenerateAesCipher env w with
  | .panic msg w => .panic msg w
  | .done (some e) w => .done () (w.emit (.print e))
  | .done none w =>
  match scanned with
  | .error e => .done () { w.emit (.print e) with retcode := errorValidation }
  | .ok numClients =>
  match handshakeAll env clients numClients.toNat 1 w with
  | (false, w) => .done () w
  | (true, w) => roundsLoop env clients numClients answers w

end MultipleClients

namespace EcdhHandshake

variable {σ : Type}

/-- `main` (lines 95-125).  The `retcode` that receives the code of the handshake is
declared by `:=` in `main` (line 110); the deferred `os.Exit(retcode)` of line 102 was
written before that declaration and reads the package variable `retcode`, which is the
`retcode` of the world the run ends in. -/
def main (env : Env σ) (clientId : String) (w : World) : World :=
  let w := w.emit (.print "Starting Go Diffie-Hellman Handshake")
  let w := { w with retcode := 0 }
  match PerformHandshakeWithServer env clientId w with
  | ((_, retcode, some e), w) => w.emit (.print ("Error: " ++ e ++ " Code: " ++ Itoa retcode))
  | ((handshake, _, none), w) =>
    (((w.emit (.print ("Completed Handshake for client: " ++ clientId))).emit
      (.print ("Encoder Shared Secret: " ++ handshake.encoderSharedSecret))).emit
      (.print ("Decoder Shared Secret: " ++ handshake.decoderSharedSecret))).emit
      (.print "Press enter to end program")

end EcdhHandshake

/-! ## The requests of the switching and file-upload programs -/

namespace MteSwitching

variable {σ : Type}

def loginRoute : String := "/api/login"
def fileUploadMteRoute : String := "/FileUpload/mte?name="

/-- The call `json.Unmarshal(hrBytes, &serverResponse)` into the `ResponseModel[string]` of
this program (lines 110-117).  Its field `access_token` is not exported, and
`encoding/json` sets exported fields only, so the field keeps its zero value whatever
the document holds. -/
def unmarshalResponse (env : Env σ) (body : String) : ResponseModel String :=
  { env.codec.unmarshalString body with access_token := "" }

/-- `LoginToServer` (lines 485-568).  The bare `return` after a failed `EncodeB64`
yields the named results, `out = 0` and the `nil` left in `err`. -/
def LoginToServer (env : Env σ) (clientId : String) (w : World) : (Int × GoError) × World :=
  let login : LoginModel := { Password := "P@ssw0rd!", UserName := "email@eclypses.com" }
  match env.codec.marshalLogin login with
  | .error e => ((0, some e), w)
  | .ok serializedLogin =>
  let w := w.emit (.mteNew .EncDef)
  let encoder := env.mte.newObj .EncDef
  let w := w.emit (.restoreState .EncDef)
  let (encoderStatus, encoder) := env.mte.RestoreStateB64 .EncDef w.encoderState encoder
  if encoderStatus ≠ statusSuccess then
    ((encoderStatus, some ("Encoder restore error (" ++ env.mte.GetStatusName encoderStatus
      ++ ", " ++ env.mte.GetStatusDescription encoderStatus ++ ")")), w)
  else
  let w := w.emit (.encodeBytes .EncDef serializedLogin)
  let ((encodedLogin, encoderStatus), encoder) :=
    env.mte.EncodeB64 .EncDef serializedLogin encoder
  if encoderStatus ≠ statusSuccess then
    ((0, none), w)
  else
  let w := w.emit (.saveState .EncDef)
  let w := { w with encoderState := env.mte.SaveStateB64 .EncDef encoder }
  match MakeHttpCall env (restAPIName ++ loginRoute) "POST" clientId textContent
      encodedLogin w with
  | ((_, retcode, some e), w) => ((retcode, some e), w)
  | ((loginResponse, _, none), w) =>
  let serverResponse := unmarshalResponse env loginResponse
  if !serverResponse.Success then
    ((errorFromServer, some serverResponse.Message), w)
  else
  let w := { w with access_token := serverResponse.access_token }
  let w := w.emit (.mteNew .DecDef)
  let decoder := env.mte.newObj .DecDef
  let w := w.emit (.restoreState .DecDef)
  let (decoderStatus, decoder) := env.mte.RestoreStateB64 .DecDef w.decoderState decoder
  if env.mte.StatusIsError decoderStatus then
    ((decoderStatus, some ("Decoder restore error (" ++ env.mte.GetStatusName decoderStatus
      ++ ", " ++ env.mte.GetStatusDescription decoderStatus ++ ")")), w)
  else
  let w := w.emit (.decode .DecDef serverResponse.Data)
  let ((decodedMessage, decoderStatus), decoder) :=
    env.mte.DecodeStrB64 .DecDef serverResponse.Data decoder
  if env.mte.StatusIsError decoderStatus then
    ((decoderStatus, some ("Decode error " ++ env.mte.GetStatusName decoderStatus ++ " , "
      ++ env.mte.GetStatusDescription decoderStatus)), w)
  else
  let w := w.emit (.print ("Login Response: " ++ decodedMessage))
  let w := w.emit (.saveState .DecDef)
  ((0, none), { w with decoderState := env.mte.SaveStateB64 .DecDef decoder })

/-- The request of `UploadFile` (lines 318-356): `http.NewRequest("POST", uri, rd)`, the
`Authorization` header when `access_token` is not empty, the client-id header,
`ContentLength`, `client.Do`, and the parse of the response.  The error of
`http.NewRequest` is discarded by the source: when there is one the request is `nil`,
and the first statement that sets a header panics on it before any request is issued.
The error of reading the body is discarded too, an unread body being parsed as an empty
one.  The value is `.error (out, err)` when `UploadFile` returns these. -/
def sendUpload (env : Env σ) (clientId uri : String) (totalSize : Nat) (w : World) :
    Run (Except (Int × GoError) (ResponseModel String)) :=
  match env.http.NewRequest "POST" uri with
  | some _ => .panic "invalid memory address or nil pointer dereference" w
  | none =>
  let headers :=
    (if w.access_token ≠ "" then [("Authorization", "Bearer " ++ w.access_token)] else [])
      ++ [(clientIdHeader, clientId)]
  let reply := env.http.Do w.now uri headers totalSize
  let w := w.emit (.httpDo uri headers totalSize)
  match reply with
  | .sendError e => .done (.error (errorReadingResponse, some e)) w
  | reply =>
    let hrBytes := match reply with
      | .body s => s
      | _ => ""
    let serverResponse := unmarshalResponse env hrBytes
    if !serverResponse.Success then
      .done (.error (errorFromServer, some ("Error back from server: " ++ serverResponse.Message
        ++ " Code: " ++ Itoa errorFromServer))) w
    else
      .done (.ok serverResponse) { w with access_token := serverResponse.access_token }

end MteSwitching

namespace FileUpload

variable {σ : Type}

def fileUploadMteRoute : String := "/FileUpload/mte?name="

/-- The request of `main` (lines 279-306): `http.NewRequest("POST", uri, rd)`, the
client-id header, `ContentLength`, `client.Do`, and the parse of the response.  The
error of `http.NewRequest` is discarded by the source: when there is one the request is
`nil`, and `req.Header.Set` panics on it before any request is issued.  The value is
`none` when `main` returns; `retcode` is the variable of `main`. -/
def sendUpload (env : Env σ) (clientId uri : String) (totalSize : Nat) (w : World) :
    Run (Option (ResponseModel String)) :=
  match env.http.NewRequest "POST" uri with
  | some _ => .panic "invalid memory address or nil pointer dereference" w
  | none =>
  let headers := [(clientIdHeader, clientId)]
  let reply := env.http.Do w.now uri headers totalSize
  let w := w.emit (.httpDo uri headers totalSize)
  match reply with
  | .sendError _ => .done none { w with retcode := errorReadingResponse }
  | reply =>
    let hrBytes := match reply with
      | .body s => s
      | _ => ""
    let serverResponse := env.codec.unmarshalString hrBytes
    if !serverResponse.Success then
      .done none { w with retcode := errorFromServer }
    else
      .done (some serverResponse) w

end FileUpload

/-- Whether a call is a request that does not carry the header `x-client-id` with the
value `clientId`. -/
def Event.foreign (clientId : String) : Event → Bool
  | .httpPost _ headers _ => headers.lookup "x-client-id" != some clientId
  | .httpDo _ headers _ => headers.lookup "x-client-id" != some clientId
  | .httpGet _ => true
  | _ => false

/-- Whether a call belongs to the wait group of `main` or starts a worker. -/
def Event.isJoin : Event → Bool
  | .wgAdd _ => true
  | .wgDone => true
  | .wgWait => true
  | .goStart _ _ => true
  | _ => false

/-- The calls made so far that a cycle of the client `clientId` does not make: calls
on the wait group, starts of workers, and requests without the header of the client. -/
def World.alien (w : World) (clientId : String) : List Event :=
  w.trace.filter (fun e => e.isJoin || e.foreign clientId)

/-- The calls made so far on the wait group and the starts of workers. -/
def World.joinTrace (w : World) : List Event := w.trace.filter Event.isJoin

/-! ## `mteCoreDemo.go` -/

namespace CoreDemo

variable {σ : Type}

def nonce : Nat := 0
def personalizationString : String := "demo"
def companyName : String := ""
def companyLicense : String := ""

/-- The entropy buffer after `for i := 0; i < entropyBytes; i++ { entropy[i] = '0' }`. -/
def zeroEntropy (entropyBytes : Nat) : Bytes := List.replicate entropyBytes 48

/-- The loop of `main` (lines 98-156) over the strings the successive
`reader.ReadString('\n')` return, on the encoder and the decoder; `out` collects the
decoded messages in the order they are displayed.  The loop is followed as long as
there are lines.  `retcode` is the variable of `main`; the messages to `os.Stderr` are
left out, and of the line printed for a blank message only the text is recorded. -/
def encodeLoop (env : Env σ) : List String → σ → σ → List String → World → List String × World
  | [], _, _, out, w => (out, w)
  | line :: rest, mteEncoder, mteDecoder, out, w =>
    let textToEncode := stripNewlines line
    if ToLower env textToEncode = "quit" then
      (out, { w.emit (.print "Program stopped.") with retcode := 100 })
    else
      let w := w.emit (.encode .EncDef textToEncode)
      let ((encoded, encoderStatus), mteEncoder) :=
        env.mte.EncodeStrB64 .EncDef textToEncode mteEncoder
      if encoderStatus ≠ statusSuccess then
        (out, { w with retcode := encoderStatus })
      else
        let w := w.emit (.decode .DecDef encoded)
        let ((decoded, decoderStatus), mteDecoder) :=
          env.mte.DecodeStrB64 .DecDef encoded mteDecoder
        if env.mte.StatusIsError decoderStatus then
          (out, { w with retcode := decoderStatus })
        else
          let w := w.emit (.print (if decoded.length = 0 then "Message was blank\n"
            else "Decoded Message: '" ++ decoded ++ "'"))
          encodeLoop env rest mteEncoder mteDecoder (out ++ [decoded]) w

/-- The round trips of the lines, as the calls they add to a trace (most recent first):
each line, with its line feeds and carriage returns removed, is encoded by the encoder,
what the encoder returned is decoded by the decoder, and the message itself is
displayed; the encoder and the decoder go on in the states these calls left.  This is
the behaviour the loop of `main` is compared with. -/
def roundTripTrace (env : Env σ) : List String → σ → σ → List Event → List Event
  | [], _, _, trace => trace
  | line :: rest, mteEncoder, mteDecoder, trace =>
    let message := stripNewlines line
    let encoded := env.mte.EncodeStrB64 .EncDef message mteEncoder
    let decoded := env.mte.DecodeStrB64 .DecDef encoded.1.1 mteDecoder
    roundTripTrace env rest encoded.2 decoded.2
      (Event.print (if message.length = 0 then "Message was blank\n"
          else "Decoded Message: '" ++ message ++ "'") ::
        .decode .DecDef encoded.1.1 :: .encode .EncDef message :: trace)

/-- `main` (lines 19-158): the licence, the encoder and the decoder instantiated with
the refilled entropy buffer, then the loop.  The value holds the decoded messages. -/
def main (env : Env σ) (lines : List String) (w : World) : List String × World :=
  let w := { w with retcode := 0 }
  let licensed := env.mte.InitLicense w.now companyName companyLicense
  let w := w.emit .initLicense
  if !licensed then
    ([], { w with retcode := env.mte.Status_mte_status_license_error })
  else
  let w := w.emit (.mteNew .EncDef)
  let mteEncoder := env.mte.newObj .EncDef
  let entropyBytes := env.mte.GetDrbgsEntropyMinBytes .EncDef mteEncoder
  let entropy := zeroEntropy entropyBytes
  let w := w.emit (.instantiate .EncDef entropy nonce personalizationString)
  let (encoderStatus, mteEncoder) :=
    env.mte.InstantiateStr .EncDef entropy nonce personalizationString mteEncoder
  if encoderStatus ≠ statusSuccess then
    ([], { w with retcode := encoderStatus })
  else
  let w := w.emit (.mteNew .DecDef)
  let mteDecoder := env.mte.newObj .DecDef
  let entropy := zeroEntropy entropyBytes
  let w := w.emit (.instantiate .DecDef entropy nonce personalizationString)
  let (decoderStatus, mteDecoder) :=
    env.mte.InstantiateStr .DecDef entropy nonce personalizationString mteDecoder
  if decoderStatus ≠ statusSuccess then
    ([], { w with retcode := decoderStatus })
  else
  encodeLoop env lines mteEncoder mteDecoder [] w

end CoreDemo

/-! ## `goJail.go` -/

namespace GoJail

variable {σ : Type}

def defaultPersonal : String := "user1"
def defaultEntropy : String := "0123456789abcdef"
def defaultNonce : Nat := 1234
def timesToRun : Nat := 2

/-- The `bufio.Scanner` on the terminal: the lines not read yet and the token of the
last `Scan()`. -/
structure Scanner where
  pending : List String
  token : String := ""
  deriving DecidableEq, Repr

/-- `scanner.Scan()`: the next line becomes the token; at the end of the input the
token is empty. -/
def Scanner.Scan (s : Scanner) : Scanner :=
  match s.pending with
  | [] => { pending := [], token := "" }
  | line :: rest => { pending := rest, token := line }

/-- `scanner.Text()`: the token of the last `Scan()`. -/
def Scanner.Text (s : Scanner) : String := s.token

/-- Lines 166-184 of `doMain`: where the encoded text comes from.  The value is
`.error status` when `doMain` returns the status of a failed encode. -/
def obtainEncoded (env : Env σ) (selection : String) (encoder : σ) (scanner : Scanner)
    (w : World) : Except Int String × Scanner × World :=
  if selection = "1" then
    let w := w.emit (.print "Please enter encoded text:")
    let encoded := scanner.Text
    (.ok encoded, scanner, w)
  else
    let w := w.emit (.print "Please enter message to encode:")
    let scanner := scanner.Scan
    let textToEncode := scanner.Text
    let w := w.emit (.encode .EncOpt textToEncode)
    let ((encoded, encoderStatus), _) := env.mte.EncodeStrB64 .EncOpt textToEncode encoder
    if encoderStatus ≠ statusSuccess then
      (.error encoderStatus, scanner, w)
    else
      (.ok encoded, scanner, w)

/-- The loop `for i := 0; i < timesToRun; i++` of `doMain` (lines 98-198), with
`remaining` runs to go from run `i`.  The value is what `doMain` returns. -/
def runLoop (env : Env σ) (personal entropy : String) (nonce device : Nat) :
    Nat → Nat → String → Scanner → World → Int × World
  | 0, _, _, _, w => (0, w)
  | remaining + 1, i, selection, scanner, w =>
    let w := w.emit (.mteNew .EncOpt)
    let encoder := env.mte.newObj .EncOpt
    let w := w.emit (.mteNew .DecOpt)
    let decoder := env.mte.newObj .DecOpt
    let jailAlgo := if i = 0 then env.mte.JailAlgoNone else device
    let w := w.emit (.nonceCallback jailAlgo nonce)
    let entropy8 := utf8Bytes entropy
    let w := w.emit (.instantiate .DecOpt entropy8 nonce personal)
    let ((status, mutated), decoder) :=
      env.mte.InstantiateJail jailAlgo nonce entropy8 personal decoder
    if status ≠ statusSuccess then
      (status, w)
    else
    let entropyEn := utf8Bytes entropy
    let w := w.emit (.instantiate .EncOpt entropyEn nonce personal)
    let (encoderStatus, encoder) :=
      env.mte.InstantiateStr .EncOpt entropyEn nonce personal encoder
    if encoderStatus ≠ statusSuccess then
      (encoderStatus, w)
    else
    let w := w.emit (.print ("Mutated nonce: " ++ env.codec.base64Encode mutated))
    let scanner := if selection = "" then scanner.Scan else scanner
    let selection := if selection = "" then scanner.Text else selection
    match obtainEncoded env selection encoder scanner w with
    | (.error encoderStatus, _, w) => (encoderStatus, w)
    | (.ok encoded, scanner, w) =>
    let w := w.emit (.decode .DecOpt encoded)
    let ((decoded, status), _) := env.mte.DecodeStrB64 .DecOpt encoded decoder
    if status ≠ statusSuccess then
      (status, w)
    else
      runLoop env personal entropy nonce device remaining (i + 1) selection scanner
        (w.emit (.print ("Decoded message: " ++ decoded)))

/-- `doMain` (lines 48-202) over the lines of the terminal. -/
def doMain (env : Env σ) (lines : List String) (w : World) : Int × World :=
  let scanner : Scanner := { pending := lines }
  let scanner := scanner.Scan
  let personal := if scanner.Text = "" then defaultPersonal else scanner.Text
  let scanner := scanner.Scan
  let entropy := if scanner.Text = "" then defaultEntropy else scanner.Text
  let scanner := scanner.Scan
  let line := scanner.Text
  let nonce := if line = "" then defaultNonce else parseUintValue line 64
  let scanner := scanner.Scan
  let line := scanner.Text
  let device := parseUintValue line 32
  runLoop env personal entropy nonce device timesToRun 0 "" scanner w

/-- The texts handed to `decoder.DecodeStrB64` so far, oldest first. -/
def decodedTexts (w : World) : List String :=
  w.trace.foldr (fun e acc => match e with
    | .decode .DecOpt payload => acc ++ [payload]
    | _ => acc) []

end GoJail

namespace Demo

/-- The stand-in environment of the switching program: a state exported by an MKE
object restores into a core object, and every response document holds the access
token `"tok"`. -/
def envToken (cfg : Config) : Env Session :=
  { env cfg with
    mte :=
      { mte cfg with
        RestoreStateB64 := fun _ blob s =>
          match blob.data.map Char.toNat with
          | [_, seed, counter] => (0, { instantiated := true, seed := seed, counter := counter })
          | _ => (5, s) }
    codec :=
      { codec with
        unmarshalString := fun s => { Success := true, access_token := "tok", Data := s } } }

/-- The stand-in environment on an engine whose encoder puts the character `#` before
the message and whose decoder takes the first character off. -/
def envWrap (cfg : Config) : Env Session :=
  { env cfg with
    mte :=
      { mte cfg with
        EncodeStrB64 := fun _ message s =>
          if s.instantiated then (("#" ++ message, 0), advance s) else (("", 3), s)
        DecodeStrB64 := fun _ payload s =>
          if s.instantiated then ((String.mk payload.data.tail, 0), advance s)
          else (("", 3), s) } }

end Demo

/-! ## The float64 threshold -/

theorem bitLength_le (fuel : Nat) : ∀ (n k : Nat), n < 2 ^ k → bitLength fuel n ≤ k := by
  induction fuel with
  | zero => intro n k _; simp [bitLength]
  | succ f ih =>
    intro n k h
    simp only [bitLength]
    split
    · exact Nat.zero_le _
    · rename_i hn
      cases k with
      | zero => simp at h; exact absurd h hn
      | succ k =>
        have : n / 2 < 2 ^ k := by
          rw [Nat.div_lt_iff_lt_mul (by decide)]
          rw [Nat.pow_succ] at h
          exact h
        have := ih (n / 2) k this
        omega

/-- Rounding moves a number below `2^103` up by at most `2^49`, and never below a
multiple of `2^50` that the number reaches. -/
theorem roundToFloat64_bounds (n : Nat) (h : n < 2 ^ 103) :
    roundToFloat64 n ≤ n + 2 ^ 49 ∧ ∀ M, 2 ^ 50 ∣ M → M ≤ n → M ≤ roundToFloat64 n := by
  unfold roundToFloat64
  split
  · exact ⟨Nat.le_add_right _ _, fun M _ hM => hM⟩
  · rename_i hbig
    have hb : bitLength n n ≤ 103 := bitLength_le n n 103 h
    obtain ⟨e, he⟩ : ∃ e, e = bitLength n n - 53 := ⟨_, rfl⟩
    have he50 : e ≤ 50 := by omega
    simp only [← he]
    have hG : 2 ^ e ≤ 2 ^ 50 := Nat.pow_le_pow_right (by decide) he50
    have hGpos : 0 < 2 ^ e := Nat.pow_pos (by decide)
    have hdm : 2 ^ e * (n / 2 ^ e) + n % 2 ^ e = n := Nat.div_add_mod n (2 ^ e)
    have hr : n % 2 ^ e < 2 ^ e := Nat.mod_lt _ hGpos
    have hdvd : (2 : Nat) ^ e ∣ 2 ^ 50 := Nat.pow_dvd_pow 2 he50
    have hcomm : n / 2 ^ e * 2 ^ e = 2 ^ e * (n / 2 ^ e) := Nat.mul_comm _ _
    have hlow : ∀ M, 2 ^ 50 ∣ M → M ≤ n → M ≤ 2 ^ e * (n / 2 ^ e) := by
      intro M hM hMn
      obtain ⟨t, rfl⟩ := Nat.dvd_trans hdvd hM
      exact Nat.mul_le_mul_left _ ((Nat.le_div_iff_mul_le hGpos).2 (by rw [Nat.mul_comm]; exact hMn))
    split
    · rename_i hup
      rw [Nat.add_mul, hcomm, Nat.one_mul]
      refine ⟨?_, fun M hM hMn => Nat.le_trans (hlow M hM hMn) (Nat.le_add_right _ _)⟩
      have h49 : (2:Nat) ^ 50 = 2 * 2 ^ 49 := by norm_num
      omega
    · rw [hcomm]
      exact ⟨by omega, hlow⟩

/-- For a counter below `2^53` and a reseed interval of at most `2^50`, the float64
test of the programs is the exact comparison `counter > 0.9 * maxSeed`. -/
theorem reseedExceeded_iff (c m : Nat) (hc : c < 2 ^ 53) (hm : m ≤ 2 ^ 50) :
    reseedExceeded c m = true ↔ 9 * m < 10 * c := by
  have hm64 : m % 2 ^ 64 = m := Nat.mod_eq_of_lt (by omega)
  have hc64 : c % 2 ^ 64 = c := Nat.mod_eq_of_lt (by omega)
  have hmr : roundToFloat64 m = m := by unfold roundToFloat64; rw [if_pos (by omega)]
  have hcr : roundToFloat64 c = c := by unfold roundToFloat64; rw [if_pos hc]
  have hN : m * reseedPercentMantissa < 2 ^ 103 := by
    unfold reseedPercentMantissa; omega
  obtain ⟨hup, hlow⟩ := roundToFloat64_bounds _ hN
  have hk := hlow (9 * m / 10 * 2 ^ 53) (Dvd.dvd.mul_left (by norm_num) _)
    (by unfold reseedPercentMantissa; omega)
  simp only [reseedExceeded, hm64, hc64, hmr, hcr, decide_eq_true_eq]
  unfold reseedPercentMantissa at hup hk ⊢
  omega

/-! ## Facts about the trace -/

theorem World.handshakes_emit (w : World) (e : Event) (c : String) :
    (w.emit e).handshakes c = w.handshakes c + (if e = .handshake c then 1 else 0) := by
  simp only [World.handshakes, World.emit, List.count_cons]
  congr 1
  by_cases h : e = .handshake c <;> simp [h]

theorem World.now_emit (w : World) (e : Event) : (w.emit e).now = w.now + 1 := by
  simp [World.now, World.emit]

theorem ToUpper_POST {σ : Type} (env : Env σ) : ToUpper env "POST" = "POST" := by
  rfl

theorem Run.world_done {α : Type} (a : α) (w : World) : (Run.done a w).world = w := rfl

theorem Run.world_panic {α : Type} (msg : String) (w : World) :
    (Run.panic msg w : Run α).world = w := rfl

theorem Run.world_void {α : Type} (r : Run α) : r.void.world = r.world := by
  cases r <;> rfl

theorem World.handshakes_mk (r : Int) (m : Nat) (e d a : String) (sc : List (String × Bytes))
    (t : List Event) (c : String) :
    (World.mk r m e d a sc t).handshakes c = t.count (.handshake c) := rfl

theorem World.handshakes_update (r : Int) (m : Nat) (e d a : String)
    (sc : List (String × Bytes)) (w : World) (c : String) :
    (World.mk r m e d a sc w.trace).handshakes c = w.handshakes c := rfl

theorem World.handshakes_cacheSet (w : World) (k : String) (v : Bytes) (c : String) :
    (w.cacheSet k v).handshakes c = w.handshakes c := by
  simp [World.handshakes, World.cacheSet]

theorem World.handshakes_cacheDel (w : World) (k : String) (c : String) :
    (w.cacheDel k).handshakes c = w.handshakes c := by
  simp [World.handshakes, World.cacheDel]

theorem World.handshakes_cacheGet (w : World) (k : String) (c : String) :
    (w.cacheGet k).2.handshakes c = w.handshakes c := by
  simp [World.handshakes, World.cacheGet, World.emit]

/-! ## Facts about the state cache -/

theorem cacheLookup_cacheInsert (key : String) (value : Bytes) (c : List (String × Bytes)) :
    cacheLookup key (cacheInsert key value c) = some value := by
  simp [cacheInsert, cacheLookup]

theorem cacheLookup_cacheErase_ne (key other : String) (h : other ≠ key)
    (c : List (String × Bytes)) :
    cacheLookup other (cacheErase key c) = cacheLookup other c := by
  induction c with
  | nil => rfl
  | cons p rest ih =>
    obtain ⟨k, v⟩ := p
    simp only [cacheErase]
    split
    · rename_i hk
      have hko : ¬ k = other := fun e => h (e ▸ hk)
      simp only [cacheLookup, if_neg hko]
      exact ih
    · simp only [cacheLookup]
      split
      · rfl
      · exact ih

theorem cacheLookup_cacheInsert_ne (key other : String) (h : other ≠ key) (value : Bytes)
    (c : List (String × Bytes)) :
    cacheLookup other (cacheInsert key value c) = cacheLookup other c := by
  have hk : ¬ key = other := fun e => h e.symm
  simp [cacheInsert, cacheLookup, hk, cacheLookup_cacheErase_ne key other h]

/-! ## The state store of the multi-client program -/

namespace MultipleClients

variable {σ : Type}

theorem decKey_ne_encKey (clientId : String) : decPrefix ++ clientId ≠ encPrefix ++ clientId := by
  intro h
  have := congrArg String.data h
  simp [decPrefix, encPrefix] at this

/-- An envelope written under a key is read back by the get path, for a cipher whose
`Open` inverts `Seal`. -/
theorem fetchState_cacheSet (env : Env σ)
    (hOpen : ∀ nonce state : Bytes, nonce.length = env.gcm.NonceSize →
      env.gcm.Open nonce (env.gcm.Seal nonce state) = .ok state)
    (key : String) (X : Bytes) (w : World) (hRand : env.rand.cryptoError w.now = none) :
    ∃ envelope w1, sealState env X w = (.ok envelope, w1) ∧
      (fetchState env key (w1.cacheSet key envelope)).1 = .ok X := by
  refine ⟨(List.range env.gcm.NonceSize).map (env.rand.cryptoByte w.now) ++
    env.gcm.Seal ((List.range env.gcm.NonceSize).map (env.rand.cryptoByte w.now)) X,
    w.emit .readNonce, by simp only [sealState, hRand], ?_⟩
  have hlen : ((List.range env.gcm.NonceSize).map (env.rand.cryptoByte w.now)).length
      = env.gcm.NonceSize := by simp
  simp [fetchState, World.cacheGet, World.cacheSet, cacheLookup_cacheInsert, World.emit,
    List.take_append_of_le_length, List.drop_append_of_le_length, hOpen _ _ hlen]

/-- C1: in the multi-client program, for every client id, direction and state blob
`X`, writing `X` the way the put path does (fresh nonce of `gcm.NonceSize()` bytes,
`gcm.Seal(nonce, nonce, X, nil)`, stored under prefix + client id) and reading it the
way the get path does returns exactly `X`, provided `Open` inverts `Seal` for nonces of
that size and the nonce could be read. -/
theorem store_round_trip (env : Env σ)
    (hOpen : ∀ nonce state : Bytes, nonce.length = env.gcm.NonceSize →
      env.gcm.Open nonce (env.gcm.Seal nonce state) = .ok state)
    (direction : Dir) (clientId : String) (X : Bytes) (w : World)
    (hRand : env.rand.cryptoError (w.cacheDel (stateKey direction clientId)).now = none) :
    (storeState env (stateKey direction clientId) X w).1 = true ∧
    (fetchState env (stateKey direction clientId)
      (storeState env (stateKey direction clientId) X w).2).1 = .ok X := by
  obtain ⟨envelope, w1, hseal, hfetch⟩ :=
    fetchState_cacheSet env hOpen (stateKey direction clientId) X
      (w.cacheDel (stateKey direction clientId)) hRand
  have hstore : storeState env (stateKey direction clientId) X w
      = (true, w1.cacheSet (stateKey direction clientId) envelope) := by
    simp only [storeState, hseal]
  rw [hstore]
  exact ⟨rfl, hfetch⟩

/-- The stand-in cipher opens what it sealed. -/
theorem Demo_gcm_open_seal (nonce state : Bytes) :
    Demo.gcm.Open nonce (Demo.gcm.Seal nonce state) = .ok state := by
  simp [Demo.gcm]

/-- C1 at a concrete input: the encoder state `[1, 2, 3]` of client `"c1"` written to
an empty store is read back. -/
theorem store_round_trip_witness :
    (∀ nonce state : Bytes, nonce.length = (Demo.env {}).gcm.NonceSize →
      (Demo.env {}).gcm.Open nonce ((Demo.env {}).gcm.Seal nonce state) = .ok state) ∧
    (Demo.env {}).rand.cryptoError (({} : World).cacheDel (stateKey .encoder "c1")).now = none ∧
    (storeState (Demo.env {}) (stateKey .encoder "c1") [1, 2, 3] {}).1 = true ∧
    (fetchState (Demo.env {}) (stateKey .encoder "c1")
      (storeState (Demo.env {}) (stateKey .encoder "c1") [1, 2, 3] {}).2).1 = .ok [1, 2, 3] :=
  ⟨fun nonce state _ => Demo_gcm_open_seal nonce state, rfl,
    store_round_trip (Demo.env {}) (fun nonce state _ => Demo_gcm_open_seal nonce state)
      .encoder "c1" [1, 2, 3] {} rfl⟩

end MultipleClients

/-! ## The handshake of the file-upload program -/

namespace FileUpload

variable {σ : Type}

theorem MakeHttpCall_handshakes_upload (env : Env σ) (route method clientId contentType payload : String)
    (w : World) (c : String) :
    (MakeHttpCall env route method clientId contentType payload w).2.handshakes c
      = w.handshakes c := by
  unfold MakeHttpCall
  simp only []
  split
  · split <;> simp [World.handshakes, World.emit]
  · split
    · split <;> simp [World.handshakes, World.emit]
    · rfl

theorem CreateMteEncoder_handshakes_upload (env : Env σ) (ts cid : String) (ent : Bytes) (w : World)
    (c : String) :
    (CreateMteEncoder env ts cid ent w).world.handshakes c = w.handshakes c := by
  unfold CreateMteEncoder
  simp only []
  split
  · simp [Run.world_done, Run.world_panic, World.handshakes, World.emit]
  · split
    · simp [Run.world_done, Run.world_panic, World.handshakes, World.emit]
    · split <;> simp [Run.world_done, Run.world_panic, World.handshakes, World.emit]

theorem CreateMteDecoder_handshakes_upload (env : Env σ) (ts cid : String) (ent : Bytes) (w : World)
    (c : String) :
    (CreateMteDecoder env ts cid ent w).world.handshakes c = w.handshakes c := by
  unfold CreateMteDecoder
  simp only []
  split
  · simp [Run.world_done, Run.world_panic, World.handshakes, World.emit]
  · split <;> simp [Run.world_done, Run.world_panic, World.handshakes, World.emit]

/-- A handshake is entered exactly once by `PerformHandshakeWithServer`, for its client. -/
theorem PerformHandshakeWithServer_handshakes_upload (env : Env σ) (cid : String) (w : World)
    (c : String) :
    (PerformHandshakeWithServer env cid w).world.handshakes c
      = w.handshakes c + (if cid = c then 1 else 0) := by
  generalize hn : (if cid = c then 1 else 0) = n
  have hH := fun a b c' d e w => MakeHttpCall_handshakes_upload env a b c' d e w c
  have hE := fun ts ent w => CreateMteEncoder_handshakes_upload env ts cid ent w c
  have hD := fun ts ent w => CreateMteDecoder_handshakes_upload env ts cid ent w c
  unfold PerformHandshakeWithServer
  simp only []
  repeat' split
  all_goals
    try (have h := congrArg Prod.snd ‹MakeHttpCall env _ _ _ _ _ _ = _›; simp only [] at h; subst h)
  all_goals
    try (have h := congrArg Run.world ‹CreateMteEncoder env _ _ _ _ = _›
         simp only [Run.world_done, Run.world_panic] at h; subst h)
  all_goals
    try (have h := congrArg Run.world ‹CreateMteDecoder env _ _ _ _ = _›
         simp only [Run.world_done, Run.world_panic] at h; subst h)
  all_goals simp [Run.world_done, Run.world_panic, World.handshakes_emit, hH, hE, hD, hn]

/-- C2 (amended): in the file-upload program, for the encode and the decode session
alike, with `c` the reseed counter of the session that finished its chunked run and
`m` the cached `maxSeed`, `c < 2^53` and `m ≤ 2^50`: if `c > 0.9 * m` the reseed check
is a call of `PerformHandshakeWithServer` for the same client id, started from a world
holding the stored states unchanged (the finished session is not saved); if
`c ≤ 0.9 * m` no handshake is entered and the stored state of that direction becomes
the export of the finished session. -/
theorem reseed_rotation_decision (env : Env σ) (clientId : String) (session : σ) (w : World)
    (hm : w.maxSeed ≤ 2 ^ 50) :
    (env.mte.GetReseedCounter .MkeEncDef session < 2 ^ 53 →
      (9 * w.maxSeed < 10 * env.mte.GetReseedCounter .MkeEncDef session →
        (∃ w1, w1.encoderState = w.encoderState ∧ w1.decoderState = w.decoderState ∧
          encoderReseedCheck env clientId session w
            = (PerformHandshakeWithServer env clientId w1).void) ∧
        (encoderReseedCheck env clientId session w).world.handshakes clientId
          = w.handshakes clientId + 1) ∧
      (10 * env.mte.GetReseedCounter .MkeEncDef session ≤ 9 * w.maxSeed →
        ∃ w2, encoderReseedCheck env clientId session w = .done () w2 ∧
          w2.encoderState = env.mte.SaveStateB64 .MkeEncDef session ∧
          w2.decoderState = w.decoderState ∧ ∀ c, w2.handshakes c = w.handshakes c)) ∧
    (env.mte.GetReseedCounter .MkeDecDef session < 2 ^ 53 →
      (9 * w.maxSeed < 10 * env.mte.GetReseedCounter .MkeDecDef session →
        (∃ w1, w1.encoderState = w.encoderState ∧ w1.decoderState = w.decoderState ∧
          decoderReseedCheck env clientId session w
            = (PerformHandshakeWithServer env clientId w1).void) ∧
        (decoderReseedCheck env clientId session w).world.handshakes clientId
          = w.handshakes clientId + 1) ∧
      (10 * env.mte.GetReseedCounter .MkeDecDef session ≤ 9 * w.maxSeed →
        ∃ w2, decoderReseedCheck env clientId session w = .done () w2 ∧
          w2.decoderState = env.mte.SaveStateB64 .MkeDecDef session ∧
          w2.encoderState = w.encoderState ∧ ∀ c, w2.handshakes c = w.handshakes c)) := by
  refine ⟨fun hc => ⟨fun hgt => ?_, fun hle => ?_⟩, fun hc => ⟨fun hgt => ?_, fun hle => ?_⟩⟩
  · have hex := (reseedExceeded_iff _ _ hc hm).2 hgt
    obtain ⟨w1, hw1⟩ : ∃ w1 : World, w1 = { w.emit (.uninstantiate .MkeEncDef) with
        retcode := if (env.mte.Uninstantiate .MkeEncDef session).1 ≠ statusSuccess then
          ((env.mte.Uninstantiate .MkeEncDef session).1 : Int) else w.retcode } := ⟨_, rfl⟩
    have heq : encoderReseedCheck env clientId session w
        = (PerformHandshakeWithServer env clientId w1).void := by
      simp only [encoderReseedCheck, hex, if_true, hw1]
      rfl
    refine ⟨⟨w1, by rw [hw1]; rfl, by rw [hw1]; rfl, heq⟩, ?_⟩
    rw [heq, Run.world_void, PerformHandshakeWithServer_handshakes_upload, hw1]
    simp [World.handshakes, World.emit]
  · have hex : reseedExceeded (env.mte.GetReseedCounter .MkeEncDef session) w.maxSeed = false := by
      rw [Bool.eq_false_iff]
      exact fun h => absurd ((reseedExceeded_iff _ _ hc hm).1 h) (by omega)
    refine ⟨{ w.emit (.saveState .MkeEncDef) with
      encoderState := env.mte.SaveStateB64 .MkeEncDef session }, ?_, rfl, rfl, fun c => ?_⟩
    · simp [encoderReseedCheck, hex]
    · simp [World.handshakes, World.emit]
  · have hex := (reseedExceeded_iff _ _ hc hm).2 hgt
    obtain ⟨w1, hw1⟩ : ∃ w1 : World, w1 = { w.emit (.uninstantiate .MkeDecDef) with
        retcode := if (env.mte.Uninstantiate .MkeDecDef session).1 ≠ statusSuccess then
          ((env.mte.Uninstantiate .MkeDecDef session).1 : Int) else w.retcode } := ⟨_, rfl⟩
    have heq : decoderReseedCheck env clientId session w
        = (PerformHandshakeWithServer env clientId w1).void := by
      simp only [decoderReseedCheck, hex, if_true, hw1]
      rfl
    refine ⟨⟨w1, by rw [hw1]; rfl, by rw [hw1]; rfl, heq⟩, ?_⟩
    rw [heq, Run.world_void, PerformHandshakeWithServer_handshakes_upload, hw1]
    simp [World.handshakes, World.emit]
  · have hex : reseedExceeded (env.mte.GetReseedCounter .MkeDecDef session) w.maxSeed = false := by
      rw [Bool.eq_false_iff]
      exact fun h => absurd ((reseedExceeded_iff _ _ hc hm).1 h) (by omega)
    refine ⟨{ w.emit (.saveState .MkeDecDef) with
      decoderState := env.mte.SaveStateB64 .MkeDecDef session }, ?_, rfl, rfl, fun c => ?_⟩
    · simp [decoderReseedCheck, hex]
    · simp [World.handshakes, World.emit]

set_option maxRecDepth 8000 in
/-- C2 as stated fails: the counter `4053239664633451` and the interval
`4503599627370501` are both below `2^53` and the counter exceeds `0.9` times the
interval, yet the reseed check of the encoder enters no handshake and saves the
finished session. -/
theorem reseed_rotation_counterexample :
    4053239664633451 < 2 ^ 53 ∧ 4503599627370501 < 2 ^ 53 ∧
    9 * 4503599627370501 < 10 * 4053239664633451 ∧
    (Demo.env {}).mte.GetReseedCounter .MkeEncDef
      { instantiated := true, seed := 7, counter := 4053239664633451 } = 4053239664633451 ∧
    (encoderReseedCheck (Demo.env {}) "c1"
      { instantiated := true, seed := 7, counter := 4053239664633451 }
      { maxSeed := 4503599627370501 }).world.trace = [.saveState .MkeEncDef] := by
  decide

/-- C2 (amended) at a concrete input: counter `10` against the interval `10` rotates. -/
theorem reseed_rotation_decision_witness :
    ({ maxSeed := 10 } : World).maxSeed ≤ 2 ^ 50 ∧
    (Demo.env {}).mte.GetReseedCounter .MkeEncDef
      { instantiated := true, seed := 7, counter := 10 } < 2 ^ 53 ∧
    9 * ({ maxSeed := 10 } : World).maxSeed < 10 * (Demo.env {}).mte.GetReseedCounter .MkeEncDef
      { instantiated := true, seed := 7, counter := 10 } ∧
    (encoderReseedCheck (Demo.env {}) "c1" { instantiated := true, seed := 7, counter := 10 }
      { maxSeed := 10 }).world.handshakes "c1" = ({ maxSeed := 10 } : World).handshakes "c1" + 1 :=
  ⟨by decide, by decide, by decide,
    (((reseed_rotation_decision (Demo.env {}) "c1"
      { instantiated := true, seed := 7, counter := 10 } { maxSeed := 10 } (by decide)).1
      (by decide)).1 (by decide)).2⟩

end FileUpload

/-! ## The handshake of the switching program -/

namespace MteSwitching

variable {σ : Type}

theorem MakeHttpCall_handshakes_switching (env : Env σ) (route method clientId contentType payload : String)
    (w : World) (c : String) :
    (MakeHttpCall env route method clientId contentType payload w).2.handshakes c
      = w.handshakes c := by
  unfold MakeHttpCall
  simp only []
  split
  · split <;> simp [World.handshakes, World.emit]
  · split
    · split <;> simp [World.handshakes, World.emit]
    · rfl

theorem CreateMteEncoder_handshakes_switching (env : Env σ) (ts cid : String) (ent : Bytes) (w : World)
    (c : String) :
    (CreateMteEncoder env ts cid ent w).world.handshakes c = w.handshakes c := by
  unfold CreateMteEncoder
  simp only []
  split
  · simp [Run.world_done, Run.world_panic, World.handshakes, World.emit]
  · split
    · simp [Run.world_done, Run.world_panic, World.handshakes, World.emit]
    · split <;> simp [Run.world_done, Run.world_panic, World.handshakes, World.emit]

theorem CreateMteDecoder_handshakes_switching (env : Env σ) (ts cid : String) (ent : Bytes) (w : World)
    (c : String) :
    (CreateMteDecoder env ts cid ent w).world.handshakes c = w.handshakes c := by
  unfold CreateMteDecoder
  simp only []
  split
  · simp [Run.world_done, Run.world_panic, World.handshakes, World.emit]
  · split <;> simp [Run.world_done, Run.world_panic, World.handshakes, World.emit]

/-- A handshake is entered exactly once by `PerformHandshakeWithServer`, for its client. -/
theorem PerformHandshakeWithServer_handshakes_switching (env : Env σ) (cid : String) (w : World)
    (c : String) :
    (PerformHandshakeWithServer env cid w).world.handshakes c
      = w.handshakes c + (if cid = c then 1 else 0) := by
  generalize hn : (if cid = c then 1 else 0) = n
  have hH := fun a b c' d e w => MakeHttpCall_handshakes_switching env a b c' d e w c
  have hE := fun ts ent w => CreateMteEncoder_handshakes_switching env ts cid ent w c
  have hD := fun ts ent w => CreateMteDecoder_handshakes_switching env ts cid ent w c
  unfold PerformHandshakeWithServer
  simp only []
  repeat' split
  all_goals
    try (have h := congrArg Prod.snd ‹MakeHttpCall env _ _ _ _ _ _ = _›; simp only [] at h; subst h)
  all_goals
    try (have h := congrArg Run.world ‹CreateMteEncoder env _ _ _ _ = _›
         simp only [Run.world_done, Run.world_panic] at h; subst h)
  all_goals
    try (have h := congrArg Run.world ‹CreateMteDecoder env _ _ _ _ = _›
         simp only [Run.world_done, Run.world_panic] at h; subst h)
  all_goals simp [Run.world_done, Run.world_panic, World.handshakes_emit, hH, hE, hD, hn]

end MteSwitching

/-! ## The handshake of the multi-client program -/

namespace MultipleClients

variable {σ : Type}

theorem MakeHttpCall_handshakes_multi (env : Env σ) (route method clientId contentType payload : String)
    (w : World) (c : String) :
    (MakeHttpCall env route method clientId contentType payload w).2.handshakes c
      = w.handshakes c := by
  unfold MakeHttpCall
  simp only []
  split
  · split <;> simp [World.handshakes, World.emit]
  · split
    · split <;> simp [World.handshakes, World.emit]
    · rfl

theorem sealState_world_multi (env : Env σ) (state : Bytes) (w : World) :
    (sealState env state w).2 = w.emit .readNonce := by
  unfold sealState
  split <;> rfl

theorem CreateMteEncoder_handshakes_multi (env : Env σ) (ts cid : String) (ent : Bytes) (w : World)
    (c : String) :
    (CreateMteEncoder env ts cid ent w).2.handshakes c = w.handshakes c := by
  unfold CreateMteEncoder
  simp only []
  repeat' split
  all_goals
    try (have h := congrArg Prod.snd ‹sealState env _ _ = _›; simp only [] at h; subst h)
  all_goals simp [sealState_world_multi, World.handshakes_cacheSet, World.handshakes_update,
    World.handshakes_emit]

theorem CreateMteDecoder_handshakes_multi (env : Env σ) (ts cid : String) (ent : Bytes) (w : World)
    (c : String) :
    (CreateMteDecoder env ts cid ent w).2.handshakes c = w.handshakes c := by
  unfold CreateMteDecoder
  simp only []
  repeat' split
  all_goals
    try (have h := congrArg Prod.snd ‹sealState env _ _ = _›; simp only [] at h; subst h)
  all_goals simp [sealState_world_multi, World.handshakes_cacheSet, World.handshakes_update,
    World.handshakes_emit]

/-- A handshake is entered exactly once by `PerformHandshakeWithServer`, for its client. -/
theorem PerformHandshakeWithServer_handshakes_multi (env : Env σ) (num : Int) (cid : String)
    (w : World) (c : String) :
    (PerformHandshakeWithServer env num cid w).2.handshakes c
      = w.handshakes c + (if cid = c then 1 else 0) := by
  generalize hn : (if cid = c then 1 else 0) = n
  have hH := fun a b c' d e w => MakeHttpCall_handshakes_multi env a b c' d e w c
  have hE := fun ts ent w => CreateMteEncoder_handshakes_multi env ts cid ent w c
  have hD := fun ts ent w => CreateMteDecoder_handshakes_multi env ts cid ent w c
  unfold PerformHandshakeWithServer
  simp only []
  repeat' split
  all_goals
    try (have h := congrArg Prod.snd ‹MakeHttpCall env _ _ _ _ _ _ = _›; simp only [] at h; subst h)
  all_goals
    try (have h := congrArg Prod.snd ‹CreateMteEncoder env _ _ _ _ = _›; simp only [] at h; subst h)
  all_goals
    try (have h := congrArg Prod.snd ‹CreateMteDecoder env _ _ _ _ = _›; simp only [] at h; subst h)
  all_goals simp [World.handshakes_emit, World.handshakes_update, hH, hE, hD, hn]

end MultipleClients

/-! ## Rotation inside the programs -/

namespace MultipleClients

variable {σ : Type}

/-- When the encoder's counter is over the threshold, the reseed check of a message
round enters a handshake for the client, whatever `Uninstantiate` reports. -/
theorem reseedCheck_rotates_multi (env : Env σ) (i : Nat) (clientId : String) (encoder : σ)
    (w : World)
    (h : reseedExceeded (env.mte.GetReseedCounter .EncDef encoder) w.maxSeed = true) :
    (reseedCheck env i clientId encoder w).2.handshakes clientId
      = w.handshakes clientId + 1 := by
  simp only [reseedCheck, h, if_true]
  rw [PerformHandshakeWithServer_handshakes_multi]
  simp [World.handshakes_update, World.handshakes_emit]

/-- After a rotation the loop goes on with the encoder it uninstantiated, not with a
session of the re-handshake. -/
theorem reseedCheck_keeps_encoder (env : Env σ) (i : Nat) (clientId : String) (encoder : σ)
    (w : World)
    (h : reseedExceeded (env.mte.GetReseedCounter .EncDef encoder) w.maxSeed = true) :
    (reseedCheck env i clientId encoder w).1 = (env.mte.Uninstantiate .EncDef encoder).2 := by
  simp only [reseedCheck, h, if_true]

/-- When the encoder's counter is not over the threshold, the reseed check of a message
round does nothing: the decoder is not looked at. -/
theorem reseedCheck_idle_multi (env : Env σ) (i : Nat) (clientId : String) (encoder : σ) (w : World)
    (h : reseedExceeded (env.mte.GetReseedCounter .EncDef encoder) w.maxSeed = false) :
    reseedCheck env i clientId encoder w = (encoder, w) := by
  simp [reseedCheck, h]

set_option maxRecDepth 8000 in
/-- C3 at a failing input: client `"c1"` after its first handshake, reseed interval 1,
one message.  The first message drives the encoder over the threshold and the cycle
re-handshakes (two handshakes in all, the second one storing the fresh exports
`[1, 185, 0]` and `[2, 186, 0]`), but when `SendMultiToServer` returns the store holds
the export of the uninstantiated pre-rotation encoder (`[]`) and of the pre-rotation
decoder (`[2, 157, 1]`).  With two messages the second encode runs on the
uninstantiated encoder and the cycle ends with `errorEncodingData`. -/
theorem rotation_keeps_old_sessions :
    (SendMultiToServer (Demo.env {}) "c1" 1
      (PerformHandshakeWithServer (Demo.env {}) 1 "c1" {}).2).handshakes "c1" = 2 ∧
    Event.cacheSet "enc_c1" ([41, 42, 43, 44, 45, 46, 47, 48, 49, 50, 51, 52] ++ [1, 185, 0, 558])
      ∈ (SendMultiToServer (Demo.env {}) "c1" 1
          (PerformHandshakeWithServer (Demo.env {}) 1 "c1" {}).2).trace ∧
    Event.cacheSet "dec_c1" ([46, 47, 48, 49, 50, 51, 52, 53, 54, 55, 56, 57] ++ [2, 186, 0, 618])
      ∈ (SendMultiToServer (Demo.env {}) "c1" 1
          (PerformHandshakeWithServer (Demo.env {}) 1 "c1" {}).2).trace ∧
    (fetchState (Demo.env {}) "enc_c1" (SendMultiToServer (Demo.env {}) "c1" 1
      (PerformHandshakeWithServer (Demo.env {}) 1 "c1" {}).2)).1 = .ok [] ∧
    (fetchState (Demo.env {}) "dec_c1" (SendMultiToServer (Demo.env {}) "c1" 1
      (PerformHandshakeWithServer (Demo.env {}) 1 "c1" {}).2)).1 = .ok [2, 157, 1] ∧
    (SendMultiToServer (Demo.env { intn := 1 }) "c1" 1
      (PerformHandshakeWithServer (Demo.env {}) 1 "c1" {}).2).retcode = errorEncodingData := by
  decide

set_option maxRecDepth 8000 in
/-- C4 at a failing input: reseed interval 10, stored encoder at counter 0 and stored
decoder at counter 9, one message.  After the round the decoder's counter is 10, over
`0.9 * 10`, the encoder's is 1; no handshake is entered and the decoder is saved with
counter 10. -/
theorem decoder_counter_not_checked :
    reseedExceeded 10 10 = true ∧ reseedExceeded 1 10 = false ∧
    (SendMultiToServer (Demo.env { interval := 10 }) "c1" 1
      (Demo.stored { interval := 10 } 10 "c1" [1, 5, 0] [2, 6, 9])).handshakes "c1" = 0 ∧
    (fetchState (Demo.env { interval := 10 }) "enc_c1"
      (SendMultiToServer (Demo.env { interval := 10 }) "c1" 1
        (Demo.stored { interval := 10 } 10 "c1" [1, 5, 0] [2, 6, 9]))).1 = .ok [1, 5, 1] ∧
    (fetchState (Demo.env { interval := 10 }) "dec_c1"
      (SendMultiToServer (Demo.env { interval := 10 }) "c1" 1
        (Demo.stored { interval := 10 } 10 "c1" [1, 5, 0] [2, 6, 9]))).1 = .ok [2, 6, 10] := by
  decide

end MultipleClients

/-! ## The sessions a handshake creates -/

namespace MultipleClients

variable {σ : Type}

theorem sealState_ok (env : Env σ) (state envelope : Bytes) (w w1 : World)
    (h : sealState env state w = (.ok envelope, w1)) :
    ∃ aesNonce, aesNonce.length = env.gcm.NonceSize ∧
      envelope = aesNonce ++ env.gcm.Seal aesNonce state ∧ w1 = w.emit .readNonce := by
  unfold sealState at h
  split at h
  · simp at h
  · simp only [Prod.mk.injEq, Except.ok.injEq] at h
    obtain ⟨rfl, rfl⟩ := h
    exact ⟨_, by simp, rfl, rfl⟩

/-- What a successful `CreateMteEncoder` has done. -/
theorem CreateMteEncoder_ok (env : Env σ) (ts cid : String) (ent : Bytes) (w : World)
    (out : Int) (w1 : World) (h : CreateMteEncoder env ts cid ent w = ((out, none), w1)) :
    ∃ nonce aesNonce, ParseUint ts = .ok nonce ∧
      (env.mte.InstantiateStr .EncDef ent nonce cid (env.mte.newObj .EncDef)).1 = statusSuccess ∧
      aesNonce.length = env.gcm.NonceSize ∧
      Event.instantiate .EncDef ent nonce cid ∈ w1.trace ∧
      cacheLookup (encPrefix ++ cid) w1.stateCache
        = some (aesNonce ++ env.gcm.Seal aesNonce (env.mte.SaveState .EncDef
            (env.mte.InstantiateStr .EncDef ent nonce cid (env.mte.newObj .EncDef)).2)) ∧
      (∀ k, k ≠ encPrefix ++ cid → cacheLookup k w1.stateCache = cacheLookup k w.stateCache) ∧
      (∀ ev, ev ∈ w.trace → ev ∈ w1.trace) := by
  unfold CreateMteEncoder at h
  simp only [] at h
  split at h
  · simp at h
  · rename_i nonce hp
    split at h
    · simp at h
    · rename_i hi
      split at h
      · simp at h
      · rename_i hs
        obtain ⟨aesNonce, hlen, rfl, rfl⟩ := sealState_ok env _ _ _ _ hs
        simp only [Prod.mk.injEq] at h
        obtain ⟨-, rfl⟩ := h
        refine ⟨nonce, aesNonce, hp, by simpa using hi, hlen, ?_, ?_, ?_, ?_⟩
        · simp [World.cacheSet, World.emit]
        · simp [World.cacheSet, cacheLookup_cacheInsert]
        · intro k hk
          simp [World.cacheSet, World.emit, cacheLookup_cacheInsert_ne _ _ hk]
        · intro ev hev
          simp [World.cacheSet, World.emit, hev]

/-- What a successful `CreateMteDecoder` has done. -/
theorem CreateMteDecoder_ok (env : Env σ) (ts cid : String) (ent : Bytes) (w : World)
    (out : Int) (w1 : World) (h : CreateMteDecoder env ts cid ent w = ((out, none), w1)) :
    ∃ nonce aesNonce, ParseUint ts = .ok nonce ∧
      (env.mte.InstantiateStr .DecDef ent nonce cid (env.mte.newObj .DecDef)).1 = statusSuccess ∧
      aesNonce.length = env.gcm.NonceSize ∧
      Event.instantiate .DecDef ent nonce cid ∈ w1.trace ∧
      cacheLookup (decPrefix ++ cid) w1.stateCache
        = some (aesNonce ++ env.gcm.Seal aesNonce (env.mte.SaveState .DecDef
            (env.mte.InstantiateStr .DecDef ent nonce cid (env.mte.newObj .DecDef)).2)) ∧
      (∀ k, k ≠ decPrefix ++ cid → cacheLookup k w1.stateCache = cacheLookup k w.stateCache) ∧
      (∀ ev, ev ∈ w.trace → ev ∈ w1.trace) := by
  unfold CreateMteDecoder at h
  simp only [] at h
  split at h
  · simp at h
  · rename_i nonce hp
    split at h
    · simp at h
    · rename_i hi
      split at h
      · simp at h
      · rename_i hs
        obtain ⟨aesNonce, hlen, rfl, rfl⟩ := sealState_ok env _ _ _ _ hs
        simp only [Prod.mk.injEq] at h
        obtain ⟨-, rfl⟩ := h
        refine ⟨nonce, aesNonce, hp, by simpa using hi, hlen, ?_, ?_, ?_, ?_⟩
        · simp [World.cacheSet, World.emit]
        · simp [World.cacheSet, cacheLookup_cacheInsert]
        · intro k hk
          simp [World.cacheSet, World.emit, cacheLookup_cacheInsert_ne _ _ hk]
        · intro ev hev
          simp [World.cacheSet, World.emit, hev]

/-- The postcondition of a handshake that returns `(0, nil)`, when the licence check
passes: both sessions were instantiated with the shared secret of their direction, the
parsed server timestamp and the client id, and the store holds a sealed export of each
under `enc_<clientId>` and `dec_<clientId>`. -/
theorem handshake_success_sessions (env : Env σ) (num : Int) (cid : String) (w w' : World)
    (hL : ∀ i, env.mte.InitLicense i companyName companyLicense = true)
    (h : PerformHandshakeWithServer env num cid w = ((0, none), w')) :
    ∃ body pE pD enSS deSS nonce nE nD,
      (env.codec.unmarshalHandshake body).Success = true ∧
      env.codec.base64Decode (env.codec.unmarshalHandshake body).Data.ClientEncoderPublicKey
        = .ok pE ∧
      env.codec.base64Decode (env.codec.unmarshalHandshake body).Data.ClientDecoderPublicKey
        = .ok pD ∧
      env.ecdh.CreateSharedSecret (w.now + 1) pE = .ok enSS ∧
      env.ecdh.CreateSharedSecret (w.now + 2) pD = .ok deSS ∧
      ParseUint (env.codec.unmarshalHandshake body).Data.TimeStamp = .ok nonce ∧
      Event.instantiate .EncDef enSS nonce cid ∈ w'.trace ∧
      Event.instantiate .DecDef deSS nonce cid ∈ w'.trace ∧
      nE.length = env.gcm.NonceSize ∧ nD.length = env.gcm.NonceSize ∧
      cacheLookup (encPrefix ++ cid) w'.stateCache
        = some (nE ++ env.gcm.Seal nE (env.mte.SaveState .EncDef
            (env.mte.InstantiateStr .EncDef enSS nonce cid (env.mte.newObj .EncDef)).2)) ∧
      cacheLookup (decPrefix ++ cid) w'.stateCache
        = some (nD ++ env.gcm.Seal nD (env.mte.SaveState .DecDef
            (env.mte.InstantiateStr .DecDef deSS nonce cid (env.mte.newObj .DecDef)).2)) := by
  unfold PerformHandshakeWithServer at h
  simp only [] at h
  repeat' split at h
  all_goals simp only [Prod.mk.injEq, reduceCtorEq, and_false, false_and] at h
  · rename_i hlic
    simp [hL] at hlic
  · obtain ⟨-, rfl⟩ := h
    have hs := ‹¬(!(env.codec.unmarshalHandshake _).Success) = true›
    have hpE := ‹env.codec.base64Decode (env.codec.unmarshalHandshake _).Data.ClientEncoderPublicKey
      = Except.ok _›
    have hpD := ‹env.codec.base64Decode (env.codec.unmarshalHandshake _).Data.ClientDecoderPublicKey
      = Except.ok _›
    have hsE := ‹env.ecdh.CreateSharedSecret (w.emit (Event.handshake cid)).now _ = Except.ok _›
    have hsD := ‹env.ecdh.CreateSharedSecret
      ((w.emit (Event.handshake cid)).emit (Event.getPublicKey Dir.encoder)).now _ = Except.ok _›
    have hcE := ‹CreateMteEncoder env _ _ _ _ = _›
    have hcD := ‹CreateMteDecoder env _ _ _ _ = _›
    obtain ⟨nonce, nE, hpn, -, hlenE, hiE, hlE, -, -⟩ := CreateMteEncoder_ok env _ _ _ _ _ _ hcE
    obtain ⟨nonce', nD, hpn', -, hlenD, hiD, hlD, hoD, htD⟩ :=
      CreateMteDecoder_ok env _ _ _ _ _ _ hcD
    rw [hpn] at hpn'
    cases hpn'
    refine ⟨_, _, _, _, _, nonce, nE, nD, by simpa using hs, hpE, hpD, ?_, ?_, hpn, htD _ hiE, hiD,
      hlenE, hlenD, ?_, hlD⟩
    · simpa [World.now_emit] using hsE
    · simpa [World.now_emit] using hsD
    · rw [hoD _ (decKey_ne_encKey cid).symm, hlE]

set_option maxRecDepth 8000 in
/-- C6 at a failing input: the server answers the handshake with `success = true` and
`mte.InitLicense` reports failure.  `PerformHandshakeWithServer` returns `(0, nil)`;
no session was instantiated and the store is empty. -/
theorem handshake_without_licence :
    PerformHandshakeWithServer (Demo.env { licensed := false }) 1 "c1" {}
      = ((0, none),
         { retcode := errorMteLicense
           trace := [.initLicense, .clearContainer .decoder, .clearContainer .encoder,
             .createSharedSecret .decoder [83, 68], .createSharedSecret .encoder [83, 69],
             .httpPost "https://dev-echo.eclypses.com/api/handshake"
               [("x-client-id", "c1"), ("Content-Type", "application/json")] "c1|\x01|\x02",
             .getPublicKey .decoder, .getPublicKey .encoder, .handshake "c1"] }) := by
  decide

end MultipleClients

namespace FileUpload

variable {σ : Type}

theorem encoderReseedCheck_rotates_upload (env : Env σ) (clientId : String) (encoder : σ) (w : World)
    (h : reseedExceeded (env.mte.GetReseedCounter .MkeEncDef encoder) w.maxSeed = true) :
    (encoderReseedCheck env clientId encoder w).world.handshakes clientId
      = w.handshakes clientId + 1 := by
  simp only [encoderReseedCheck, h, if_true]
  rw [Run.world_void, PerformHandshakeWithServer_handshakes_upload]
  simp [World.handshakes_update, World.handshakes_emit]

theorem decoderReseedCheck_rotates_upload (env : Env σ) (clientId : String) (decoder : σ) (w : World)
    (h : reseedExceeded (env.mte.GetReseedCounter .MkeDecDef decoder) w.maxSeed = true) :
    (decoderReseedCheck env clientId decoder w).world.handshakes clientId
      = w.handshakes clientId + 1 := by
  simp only [decoderReseedCheck, h, if_true]
  rw [Run.world_void, PerformHandshakeWithServer_handshakes_upload]
  simp [World.handshakes_update, World.handshakes_emit]

end FileUpload

namespace MteSwitching

variable {σ : Type}

theorem encoderReseedCheck_rotates_switching (env : Env σ) (clientId : String) (encoder : σ) (w : World)
    (h : reseedExceeded (env.mte.GetReseedCounter .MkeEncDef encoder) w.maxSeed = true) :
    (encoderReseedCheck env clientId encoder w).world.handshakes clientId
      = w.handshakes clientId + 1 := by
  simp only [encoderReseedCheck, h, if_true]
  rw [Run.world_void, PerformHandshakeWithServer_handshakes_switching]
  simp [World.handshakes_update, World.handshakes_emit]

/-- In the decode branch of the switching program a failing `Uninstantiate` ends
`UploadFile`: its status and message are returned and no handshake is entered. -/
theorem decoderReseedCheck_stops_switching (env : Env σ) (clientId : String) (decoder : σ) (w : World)
    (h : reseedExceeded (env.mte.GetReseedCounter .MkeDecDef decoder) w.maxSeed = true)
    (hu : (env.mte.Uninstantiate .MkeDecDef decoder).1 ≠ statusSuccess) :
    ∃ msg, decoderReseedCheck env clientId decoder w
      = .done (some (((env.mte.Uninstantiate .MkeDecDef decoder).1 : Int), some msg))
          (w.emit (.uninstantiate .MkeDecDef)) := by
  simp only [decoderReseedCheck, h, if_true]
  exact ⟨_, if_pos hu⟩

set_option maxRecDepth 8000 in
/-- C5 at a failing input: switching program, decode branch, counter 10 against the
interval 10, `Uninstantiate` reporting status 7.  `UploadFile` returns status 7 with
an error and no handshake is entered; the encode branch of the same program, on the
same input, enters the handshake. -/
theorem decoder_uninstantiate_failure_returns :
    reseedExceeded 10 10 = true ∧
    decoderReseedCheck (Demo.env { uninst := 7 }) "c1"
        { instantiated := true, seed := 7, counter := 10 } { maxSeed := 10 }
      = .done (some (7, some "Decoder uninstantiate error (mte_status): engine failure\n"))
          { maxSeed := 10, trace := [.uninstantiate .MkeDecDef] } ∧
    (encoderReseedCheck (Demo.env { uninst := 7 }) "c1"
        { instantiated := true, seed := 7, counter := 10 } { maxSeed := 10 }).world.handshakes "c1"
      = 1 := by
  decide

end MteSwitching

/-! ## What a failed handshake leaves in the stored states -/

namespace FileUpload

variable {σ : Type}

theorem MakeHttpCall_states_upload (env : Env σ) (route method clientId contentType payload : String)
    (w : World) :
    (MakeHttpCall env route method clientId contentType payload w).2.encoderState = w.encoderState ∧
    (MakeHttpCall env route method clientId contentType payload w).2.decoderState = w.decoderState := by
  unfold MakeHttpCall
  simp only []
  split
  · split <;> exact ⟨rfl, rfl⟩
  · split
    · split <;> exact ⟨rfl, rfl⟩
    · exact ⟨rfl, rfl⟩

theorem CreateMteEncoder_decoderState_upload (env : Env σ) (ts cid : String) (ent : Bytes) (w : World) :
    (CreateMteEncoder env ts cid ent w).world.decoderState = w.decoderState := by
  unfold CreateMteEncoder
  simp only []
  repeat' split
  all_goals rfl

theorem CreateMteEncoder_error_upload (env : Env σ) (ts cid : String) (ent : Bytes) (w : World)
    (out : Int) (e : String) (w1 : World)
    (h : CreateMteEncoder env ts cid ent w = .done (out, some e) w1) :
    w1.encoderState = w.encoderState := by
  unfold CreateMteEncoder at h
  simp only [] at h
  repeat' split at h
  all_goals simp only [Run.done.injEq, Prod.mk.injEq, reduceCtorEq, and_false, false_and] at h
  all_goals (obtain ⟨-, rfl⟩ := h; rfl)

theorem CreateMteDecoder_encoderState_upload (env : Env σ) (ts cid : String) (ent : Bytes) (w : World) :
    (CreateMteDecoder env ts cid ent w).world.encoderState = w.encoderState := by
  unfold CreateMteDecoder
  simp only []
  repeat' split
  all_goals rfl

theorem CreateMteDecoder_error_upload (env : Env σ) (ts cid : String) (ent : Bytes) (w : World)
    (out : Int) (e : String) (w1 : World)
    (h : CreateMteDecoder env ts cid ent w = .done (out, some e) w1) :
    w1.decoderState = w.decoderState := by
  unfold CreateMteDecoder at h
  simp only [] at h
  repeat' split at h
  all_goals simp only [Run.done.injEq, Prod.mk.injEq, reduceCtorEq, and_false, false_and] at h
  all_goals (obtain ⟨-, rfl⟩ := h; rfl)

/-- A handshake that returns an error leaves the stored decode state as it was, and
the stored encode state too unless the error is the one `CreateMteDecoder` returned. -/
theorem handshake_error_states_upload (env : Env σ) (cid : String) (w : World) (out : Int) (e : String)
    (w' : World) (h : PerformHandshakeWithServer env cid w = .done (out, some e) w') :
    w'.decoderState = w.decoderState ∧
    (w'.encoderState = w.encoderState ∨
      ∃ ts ent w1, CreateMteDecoder env ts cid ent w1 = .done (out, some e) w') := by
  have hH := fun a b c d e w => MakeHttpCall_states_upload env a b c d e w
  unfold PerformHandshakeWithServer at h
  simp only [] at h
  repeat' split at h
  all_goals simp only [Run.done.injEq, Prod.mk.injEq, reduceCtorEq, and_false, false_and,
    Option.some.injEq] at h
  all_goals
    try (have h1 := congrArg Prod.snd ‹MakeHttpCall env _ _ _ _ _ _ = _›; simp only [] at h1; subst h1)
  all_goals obtain ⟨⟨rfl, rfl⟩, rfl⟩ := h
  all_goals first
    | exact ⟨by simp [World.emit, hH], Or.inl (by simp [World.emit, hH])⟩
    | (have hx := ‹CreateMteDecoder env _ _ _ _ = _›
       have hy := ‹CreateMteEncoder env _ _ _ _ = _›
       have h1 := CreateMteDecoder_error_upload env _ _ _ _ _ _ _ hx
       have h2 := congrArg (fun r => r.world.decoderState) hy
       simp only [Run.world_done, CreateMteEncoder_decoderState_upload] at h2
       refine ⟨?_, Or.inr ⟨_, _, _, hx⟩⟩
       rw [h1, ← h2]
       simp [World.emit, hH])
    | (have hy := ‹CreateMteEncoder env _ _ _ _ = _›
       have h1 := CreateMteEncoder_error_upload env _ _ _ _ _ _ _ hy
       have h2 := congrArg (fun r => r.world.decoderState) hy
       simp only [Run.world_done, CreateMteEncoder_decoderState_upload] at h2
       refine ⟨?_, Or.inl ?_⟩
       · rw [← h2]
         simp [World.emit, hH]
       · rw [h1]
         simp [World.emit, hH])

end FileUpload

namespace MteSwitching

variable {σ : Type}

theorem MakeHttpCall_states_switching (env : Env σ) (route method clientId contentType payload : String)
    (w : World) :
    (MakeHttpCall env route method clientId contentType payload w).2.encoderState = w.encoderState ∧
    (MakeHttpCall env route method clientId contentType payload w).2.decoderState = w.decoderState := by
  unfold MakeHttpCall
  simp only []
  split
  · split <;> exact ⟨rfl, rfl⟩
  · split
    · split <;> exact ⟨rfl, rfl⟩
    · exact ⟨rfl, rfl⟩

theorem CreateMteEncoder_decoderState_switching (env : Env σ) (ts cid : String) (ent : Bytes) (w : World) :
    (CreateMteEncoder env ts cid ent w).world.decoderState = w.decoderState := by
  unfold CreateMteEncoder
  simp only []
  repeat' split
  all_goals rfl

theorem CreateMteEncoder_error_switching (env : Env σ) (ts cid : String) (ent : Bytes) (w : World)
    (out : Int) (e : String) (w1 : World)
    (h : CreateMteEncoder env ts cid ent w = .done (out, some e) w1) :
    w1.encoderState = w.encoderState := by
  unfold CreateMteEncoder at h
  simp only [] at h
  repeat' split at h
  all_goals simp only [Run.done.injEq, Prod.mk.injEq, reduceCtorEq, and_false, false_and] at h
  all_goals (obtain ⟨-, rfl⟩ := h; rfl)

theorem CreateMteDecoder_encoderState_switching (env : Env σ) (ts cid : String) (ent : Bytes) (w : World) :
    (CreateMteDecoder env ts cid ent w).world.encoderState = w.encoderState := by
  unfold CreateMteDecoder
  simp only []
  repeat' split
  all_goals rfl

theorem CreateMteDecoder_error_switching (env : Env σ) (ts cid : String) (ent : Bytes) (w : World)
    (out : Int) (e : String) (w1 : World)
    (h : CreateMteDecoder env ts cid ent w = .done (out, some e) w1) :
    w1.decoderState = w.decoderState := by
  unfold CreateMteDecoder at h
  simp only [] at h
  repeat' split at h
  all_goals simp only [Run.done.injEq, Prod.mk.injEq, reduceCtorEq, and_false, false_and] at h
  all_goals (obtain ⟨-, rfl⟩ := h; rfl)

/-- A handshake that returns an error leaves the stored decode state as it was, and
the stored encode state too unless the error is the one `CreateMteDecoder` returned. -/
theorem handshake_error_states_switching (env : Env σ) (cid : String) (w : World) (out : Int) (e : String)
    (w' : World) (h : PerformHandshakeWithServer env cid w = .done (out, some e) w') :
    w'.decoderState = w.decoderState ∧
    (w'.encoderState = w.encoderState ∨
      ∃ ts ent w1, CreateMteDecoder env ts cid ent w1 = .done (out, some e) w') := by
  have hH := fun a b c d e w => MakeHttpCall_states_switching env a b c d e w
  unfold PerformHandshakeWithServer at h
  simp only [] at h
  repeat' split at h
  all_goals simp only [Run.done.injEq, Prod.mk.injEq, reduceCtorEq, and_false, false_and,
    Option.some.injEq] at h
  all_goals
    try (have h1 := congrArg Prod.snd ‹MakeHttpCall env _ _ _ _ _ _ = _›; simp only [] at h1; subst h1)
  all_goals obtain ⟨⟨rfl, rfl⟩, rfl⟩ := h
  all_goals first
    | exact ⟨by simp [World.emit, hH], Or.inl (by simp [World.emit, hH])⟩
    | (have hx := ‹CreateMteDecoder env _ _ _ _ = _›
       have hy := ‹CreateMteEncoder env _ _ _ _ = _›
       have h1 := CreateMteDecoder_error_switching env _ _ _ _ _ _ _ hx
       have h2 := congrArg (fun r => r.world.decoderState) hy
       simp only [Run.world_done, CreateMteEncoder_decoderState_switching] at h2
       refine ⟨?_, Or.inr ⟨_, _, _, hx⟩⟩
       rw [h1, ← h2]
       simp [World.emit, hH])
    | (have hy := ‹CreateMteEncoder env _ _ _ _ = _›
       have h1 := CreateMteEncoder_error_switching env _ _ _ _ _ _ _ hy
       have h2 := congrArg (fun r => r.world.decoderState) hy
       simp only [Run.world_done, CreateMteEncoder_decoderState_switching] at h2
       refine ⟨?_, Or.inl ?_⟩
       · rw [← h2]
         simp [World.emit, hH]
       · rw [h1]
         simp [World.emit, hH])

end MteSwitching

namespace MultipleClients

variable {σ : Type}

theorem MakeHttpCall_stateCache_multi (env : Env σ) (route method clientId contentType payload : String)
    (w : World) :
    (MakeHttpCall env route method clientId contentType payload w).2.stateCache = w.stateCache := by
  unfold MakeHttpCall
  simp only []
  split
  · split <;> rfl
  · split
    · split <;> rfl
    · rfl

theorem CreateMteEncoder_lookup_multi (env : Env σ) (ts cid : String) (ent : Bytes) (w : World)
    (k : String) (hk : k ≠ encPrefix ++ cid) :
    cacheLookup k (CreateMteEncoder env ts cid ent w).2.stateCache = cacheLookup k w.stateCache := by
  unfold CreateMteEncoder
  simp only []
  repeat' split
  all_goals
    try (have h := congrArg Prod.snd ‹sealState env _ _ = _›; simp only [] at h; subst h)
  all_goals simp [sealState_world_multi, World.cacheSet, World.emit, cacheLookup_cacheInsert_ne _ _ hk]

theorem CreateMteEncoder_error_multi (env : Env σ) (ts cid : String) (ent : Bytes) (w : World)
    (out : Int) (e : String) (w1 : World)
    (h : CreateMteEncoder env ts cid ent w = ((out, some e), w1)) :
    w1.stateCache = w.stateCache := by
  unfold CreateMteEncoder at h
  simp only [] at h
  repeat' split at h
  all_goals simp only [Prod.mk.injEq, reduceCtorEq, and_false, false_and] at h
  all_goals
    try (have h1 := congrArg Prod.snd ‹sealState env _ _ = _›; simp only [] at h1; subst h1)
  all_goals (obtain ⟨-, rfl⟩ := h; simp [sealState_world_multi, World.emit])

theorem CreateMteDecoder_error_multi (env : Env σ) (ts cid : String) (ent : Bytes) (w : World)
    (out : Int) (e : String) (w1 : World)
    (h : CreateMteDecoder env ts cid ent w = ((out, some e), w1)) :
    w1.stateCache = w.stateCache := by
  unfold CreateMteDecoder at h
  simp only [] at h
  repeat' split at h
  all_goals simp only [Prod.mk.injEq, reduceCtorEq, and_false, false_and] at h
  all_goals
    try (have h1 := congrArg Prod.snd ‹sealState env _ _ = _›; simp only [] at h1; subst h1)
  all_goals (obtain ⟨-, rfl⟩ := h; simp [sealState_world_multi, World.emit])

/-- A handshake that returns an error leaves the stored decode state as it was, and
the whole store too unless the error is the one `CreateMteDecoder` returned. -/
theorem handshake_error_store_multi (env : Env σ) (num : Int) (cid : String) (w : World) (out : Int)
    (e : String) (w' : World)
    (h : PerformHandshakeWithServer env num cid w = ((out, some e), w')) :
    cacheLookup (decPrefix ++ cid) w'.stateCache = cacheLookup (decPrefix ++ cid) w.stateCache ∧
    (w'.stateCache = w.stateCache ∨
      ∃ ts ent w1, CreateMteDecoder env ts cid ent w1 = ((out, some e), w')) := by
  have hH := fun a b c d e w => MakeHttpCall_stateCache_multi env a b c d e w
  unfold PerformHandshakeWithServer at h
  simp only [] at h
  repeat' split at h
  all_goals simp only [Prod.mk.injEq, reduceCtorEq, and_false, false_and,
    Option.some.injEq] at h
  all_goals
    try (have h1 := congrArg Prod.snd ‹MakeHttpCall env _ _ _ _ _ _ = _›; simp only [] at h1; subst h1)
  all_goals obtain ⟨⟨rfl, rfl⟩, rfl⟩ := h
  all_goals first
    | exact ⟨by simp [World.emit, hH], Or.inl (by simp [World.emit, hH])⟩
    | (have hx := ‹CreateMteDecoder env _ _ _ _ = _›
       have hy := ‹CreateMteEncoder env _ _ _ _ = _›
       have h1 := CreateMteDecoder_error_multi env _ _ _ _ _ _ _ hx
       have h2 := congrArg (fun r => cacheLookup (decPrefix ++ cid) r.2.stateCache) hy
       simp only [CreateMteEncoder_lookup_multi env _ _ _ _ _ (decKey_ne_encKey cid)] at h2
       refine ⟨?_, Or.inr ⟨_, _, _, hx⟩⟩
       rw [h1, ← h2]
       simp [World.emit, hH])
    | (have hy := ‹CreateMteEncoder env _ _ _ _ = _›
       have h1 := CreateMteEncoder_error_multi env _ _ _ _ _ _ _ hy
       refine ⟨?_, Or.inl ?_⟩
       · rw [h1]
         simp [World.emit, hH]
       · rw [h1]
         simp [World.emit, hH])

end MultipleClients

/-- C8 (amended): for every execution of `PerformHandshakeWithServer` that returns a
non-nil error (file-upload, switching and multi-client programs), the client's stored
decode state is what it was before the call, and so is the stored encode state unless
the error is the one returned by `CreateMteDecoder`, which runs after the new encoder
state has been stored. -/
theorem failed_handshake_states {σ : Type} (env : Env σ) (clientId : String) (w w' : World)
    (out : Int) (e : String) :
    (FileUpload.PerformHandshakeWithServer env clientId w = .done (out, some e) w' →
      w'.decoderState = w.decoderState ∧
      (w'.encoderState = w.encoderState ∨
        ∃ ts ent w1, FileUpload.CreateMteDecoder env ts clientId ent w1
          = .done (out, some e) w')) ∧
    (MteSwitching.PerformHandshakeWithServer env clientId w = .done (out, some e) w' →
      w'.decoderState = w.decoderState ∧
      (w'.encoderState = w.encoderState ∨
        ∃ ts ent w1, MteSwitching.CreateMteDecoder env ts clientId ent w1
          = .done (out, some e) w')) ∧
    (∀ num, MultipleClients.PerformHandshakeWithServer env num clientId w = ((out, some e), w') →
      cacheLookup (MultipleClients.decPrefix ++ clientId) w'.stateCache
        = cacheLookup (MultipleClients.decPrefix ++ clientId) w.stateCache ∧
      (cacheLookup (MultipleClients.encPrefix ++ clientId) w'.stateCache
          = cacheLookup (MultipleClients.encPrefix ++ clientId) w.stateCache ∨
        ∃ ts ent w1, MultipleClients.CreateMteDecoder env ts clientId ent w1
          = ((out, some e), w'))) := by
  refine ⟨FileUpload.handshake_error_states_upload env clientId w out e w',
    MteSwitching.handshake_error_states_switching env clientId w out e w', fun num h => ?_⟩
  obtain ⟨hd, hs⟩ := MultipleClients.handshake_error_store_multi env num clientId w out e w' h
  exact ⟨hd, hs.imp (fun hc => by rw [hc]) id⟩

set_option maxRecDepth 8000 in
/-- C8 as stated fails: the server sends an empty decoder key, the encoder is created
and stored, then the decoder cannot be instantiated.  The handshake returns an error
and the stored encode state is no longer the one held before the call, in the
file-upload program and in the multi-client program. -/
theorem failed_handshake_counterexample :
    FileUpload.PerformHandshakeWithServer (Demo.env { reply := "shortkey" }) "c1"
        { encoderState := "old", decoderState := "old" }
      = .done (2, some "decoder instantiate error (mte_status):engine failure")
          (FileUpload.PerformHandshakeWithServer (Demo.env { reply := "shortkey" }) "c1"
            { encoderState := "old", decoderState := "old" }).world ∧
    (FileUpload.PerformHandshakeWithServer (Demo.env { reply := "shortkey" }) "c1"
        { encoderState := "old", decoderState := "old" }).world.encoderState ≠ "old" ∧
    (MultipleClients.PerformHandshakeWithServer (Demo.env { reply := "shortkey" }) 1 "c1"
        (Demo.stored {} 1 "c1" [1, 5, 0] [2, 6, 0])).1
      = (2, some "decoder instantiate error (mte_status):engine failure") ∧
    cacheLookup "enc_c1" (MultipleClients.PerformHandshakeWithServer
        (Demo.env { reply := "shortkey" }) 1 "c1"
        (Demo.stored {} 1 "c1" [1, 5, 0] [2, 6, 0])).2.stateCache
      ≠ cacheLookup "enc_c1" (Demo.stored {} 1 "c1" [1, 5, 0] [2, 6, 0]).stateCache := by
  decide

set_option maxRecDepth 8000 in
/-- C8 (amended) at concrete inputs: a rejected handshake in the file-upload and
switching programs, and one whose decoder cannot be instantiated in the multi-client
program. -/
theorem failed_handshake_states_witness :
    (FileUpload.PerformHandshakeWithServer (Demo.env { reply := "no" }) "c1"
        { encoderState := "old", decoderState := "old" }
      = .done (107, some "no")
          (FileUpload.PerformHandshakeWithServer (Demo.env { reply := "no" }) "c1"
            { encoderState := "old", decoderState := "old" }).world) ∧
    (FileUpload.PerformHandshakeWithServer (Demo.env { reply := "no" }) "c1"
        { encoderState := "old", decoderState := "old" }).world.decoderState = "old" ∧
    (MteSwitching.PerformHandshakeWithServer (Demo.env { reply := "no" }) "c1"
        { encoderState := "old", decoderState := "old" }
      = .done (107, some "no")
          (MteSwitching.PerformHandshakeWithServer (Demo.env { reply := "no" }) "c1"
            { encoderState := "old", decoderState := "old" }).world) ∧
    (MteSwitching.PerformHandshakeWithServer (Demo.env { reply := "no" }) "c1"
        { encoderState := "old", decoderState := "old" }).world.decoderState = "old" ∧
    (MultipleClients.PerformHandshakeWithServer (Demo.env { reply := "shortkey" }) 1 "c1"
        (Demo.stored {} 1 "c1" [1, 5, 0] [2, 6, 0])
      = ((2, some "decoder instantiate error (mte_status):engine failure"),
          (MultipleClients.PerformHandshakeWithServer (Demo.env { reply := "shortkey" }) 1 "c1"
            (Demo.stored {} 1 "c1" [1, 5, 0] [2, 6, 0])).2)) ∧
    cacheLookup (MultipleClients.decPrefix ++ "c1")
        (MultipleClients.PerformHandshakeWithServer (Demo.env { reply := "shortkey" }) 1 "c1"
          (Demo.stored {} 1 "c1" [1, 5, 0] [2, 6, 0])).2.stateCache
      = cacheLookup (MultipleClients.decPrefix ++ "c1")
          (Demo.stored {} 1 "c1" [1, 5, 0] [2, 6, 0]).stateCache :=
  ⟨by decide,
    ((failed_handshake_states (Demo.env { reply := "no" }) "c1"
      { encoderState := "old", decoderState := "old" } _ 107 "no").1 (by decide)).1,
    by decide,
    ((failed_handshake_states (Demo.env { reply := "no" }) "c1"
      { encoderState := "old", decoderState := "old" } _ 107 "no").2.1 (by decide)).1,
    by decide,
    ((failed_handshake_states (Demo.env { reply := "shortkey" }) "c1"
      (Demo.stored {} 1 "c1" [1, 5, 0] [2, 6, 0]) _ 2
      "decoder instantiate error (mte_status):engine failure").2.2 1 (by decide)).1⟩

/-! ## Rejected handshakes -/

namespace FileUpload

variable {σ : Type}

/-- A handshake the server rejects returns `errorFromServer` with the server's message
and only adds the key generation and the request to the trace. -/
theorem rejected_handshake_upload (env : Env σ) (clientId : String) (w : World) (pkE pkD : Bytes)
    (payload body : String)
    (hE : env.ecdh.GetPublicKey (w.now + 1) = .ok pkE)
    (hD : env.ecdh.GetPublicKey (w.now + 2) = .ok pkD)
    (hM : env.codec.marshalHandshake
      { ConversationIdentifier := clientId
        ClientEncoderPublicKey := env.codec.base64Encode pkE
        ClientDecoderPublicKey := env.codec.base64Encode pkD } = .ok payload)
    (hP : env.http.post (w.now + 3) "https://dev-echo.eclypses.com/api/handshake"
      [("Content-Type", "application/json")] payload = .body body)
    (hS : (env.codec.unmarshalHandshake body).Success = false) :
    PerformHandshakeWithServer env clientId w
      = .done (107, some (env.codec.unmarshalHandshake body).Message)
          { w with trace := (Event.httpPost "https://dev-echo.eclypses.com/api/handshake"
              [("Content-Type", "application/json")] payload ::
            .getPublicKey .decoder :: .getPublicKey .encoder :: .handshake clientId :: w.trace) } := by
  simp [PerformHandshakeWithServer, MakeHttpCall, World.now_emit, hE, hD, hM, hP, hS, ToUpper_POST,
    restAPIName, handshakeRoute, jsonContent]
  exact ⟨rfl, rfl⟩

/-- A handshake whose answer carries an undecodable key returns `errorDecodingPK` with
an error and only adds the key generation and the request to the trace. -/
theorem undecodable_key_upload (env : Env σ) (clientId : String) (w : World) (pkE pkD : Bytes)
    (payload body : String)
    (hE : env.ecdh.GetPublicKey (w.now + 1) = .ok pkE)
    (hD : env.ecdh.GetPublicKey (w.now + 2) = .ok pkD)
    (hM : env.codec.marshalHandshake
      { ConversationIdentifier := clientId
        ClientEncoderPublicKey := env.codec.base64Encode pkE
        ClientDecoderPublicKey := env.codec.base64Encode pkD } = .ok payload)
    (hP : env.http.post (w.now + 3) "https://dev-echo.eclypses.com/api/handshake"
      [("Content-Type", "application/json")] payload = .body body)
    (hS : (env.codec.unmarshalHandshake body).Success = true)
    (hK : (∃ e, env.codec.base64Decode
        (env.codec.unmarshalHandshake body).Data.ClientEncoderPublicKey = .error e) ∨
      (∃ e, env.codec.base64Decode
        (env.codec.unmarshalHandshake body).Data.ClientDecoderPublicKey = .error e)) :
    ∃ e, PerformHandshakeWithServer env clientId w
      = .done (errorDecodingPK, some e)
          { w with trace := (Event.httpPost "https://dev-echo.eclypses.com/api/handshake"
              [("Content-Type", "application/json")] payload ::
            .getPublicKey .decoder :: .getPublicKey .encoder :: .handshake clientId :: w.trace) } := by
  cases hk1 : env.codec.base64Decode
      (env.codec.unmarshalHandshake body).Data.ClientEncoderPublicKey with
  | error e =>
    refine ⟨e, ?_⟩
    simp [PerformHandshakeWithServer, MakeHttpCall, World.now_emit, hE, hD, hM, hP, hS, ToUpper_POST,
    restAPIName, handshakeRoute, jsonContent, hk1]
    rfl
  | ok p1 =>
    obtain ⟨e, he⟩ : ∃ e, env.codec.base64Decode
        (env.codec.unmarshalHandshake body).Data.ClientDecoderPublicKey = .error e := by
      rcases hK with ⟨e, h⟩ | h
      · rw [hk1] at h
        cases h
      · exact h
    refine ⟨e, ?_⟩
    simp [PerformHandshakeWithServer, MakeHttpCall, World.now_emit, hE, hD, hM, hP, hS, ToUpper_POST,
    restAPIName, handshakeRoute, jsonContent, hk1, he]
    rfl

end FileUpload

namespace MteSwitching

variable {σ : Type}

/-- A handshake the server rejects returns `errorFromServer` with the server's message
and only adds the key generation and the request to the trace. -/
theorem rejected_handshake_switching (env : Env σ) (clientId : String) (w : World) (pkE pkD : Bytes)
    (payload body : String)
    (hE : env.ecdh.GetPublicKey (w.now + 1) = .ok pkE)
    (hD : env.ecdh.GetPublicKey (w.now + 2) = .ok pkD)
    (hM : env.codec.marshalHandshake
      { ConversationIdentifier := clientId
        ClientEncoderPublicKey := env.codec.base64Encode pkE
        ClientDecoderPublicKey := env.codec.base64Encode pkD } = .ok payload)
    (hP : env.http.post (w.now + 3) "https://dev-echo.eclypses.com/api/handshake"
      [("x-client-id", clientId), ("Content-Type", "application/json")] payload = .body body)
    (hS : (env.codec.unmarshalHandshake body).Success = false) :
    PerformHandshakeWithServer env clientId w
      = .done (107, some (env.codec.unmarshalHandshake body).Message)
          { w with trace := (Event.httpPost "https://dev-echo.eclypses.com/api/handshake"
              [("x-client-id", clientId), ("Content-Type", "application/json")] payload ::
            .getPublicKey .decoder :: .getPublicKey .encoder :: .handshake clientId :: w.trace) } := by
  simp [PerformHandshakeWithServer, MakeHttpCall, World.now_emit, hE, hD, hM, hP, hS, ToUpper_POST,
    restAPIName, handshakeRoute, jsonContent, clientIdHeader]
  exact ⟨rfl, rfl⟩

/-- A handshake whose answer carries an undecodable key returns `errorDecodingPK` with
an error and only adds the key generation and the request to the trace. -/
theorem undecodable_key_switching (env : Env σ) (clientId : String) (w : World) (pkE pkD : Bytes)
    (payload body : String)
    (hE : env.ecdh.GetPublicKey (w.now + 1) = .ok pkE)
    (hD : env.ecdh.GetPublicKey (w.now + 2) = .ok pkD)
    (hM : env.codec.marshalHandshake
      { ConversationIdentifier := clientId
        ClientEncoderPublicKey := env.codec.base64Encode pkE
        ClientDecoderPublicKey := env.codec.base64Encode pkD } = .ok payload)
    (hP : env.http.post (w.now + 3) "https://dev-echo.eclypses.com/api/handshake"
      [("x-client-id", clientId), ("Content-Type", "application/json")] payload = .body body)
    (hS : (env.codec.unmarshalHandshake body).Success = true)
    (hK : (∃ e, env.codec.base64Decode
        (env.codec.unmarshalHandshake body).Data.ClientEncoderPublicKey = .error e) ∨
      (∃ e, env.codec.base64Decode
        (env.codec.unmarshalHandshake body).Data.ClientDecoderPublicKey = .error e)) :
    ∃ e, PerformHandshakeWithServer env clientId w
      = .done (errorDecodingPK, some e)
          { w with trace := (Event.httpPost "https://dev-echo.eclypses.com/api/handshake"
              [("x-client-id", clientId), ("Content-Type", "application/json")] payload ::
            .getPublicKey .decoder :: .getPublicKey .encoder :: .handshake clientId :: w.trace) } := by
  cases hk1 : env.codec.base64Decode
      (env.codec.unmarshalHandshake body).Data.ClientEncoderPublicKey with
  | error e =>
    refine ⟨e, ?_⟩
    simp [PerformHandshakeWithServer, MakeHttpCall, World.now_emit, hE, hD, hM, hP, hS, ToUpper_POST,
    restAPIName, handshakeRoute, jsonContent, clientIdHeader, hk1]
    rfl
  | ok p1 =>
    obtain ⟨e, he⟩ : ∃ e, env.codec.base64Decode
        (env.codec.unmarshalHandshake body).Data.ClientDecoderPublicKey = .error e := by
      rcases hK with ⟨e, h⟩ | h
      · rw [hk1] at h
        cases h
      · exact h
    refine ⟨e, ?_⟩
    simp [PerformHandshakeWithServer, MakeHttpCall, World.now_emit, hE, hD, hM, hP, hS, ToUpper_POST,
    restAPIName, handshakeRoute, jsonContent, clientIdHeader, hk1, he]
    rfl

end MteSwitching

namespace MultipleClients

variable {σ : Type}

/-- A handshake the server rejects returns `errorFromServer` with the server's message
and only adds the key generation and the request to the trace. -/
theorem rejected_handshake_multi (env : Env σ) (num : Int) (clientId : String) (w : World) (pkE pkD : Bytes)
    (payload body : String)
    (hE : env.ecdh.GetPublicKey (w.now + 1) = .ok pkE)
    (hD : env.ecdh.GetPublicKey (w.now + 2) = .ok pkD)
    (hM : env.codec.marshalHandshake
      { ConversationIdentifier := clientId
        ClientEncoderPublicKey := env.codec.base64Encode pkE
        ClientDecoderPublicKey := env.codec.base64Encode pkD } = .ok payload)
    (hP : env.http.post (w.now + 3) "https://dev-echo.eclypses.com/api/handshake"
      [("x-client-id", clientId), ("Content-Type", "application/json")] payload = .body body)
    (hS : (env.codec.unmarshalHandshake body).Success = false) :
    PerformHandshakeWithServer env num clientId w
      = ((107, some (env.codec.unmarshalHandshake body).Message),
          { w with trace := (Event.httpPost "https://dev-echo.eclypses.com/api/handshake"
              [("x-client-id", clientId), ("Content-Type", "application/json")] payload ::
            .getPublicKey .decoder :: .getPublicKey .encoder :: .handshake clientId :: w.trace) }) := by
  simp [PerformHandshakeWithServer, MakeHttpCall, World.now_emit, hE, hD, hM, hP, hS, ToUpper_POST,
    restAPIName, handshakeRoute, jsonContent, clientIdHeader]
  exact ⟨rfl, rfl⟩

/-- A handshake whose answer carries an undecodable key returns `errorDecodingPK` with
an error and only adds the key generation and the request to the trace. -/
theorem undecodable_key_multi (env : Env σ) (num : Int) (clientId : String) (w : World) (pkE pkD : Bytes)
    (payload body : String)
    (hE : env.ecdh.GetPublicKey (w.now + 1) = .ok pkE)
    (hD : env.ecdh.GetPublicKey (w.now + 2) = .ok pkD)
    (hM : env.codec.marshalHandshake
      { ConversationIdentifier := clientId
        ClientEncoderPublicKey := env.codec.base64Encode pkE
        ClientDecoderPublicKey := env.codec.base64Encode pkD } = .ok payload)
    (hP : env.http.post (w.now + 3) "https://dev-echo.eclypses.com/api/handshake"
      [("x-client-id", clientId), ("Content-Type", "application/json")] payload = .body body)
    (hS : (env.codec.unmarshalHandshake body).Success = true)
    (hK : (∃ e, env.codec.base64Decode
        (env.codec.unmarshalHandshake body).Data.ClientEncoderPublicKey = .error e) ∨
      (∃ e, env.codec.base64Decode
        (env.codec.unmarshalHandshake body).Data.ClientDecoderPublicKey = .error e)) :
    ∃ e, PerformHandshakeWithServer env num clientId w
      = ((errorDecodingPK, some e),
          { w with trace := (Event.httpPost "https://dev-echo.eclypses.com/api/handshake"
              [("x-client-id", clientId), ("Content-Type", "application/json")] payload ::
            .getPublicKey .decoder :: .getPublicKey .encoder :: .handshake clientId :: w.trace) }) := by
  cases hk1 : env.codec.base64Decode
      (env.codec.unmarshalHandshake body).Data.ClientEncoderPublicKey with
  | error e =>
    refine ⟨e, ?_⟩
    simp [PerformHandshakeWithServer, MakeHttpCall, World.now_emit, hE, hD, hM, hP, hS, ToUpper_POST,
    restAPIName, handshakeRoute, jsonContent, clientIdHeader, hk1]
    rfl
  | ok p1 =>
    obtain ⟨e, he⟩ : ∃ e, env.codec.base64Decode
        (env.codec.unmarshalHandshake body).Data.ClientDecoderPublicKey = .error e := by
      rcases hK with ⟨e, h⟩ | h
      · rw [hk1] at h
        cases h
      · exact h
    refine ⟨e, ?_⟩
    simp [PerformHandshakeWithServer, MakeHttpCall, World.now_emit, hE, hD, hM, hP, hS, ToUpper_POST,
    restAPIName, handshakeRoute, jsonContent, clientIdHeader, hk1, he]
    rfl

end MultipleClients

namespace EcdhHandshake

variable {σ : Type}

/-- A handshake the server rejects returns `errorFromServer` with the server's message
and only adds the key generation and the request to the trace. -/
theorem rejected_handshake_ecdh (env : Env σ) (clientId : String) (w : World) (pkE pkD : Bytes)
    (payload body : String)
    (hE : env.ecdh.GetPublicKey (w.now + 1) = .ok pkE)
    (hD : env.ecdh.GetPublicKey (w.now + 2) = .ok pkD)
    (hM : env.codec.marshalHandshake
      { ConversationIdentifier := clientId
        ClientEncoderPublicKey := env.codec.base64Encode pkE
        ClientDecoderPublicKey := env.codec.base64Encode pkD } = .ok payload)
    (hP : env.http.post (w.now + 3) "https://dev-echo.eclypses.com/api/handshake"
      [("Content-Type", "application/json")] payload = .body body)
    (hS : (env.codec.unmarshalHandshake body).Success = false) :
    PerformHandshakeWithServer env clientId w
      = (({}, 107, some (env.codec.unmarshalHandshake body).Message),
          { w with trace := (Event.httpPost "https://dev-echo.eclypses.com/api/handshake"
              [("Content-Type", "application/json")] payload ::
            .getPublicKey .decoder :: .getPublicKey .encoder :: .handshake clientId :: w.trace) }) := by
  simp [PerformHandshakeWithServer, MakeHttpCall, World.now_emit, hE, hD, hM, hP, hS, ToUpper_POST,
    restAPIName, handshakeRoute, jsonContent]
  exact ⟨rfl, rfl⟩

/-- A handshake whose answer carries an undecodable key returns `errorDecodingPK` with
an error and only adds the key generation and the request to the trace. -/
theorem undecodable_key_ecdh (env : Env σ) (clientId : String) (w : World) (pkE pkD : Bytes)
    (payload body : String)
    (hE : env.ecdh.GetPublicKey (w.now + 1) = .ok pkE)
    (hD : env.ecdh.GetPublicKey (w.now + 2) = .ok pkD)
    (hM : env.codec.marshalHandshake
      { ConversationIdentifier := clientId
        ClientEncoderPublicKey := env.codec.base64Encode pkE
        ClientDecoderPublicKey := env.codec.base64Encode pkD } = .ok payload)
    (hP : env.http.post (w.now + 3) "https://dev-echo.eclypses.com/api/handshake"
      [("Content-Type", "application/json")] payload = .body body)
    (hS : (env.codec.unmarshalHandshake body).Success = true)
    (hK : (∃ e, env.codec.base64Decode
        (env.codec.unmarshalHandshake body).Data.ClientEncoderPublicKey = .error e) ∨
      (∃ e, env.codec.base64Decode
        (env.codec.unmarshalHandshake body).Data.ClientDecoderPublicKey = .error e)) :
    ∃ e, PerformHandshakeWithServer env clientId w
      = (({}, errorDecodingPK, some e),
          { w with trace := (Event.httpPost "https://dev-echo.eclypses.com/api/handshake"
              [("Content-Type", "application/json")] payload ::
            .getPublicKey .decoder :: .getPublicKey .encoder :: .handshake clientId :: w.trace) }) := by
  cases hk1 : env.codec.base64Decode
      (env.codec.unmarshalHandshake body).Data.ClientEncoderPublicKey with
  | error e =>
    refine ⟨e, ?_⟩
    simp [PerformHandshakeWithServer, MakeHttpCall, World.now_emit, hE, hD, hM, hP, hS, ToUpper_POST,
    restAPIName, handshakeRoute, jsonContent, hk1]
    rfl
  | ok p1 =>
    obtain ⟨e, he⟩ : ∃ e, env.codec.base64Decode
        (env.codec.unmarshalHandshake body).Data.ClientDecoderPublicKey = .error e := by
      rcases hK with ⟨e, h⟩ | h
      · rw [hk1] at h
        cases h
      · exact h
    refine ⟨e, ?_⟩
    simp [PerformHandshakeWithServer, MakeHttpCall, World.now_emit, hE, hD, hM, hP, hS, ToUpper_POST,
    restAPIName, handshakeRoute, jsonContent, hk1, he]
    rfl

end EcdhHandshake

/-- C9: in every program's `PerformHandshakeWithServer`, when the two public keys were
generated, the request was marshalled, the HTTP call returned a body and the parsed
envelope has `Success = false`, the call returns the code `errorFromServer` (107) with
an error whose text is the envelope's `Message`.  The world it leaves differs from the
one it started in by the trace of the key generation and of the request only: no
shared secret is derived, no session is created and no stored state changes. -/
theorem server_rejection {σ : Type} (env : Env σ) (num : Int) (clientId : String) (w : World)
    (pkE pkD : Bytes) (payload body : String)
    (hE : env.ecdh.GetPublicKey (w.now + 1) = .ok pkE)
    (hD : env.ecdh.GetPublicKey (w.now + 2) = .ok pkD)
    (hM : env.codec.marshalHandshake
      { ConversationIdentifier := clientId
        ClientEncoderPublicKey := env.codec.base64Encode pkE
        ClientDecoderPublicKey := env.codec.base64Encode pkD } = .ok payload)
    (hS : (env.codec.unmarshalHandshake body).Success = false) :
    (env.http.post (w.now + 3) "https://dev-echo.eclypses.com/api/handshake"
        [("Content-Type", "application/json")] payload = .body body →
      EcdhHandshake.PerformHandshakeWithServer env clientId w
        = (({}, 107, some (env.codec.unmarshalHandshake body).Message),
          { w with trace := (Event.httpPost "https://dev-echo.eclypses.com/api/handshake"
              [("Content-Type", "application/json")] payload ::
            .getPublicKey .decoder :: .getPublicKey .encoder :: .handshake clientId :: w.trace) }) ∧
      FileUpload.PerformHandshakeWithServer env clientId w
        = .done (107, some (env.codec.unmarshalHandshake body).Message)
          { w with trace := (Event.httpPost "https://dev-echo.eclypses.com/api/handshake"
              [("Content-Type", "application/json")] payload ::
            .getPublicKey .decoder :: .getPublicKey .encoder :: .handshake clientId :: w.trace) }) ∧
    (env.http.post (w.now + 3) "https://dev-echo.eclypses.com/api/handshake"
        [("x-client-id", clientId), ("Content-Type", "application/json")] payload = .body body →
      MteSwitching.PerformHandshakeWithServer env clientId w
        = .done (107, some (env.codec.unmarshalHandshake body).Message)
          { w with trace := (Event.httpPost "https://dev-echo.eclypses.com/api/handshake"
              [("x-client-id", clientId), ("Content-Type", "application/json")] payload ::
            .getPublicKey .decoder :: .getPublicKey .encoder :: .handshake clientId :: w.trace) } ∧
      MultipleClients.PerformHandshakeWithServer env num clientId w
        = ((107, some (env.codec.unmarshalHandshake body).Message),
          { w with trace := (Event.httpPost "https://dev-echo.eclypses.com/api/handshake"
              [("x-client-id", clientId), ("Content-Type", "application/json")] payload ::
            .getPublicKey .decoder :: .getPublicKey .encoder :: .handshake clientId :: w.trace) })) :=
  ⟨fun hP => ⟨EcdhHandshake.rejected_handshake_ecdh env clientId w pkE pkD payload body hE hD hM hP hS,
      FileUpload.rejected_handshake_upload env clientId w pkE pkD payload body hE hD hM hP hS⟩,
    fun hP => ⟨MteSwitching.rejected_handshake_switching env clientId w pkE pkD payload body hE hD hM hP hS,
      MultipleClients.rejected_handshake_multi env num clientId w pkE pkD payload body hE hD hM hP hS⟩⟩

/-- C9 at a concrete input: the server answers the handshake of client `"c1"` with a
rejection carrying the message `"no"`. -/
theorem server_rejection_witness :
    (Demo.env { reply := "no" }).ecdh.GetPublicKey (({} : World).now + 1) = .ok [1] ∧
    (Demo.env { reply := "no" }).ecdh.GetPublicKey (({} : World).now + 2) = .ok [2] ∧
    ((Demo.env { reply := "no" }).codec.unmarshalHandshake "no").Success = false ∧
    EcdhHandshake.PerformHandshakeWithServer (Demo.env { reply := "no" }) "c1" {}
      = (({}, 107, some "no"),
          { trace := [.httpPost "https://dev-echo.eclypses.com/api/handshake"
              [("Content-Type", "application/json")] "c1|\x01|\x02",
            .getPublicKey .decoder, .getPublicKey .encoder, .handshake "c1"] }) ∧
    FileUpload.PerformHandshakeWithServer (Demo.env { reply := "no" }) "c1" {}
      = .done (107, some "no")
          { trace := [.httpPost "https://dev-echo.eclypses.com/api/handshake"
              [("Content-Type", "application/json")] "c1|\x01|\x02",
            .getPublicKey .decoder, .getPublicKey .encoder, .handshake "c1"] } ∧
    MteSwitching.PerformHandshakeWithServer (Demo.env { reply := "no" }) "c1" {}
      = .done (107, some "no")
          { trace := [.httpPost "https://dev-echo.eclypses.com/api/handshake"
              [("x-client-id", "c1"), ("Content-Type", "application/json")] "c1|\x01|\x02",
            .getPublicKey .decoder, .getPublicKey .encoder, .handshake "c1"] } ∧
    MultipleClients.PerformHandshakeWithServer (Demo.env { reply := "no" }) 1 "c1" {}
      = ((107, some "no"),
          { trace := [.httpPost "https://dev-echo.eclypses.com/api/handshake"
              [("x-client-id", "c1"), ("Content-Type", "application/json")] "c1|\x01|\x02",
            .getPublicKey .decoder, .getPublicKey .encoder, .handshake "c1"] }) :=
  ⟨rfl, rfl, rfl,
    ((server_rejection (Demo.env { reply := "no" }) 1 "c1" {} [1] [2] "c1|\x01|\x02" "no"
      rfl rfl rfl rfl).1 rfl).1,
    ((server_rejection (Demo.env { reply := "no" }) 1 "c1" {} [1] [2] "c1|\x01|\x02" "no"
      rfl rfl rfl rfl).1 rfl).2,
    ((server_rejection (Demo.env { reply := "no" }) 1 "c1" {} [1] [2] "c1|\x01|\x02" "no"
      rfl rfl rfl rfl).2 rfl).1,
    ((server_rejection (Demo.env { reply := "no" }) 1 "c1" {} [1] [2] "c1|\x01|\x02" "no"
      rfl rfl rfl rfl).2 rfl).2⟩

/-- C10: in every program's `PerformHandshakeWithServer`, when the two public keys were
generated, the request was marshalled, the HTTP call returned a body whose envelope
has `Success = true`, and one of the two returned public key strings is rejected by
the base64 decoder, the call returns the program's code `errorDecodingPK` with a
non-nil error.  The world it leaves differs from the one it started in by the trace of
the key generation and of the request only: no shared secret is derived and no session
state is written. -/
theorem invalid_server_keys {σ : Type} (env : Env σ) (num : Int) (clientId : String) (w : World)
    (pkE pkD : Bytes) (payload body : String)
    (hE : env.ecdh.GetPublicKey (w.now + 1) = .ok pkE)
    (hD : env.ecdh.GetPublicKey (w.now + 2) = .ok pkD)
    (hM : env.codec.marshalHandshake
      { ConversationIdentifier := clientId
        ClientEncoderPublicKey := env.codec.base64Encode pkE
        ClientDecoderPublicKey := env.codec.base64Encode pkD } = .ok payload)
    (hS : (env.codec.unmarshalHandshake body).Success = true)
    (hK : (∃ e, env.codec.base64Decode
        (env.codec.unmarshalHandshake body).Data.ClientEncoderPublicKey = .error e) ∨
      (∃ e, env.codec.base64Decode
        (env.codec.unmarshalHandshake body).Data.ClientDecoderPublicKey = .error e)) :
    (env.http.post (w.now + 3) "https://dev-echo.eclypses.com/api/handshake"
        [("Content-Type", "application/json")] payload = .body body →
      (∃ e, EcdhHandshake.PerformHandshakeWithServer env clientId w
        = (({}, EcdhHandshake.errorDecodingPK, some e),
          { w with trace := (Event.httpPost "https://dev-echo.eclypses.com/api/handshake"
              [("Content-Type", "application/json")] payload ::
            .getPublicKey .decoder :: .getPublicKey .encoder :: .handshake clientId :: w.trace) })) ∧
      (∃ e, FileUpload.PerformHandshakeWithServer env clientId w
        = .done (FileUpload.errorDecodingPK, some e)
          { w with trace := (Event.httpPost "https://dev-echo.eclypses.com/api/handshake"
              [("Content-Type", "application/json")] payload ::
            .getPublicKey .decoder :: .getPublicKey .encoder :: .handshake clientId :: w.trace) })) ∧
    (env.http.post (w.now + 3) "https://dev-echo.eclypses.com/api/handshake"
        [("x-client-id", clientId), ("Content-Type", "application/json")] payload = .body body →
      (∃ e, MteSwitching.PerformHandshakeWithServer env clientId w
        = .done (MteSwitching.errorDecodingPK, some e)
          { w with trace := (Event.httpPost "https://dev-echo.eclypses.com/api/handshake"
              [("x-client-id", clientId), ("Content-Type", "application/json")] payload ::
            .getPublicKey .decoder :: .getPublicKey .encoder :: .handshake clientId :: w.trace) }) ∧
      (∃ e, MultipleClients.PerformHandshakeWithServer env num clientId w
        = ((MultipleClients.errorDecodingPK, some e),
          { w with trace := (Event.httpPost "https://dev-echo.eclypses.com/api/handshake"
              [("x-client-id", clientId), ("Content-Type", "application/json")] payload ::
            .getPublicKey .decoder :: .getPublicKey .encoder :: .handshake clientId :: w.trace) }))) :=
  ⟨fun hP => ⟨EcdhHandshake.undecodable_key_ecdh env clientId w pkE pkD payload body hE hD hM hP hS hK,
      FileUpload.undecodable_key_upload env clientId w pkE pkD payload body hE hD hM hP hS hK⟩,
    fun hP => ⟨MteSwitching.undecodable_key_switching env clientId w pkE pkD payload body hE hD hM hP hS hK,
      MultipleClients.undecodable_key_multi env num clientId w pkE pkD payload body hE hD hM hP hS hK⟩⟩

/-- C10 at a concrete input: the server answers the handshake of client `"c1"` with a
successful envelope whose decoder key cannot be decoded. -/
theorem invalid_server_keys_witness :
    (Demo.env { reply := "badkey" }).ecdh.GetPublicKey (({} : World).now + 1) = .ok [1] ∧
    (Demo.env { reply := "badkey" }).ecdh.GetPublicKey (({} : World).now + 2) = .ok [2] ∧
    ((Demo.env { reply := "badkey" }).codec.unmarshalHandshake "badkey").Success = true ∧
    (Demo.env { reply := "badkey" }).codec.base64Decode
      ((Demo.env { reply := "badkey" }).codec.unmarshalHandshake "badkey").Data.ClientDecoderPublicKey
      = .error "illegal base64 data" ∧
    (∃ e, FileUpload.PerformHandshakeWithServer (Demo.env { reply := "badkey" }) "c1" {}
      = .done (108, some e)
          { trace := [.httpPost "https://dev-echo.eclypses.com/api/handshake"
              [("Content-Type", "application/json")] "c1|\x01|\x02",
            .getPublicKey .decoder, .getPublicKey .encoder, .handshake "c1"] }) ∧
    (∃ e, MultipleClients.PerformHandshakeWithServer (Demo.env { reply := "badkey" }) 1 "c1" {}
      = ((123, some e),
          { trace := [.httpPost "https://dev-echo.eclypses.com/api/handshake"
              [("x-client-id", "c1"), ("Content-Type", "application/json")] "c1|\x01|\x02",
            .getPublicKey .decoder, .getPublicKey .encoder, .handshake "c1"] })) :=
  ⟨rfl, rfl, rfl, rfl,
    ((invalid_server_keys (Demo.env { reply := "badkey" }) 1 "c1" {} [1] [2] "c1|\x01|\x02"
      "badkey" rfl rfl rfl rfl (Or.inr ⟨_, rfl⟩)).1 rfl).2,
    ((invalid_server_keys (Demo.env { reply := "badkey" }) 1 "c1" {} [1] [2] "c1|\x01|\x02"
      "badkey" rfl rfl rfl rfl (Or.inr ⟨_, rfl⟩)).2 rfl).2⟩

/-! ## The engine objects of a handshake -/

/-- In the file-upload and switching programs a successful `CreateMteDecoder` stores, as
`decoderState`, the export of an object made with `mte.NewMkeEncDef()`. -/
theorem CreateMteDecoder_stores_encoder_export {σ : Type} (env : Env σ) (ts cid : String)
    (ent : Bytes) (w : World) (nonce : Nat) (hp : ParseUint ts = .ok nonce)
    (hi : (env.mte.InstantiateStr .MkeEncDef ent nonce cid (env.mte.newObj .MkeEncDef)).1
      = statusSuccess) :
    FileUpload.CreateMteDecoder env ts cid ent w
      = .done (0, none)
          { w with
            decoderState := env.mte.SaveStateB64 .MkeEncDef
              (env.mte.InstantiateStr .MkeEncDef ent nonce cid (env.mte.newObj .MkeEncDef)).2
            trace := (Event.saveState .MkeEncDef :: .instantiate .MkeEncDef ent nonce cid ::
              .mteNew .MkeEncDef :: w.trace) } ∧
    MteSwitching.CreateMteDecoder env ts cid ent w
      = .done (0, none)
          { w with
            decoderState := env.mte.SaveStateB64 .MkeEncDef
              (env.mte.InstantiateStr .MkeEncDef ent nonce cid (env.mte.newObj .MkeEncDef)).2
            trace := (Event.saveState .MkeEncDef :: .instantiate .MkeEncDef ent nonce cid ::
              .mteNew .MkeEncDef :: w.trace) } := by
  constructor
  · simp only [FileUpload.CreateMteDecoder, hp, hi]
    rfl
  · simp only [MteSwitching.CreateMteDecoder, hp, hi]
    rfl

set_option maxRecDepth 8000 in
/-- C7 at a failing input: a successful handshake of client `"c1"`, in the file-upload
and in the switching program.  Both engine objects of the handshake are made with
`mte.NewMkeEncDef()`, none with `mte.NewMkeDecDef()`, and the state stored as
`decoderState` is the export of the second encoder-kind object. -/
theorem decoder_state_is_encoder_export :
    FileUpload.PerformHandshakeWithServer (Demo.env {}) "c1" {}
      = .done (0, none) (FileUpload.PerformHandshakeWithServer (Demo.env {}) "c1" {}).world ∧
    (FileUpload.PerformHandshakeWithServer (Demo.env {}) "c1" {}).world.trace.take 6
      = [.saveState .MkeEncDef, .instantiate .MkeEncDef [2, 83, 68] 1700000000 "c1",
         .mteNew .MkeEncDef,
         .saveState .MkeEncDef, .instantiate .MkeEncDef [1, 83, 69] 1700000000 "c1",
         .mteNew .MkeEncDef] ∧
    Event.mteNew .MkeDecDef
      ∉ (FileUpload.PerformHandshakeWithServer (Demo.env {}) "c1" {}).world.trace ∧
    (FileUpload.PerformHandshakeWithServer (Demo.env {}) "c1" {}).world.decoderState
      = (Demo.env {}).mte.SaveStateB64 .MkeEncDef
          ((Demo.env {}).mte.InstantiateStr .MkeEncDef [2, 83, 68] 1700000000 "c1"
            ((Demo.env {}).mte.newObj .MkeEncDef)).2 ∧
    MteSwitching.PerformHandshakeWithServer (Demo.env {}) "c1" {}
      = .done (0, none) (MteSwitching.PerformHandshakeWithServer (Demo.env {}) "c1" {}).world ∧
    (MteSwitching.PerformHandshakeWithServer (Demo.env {}) "c1" {}).world.trace.take 6
      = [.saveState .MkeEncDef, .instantiate .MkeEncDef [2, 83, 68] 1700000000 "c1",
         .mteNew .MkeEncDef,
         .saveState .MkeEncDef, .instantiate .MkeEncDef [1, 83, 69] 1700000000 "c1",
         .mteNew .MkeEncDef] ∧
    Event.mteNew .MkeDecDef
      ∉ (MteSwitching.PerformHandshakeWithServer (Demo.env {}) "c1" {}).world.trace ∧
    (MteSwitching.PerformHandshakeWithServer (Demo.env {}) "c1" {}).world.decoderState
      = (Demo.env {}).mte.SaveStateB64 .MkeEncDef
          ((Demo.env {}).mte.InstantiateStr .MkeEncDef [2, 83, 68] 1700000000 "c1"
            ((Demo.env {}).mte.newObj .MkeEncDef)).2 := by
  decide

/-- The rotation branches in which a failing `Uninstantiate` does not stop the
re-handshake: file-upload encode and decode, switching encode, multi-client encode.
When the threshold is exceeded the handshake is entered for the same client id,
whatever status `Uninstantiate` reports. -/
theorem rotation_survives_uninstantiate_failure {σ : Type} (env : Env σ) (clientId : String)
    (session : σ) (w : World) (i : Nat) :
    (reseedExceeded (env.mte.GetReseedCounter .MkeEncDef session) w.maxSeed = true →
      (FileUpload.encoderReseedCheck env clientId session w).world.handshakes clientId
        = w.handshakes clientId + 1 ∧
      (MteSwitching.encoderReseedCheck env clientId session w).world.handshakes clientId
        = w.handshakes clientId + 1) ∧
    (reseedExceeded (env.mte.GetReseedCounter .MkeDecDef session) w.maxSeed = true →
      (FileUpload.decoderReseedCheck env clientId session w).world.handshakes clientId
        = w.handshakes clientId + 1) ∧
    (reseedExceeded (env.mte.GetReseedCounter .EncDef session) w.maxSeed = true →
      (MultipleClients.reseedCheck env i clientId session w).2.handshakes clientId
        = w.handshakes clientId + 1) :=
  ⟨fun h => ⟨FileUpload.encoderReseedCheck_rotates_upload env clientId session w h,
      MteSwitching.encoderReseedCheck_rotates_switching env clientId session w h⟩,
    fun h => FileUpload.decoderReseedCheck_rotates_upload env clientId session w h,
    fun h => MultipleClients.reseedCheck_rotates_multi env i clientId session w h⟩

/-! ## Transport failures -/

namespace EcdhHandshake

variable {σ : Type}

/-- A handshake whose `MakeHttpCall` returns an error returns that error and the code of
`MakeHttpCall`, which is not 0, and only adds the key generation and the request to the
trace. -/
theorem transport_failure_ecdh (env : Env σ) (clientId : String) (w : World)
    (pkE pkD : Bytes) (payload out e : String) (code : Int) (w2 : World)
    (hE : env.ecdh.GetPublicKey (w.now + 1) = .ok pkE)
    (hD : env.ecdh.GetPublicKey (w.now + 2) = .ok pkD)
    (hM : env.codec.marshalHandshake
      { ConversationIdentifier := clientId
        ClientEncoderPublicKey := env.codec.base64Encode pkE
        ClientDecoderPublicKey := env.codec.base64Encode pkD } = .ok payload)
    (hC : MakeHttpCall env (restAPIName ++ handshakeRoute) "POST" clientId jsonContent payload
      (((w.emit (.handshake clientId)).emit (.getPublicKey .encoder)).emit (.getPublicKey .decoder))
        = ((out, code, some e), w2)) :
    PerformHandshakeWithServer env clientId w = (({}, code, some e), w2) ∧ code ≠ 0 ∧
    w2 = { w with trace := (Event.httpPost "https://dev-echo.eclypses.com/api/handshake"
              [("Content-Type", "application/json")] payload ::
            .getPublicKey .decoder :: .getPublicKey .encoder :: .handshake clientId :: w.trace) } := by
  refine ⟨?_, ?_⟩
  · unfold PerformHandshakeWithServer
    simp only [World.now_emit, hE, hD, hM, hC]
  · unfold MakeHttpCall at hC
    simp only [if_true] at hC
    split at hC
    all_goals cases hC
    all_goals exact ⟨by decide, rfl⟩

end EcdhHandshake

namespace FileUpload

variable {σ : Type}

/-- A handshake whose `MakeHttpCall` returns an error returns that error and the code of
`MakeHttpCall`, which is not 0, and only adds the key generation and the request to the
trace. -/
theorem transport_failure_upload (env : Env σ) (clientId : String) (w : World)
    (pkE pkD : Bytes) (payload out e : String) (code : Int) (w2 : World)
    (hE : env.ecdh.GetPublicKey (w.now + 1) = .ok pkE)
    (hD : env.ecdh.GetPublicKey (w.now + 2) = .ok pkD)
    (hM : env.codec.marshalHandshake
      { ConversationIdentifier := clientId
        ClientEncoderPublicKey := env.codec.base64Encode pkE
        ClientDecoderPublicKey := env.codec.base64Encode pkD } = .ok payload)
    (hC : MakeHttpCall env (restAPIName ++ handshakeRoute) "POST" clientId jsonContent payload
      (((w.emit (.handshake clientId)).emit (.getPublicKey .encoder)).emit (.getPublicKey .decoder))
        = ((out, code, some e), w2)) :
    PerformHandshakeWithServer env clientId w = .done (code, some e) w2 ∧ code ≠ 0 ∧
    w2 = { w with trace := (Event.httpPost "https://dev-echo.eclypses.com/api/handshake"
              [("Content-Type", "application/json")] payload ::
            .getPublicKey .decoder :: .getPublicKey .encoder :: .handshake clientId :: w.trace) } := by
  refine ⟨?_, ?_⟩
  · unfold PerformHandshakeWithServer
    simp only [World.now_emit, hE, hD, hM, hC]
  · unfold MakeHttpCall at hC
    simp only [ToUpper_POST, if_true] at hC
    split at hC
    all_goals cases hC
    all_goals exact ⟨by decide, rfl⟩

end FileUpload

namespace MteSwitching

variable {σ : Type}

/-- A handshake whose `MakeHttpCall` returns an error returns that error and the code of
`MakeHttpCall`, which is not 0, and only adds the key generation and the request to the
trace. -/
theorem transport_failure_switching (env : Env σ) (clientId : String) (w : World)
    (pkE pkD : Bytes) (payload out e : String) (code : Int) (w2 : World)
    (hE : env.ecdh.GetPublicKey (w.now + 1) = .ok pkE)
    (hD : env.ecdh.GetPublicKey (w.now + 2) = .ok pkD)
    (hM : env.codec.marshalHandshake
      { ConversationIdentifier := clientId
        ClientEncoderPublicKey := env.codec.base64Encode pkE
        ClientDecoderPublicKey := env.codec.base64Encode pkD } = .ok payload)
    (hC : MakeHttpCall env (restAPIName ++ handshakeRoute) "POST" clientId jsonContent payload
      (((w.emit (.handshake clientId)).emit (.getPublicKey .encoder)).emit (.getPublicKey .decoder))
        = ((out, code, some e), w2)) :
    PerformHandshakeWithServer env clientId w = .done (code, some e) w2 ∧ code ≠ 0 ∧
    w2 = { w with trace := (Event.httpPost "https://dev-echo.eclypses.com/api/handshake"
              [("x-client-id", clientId), ("Content-Type", "application/json")] payload ::
            .getPublicKey .decoder :: .getPublicKey .encoder :: .handshake clientId :: w.trace) } := by
  refine ⟨?_, ?_⟩
  · unfold PerformHandshakeWithServer
    simp only [World.now_emit, hE, hD, hM, hC]
  · unfold MakeHttpCall at hC
    simp only [ToUpper_POST, if_true] at hC
    split at hC
    all_goals cases hC
    all_goals exact ⟨by decide, rfl⟩

end MteSwitching

namespace MultipleClients

variable {σ : Type}

/-- A handshake whose `MakeHttpCall` returns an error returns that error and the code of
`MakeHttpCall`, which is not 0, and only adds the key generation and the request to the
trace. -/
theorem transport_failure_multi (env : Env σ) (num : Int) (clientId : String) (w : World)
    (pkE pkD : Bytes) (payload out e : String) (code : Int) (w2 : World)
    (hE : env.ecdh.GetPublicKey (w.now + 1) = .ok pkE)
    (hD : env.ecdh.GetPublicKey (w.now + 2) = .ok pkD)
    (hM : env.codec.marshalHandshake
      { ConversationIdentifier := clientId
        ClientEncoderPublicKey := env.codec.base64Encode pkE
        ClientDecoderPublicKey := env.codec.base64Encode pkD } = .ok payload)
    (hC : MakeHttpCall env (restAPIName ++ handshakeRoute) "POST" clientId jsonContent payload
      (((w.emit (.handshake clientId)).emit (.getPublicKey .encoder)).emit (.getPublicKey .decoder))
        = ((out, code, some e), w2)) :
    PerformHandshakeWithServer env num clientId w = ((code, some e), w2) ∧ code ≠ 0 ∧
    w2 = { w with trace := (Event.httpPost "https://dev-echo.eclypses.com/api/handshake"
              [("x-client-id", clientId), ("Content-Type", "application/json")] payload ::
            .getPublicKey .decoder :: .getPublicKey .encoder :: .handshake clientId :: w.trace) } := by
  refine ⟨?_, ?_⟩
  · unfold PerformHandshakeWithServer
    simp only [World.now_emit, hE, hD, hM, hC]
  · unfold MakeHttpCall at hC
    simp only [ToUpper_POST, if_true] at hC
    split at hC
    all_goals cases hC
    all_goals exact ⟨by decide, rfl⟩

end MultipleClients

/-- C11: in every program's `PerformHandshakeWithServer`, when the two public keys were
generated and the request was marshalled, and `MakeHttpCall` returns a non-nil error
`e` with a code, the handshake returns that code with the same error `e`; the code is
not 0, and the world the handshake leaves is the one `MakeHttpCall` left, which differs
from the one the handshake started in by the trace of the key generation and of the
request only: no response is parsed, no shared secret is derived and no stored state
changes. -/
theorem transport_failure {σ : Type} (env : Env σ) (num : Int) (clientId : String) (w : World)
    (pkE pkD : Bytes) (payload : String)
    (hE : env.ecdh.GetPublicKey (w.now + 1) = .ok pkE)
    (hD : env.ecdh.GetPublicKey (w.now + 2) = .ok pkD)
    (hM : env.codec.marshalHandshake
      { ConversationIdentifier := clientId
        ClientEncoderPublicKey := env.codec.base64Encode pkE
        ClientDecoderPublicKey := env.codec.base64Encode pkD } = .ok payload)
    :
    (∀ (out e : String) (code : Int) (w2 : World),
      EcdhHandshake.MakeHttpCall env (EcdhHandshake.restAPIName ++ EcdhHandshake.handshakeRoute) "POST" clientId
        EcdhHandshake.jsonContent payload
        (((w.emit (.handshake clientId)).emit (.getPublicKey .encoder)).emit (.getPublicKey .decoder))
          = ((out, code, some e), w2) →
      EcdhHandshake.PerformHandshakeWithServer env clientId w = (({}, code, some e), w2) ∧ code ≠ 0 ∧
      w2 = { w with trace := (Event.httpPost "https://dev-echo.eclypses.com/api/handshake"
              [("Content-Type", "application/json")] payload ::
            .getPublicKey .decoder :: .getPublicKey .encoder :: .handshake clientId :: w.trace) }) ∧
    (∀ (out e : String) (code : Int) (w2 : World),
      FileUpload.MakeHttpCall env (FileUpload.restAPIName ++ FileUpload.handshakeRoute) "POST" clientId
        FileUpload.jsonContent payload
        (((w.emit (.handshake clientId)).emit (.getPublicKey .encoder)).emit (.getPublicKey .decoder))
          = ((out, code, some e), w2) →
      FileUpload.PerformHandshakeWithServer env clientId w = .done (code, some e) w2 ∧ code ≠ 0 ∧
      w2 = { w with trace := (Event.httpPost "https://dev-echo.eclypses.com/api/handshake"
              [("Content-Type", "application/json")] payload ::
            .getPublicKey .decoder :: .getPublicKey .encoder :: .handshake clientId :: w.trace) }) ∧
    (∀ (out e : String) (code : Int) (w2 : World),
      MteSwitching.MakeHttpCall env (MteSwitching.restAPIName ++ MteSwitching.handshakeRoute) "POST" clientId
        MteSwitching.jsonContent payload
        (((w.emit (.handshake clientId)).emit (.getPublicKey .encoder)).emit (.getPublicKey .decoder))
          = ((out, code, some e), w2) →
      MteSwitching.PerformHandshakeWithServer env clientId w = .done (code, some e) w2 ∧ code ≠ 0 ∧
      w2 = { w with trace := (Event.httpPost "https://dev-echo.eclypses.com/api/handshake"
              [("x-client-id", clientId), ("Content-Type", "application/json")] payload ::
            .getPublicKey .decoder :: .getPublicKey .encoder :: .handshake clientId :: w.trace) }) ∧
    (∀ (out e : String) (code : Int) (w2 : World),
      MultipleClients.MakeHttpCall env (MultipleClients.restAPIName ++ MultipleClients.handshakeRoute) "POST" clientId
        MultipleClients.jsonContent payload
        (((w.emit (.handshake clientId)).emit (.getPublicKey .encoder)).emit (.getPublicKey .decoder))
          = ((out, code, some e), w2) →
      MultipleClients.PerformHandshakeWithServer env num clientId w = ((code, some e), w2) ∧ code ≠ 0 ∧
      w2 = { w with trace := (Event.httpPost "https://dev-echo.eclypses.com/api/handshake"
              [("x-client-id", clientId), ("Content-Type", "application/json")] payload ::
            .getPublicKey .decoder :: .getPublicKey .encoder :: .handshake clientId :: w.trace) }) :=
  ⟨fun out e code w2 hC =>
      EcdhHandshake.transport_failure_ecdh env clientId w pkE pkD payload out e code w2 hE hD hM hC,
    fun out e code w2 hC =>
      FileUpload.transport_failure_upload env clientId w pkE pkD payload out e code w2 hE hD hM hC,
    fun out e code w2 hC =>
      MteSwitching.transport_failure_switching env clientId w pkE pkD payload out e code w2 hE hD hM hC,
    fun out e code w2 hC =>
      MultipleClients.transport_failure_multi env num clientId w pkE pkD payload out e code w2
        hE hD hM hC⟩

/-- C11 at a concrete input: the transport refuses the handshake request of client
`"c1"`.  The handshake program and the file-upload program return `errorHttpPost`
(103), the switching program and the multi-client program `errorReadingResponse`
(104), each with the error of the transport. -/
theorem transport_failure_witness :
    (Demo.envFlaky {} 0).ecdh.GetPublicKey (({} : World).now + 1) = .ok [1] ∧
    (Demo.envFlaky {} 0).ecdh.GetPublicKey (({} : World).now + 2) = .ok [2] ∧
    EcdhHandshake.PerformHandshakeWithServer (Demo.envFlaky {} 0) "c1" {}
      = (({}, 103, some "connection refused"),
          { trace := [.httpPost "https://dev-echo.eclypses.com/api/handshake"
              [("Content-Type", "application/json")] "c1|\x01|\x02",
            .getPublicKey .decoder, .getPublicKey .encoder, .handshake "c1"] }) ∧
    FileUpload.PerformHandshakeWithServer (Demo.envFlaky {} 0) "c1" {}
      = .done (103, some "connection refused")
          { trace := [.httpPost "https://dev-echo.eclypses.com/api/handshake"
              [("Content-Type", "application/json")] "c1|\x01|\x02",
            .getPublicKey .decoder, .getPublicKey .encoder, .handshake "c1"] } ∧
    MteSwitching.PerformHandshakeWithServer (Demo.envFlaky {} 0) "c1" {}
      = .done (104, some "connection refused")
          { trace := [.httpPost "https://dev-echo.eclypses.com/api/handshake"
              [("x-client-id", "c1"), ("Content-Type", "application/json")] "c1|\x01|\x02",
            .getPublicKey .decoder, .getPublicKey .encoder, .handshake "c1"] } ∧
    MultipleClients.PerformHandshakeWithServer (Demo.envFlaky {} 0) 1 "c1" {}
      = ((104, some "connection refused"),
          { trace := [.httpPost "https://dev-echo.eclypses.com/api/handshake"
              [("x-client-id", "c1"), ("Content-Type", "application/json")] "c1|\x01|\x02",
            .getPublicKey .decoder, .getPublicKey .encoder, .handshake "c1"] }) :=
  ⟨rfl, rfl,
    ((transport_failure (Demo.envFlaky {} 0) 1 "c1" {} [1] [2] "c1|\x01|\x02" rfl rfl rfl).1 "" "connection refused" 103
      { trace := [.httpPost "https://dev-echo.eclypses.com/api/handshake"
              [("Content-Type", "application/json")] "c1|\x01|\x02",
            .getPublicKey .decoder, .getPublicKey .encoder, .handshake "c1"] } rfl).1,
    ((transport_failure (Demo.envFlaky {} 0) 1 "c1" {} [1] [2] "c1|\x01|\x02" rfl rfl rfl).2.1 "" "connection refused" 103
      { trace := [.httpPost "https://dev-echo.eclypses.com/api/handshake"
              [("Content-Type", "application/json")] "c1|\x01|\x02",
            .getPublicKey .decoder, .getPublicKey .encoder, .handshake "c1"] } rfl).1,
    ((transport_failure (Demo.envFlaky {} 0) 1 "c1" {} [1] [2] "c1|\x01|\x02" rfl rfl rfl).2.2.1 "" "connection refused" 104
      { trace := [.httpPost "https://dev-echo.eclypses.com/api/handshake"
              [("x-client-id", "c1"), ("Content-Type", "application/json")] "c1|\x01|\x02",
            .getPublicKey .decoder, .getPublicKey .encoder, .handshake "c1"] } rfl).1,
    ((transport_failure (Demo.envFlaky {} 0) 1 "c1" {} [1] [2] "c1|\x01|\x02" rfl rfl rfl).2.2.2 "" "connection refused" 104
      { trace := [.httpPost "https://dev-echo.eclypses.com/api/handshake"
              [("x-client-id", "c1"), ("Content-Type", "application/json")] "c1|\x01|\x02",
            .getPublicKey .decoder, .getPublicKey .encoder, .handshake "c1"] } rfl).1⟩

/-! ## Clearing the key-agreement contexts -/

theorem World.cleared_emit (w : World) (e : Event) (d : Dir) :
    (w.emit e).cleared d = w.cleared d + (if e = .clearContainer d then 1 else 0) := by
  simp only [World.cleared, World.emit, List.count_cons]
  congr 1
  by_cases h : e = .clearContainer d <;> simp [h]

theorem World.cleared_update (r : Int) (m : Nat) (e d a : String)
    (sc : List (String × Bytes)) (w : World) (c : Dir) :
    (World.mk r m e d a sc w.trace).cleared c = w.cleared c := rfl

namespace EcdhHandshake

variable {σ : Type}

theorem cleared_when_derived_ecdh (env : Env σ) (clientId : String) (w : World) (pkE pkD : Bytes)
    (payload : String) (d : Dir)
    (hE : env.ecdh.GetPublicKey (w.now + 1) = .ok pkE)
    (hD : env.ecdh.GetPublicKey (w.now + 2) = .ok pkD)
    (hM : env.codec.marshalHandshake
      { ConversationIdentifier := clientId
        ClientEncoderPublicKey := env.codec.base64Encode pkE
        ClientDecoderPublicKey := env.codec.base64Encode pkD } = .ok payload) :
    (PerformHandshakeWithServer env clientId w).2.cleared d
      = w.cleared d + (if secretsDerived env (w.now + 1) (w.now + 2)
          (env.http.post (w.now + 3) "https://dev-echo.eclypses.com/api/handshake"
            [("Content-Type", "application/json")] payload) then 1 else 0) := by
  generalize hr : env.http.post (w.now + 3) "https://dev-echo.eclypses.com/api/handshake"
    [("Content-Type", "application/json")] payload = r
  cases r with
  | sendError e =>
    simp [PerformHandshakeWithServer, MakeHttpCall, World.now_emit, hE, hD, hM, hr, secretsDerived,
      restAPIName, handshakeRoute, jsonContent, World.cleared_emit]
  | readError e =>
    simp [PerformHandshakeWithServer, MakeHttpCall, World.now_emit, hE, hD, hM, hr, secretsDerived,
      restAPIName, handshakeRoute, jsonContent, World.cleared_emit]
  | body b =>
    cases hS : (env.codec.unmarshalHandshake b).Success <;>
    cases hk1 : env.codec.base64Decode (env.codec.unmarshalHandshake b).Data.ClientEncoderPublicKey <;>
    cases hk2 : env.codec.base64Decode (env.codec.unmarshalHandshake b).Data.ClientDecoderPublicKey <;>
    simp [PerformHandshakeWithServer, MakeHttpCall, World.now_emit, hE, hD, hM, hr, secretsDerived,
      restAPIName, handshakeRoute, jsonContent, World.cleared_emit, hS, hk1, hk2]
    rename_i p1 p2
    cases hs1 : env.ecdh.CreateSharedSecret (w.now + 1) p1 <;>
    cases hs2 : env.ecdh.CreateSharedSecret (w.now + 2) p2 <;>
    cases d <;>
    simp [Except.toBool, World.cleared_emit]

end EcdhHandshake

namespace FileUpload

variable {σ : Type}

theorem CreateMteEncoder_cleared_upload (env : Env σ) (ts cid : String) (ent : Bytes) (w : World)
    (d : Dir) :
    (CreateMteEncoder env ts cid ent w).world.cleared d = w.cleared d := by
  unfold CreateMteEncoder
  simp only []
  split
  · simp [Run.world_done, Run.world_panic, World.cleared, World.emit]
  · split
    · simp [Run.world_done, Run.world_panic, World.cleared, World.emit]
    · split <;> simp [Run.world_done, Run.world_panic, World.cleared, World.emit]

theorem CreateMteDecoder_cleared_upload (env : Env σ) (ts cid : String) (ent : Bytes) (w : World)
    (d : Dir) :
    (CreateMteDecoder env ts cid ent w).world.cleared d = w.cleared d := by
  unfold CreateMteDecoder
  simp only []
  split
  · simp [Run.world_done, Run.world_panic, World.cleared, World.emit]
  · split <;> simp [Run.world_done, Run.world_panic, World.cleared, World.emit]

theorem cleared_when_derived_upload (env : Env σ) (clientId : String) (w : World) (pkE pkD : Bytes)
    (payload : String) (d : Dir)
    (hE : env.ecdh.GetPublicKey (w.now + 1) = .ok pkE)
    (hD : env.ecdh.GetPublicKey (w.now + 2) = .ok pkD)
    (hM : env.codec.marshalHandshake
      { ConversationIdentifier := clientId
        ClientEncoderPublicKey := env.codec.base64Encode pkE
        ClientDecoderPublicKey := env.codec.base64Encode pkD } = .ok payload) :
    (PerformHandshakeWithServer env clientId w).world.cleared d
      = w.cleared d + (if secretsDerived env (w.now + 1) (w.now + 2)
          (env.http.post (w.now + 3) "https://dev-echo.eclypses.com/api/handshake"
            [("Content-Type", "application/json")] payload) then 1 else 0) := by
  have hCE := fun ts ent w => CreateMteEncoder_cleared_upload env ts clientId ent w d
  have hCD := fun ts ent w => CreateMteDecoder_cleared_upload env ts clientId ent w d
  generalize hr : env.http.post (w.now + 3) "https://dev-echo.eclypses.com/api/handshake"
    [("Content-Type", "application/json")] payload = r
  cases r with
  | sendError e =>
    simp [PerformHandshakeWithServer, MakeHttpCall, World.now_emit, hE, hD, hM, hr, secretsDerived,
      restAPIName, handshakeRoute, jsonContent, World.cleared_emit, ToUpper_POST, Run.world_done]
  | readError e =>
    simp [PerformHandshakeWithServer, MakeHttpCall, World.now_emit, hE, hD, hM, hr, secretsDerived,
      restAPIName, handshakeRoute, jsonContent, World.cleared_emit, ToUpper_POST, Run.world_done]
  | body b =>
    cases hS : (env.codec.unmarshalHandshake b).Success <;>
    cases hk1 : env.codec.base64Decode (env.codec.unmarshalHandshake b).Data.ClientEncoderPublicKey <;>
    cases hk2 : env.codec.base64Decode (env.codec.unmarshalHandshake b).Data.ClientDecoderPublicKey <;>
    simp [PerformHandshakeWithServer, MakeHttpCall, World.now_emit, hE, hD, hM, hr, secretsDerived,
      restAPIName, handshakeRoute, jsonContent, World.cleared_emit, hS, hk1, hk2, ToUpper_POST,
      Run.world_done]
    rename_i p1 p2
    cases hs1 : env.ecdh.CreateSharedSecret (w.now + 1) p1 <;>
    cases hs2 : env.ecdh.CreateSharedSecret (w.now + 2) p2 <;>
    simp [Except.toBool, World.cleared_emit, Run.world_done]
    repeat' split
    all_goals
      try (have h := congrArg Run.world ‹CreateMteEncoder env _ _ _ _ = _›
           simp only [Run.world_done, Run.world_panic] at h; subst h)
    all_goals
      try (have h := congrArg Run.world ‹CreateMteDecoder env _ _ _ _ = _›
           simp only [Run.world_done, Run.world_panic] at h; subst h)
    all_goals cases d <;> simp [Run.world_done, Run.world_panic, World.cleared_emit, hCE, hCD]

end FileUpload

namespace MteSwitching

variable {σ : Type}

theorem CreateMteEncoder_cleared_switching (env : Env σ) (ts cid : String) (ent : Bytes) (w : World)
    (d : Dir) :
    (CreateMteEncoder env ts cid ent w).world.cleared d = w.cleared d := by
  unfold CreateMteEncoder
  simp only []
  split
  · simp [Run.world_done, Run.world_panic, World.cleared, World.emit]
  · split
    · simp [Run.world_done, Run.world_panic, World.cleared, World.emit]
    · split <;> simp [Run.world_done, Run.world_panic, World.cleared, World.emit]

theorem CreateMteDecoder_cleared_switching (env : Env σ) (ts cid : String) (ent : Bytes) (w : World)
    (d : Dir) :
    (CreateMteDecoder env ts cid ent w).world.cleared d = w.cleared d := by
  unfold CreateMteDecoder
  simp only []
  split
  · simp [Run.world_done, Run.world_panic, World.cleared, World.emit]
  · split <;> simp [Run.world_done, Run.world_panic, World.cleared, World.emit]

theorem cleared_when_derived_switching (env : Env σ) (clientId : String) (w : World) (pkE pkD : Bytes)
    (payload : String) (d : Dir)
    (hE : env.ecdh.GetPublicKey (w.now + 1) = .ok pkE)
    (hD : env.ecdh.GetPublicKey (w.now + 2) = .ok pkD)
    (hM : env.codec.marshalHandshake
      { ConversationIdentifier := clientId
        ClientEncoderPublicKey := env.codec.base64Encode pkE
        ClientDecoderPublicKey := env.codec.base64Encode pkD } = .ok payload) :
    (PerformHandshakeWithServer env clientId w).world.cleared d
      = w.cleared d + (if secretsDerived env (w.now + 1) (w.now + 2)
          (env.http.post (w.now + 3) "https://dev-echo.eclypses.com/api/handshake"
            [("x-client-id", clientId), ("Content-Type", "application/json")] payload) then 1 else 0) := by
  have hCE := fun ts ent w => CreateMteEncoder_cleared_switching env ts clientId ent w d
  have hCD := fun ts ent w => CreateMteDecoder_cleared_switching env ts clientId ent w d
  generalize hr : env.http.post (w.now + 3) "https://dev-echo.eclypses.com/api/handshake"
    [("x-client-id", clientId), ("Content-Type", "application/json")] payload = r
  cases r with
  | sendError e =>
    simp [PerformHandshakeWithServer, MakeHttpCall, World.now_emit, hE, hD, hM, hr, secretsDerived,
      restAPIName, handshakeRoute, jsonContent, clientIdHeader, World.cleared_emit, ToUpper_POST, Run.world_done]
  | readError e =>
    simp [PerformHandshakeWithServer, MakeHttpCall, World.now_emit, hE, hD, hM, hr, secretsDerived,
      restAPIName, handshakeRoute, jsonContent, clientIdHeader, World.cleared_emit, ToUpper_POST, Run.world_done]
  | body b =>
    cases hS : (env.codec.unmarshalHandshake b).Success <;>
    cases hk1 : env.codec.base64Decode (env.codec.unmarshalHandshake b).Data.ClientEncoderPublicKey <;>
    cases hk2 : env.codec.base64Decode (env.codec.unmarshalHandshake b).Data.ClientDecoderPublicKey <;>
    simp [PerformHandshakeWithServer, MakeHttpCall, World.now_emit, hE, hD, hM, hr, secretsDerived,
      restAPIName, handshakeRoute, jsonContent, clientIdHeader, World.cleared_emit, hS, hk1, hk2, ToUpper_POST,
      Run.world_done]
    rename_i p1 p2
    cases hs1 : env.ecdh.CreateSharedSecret (w.now + 1) p1 <;>
    cases hs2 : env.ecdh.CreateSharedSecret (w.now + 2) p2 <;>
    simp [Except.toBool, World.cleared_emit, Run.world_done]
    repeat' split
    all_goals
      try (have h := congrArg Run.world ‹CreateMteEncoder env _ _ _ _ = _›
           simp only [Run.world_done, Run.world_panic] at h; subst h)
    all_goals
      try (have h := congrArg Run.world ‹CreateMteDecoder env _ _ _ _ = _›
           simp only [Run.world_done, Run.world_panic] at h; subst h)
    all_goals cases d <;> simp [Run.world_done, Run.world_panic, World.cleared_emit, hCE, hCD]

end MteSwitching

namespace MultipleClients

variable {σ : Type}

theorem CreateMteEncoder_cleared_multi (env : Env σ) (ts cid : String) (ent : Bytes) (w : World)
    (d : Dir) :
    (CreateMteEncoder env ts cid ent w).2.cleared d = w.cleared d := by
  unfold CreateMteEncoder
  simp only []
  repeat' split
  all_goals
    try (have h := congrArg Prod.snd ‹sealState env _ _ = _›; simp only [sealState_world_multi] at h
         subst h)
  all_goals simp [World.cleared, World.emit, World.cacheSet]

theorem CreateMteDecoder_cleared_multi (env : Env σ) (ts cid : String) (ent : Bytes) (w : World)
    (d : Dir) :
    (CreateMteDecoder env ts cid ent w).2.cleared d = w.cleared d := by
  unfold CreateMteDecoder
  simp only []
  repeat' split
  all_goals
    try (have h := congrArg Prod.snd ‹sealState env _ _ = _›; simp only [sealState_world_multi] at h
         subst h)
  all_goals simp [World.cleared, World.emit, World.cacheSet]

theorem cleared_when_derived_multi (env : Env σ) (num : Int) (clientId : String) (w : World)
    (pkE pkD : Bytes) (payload : String) (d : Dir)
    (hE : env.ecdh.GetPublicKey (w.now + 1) = .ok pkE)
    (hD : env.ecdh.GetPublicKey (w.now + 2) = .ok pkD)
    (hM : env.codec.marshalHandshake
      { ConversationIdentifier := clientId
        ClientEncoderPublicKey := env.codec.base64Encode pkE
        ClientDecoderPublicKey := env.codec.base64Encode pkD } = .ok payload) :
    (PerformHandshakeWithServer env num clientId w).2.cleared d
      = w.cleared d + (if secretsDerived env (w.now + 1) (w.now + 2)
          (env.http.post (w.now + 3) "https://dev-echo.eclypses.com/api/handshake"
            [("x-client-id", clientId), ("Content-Type", "application/json")] payload) then 1 else 0) := by
  have hCE := fun ts ent w => CreateMteEncoder_cleared_multi env ts clientId ent w d
  have hCD := fun ts ent w => CreateMteDecoder_cleared_multi env ts clientId ent w d
  generalize hr : env.http.post (w.now + 3) "https://dev-echo.eclypses.com/api/handshake"
    [("x-client-id", clientId), ("Content-Type", "application/json")] payload = r
  cases r with
  | sendError e =>
    simp [PerformHandshakeWithServer, MakeHttpCall, World.now_emit, hE, hD, hM, hr, secretsDerived,
      restAPIName, handshakeRoute, jsonContent, clientIdHeader, World.cleared_emit, ToUpper_POST]
  | readError e =>
    simp [PerformHandshakeWithServer, MakeHttpCall, World.now_emit, hE, hD, hM, hr, secretsDerived,
      restAPIName, handshakeRoute, jsonContent, clientIdHeader, World.cleared_emit, ToUpper_POST]
  | body b =>
    cases hS : (env.codec.unmarshalHandshake b).Success <;>
    cases hk1 : env.codec.base64Decode (env.codec.unmarshalHandshake b).Data.ClientEncoderPublicKey <;>
    cases hk2 : env.codec.base64Decode (env.codec.unmarshalHandshake b).Data.ClientDecoderPublicKey <;>
    simp [PerformHandshakeWithServer, MakeHttpCall, World.now_emit, hE, hD, hM, hr, secretsDerived,
      restAPIName, handshakeRoute, jsonContent, clientIdHeader, World.cleared_emit, hS, hk1, hk2,
      ToUpper_POST]
    rename_i p1 p2
    cases hs1 : env.ecdh.CreateSharedSecret (w.now + 1) p1 <;>
    cases hs2 : env.ecdh.CreateSharedSecret (w.now + 2) p2 <;>
    simp [Except.toBool, World.cleared_emit]
    repeat' split
    all_goals
      try (have h := congrArg Prod.snd ‹CreateMteEncoder env _ _ _ _ = _›
           simp only [] at h; subst h)
    all_goals
      try (have h := congrArg Prod.snd ‹CreateMteDecoder env _ _ _ _ = _›
           simp only [] at h; subst h)
    all_goals cases d <;> simp [World.cleared_emit, World.cleared_update, hCE, hCD]

end MultipleClients

theorem World.trace_suffix_emit (l : List Event) (w : World) (e : Event)
    (h : l <:+ w.trace) : l <:+ (w.emit e).trace :=
  h.trans (List.suffix_cons e w.trace)

namespace EcdhHandshake

variable {σ : Type}

theorem clears_follow_secrets_ecdh (env : Env σ) (clientId : String) (w : World) (pkE pkD : Bytes)
    (payload b : String) (p1 p2 ess dss : Bytes)
    (hE : env.ecdh.GetPublicKey (w.now + 1) = .ok pkE)
    (hD : env.ecdh.GetPublicKey (w.now + 2) = .ok pkD)
    (hM : env.codec.marshalHandshake
      { ConversationIdentifier := clientId
        ClientEncoderPublicKey := env.codec.base64Encode pkE
        ClientDecoderPublicKey := env.codec.base64Encode pkD } = .ok payload)
    (hr : env.http.post (w.now + 3) "https://dev-echo.eclypses.com/api/handshake"
      [("Content-Type", "application/json")] payload = .body b)
    (hS : (env.codec.unmarshalHandshake b).Success = true)
    (hk1 : env.codec.base64Decode (env.codec.unmarshalHandshake b).Data.ClientEncoderPublicKey
      = .ok p1)
    (hk2 : env.codec.base64Decode (env.codec.unmarshalHandshake b).Data.ClientDecoderPublicKey
      = .ok p2)
    (hs1 : env.ecdh.CreateSharedSecret (w.now + 1) p1 = .ok ess)
    (hs2 : env.ecdh.CreateSharedSecret (w.now + 2) p2 = .ok dss) :
    PerformHandshakeWithServer env clientId w
      = (({ encoderSharedSecret := env.codec.base64Encode ess
            decoderSharedSecret := env.codec.base64Encode dss }, 0, none),
          { w with trace := (Event.clearContainer .decoder :: .clearContainer .encoder ::
              .createSharedSecret .decoder p2 :: .createSharedSecret .encoder p1 ::
              .httpPost "https://dev-echo.eclypses.com/api/handshake"
                [("Content-Type", "application/json")] payload ::
              .getPublicKey .decoder :: .getPublicKey .encoder :: .handshake clientId ::
              w.trace) }) := by
  simp [PerformHandshakeWithServer, MakeHttpCall, World.now_emit, hE, hD, hM, hr, hS, hk1, hk2,
    hs1, hs2, restAPIName, handshakeRoute, jsonContent]
  cases w
  rfl

end EcdhHandshake

namespace MultipleClients

variable {σ : Type}

theorem CreateMteEncoder_extends_multi (env : Env σ) (ts cid : String) (ent : Bytes) (w : World) :
    w.trace <:+ (CreateMteEncoder env ts cid ent w).2.trace := by
  unfold CreateMteEncoder
  simp only []
  repeat' split
  all_goals
    try (have h := congrArg Prod.snd ‹sealState env _ _ = _›; simp only [sealState_world_multi] at h
         subst h)
  all_goals simp [World.emit, World.cacheSet, List.suffix_cons_iff]

theorem CreateMteDecoder_extends_multi (env : Env σ) (ts cid : String) (ent : Bytes) (w : World) :
    w.trace <:+ (CreateMteDecoder env ts cid ent w).2.trace := by
  unfold CreateMteDecoder
  simp only []
  repeat' split
  all_goals
    try (have h := congrArg Prod.snd ‹sealState env _ _ = _›; simp only [sealState_world_multi] at h
         subst h)
  all_goals simp [World.emit, World.cacheSet, List.suffix_cons_iff]

theorem clears_follow_secrets_multi (env : Env σ) (num : Int) (clientId : String) (w : World)
    (pkE pkD : Bytes) (payload b : String) (p1 p2 ess dss : Bytes)
    (hE : env.ecdh.GetPublicKey (w.now + 1) = .ok pkE)
    (hD : env.ecdh.GetPublicKey (w.now + 2) = .ok pkD)
    (hM : env.codec.marshalHandshake
      { ConversationIdentifier := clientId
        ClientEncoderPublicKey := env.codec.base64Encode pkE
        ClientDecoderPublicKey := env.codec.base64Encode pkD } = .ok payload)
    (hr : env.http.post (w.now + 3) "https://dev-echo.eclypses.com/api/handshake"
      [("x-client-id", clientId), ("Content-Type", "application/json")] payload = .body b)
    (hS : (env.codec.unmarshalHandshake b).Success = true)
    (hk1 : env.codec.base64Decode (env.codec.unmarshalHandshake b).Data.ClientEncoderPublicKey
      = .ok p1)
    (hk2 : env.codec.base64Decode (env.codec.unmarshalHandshake b).Data.ClientDecoderPublicKey
      = .ok p2)
    (hs1 : env.ecdh.CreateSharedSecret (w.now + 1) p1 = .ok ess)
    (hs2 : env.ecdh.CreateSharedSecret (w.now + 2) p2 = .ok dss) :
    (Event.initLicense :: .clearContainer .decoder :: .clearContainer .encoder ::
      .createSharedSecret .decoder p2 :: .createSharedSecret .encoder p1 ::
      .httpPost "https://dev-echo.eclypses.com/api/handshake"
        [("x-client-id", clientId), ("Content-Type", "application/json")] payload ::
      .getPublicKey .decoder :: .getPublicKey .encoder :: .handshake clientId :: w.trace)
      <:+ (PerformHandshakeWithServer env num clientId w).2.trace := by
  have hCE := fun ts ent w => CreateMteEncoder_extends_multi env ts clientId ent w
  have hCD := fun ts ent w => CreateMteDecoder_extends_multi env ts clientId ent w
  simp [PerformHandshakeWithServer, MakeHttpCall, World.now_emit, hE, hD, hM, hr, hS, hk1, hk2,
    hs1, hs2, restAPIName, handshakeRoute, jsonContent, clientIdHeader, ToUpper_POST]
  repeat' split
  all_goals
    try (have h := congrArg Prod.snd ‹CreateMteEncoder env _ _ _ _ = _›
         simp only [] at h; subst h)
  all_goals
    try (have h := congrArg Prod.snd ‹CreateMteDecoder env _ _ _ _ = _›
         simp only [] at h; subst h)
  all_goals simp only []
  all_goals
    first
    | exact List.suffix_refl _
    | (refine List.IsSuffix.trans ?_ (hCE _ _ _); exact List.suffix_refl _)
    | (refine List.IsSuffix.trans ?_ ((hCE _ _ _).trans (hCD _ _ _)); exact List.suffix_refl _)

end MultipleClients

namespace FileUpload

variable {σ : Type}

theorem CreateMteEncoder_extends_upload (env : Env σ) (ts cid : String) (ent : Bytes) (w : World) :
    w.trace <:+ (CreateMteEncoder env ts cid ent w).world.trace := by
  unfold CreateMteEncoder
  simp only []
  repeat' split
  all_goals simp [Run.world_done, Run.world_panic, World.emit, List.suffix_cons_iff]

theorem CreateMteDecoder_extends_upload (env : Env σ) (ts cid : String) (ent : Bytes) (w : World) :
    w.trace <:+ (CreateMteDecoder env ts cid ent w).world.trace := by
  unfold CreateMteDecoder
  simp only []
  repeat' split
  all_goals simp [Run.world_done, Run.world_panic, World.emit, List.suffix_cons_iff]

theorem clears_follow_secrets_upload (env : Env σ) (clientId : String) (w : World)
    (pkE pkD : Bytes) (payload b : String) (p1 p2 ess dss : Bytes)
    (hE : env.ecdh.GetPublicKey (w.now + 1) = .ok pkE)
    (hD : env.ecdh.GetPublicKey (w.now + 2) = .ok pkD)
    (hM : env.codec.marshalHandshake
      { ConversationIdentifier := clientId
        ClientEncoderPublicKey := env.codec.base64Encode pkE
        ClientDecoderPublicKey := env.codec.base64Encode pkD } = .ok payload)
    (hr : env.http.post (w.now + 3) "https://dev-echo.eclypses.com/api/handshake"
      [("Content-Type", "application/json")] payload = .body b)
    (hS : (env.codec.unmarshalHandshake b).Success = true)
    (hk1 : env.codec.base64Decode (env.codec.unmarshalHandshake b).Data.ClientEncoderPublicKey
      = .ok p1)
    (hk2 : env.codec.base64Decode (env.codec.unmarshalHandshake b).Data.ClientDecoderPublicKey
      = .ok p2)
    (hs1 : env.ecdh.CreateSharedSecret (w.now + 1) p1 = .ok ess)
    (hs2 : env.ecdh.CreateSharedSecret (w.now + 2) p2 = .ok dss) :
    (Event.initLicense :: .clearContainer .decoder :: .clearContainer .encoder ::
      .createSharedSecret .decoder p2 :: .createSharedSecret .encoder p1 ::
      .httpPost "https://dev-echo.eclypses.com/api/handshake"
        [("Content-Type", "application/json")] payload ::
      .getPublicKey .decoder :: .getPublicKey .encoder :: .handshake clientId :: w.trace)
      <:+ (PerformHandshakeWithServer env clientId w).world.trace := by
  have hCE := fun ts ent w => CreateMteEncoder_extends_upload env ts clientId ent w
  have hCD := fun ts ent w => CreateMteDecoder_extends_upload env ts clientId ent w
  simp [PerformHandshakeWithServer, MakeHttpCall, World.now_emit, hE, hD, hM, hr, hS, hk1, hk2,
    hs1, hs2, restAPIName, handshakeRoute, jsonContent, clientIdHeader, ToUpper_POST]
  repeat' split
  all_goals
    try (have h := congrArg Run.world ‹CreateMteEncoder env _ _ _ _ = _›
         simp only [Run.world_done, Run.world_panic] at h; subst h)
  all_goals
    try (have h := congrArg Run.world ‹CreateMteDecoder env _ _ _ _ = _›
         simp only [Run.world_done, Run.world_panic] at h; subst h)
  all_goals simp only [Run.world_done, Run.world_panic]
  all_goals
    first
    | exact List.suffix_refl _
    | (refine List.IsSuffix.trans ?_ (hCE _ _ _); exact List.suffix_refl _)
    | (refine List.IsSuffix.trans ?_ ((hCE _ _ _).trans (hCD _ _ _)); exact List.suffix_refl _)

end FileUpload

namespace MteSwitching

variable {σ : Type}

theorem CreateMteEncoder_extends_switching (env : Env σ) (ts cid : String) (ent : Bytes) (w : World) :
    w.trace <:+ (CreateMteEncoder env ts cid ent w).world.trace := by
  unfold CreateMteEncoder
  simp only []
  repeat' split
  all_goals simp [Run.world_done, Run.world_panic, World.emit, List.suffix_cons_iff]

theorem CreateMteDecoder_extends_switching (env : Env σ) (ts cid : String) (ent : Bytes) (w : World) :
    w.trace <:+ (CreateMteDecoder env ts cid ent w).world.trace := by
  unfold CreateMteDecoder
  simp only []
  repeat' split
  all_goals simp [Run.world_done, Run.world_panic, World.emit, List.suffix_cons_iff]

theorem clears_follow_secrets_switching (env : Env σ) (clientId : String) (w : World)
    (pkE pkD : Bytes) (payload b : String) (p1 p2 ess dss : Bytes)
    (hE : env.ecdh.GetPublicKey (w.now + 1) = .ok pkE)
    (hD : env.ecdh.GetPublicKey (w.now + 2) = .ok pkD)
    (hM : env.codec.marshalHandshake
      { ConversationIdentifier := clientId
        ClientEncoderPublicKey := env.codec.base64Encode pkE
        ClientDecoderPublicKey := env.codec.base64Encode pkD } = .ok payload)
    (hr : env.http.post (w.now + 3) "https://dev-echo.eclypses.com/api/handshake"
      [("x-client-id", clientId), ("Content-Type", "application/json")] payload = .body b)
    (hS : (env.codec.unmarshalHandshake b).Success = true)
    (hk1 : env.codec.base64Decode (env.codec.unmarshalHandshake b).Data.ClientEncoderPublicKey
      = .ok p1)
    (hk2 : env.codec.base64Decode (env.codec.unmarshalHandshake b).Data.ClientDecoderPublicKey
      = .ok p2)
    (hs1 : env.ecdh.CreateSharedSecret (w.now + 1) p1 = .ok ess)
    (hs2 : env.ecdh.CreateSharedSecret (w.now + 2) p2 = .ok dss) :
    (Event.initLicense :: .clearContainer .decoder :: .clearContainer .encoder ::
      .createSharedSecret .decoder p2 :: .createSharedSecret .encoder p1 ::
      .httpPost "https://dev-echo.eclypses.com/api/handshake"
        [("x-client-id", clientId), ("Content-Type", "application/json")] payload ::
      .getPublicKey .decoder :: .getPublicKey .encoder :: .handshake clientId :: w.trace)
      <:+ (PerformHandshakeWithServer env clientId w).world.trace := by
  have hCE := fun ts ent w => CreateMteEncoder_extends_switching env ts clientId ent w
  have hCD := fun ts ent w => CreateMteDecoder_extends_switching env ts clientId ent w
  simp [PerformHandshakeWithServer, MakeHttpCall, World.now_emit, hE, hD, hM, hr, hS, hk1, hk2,
    hs1, hs2, restAPIName, handshakeRoute, jsonContent, clientIdHeader, ToUpper_POST]
  repeat' split
  all_goals
    try (have h := congrArg Run.world ‹CreateMteEncoder env _ _ _ _ = _›
         simp only [Run.world_done, Run.world_panic] at h; subst h)
  all_goals
    try (have h := congrArg Run.world ‹CreateMteDecoder env _ _ _ _ = _›
         simp only [Run.world_done, Run.world_panic] at h; subst h)
  all_goals simp only [Run.world_done, Run.world_panic]
  all_goals
    first
    | exact List.suffix_refl _
    | (refine List.IsSuffix.trans ?_ (hCE _ _ _); exact List.suffix_refl _)
    | (refine List.IsSuffix.trans ?_ ((hCE _ _ _).trans (hCD _ _ _)); exact List.suffix_refl _)

end MteSwitching

set_option maxRecDepth 8000 in
/-- C12 as written fails: the server rejects the handshake of client `"c1"`.  In the
handshake program and in the multi-client program both ECDH contexts were created and
produced their public key, the call returns `errorFromServer`, and `ClearContainer` was
called on neither context. -/
theorem key_material_counterexample :
    (EcdhHandshake.PerformHandshakeWithServer (Demo.env { reply := "no" }) "c1" {}).1
      = ({}, 107, some "no") ∧
    (EcdhHandshake.PerformHandshakeWithServer (Demo.env { reply := "no" }) "c1" {}).2.trace
      = [.httpPost "https://dev-echo.eclypses.com/api/handshake"
          [("Content-Type", "application/json")] "c1|\x01|\x02",
        .getPublicKey .decoder, .getPublicKey .encoder, .handshake "c1"] ∧
    (EcdhHandshake.PerformHandshakeWithServer (Demo.env { reply := "no" }) "c1" {}).2.cleared
      .encoder = 0 ∧
    (EcdhHandshake.PerformHandshakeWithServer (Demo.env { reply := "no" }) "c1" {}).2.cleared
      .decoder = 0 ∧
    (MultipleClients.PerformHandshakeWithServer (Demo.env { reply := "no" }) 1 "c1" {}).1
      = (107, some "no") ∧
    (MultipleClients.PerformHandshakeWithServer (Demo.env { reply := "no" }) 1 "c1" {}).2.cleared
      .encoder = 0 ∧
    (MultipleClients.PerformHandshakeWithServer (Demo.env { reply := "no" }) 1 "c1" {}).2.cleared
      .decoder = 0 := by
  decide

/-- C12 (amended): in every program's `PerformHandshakeWithServer`, when the two public
keys were generated and the request was marshalled, `ClearContainer` is called once on
the encode and once on the decode ECDH context if both shared secrets were derived (a
body arrived, its envelope reports success, both keys decode and both
`CreateSharedSecret` calls return a secret), and on neither context on the returns
taken before that (transport failure, server rejection, base64 failure, shared-secret
failure).  When both secrets were derived the two `ClearContainer` calls are the calls
the trace records next after the second `CreateSharedSecret`, the encode context first:
no call on an ECDH context, no request, no licence check and no engine or store call
lies between.  In the handshake program the function then returns, with code 0, no
error and the two secrets base64-encoded in its response (the encoding, which the
source does before it clears the contexts, is a pure function and not a recorded call),
and made no other call; in the file-upload, switching and multi-client programs the
licence check is the recorded call that follows them (the print of the engine version
between the two is not recorded), so every call made later in the handshake, among them
the creation of the two engine sessions that receive the secrets, comes after both
contexts were cleared. -/
theorem key_material_cleared {σ : Type} (env : Env σ) (num : Int) (clientId : String) (w : World)
    (pkE pkD : Bytes) (payload : String) (d : Dir)
    (hE : env.ecdh.GetPublicKey (w.now + 1) = .ok pkE)
    (hD : env.ecdh.GetPublicKey (w.now + 2) = .ok pkD)
    (hM : env.codec.marshalHandshake
      { ConversationIdentifier := clientId
        ClientEncoderPublicKey := env.codec.base64Encode pkE
        ClientDecoderPublicKey := env.codec.base64Encode pkD } = .ok payload)
    :
    (EcdhHandshake.PerformHandshakeWithServer env clientId w).2.cleared d
      = w.cleared d + (if secretsDerived env (w.now + 1) (w.now + 2)
          (env.http.post (w.now + 3) "https://dev-echo.eclypses.com/api/handshake"
            [("Content-Type", "application/json")] payload) then 1 else 0) ∧
    (FileUpload.PerformHandshakeWithServer env clientId w).world.cleared d
      = w.cleared d + (if secretsDerived env (w.now + 1) (w.now + 2)
          (env.http.post (w.now + 3) "https://dev-echo.eclypses.com/api/handshake"
            [("Content-Type", "application/json")] payload) then 1 else 0) ∧
    (MteSwitching.PerformHandshakeWithServer env clientId w).world.cleared d
      = w.cleared d + (if secretsDerived env (w.now + 1) (w.now + 2)
          (env.http.post (w.now + 3) "https://dev-echo.eclypses.com/api/handshake"
            [("x-client-id", clientId), ("Content-Type", "application/json")] payload) then 1 else 0) ∧
    (MultipleClients.PerformHandshakeWithServer env num clientId w).2.cleared d
      = w.cleared d + (if secretsDerived env (w.now + 1) (w.now + 2)
          (env.http.post (w.now + 3) "https://dev-echo.eclypses.com/api/handshake"
            [("x-client-id", clientId), ("Content-Type", "application/json")] payload) then 1 else 0) ∧
    (∀ (b : String) (p1 p2 ess dss : Bytes),
      env.http.post (w.now + 3) "https://dev-echo.eclypses.com/api/handshake"
        [("Content-Type", "application/json")] payload = .body b →
      (env.codec.unmarshalHandshake b).Success = true →
      env.codec.base64Decode (env.codec.unmarshalHandshake b).Data.ClientEncoderPublicKey
        = .ok p1 →
      env.codec.base64Decode (env.codec.unmarshalHandshake b).Data.ClientDecoderPublicKey
        = .ok p2 →
      env.ecdh.CreateSharedSecret (w.now + 1) p1 = .ok ess →
      env.ecdh.CreateSharedSecret (w.now + 2) p2 = .ok dss →
      EcdhHandshake.PerformHandshakeWithServer env clientId w
        = (({ encoderSharedSecret := env.codec.base64Encode ess
              decoderSharedSecret := env.codec.base64Encode dss }, 0, none),
            { w with trace := (Event.clearContainer .decoder :: .clearContainer .encoder ::
                .createSharedSecret .decoder p2 :: .createSharedSecret .encoder p1 ::
                .httpPost "https://dev-echo.eclypses.com/api/handshake"
                  [("Content-Type", "application/json")] payload ::
                .getPublicKey .decoder :: .getPublicKey .encoder :: .handshake clientId ::
                w.trace) })) ∧
    (∀ (b : String) (p1 p2 ess dss : Bytes),
      env.http.post (w.now + 3) "https://dev-echo.eclypses.com/api/handshake"
        [("Content-Type", "application/json")] payload = .body b →
      (env.codec.unmarshalHandshake b).Success = true →
      env.codec.base64Decode (env.codec.unmarshalHandshake b).Data.ClientEncoderPublicKey
        = .ok p1 →
      env.codec.base64Decode (env.codec.unmarshalHandshake b).Data.ClientDecoderPublicKey
        = .ok p2 →
      env.ecdh.CreateSharedSecret (w.now + 1) p1 = .ok ess →
      env.ecdh.CreateSharedSecret (w.now + 2) p2 = .ok dss →
      (Event.initLicense :: .clearContainer .decoder :: .clearContainer .encoder ::
        .createSharedSecret .decoder p2 :: .createSharedSecret .encoder p1 ::
        .httpPost "https://dev-echo.eclypses.com/api/handshake"
          [("Content-Type", "application/json")] payload ::
        .getPublicKey .decoder :: .getPublicKey .encoder :: .handshake clientId :: w.trace)
        <:+ (FileUpload.PerformHandshakeWithServer env clientId w).world.trace) ∧
    (∀ (b : String) (p1 p2 ess dss : Bytes),
      env.http.post (w.now + 3) "https://dev-echo.eclypses.com/api/handshake"
        [("x-client-id", clientId), ("Content-Type", "application/json")] payload = .body b →
      (env.codec.unmarshalHandshake b).Success = true →
      env.codec.base64Decode (env.codec.unmarshalHandshake b).Data.ClientEncoderPublicKey
        = .ok p1 →
      env.codec.base64Decode (env.codec.unmarshalHandshake b).Data.ClientDecoderPublicKey
        = .ok p2 →
      env.ecdh.CreateSharedSecret (w.now + 1) p1 = .ok ess →
      env.ecdh.CreateSharedSecret (w.now + 2) p2 = .ok dss →
      (Event.initLicense :: .clearContainer .decoder :: .clearContainer .encoder ::
        .createSharedSecret .decoder p2 :: .createSharedSecret .encoder p1 ::
        .httpPost "https://dev-echo.eclypses.com/api/handshake"
          [("x-client-id", clientId), ("Content-Type", "application/json")] payload ::
        .getPublicKey .decoder :: .getPublicKey .encoder :: .handshake clientId :: w.trace)
        <:+ (MteSwitching.PerformHandshakeWithServer env clientId w).world.trace) ∧
    (∀ (b : String) (p1 p2 ess dss : Bytes),
      env.http.post (w.now + 3) "https://dev-echo.eclypses.com/api/handshake"
        [("x-client-id", clientId), ("Content-Type", "application/json")] payload = .body b →
      (env.codec.unmarshalHandshake b).Success = true →
      env.codec.base64Decode (env.codec.unmarshalHandshake b).Data.ClientEncoderPublicKey
        = .ok p1 →
      env.codec.base64Decode (env.codec.unmarshalHandshake b).Data.ClientDecoderPublicKey
        = .ok p2 →
      env.ecdh.CreateSharedSecret (w.now + 1) p1 = .ok ess →
      env.ecdh.CreateSharedSecret (w.now + 2) p2 = .ok dss →
      (Event.initLicense :: .clearContainer .decoder :: .clearContainer .encoder ::
        .createSharedSecret .decoder p2 :: .createSharedSecret .encoder p1 ::
        .httpPost "https://dev-echo.eclypses.com/api/handshake"
          [("x-client-id", clientId), ("Content-Type", "application/json")] payload ::
        .getPublicKey .decoder :: .getPublicKey .encoder :: .handshake clientId :: w.trace)
        <:+ (MultipleClients.PerformHandshakeWithServer env num clientId w).2.trace) :=
  ⟨EcdhHandshake.cleared_when_derived_ecdh env clientId w pkE pkD payload d hE hD hM,
    FileUpload.cleared_when_derived_upload env clientId w pkE pkD payload d hE hD hM,
    MteSwitching.cleared_when_derived_switching env clientId w pkE pkD payload d hE hD hM,
    MultipleClients.cleared_when_derived_multi env num clientId w pkE pkD payload d hE hD hM,
    fun b p1 p2 ess dss hr hS hk1 hk2 hs1 hs2 =>
      EcdhHandshake.clears_follow_secrets_ecdh env clientId w pkE pkD payload b p1 p2 ess dss
        hE hD hM hr hS hk1 hk2 hs1 hs2,
    fun b p1 p2 ess dss hr hS hk1 hk2 hs1 hs2 =>
      FileUpload.clears_follow_secrets_upload env clientId w pkE pkD payload b p1 p2 ess dss
        hE hD hM hr hS hk1 hk2 hs1 hs2,
    fun b p1 p2 ess dss hr hS hk1 hk2 hs1 hs2 =>
      MteSwitching.clears_follow_secrets_switching env clientId w pkE pkD payload b p1 p2 ess dss
        hE hD hM hr hS hk1 hk2 hs1 hs2,
    fun b p1 p2 ess dss hr hS hk1 hk2 hs1 hs2 =>
      MultipleClients.clears_follow_secrets_multi env num clientId w pkE pkD payload b p1 p2 ess
        dss hE hD hM hr hS hk1 hk2 hs1 hs2⟩

set_option maxRecDepth 8000 in
/-- C12 (amended) at two concrete inputs, for client `"c1"`: a handshake that succeeds,
where both contexts are cleared, directly after the second shared secret and, in the
multi-client program, before the licence check; and a handshake whose answer carries an
empty decoder key from which no secret is derived, where none is. -/
theorem key_material_cleared_witness :
    (Demo.env {}).ecdh.GetPublicKey (({} : World).now + 1) = .ok [1] ∧
    (Demo.env {}).ecdh.GetPublicKey (({} : World).now + 2) = .ok [2] ∧
    secretsDerived (Demo.env {}) 1 2 (.body "ok") = true ∧
    secretsDerived (Demo.envStrict { reply := "shortkey" }) 1 2 (.body "shortkey") = false ∧
    (EcdhHandshake.PerformHandshakeWithServer (Demo.env {}) "c1" {}).2.cleared .encoder = 1 ∧
    (MultipleClients.PerformHandshakeWithServer (Demo.env {}) 1 "c1" {}).2.cleared .decoder = 1 ∧
    (EcdhHandshake.PerformHandshakeWithServer (Demo.envStrict { reply := "shortkey" }) "c1"
      {}).1.2 = (110, some "invalid public key") ∧
    (EcdhHandshake.PerformHandshakeWithServer (Demo.envStrict { reply := "shortkey" }) "c1"
      {}).2.cleared .encoder = 0 ∧
    (FileUpload.PerformHandshakeWithServer (Demo.envStrict { reply := "shortkey" }) "c1"
      {}).world.cleared .decoder = 0 ∧
    EcdhHandshake.PerformHandshakeWithServer (Demo.env {}) "c1" {}
      = (({ encoderSharedSecret := "\x01SE", decoderSharedSecret := "\x02SD" }, 0, none),
          { trace := [.clearContainer .decoder, .clearContainer .encoder,
              .createSharedSecret .decoder [83, 68], .createSharedSecret .encoder [83, 69],
              .httpPost "https://dev-echo.eclypses.com/api/handshake"
                [("Content-Type", "application/json")] "c1|\x01|\x02",
              .getPublicKey .decoder, .getPublicKey .encoder, .handshake "c1"] }) ∧
    [Event.initLicense, .clearContainer .decoder, .clearContainer .encoder,
      .createSharedSecret .decoder [83, 68], .createSharedSecret .encoder [83, 69],
      .httpPost "https://dev-echo.eclypses.com/api/handshake"
        [("x-client-id", "c1"), ("Content-Type", "application/json")] "c1|\x01|\x02",
      .getPublicKey .decoder, .getPublicKey .encoder, .handshake "c1"]
      <:+ (MultipleClients.PerformHandshakeWithServer (Demo.env {}) 1 "c1" {}).2.trace ∧
    (MultipleClients.PerformHandshakeWithServer (Demo.env {}) 1 "c1" {}).2.trace.drop 10
      = [.initLicense, .clearContainer .decoder, .clearContainer .encoder,
          .createSharedSecret .decoder [83, 68], .createSharedSecret .encoder [83, 69],
          .httpPost "https://dev-echo.eclypses.com/api/handshake"
            [("x-client-id", "c1"), ("Content-Type", "application/json")] "c1|\x01|\x02",
          .getPublicKey .decoder, .getPublicKey .encoder, .handshake "c1"] :=
  ⟨rfl, rfl, by decide, by decide,
    (key_material_cleared (Demo.env {}) 1 "c1" {} [1] [2] "c1|\x01|\x02" .encoder
      rfl rfl rfl).1,
    (key_material_cleared (Demo.env {}) 1 "c1" {} [1] [2] "c1|\x01|\x02" .decoder
      rfl rfl rfl).2.2.2.1,
    by decide,
    (key_material_cleared (Demo.envStrict { reply := "shortkey" }) 1 "c1" {} [1] [2]
      "c1|\x01|\x02" .encoder rfl rfl rfl).1,
    (key_material_cleared (Demo.envStrict { reply := "shortkey" }) 1 "c1" {} [1] [2]
      "c1|\x01|\x02" .decoder rfl rfl rfl).2.1,
    (key_material_cleared (Demo.env {}) 1 "c1" {} [1] [2] "c1|\x01|\x02" .encoder
      rfl rfl rfl).2.2.2.2.1 "ok" [83, 69] [83, 68] [1, 83, 69] [2, 83, 68]
      rfl rfl rfl rfl rfl rfl,
    (key_material_cleared (Demo.env {}) 1 "c1" {} [1] [2] "c1|\x01|\x02" .encoder
      rfl rfl rfl).2.2.2.2.2.2.2 "ok" [83, 69] [83, 68] [1, 83, 69] [2, 83, 68]
      rfl rfl rfl rfl rfl rfl,
    by decide⟩

/-! ## The bytes the upload producer writes -/

theorem World.pipeBytes_emit (w : World) (e : Event) :
    (w.emit e).pipeBytes = w.pipeBytes + e.pipeBytes := by
  simp [World.pipeBytes, World.emit, Nat.add_comm]

theorem World.pipeBytes_update (r : Int) (m : Nat) (e d a : String)
    (sc : List (String × Bytes)) (w : World) :
    (World.mk r m e d a sc w.trace).pipeBytes = w.pipeBytes := rfl

namespace FileUpload

variable {σ : Type}

theorem MakeHttpCall_pipeBytes_upload (env : Env σ) (route method clientId contentType payload : String)
    (w : World) :
    (MakeHttpCall env route method clientId contentType payload w).2.pipeBytes = w.pipeBytes := by
  unfold MakeHttpCall
  simp only []
  split
  · split <;> simp [World.pipeBytes_emit, Event.pipeBytes]
  · split
    · split <;> simp [World.pipeBytes_emit, Event.pipeBytes]
    · rfl

theorem CreateMteEncoder_pipeBytes_upload (env : Env σ) (ts cid : String) (ent : Bytes) (w : World) :
    (CreateMteEncoder env ts cid ent w).world.pipeBytes = w.pipeBytes := by
  unfold CreateMteEncoder
  simp only []
  split
  · simp [Run.world_done, Run.world_panic, World.pipeBytes_emit, Event.pipeBytes]
  · split
    · simp [Run.world_done, Run.world_panic, World.pipeBytes_emit, Event.pipeBytes]
    · split <;> simp [Run.world_done, Run.world_panic, World.pipeBytes, World.emit, Event.pipeBytes]

theorem CreateMteDecoder_pipeBytes_upload (env : Env σ) (ts cid : String) (ent : Bytes) (w : World) :
    (CreateMteDecoder env ts cid ent w).world.pipeBytes = w.pipeBytes := by
  unfold CreateMteDecoder
  simp only []
  split
  · simp [Run.world_done, Run.world_panic, World.pipeBytes_emit, Event.pipeBytes]
  · split <;> simp [Run.world_done, Run.world_panic, World.pipeBytes, World.emit, Event.pipeBytes]

/-- A handshake writes nothing into the request pipe. -/
theorem PerformHandshakeWithServer_pipeBytes_upload (env : Env σ) (cid : String) (w : World) :
    (PerformHandshakeWithServer env cid w).world.pipeBytes = w.pipeBytes := by
  have hH := fun a b c' d e w => MakeHttpCall_pipeBytes_upload env a b c' d e w
  have hE := fun ts ent w => CreateMteEncoder_pipeBytes_upload env ts cid ent w
  have hD := fun ts ent w => CreateMteDecoder_pipeBytes_upload env ts cid ent w
  unfold PerformHandshakeWithServer
  simp only []
  repeat' split
  all_goals
    try (have h := congrArg Prod.snd ‹MakeHttpCall env _ _ _ _ _ _ = _›; simp only [] at h; subst h)
  all_goals
    try (have h := congrArg Run.world ‹CreateMteEncoder env _ _ _ _ = _›
         simp only [Run.world_done, Run.world_panic] at h; subst h)
  all_goals
    try (have h := congrArg Run.world ‹CreateMteDecoder env _ _ _ _ = _›
         simp only [Run.world_done, Run.world_panic] at h; subst h)
  all_goals simp [Run.world_done, Run.world_panic, World.pipeBytes_emit, Event.pipeBytes, hH, hE, hD]

/-- The reseed check of the producer writes nothing into the request pipe. -/
theorem encoderReseedCheck_pipeBytes (env : Env σ) (clientId : String) (encoder : σ) (w : World) :
    (encoderReseedCheck env clientId encoder w).world.pipeBytes = w.pipeBytes := by
  unfold encoderReseedCheck
  simp only []
  split
  · rw [Run.world_void, PerformHandshakeWithServer_pipeBytes_upload]
    simp [World.pipeBytes_update, World.pipeBytes_emit, Event.pipeBytes]
  · simp [Run.world_done, World.pipeBytes, World.emit, Event.pipeBytes]

/-- At the end of the file the producer writes the bytes `FinishEncrypt` returned. -/
theorem producerAtEOF_pipeBytes (env : Env σ) (clientId : String) (encoder : σ) (w : World) :
    (producerAtEOF env clientId encoder w).world.pipeBytes
      = w.pipeBytes + sliceLen (env.mte.FinishEncrypt .MkeEncDef encoder).1.1 := by
  unfold producerAtEOF
  simp only []
  rw [encoderReseedCheck_pipeBytes]
  cases (env.mte.FinishEncrypt .MkeEncDef encoder).1.1 <;>
    simp [World.pipeBytes_emit, Event.pipeBytes, sliceLen]

/-- The producer writes as many bytes as it read, then the bytes `FinishEncrypt`
returned. -/
theorem producerLoop_pipeBytes (env : Env σ) (clientId : String) (rest : List ReadResult) :
    ∀ (chunks : List Bytes) (encoder encoder' : σ) (w : World),
      encryptsInPlace env chunks encoder = some encoder' →
      (producerLoop env clientId (chunks.map .data ++ .eof :: rest) encoder w).world.pipeBytes
        = w.pipeBytes + (chunks.map List.length).sum
          + sliceLen (env.mte.FinishEncrypt .MkeEncDef encoder').1.1 := by
  intro chunks
  induction chunks with
  | nil =>
    intro encoder encoder' w h
    simp only [encryptsInPlace, Option.some.injEq] at h
    subst h
    simp [producerLoop, producerAtEOF_pipeBytes]
  | cons b tail ih =>
    intro encoder encoder' w h
    simp only [encryptsInPlace] at h
    split at h
    · rename_i hok
      simp only [List.map_cons, List.cons_append, producerLoop, hok.1, ne_eq, not_true_eq_false,
        if_false]
      refine Eq.trans (ih _ _ _ h) ?_
      simp [World.pipeBytes_emit, Event.pipeBytes, hok.2]
      omega
    · cases h

/-- C13: in the file-upload program, for every file read as a sequence of chunks whose
sizes sum to the file size and then the end of the file, if every `EncryptChunk`
reports success and leaves a buffer of the length it was given, and `FinishEncrypt`
returns exactly `EncryptFinishBytes()` bytes (as reported by the encoder before the
first chunk), then the number of bytes the producer writes into the pipe is the
declared `req.ContentLength`, the file size plus `EncryptFinishBytes()`. -/
theorem content_length_matches (env : Env σ) (clientId : String) (chunks : List Bytes)
    (rest : List ReadResult) (fileSize : Nat) (encoder encoder' : σ) (w : World)
    (hSize : (chunks.map List.length).sum = fileSize)
    (hChunks : encryptsInPlace env chunks encoder = some encoder')
    (hFinish : sliceLen (env.mte.FinishEncrypt .MkeEncDef encoder').1.1
      = env.mte.EncryptFinishBytes .MkeEncDef encoder) :
    (producerLoop env clientId (chunks.map .data ++ .eof :: rest) encoder w).world.pipeBytes
      = w.pipeBytes + contentLength env fileSize encoder := by
  rw [producerLoop_pipeBytes env clientId rest chunks encoder encoder' w hChunks, hFinish,
    hSize, contentLength, Nat.add_assoc]

set_option maxRecDepth 8000 in
/-- C13 at a concrete input: a file of five bytes read as three bytes, then two, then
the end of the file; the stand-in engine declares one trailing byte.  Six bytes are
written into the pipe. -/
theorem content_length_matches_witness :
    encryptsInPlace (Demo.env {}) [[1, 2, 3], [4, 5]]
        { instantiated := true, seed := 5, counter := 0 }
      = some { instantiated := true, seed := 5, counter := 0 } ∧
    contentLength (Demo.env {}) 5 { instantiated := true, seed := 5, counter := 0 } = 6 ∧
    (producerLoop (Demo.env {}) "c1" [.data [1, 2, 3], .data [4, 5], .eof]
        { instantiated := true, seed := 5, counter := 0 } { maxSeed := 10 }).world.pipeBytes
      = ({ maxSeed := 10 } : World).pipeBytes
        + contentLength (Demo.env {}) 5 { instantiated := true, seed := 5, counter := 0 } :=
  ⟨by decide, by decide,
    content_length_matches (Demo.env {}) "c1" [[1, 2, 3], [4, 5]] [] 5
      { instantiated := true, seed := 5, counter := 0 }
      { instantiated := true, seed := 5, counter := 0 } { maxSeed := 10 }
      (by decide) (by decide) (by decide)⟩

end FileUpload
/-! ## The chunked runs of the chunking demo -/

theorem World.fileContent_emit (w : World) (e : Event) (name : String) :
    (w.emit e).fileContent name = w.fileContent name ++ e.written name := rfl

theorem World.encryptedChunks_emit_chunk (w : World) (buf : Bytes) :
    (w.emit (.encryptChunk buf)).encryptedChunks = w.encryptedChunks ++ [buf] := rfl

theorem World.encryptedChunks_emit_fileWrite (w : World) (name : String) (data : Bytes) :
    (w.emit (.fileWrite name data)).encryptedChunks = w.encryptedChunks := rfl

/-- The chunks of a content are its consecutive pieces. -/
theorem chunksOf_flatten (size : Nat) (hsize : 0 < size) :
    ∀ (fuel : Nat) (content : Bytes), content.length ≤ fuel →
      (chunksOf size fuel content).flatten = content := by
  intro fuel
  induction fuel with
  | zero =>
    intro content h
    have : content = [] := List.length_eq_zero.mp (Nat.le_zero.mp h)
    simp [chunksOf, this]
  | succ n ih =>
    intro content h
    unfold chunksOf
    split
    · rename_i hc
      simp [hc]
    · rename_i hc
      have hpos : 0 < content.length := List.length_pos.mpr hc
      have hlen : (content.drop size).length ≤ n := by
        rw [List.length_drop]
        omega
      rw [List.flatten_cons, ih _ hlen, List.take_append_drop]

/-- Every chunk holds at least one byte and at most `size` bytes. -/
theorem chunksOf_length (size : Nat) (hsize : 0 < size) :
    ∀ (fuel : Nat) (content : Bytes), ∀ c ∈ chunksOf size fuel content,
      0 < c.length ∧ c.length ≤ size := by
  intro fuel
  induction fuel with
  | zero =>
    intro content c hc
    simp [chunksOf] at hc
  | succ n ih =>
    intro content c hc
    unfold chunksOf at hc
    split at hc
    · simp at hc
    · rename_i hne
      have hpos : 0 < content.length := List.length_pos.mpr hne
      rcases List.mem_cons.mp hc with h | h
      · subst h
        rw [List.length_take]
        omega
      · exact ih _ c h

/-- Every chunk but the last holds `size` bytes. -/
theorem chunksOf_full (size : Nat) :
    ∀ (fuel : Nat) (content : Bytes), ∀ c ∈ (chunksOf size fuel content).dropLast,
      c.length = size := by
  intro fuel
  induction fuel with
  | zero =>
    intro content c hc
    simp [chunksOf] at hc
  | succ n ih =>
    intro content c hc
    unfold chunksOf at hc
    split at hc
    · simp at hc
    · by_cases hrest : chunksOf size n (content.drop size) = []
      · simp [hrest] at hc
      · rw [List.dropLast_cons_of_ne_nil hrest] at hc
        rcases List.mem_cons.mp hc with h | h
        · subst h
          rw [List.length_take]
          have : 0 < (content.drop size).length := by
            cases n with
            | zero => simp [chunksOf] at hrest
            | succ m =>
              unfold chunksOf at hrest
              split at hrest
              · exact absurd rfl hrest
              · rename_i hd
                exact List.length_pos.mpr hd
          rw [List.length_drop] at this
          omega
        · exact ih _ c h

namespace TestChunker

variable {σ : Type}

/-- The loop hands every chunk read to `EncryptChunk` and writes the buffer to the
encoded file, as long as the calls report success. -/
theorem encryptLoop_all (env : Env σ) (fPath name : String) (rest : List ReadResult) :
    ∀ (chunks : List Bytes) (encoder encoder' : σ) (out : Bytes) (w : World),
      (∀ c ∈ chunks, 0 < c.length) →
      encryptAll env chunks encoder = some (out, encoder') →
      (encryptLoop env fPath name (chunks.map .data ++ .eof :: rest) encoder w).1 = encoder' ∧
      (encryptLoop env fPath name (chunks.map .data ++ .eof :: rest) encoder w).2.encryptedChunks
        = w.encryptedChunks ++ chunks ∧
      (encryptLoop env fPath name (chunks.map .data ++ .eof :: rest) encoder w).2.fileContent name
        = w.fileContent name ++ out ∧
      (encryptLoop env fPath name (chunks.map .data ++ .eof :: rest) encoder w).2.trace.count
        .startEncrypt = w.trace.count .startEncrypt := by
  intro chunks
  induction chunks with
  | nil =>
    intro encoder encoder' out w _ h
    simp only [encryptAll, Option.some.injEq, Prod.mk.injEq] at h
    obtain ⟨rfl, rfl⟩ := h
    simp [encryptLoop]
  | cons b tail ih =>
    intro encoder encoder' out w hpos h
    have hb : ¬ b.length = 0 := Nat.pos_iff_ne_zero.mp (hpos b (List.mem_cons_self _ _))
    simp only [encryptAll] at h
    split at h
    · rename_i hok
      cases hrest : encryptAll env tail (env.mte.EncryptChunk .MkeEncDef b encoder).2 with
      | none => simp [hrest] at h
      | some p =>
        obtain ⟨out', enc'⟩ := p
        simp only [hrest, Option.map_some', Option.some.injEq, Prod.mk.injEq] at h
        obtain ⟨rfl, rfl⟩ := h
        have hi := ih (env.mte.EncryptChunk .MkeEncDef b encoder).2 enc' out'
          ((w.emit (.encryptChunk b)).emit
            (.fileWrite name (env.mte.EncryptChunk .MkeEncDef b encoder).1.1))
          (fun c hc => hpos c (List.mem_cons_of_mem _ hc)) hrest
        simp only [List.map_cons, List.cons_append, encryptLoop, hb, hok, ne_eq,
          not_true_eq_false, if_false]
        refine ⟨hi.1, hi.2.1.trans ?_, hi.2.2.1.trans ?_, hi.2.2.2.trans ?_⟩
        · simp [World.encryptedChunks_emit_chunk, World.encryptedChunks_emit_fileWrite]
        · simp [World.fileContent_emit, Event.written]
        · simp [World.emit]
    · cases h

end TestChunker

namespace TestChunker

variable {σ : Type}

set_option maxRecDepth 100000 in
/-- C14 as written fails: a content of 1025 bytes, the byte 255 followed by 1024 zero
bytes, read in a full buffer of 1024 bytes and a last buffer of one byte.
`EncryptChunk` reports a failure on the first buffer, whose first byte is 255.  The
loop is left: the first buffer is the only one passed to `EncryptChunk`, nothing of the
content is written, and the destination file holds the trailing byte of
`FinishEncrypt` only, although the run ends with the message that reports the file as
created. -/
theorem chunk_framing_counterexample :
    chunksOf bufferSize 1025 (255 :: List.replicate 1024 0)
      = [255 :: List.replicate 1023 0, [0]] ∧
    ((Demo.env {}).mte.EncryptChunk .MkeEncDef (255 :: List.replicate 1023 0)
      { instantiated := true, seed := 5, counter := 0 }).1.2 = 3 ∧
    (encodeFile (Demo.env {}) "in.txt" "encodedFile.txt"
      ((chunksOf bufferSize 1025 (255 :: List.replicate 1024 0)).map .data ++ [.eof])
      { instantiated := true, seed := 5, counter := 0 } {}).2.encryptedChunks
      = [255 :: List.replicate 1023 0] ∧
    (encodeFile (Demo.env {}) "in.txt" "encodedFile.txt"
      ((chunksOf bufferSize 1025 (255 :: List.replicate 1024 0)).map .data ++ [.eof])
      { instantiated := true, seed := 5, counter := 0 } {}).2.fileContent "encodedFile.txt"
      = [0] ∧
    (encodeFile (Demo.env {}) "in.txt" "encodedFile.txt"
      ((chunksOf bufferSize 1025 (255 :: List.replicate 1024 0)).map .data ++ [.eof])
      { instantiated := true, seed := 5, counter := 0 } {}).2.trace.head?
      = some (.print "Finished creating encodedFile.txt file\n") := by
  decide

/-- C14 (amended): in the chunking demo, for every input content read in full buffers
of 1024 bytes except possibly the last, if `StartEncrypt` and every `EncryptChunk`
report success, then `StartEncrypt` is called once, the buffers passed to
`EncryptChunk` are, in order, the consecutive chunks of the content (each holds at
least one and at most 1024 bytes, all but the last hold 1024, and their concatenation
is the content), and what is written to the destination file is the concatenation of
the buffers after the calls followed by the trailing bytes of `FinishEncrypt` when
these are not `nil`. -/
theorem chunk_framing (env : Env σ) (fPath name : String) (content : Bytes)
    (rest : List ReadResult) (encoder encoder' : σ) (out : Bytes) (w : World)
    (hStart : (env.mte.StartEncrypt .MkeEncDef encoder).1 = statusSuccess)
    (hAll : encryptAll env (chunksOf bufferSize content.length content)
      (env.mte.StartEncrypt .MkeEncDef encoder).2 = some (out, encoder')) :
    (encodeFile env fPath name
        ((chunksOf bufferSize content.length content).map .data ++ .eof :: rest)
        encoder w).2.trace.count .startEncrypt = w.trace.count .startEncrypt + 1 ∧
    (encodeFile env fPath name
        ((chunksOf bufferSize content.length content).map .data ++ .eof :: rest)
        encoder w).2.encryptedChunks
      = w.encryptedChunks ++ chunksOf bufferSize content.length content ∧
    (chunksOf bufferSize content.length content).flatten = content ∧
    (∀ c ∈ chunksOf bufferSize content.length content, 0 < c.length ∧ c.length ≤ 1024) ∧
    (∀ c ∈ (chunksOf bufferSize content.length content).dropLast, c.length = 1024) ∧
    (encodeFile env fPath name
        ((chunksOf bufferSize content.length content).map .data ++ .eof :: rest)
        encoder w).2.fileContent name
      = w.fileContent name ++ out
        ++ ((env.mte.FinishEncrypt .MkeEncDef encoder').1.1).getD [] := by
  have hlen := chunksOf_length bufferSize (by decide) content.length content
  obtain ⟨h1, h2, h3, h4⟩ := encryptLoop_all env fPath name rest
    (chunksOf bufferSize content.length content) (env.mte.StartEncrypt .MkeEncDef encoder).2
    encoder' out (w.emit .startEncrypt) (fun c hc => (hlen c hc).1) hAll
  refine ⟨?_, ?_, chunksOf_flatten bufferSize (by decide) _ _ (Nat.le_refl _), hlen,
    chunksOf_full bufferSize _ _, ?_⟩
  · simp only [encodeFile, hStart, ne_eq, not_true_eq_false, if_false]
    cases hf : (env.mte.FinishEncrypt .MkeEncDef
        (encryptLoop env fPath name
          ((chunksOf bufferSize content.length content).map .data ++ .eof :: rest)
          (env.mte.StartEncrypt .MkeEncDef encoder).2 (w.emit .startEncrypt)).1).1.1 <;>
      simp [World.emit] at h4 ⊢ <;> simp [h4]
  · simp only [encodeFile, hStart, ne_eq, not_true_eq_false, if_false]
    cases hf : (env.mte.FinishEncrypt .MkeEncDef
        (encryptLoop env fPath name
          ((chunksOf bufferSize content.length content).map .data ++ .eof :: rest)
          (env.mte.StartEncrypt .MkeEncDef encoder).2 (w.emit .startEncrypt)).1).1.1 <;>
      simp only [World.emit] at h2 ⊢ <;> simpa [World.encryptedChunks] using h2
  · simp only [encodeFile, hStart, ne_eq, not_true_eq_false, if_false]
    rw [h1]
    cases hf : (env.mte.FinishEncrypt .MkeEncDef encoder').1.1 <;>
      simp [World.fileContent_emit, Event.written, h3]

set_option maxRecDepth 8000 in
/-- C14 (amended) at a concrete input: the content `[1, 2, 3]`, read in one buffer.  The
stand-in engine adds one to every byte and ends the run with the byte 0. -/
theorem chunk_framing_witness :
    ((Demo.env {}).mte.StartEncrypt .MkeEncDef
      { instantiated := true, seed := 5, counter := 0 }).1 = statusSuccess ∧
    (encodeFile (Demo.env {}) "in.txt" "encodedFile.txt"
        ((chunksOf bufferSize 3 [1, 2, 3]).map .data ++ [.eof])
        { instantiated := true, seed := 5, counter := 0 } {}).2.encryptedChunks = [[1, 2, 3]] ∧
    (encodeFile (Demo.env {}) "in.txt" "encodedFile.txt"
        ((chunksOf bufferSize 3 [1, 2, 3]).map .data ++ [.eof])
        { instantiated := true, seed := 5, counter := 0 } {}).2.fileContent "encodedFile.txt"
      = [2, 3, 4, 0] :=
  ⟨rfl,
    (chunk_framing (Demo.env {}) "in.txt" "encodedFile.txt" [1, 2, 3] []
      { instantiated := true, seed := 5, counter := 0 }
      { instantiated := true, seed := 5, counter := 0 } [2, 3, 4] {} rfl (by decide)).2.1,
    (chunk_framing (Demo.env {}) "in.txt" "encodedFile.txt" [1, 2, 3] []
      { instantiated := true, seed := 5, counter := 0 }
      { instantiated := true, seed := 5, counter := 0 } [2, 3, 4] {} rfl
      (by decide)).2.2.2.2.2⟩

end TestChunker

namespace TestChunker

set_option maxRecDepth 8000 in
/-- C15 at a failing input: an encoded file of two bytes, read in one buffer, on which
`DecryptChunk` returns `nil`, and an engine whose `FinishDecrypt` then returns the
trailing byte 7 with the success status.  After the failure the byte 7 is written to
the decoded file, the message that reports the decoded file as created is printed, and
`retcode` stays 0. -/
theorem decode_failure_still_finishes :
    ((Demo.envPicky {}).mte.DecryptChunk .MkeDecDef [255, 1]
      { instantiated := true, seed := 5, counter := 0 }).1 = none ∧
    (decodeFile (Demo.envPicky {}) "encodedFile.txt" "decodedFile.txt" [.data [255, 1], .eof]
      { instantiated := true, seed := 5, counter := 0 } {}).trace
      = [.print "Finished creating decodedFile.txt file\n", .fileWrite "decodedFile.txt" [7],
         .finishDecrypt, .decryptChunk [255, 1], .startDecrypt] ∧
    (decodeFile (Demo.envPicky {}) "encodedFile.txt" "decodedFile.txt" [.data [255, 1], .eof]
      { instantiated := true, seed := 5, counter := 0 } {}).fileContent "decodedFile.txt" = [7] ∧
    (decodeFile (Demo.envPicky {}) "encodedFile.txt" "decodedFile.txt" [.data [255, 1], .eof]
      { instantiated := true, seed := 5, counter := 0 } {}).retcode = 0 := by
  decide

end TestChunker

/-! ## Store accesses of a cycle -/

theorem World.accesses_emit (w : World) (e : Event) (k : String) :
    (w.emit e).accesses k = w.accesses k + (if e.cacheKey = some k then 1 else 0) := by
  cases h : e.cacheKey with
  | none => simp [World.accesses, World.cacheKeys, World.emit, List.filterMap_cons, h]
  | some key =>
    by_cases hk : key = k
    · simp [World.accesses, World.cacheKeys, World.emit, List.filterMap_cons, h, hk]
    · simp [World.accesses, World.cacheKeys, World.emit, List.filterMap_cons, h, hk,
        List.count_cons]

theorem World.accesses_update (r : Int) (m : Nat) (e d a : String)
    (sc : List (String × Bytes)) (w : World) (k : String) :
    (World.mk r m e d a sc w.trace).accesses k = w.accesses k := rfl

theorem World.accesses_cacheSet (w : World) (key : String) (v : Bytes) (k : String) :
    (w.cacheSet key v).accesses k = w.accesses k + (if key = k then 1 else 0) := by
  have := World.accesses_emit w (.cacheSet key v) k
  simpa [Event.cacheKey] using this

theorem World.accesses_cacheDel (w : World) (key : String) (k : String) :
    (w.cacheDel key).accesses k = w.accesses k + (if key = k then 1 else 0) := by
  have := World.accesses_emit w (.cacheDel key) k
  simpa [Event.cacheKey] using this

theorem World.stateCache_emit (w : World) (e : Event) : (w.emit e).stateCache = w.stateCache := rfl

namespace MultipleClients

variable {σ : Type}

theorem LoopExit.world_returned (w : World) : (LoopExit.returned w : LoopExit σ).world = w := rfl

theorem LoopExit.world_finished (encoder decoder : σ) (w : World) :
    (LoopExit.finished encoder decoder w).world = w := rfl

theorem MakeHttpCall_accesses (env : Env σ) (route method clientId contentType payload : String)
    (w : World) (k : String) :
    (MakeHttpCall env route method clientId contentType payload w).2.accesses k = w.accesses k := by
  unfold MakeHttpCall
  simp only []
  split
  · split <;> simp [World.accesses_emit, Event.cacheKey]
  · split
    · split <;> simp [World.accesses_emit, Event.cacheKey]
    · rfl

theorem MakeHttpCall_store (env : Env σ) (route method clientId contentType payload : String)
    (w : World) :
    (MakeHttpCall env route method clientId contentType payload w).2.stateCache = w.stateCache := by
  unfold MakeHttpCall
  simp only []
  split
  · split <;> rfl
  · split
    · split <;> rfl
    · rfl

theorem CreateMteEncoder_isolated (env : Env σ) (ts cid : String) (ent : Bytes) (w : World)
    (k : String) (hk : k ≠ encPrefix ++ cid) :
    (CreateMteEncoder env ts cid ent w).2.accesses k = w.accesses k ∧
    cacheLookup k (CreateMteEncoder env ts cid ent w).2.stateCache
      = cacheLookup k w.stateCache := by
  have hk' : ¬ encPrefix ++ cid = k := fun h => hk h.symm
  unfold CreateMteEncoder
  simp only []
  repeat' split
  all_goals
    try (have h := congrArg Prod.snd ‹sealState env _ _ = _›
         simp only [sealState_world_multi] at h; subst h)
  all_goals
    refine ⟨by simp [World.accesses_emit, World.accesses_update, World.accesses_cacheSet,
        Event.cacheKey, hk'],
      by simp [World.cacheSet, World.emit, cacheLookup_cacheInsert_ne _ _ hk]⟩

theorem CreateMteDecoder_isolated (env : Env σ) (ts cid : String) (ent : Bytes) (w : World)
    (k : String) (hk : k ≠ decPrefix ++ cid) :
    (CreateMteDecoder env ts cid ent w).2.accesses k = w.accesses k ∧
    cacheLookup k (CreateMteDecoder env ts cid ent w).2.stateCache
      = cacheLookup k w.stateCache := by
  have hk' : ¬ decPrefix ++ cid = k := fun h => hk h.symm
  unfold CreateMteDecoder
  simp only []
  repeat' split
  all_goals
    try (have h := congrArg Prod.snd ‹sealState env _ _ = _›
         simp only [sealState_world_multi] at h; subst h)
  all_goals
    refine ⟨by simp [World.accesses_emit, World.accesses_update, World.accesses_cacheSet,
        Event.cacheKey, hk'],
      by simp [World.cacheSet, World.emit, cacheLookup_cacheInsert_ne _ _ hk]⟩

/-- A handshake accesses no key of the store but the two keys of its client, and
leaves the entries under the other keys as they were. -/
theorem PerformHandshakeWithServer_isolated (env : Env σ) (num : Int) (cid : String) (w : World)
    (k : String) (hk1 : k ≠ encPrefix ++ cid) (hk2 : k ≠ decPrefix ++ cid) :
    (PerformHandshakeWithServer env num cid w).2.accesses k = w.accesses k ∧
    cacheLookup k (PerformHandshakeWithServer env num cid w).2.stateCache
      = cacheLookup k w.stateCache := by
  have hH := fun a b c' d e w => MakeHttpCall_accesses env a b c' d e w k
  have hH' := fun a b c' d e w => MakeHttpCall_store env a b c' d e w
  have hE := fun ts ent w => (CreateMteEncoder_isolated env ts cid ent w k hk1).1
  have hE' := fun ts ent w => (CreateMteEncoder_isolated env ts cid ent w k hk1).2
  have hD := fun ts ent w => (CreateMteDecoder_isolated env ts cid ent w k hk2).1
  have hD' := fun ts ent w => (CreateMteDecoder_isolated env ts cid ent w k hk2).2
  unfold PerformHandshakeWithServer
  simp only []
  repeat' split
  all_goals
    try (have h := congrArg Prod.snd ‹MakeHttpCall env _ _ _ _ _ _ = _›; simp only [] at h; subst h)
  all_goals
    try (have h := congrArg Prod.snd ‹CreateMteEncoder env _ _ _ _ = _›; simp only [] at h; subst h)
  all_goals
    try (have h := congrArg Prod.snd ‹CreateMteDecoder env _ _ _ _ = _›; simp only [] at h; subst h)
  all_goals
    refine ⟨by simp [World.accesses_emit, World.accesses_update, Event.cacheKey, hH, hE, hD],
      by simp [World.stateCache_emit, hH', hE', hD']⟩

theorem reseedCheck_isolated (env : Env σ) (i : Nat) (cid : String) (encoder : σ) (w : World)
    (k : String) (hk1 : k ≠ encPrefix ++ cid) (hk2 : k ≠ decPrefix ++ cid) :
    (reseedCheck env i cid encoder w).2.accesses k = w.accesses k ∧
    cacheLookup k (reseedCheck env i cid encoder w).2.stateCache
      = cacheLookup k w.stateCache := by
  unfold reseedCheck
  simp only []
  split
  · have h := PerformHandshakeWithServer_isolated env i cid
      { (w.emit (.uninstantiate .EncDef)) with
        retcode := if (env.mte.Uninstantiate .EncDef encoder).1 ≠ statusSuccess
          then ((env.mte.Uninstantiate .EncDef encoder).1 : Int)
          else (w.emit (.uninstantiate .EncDef)).retcode } k hk1 hk2
    constructor
    · refine h.1.trans ?_
      simp [World.accesses_update, World.accesses_emit, Event.cacheKey]
    · exact h.2
  · exact ⟨rfl, rfl⟩

theorem sendLoop_isolated (env : Env σ) (cid : String) (clientNum : Int) (k : String)
    (hk1 : k ≠ encPrefix ++ cid) (hk2 : k ≠ decPrefix ++ cid) :
    ∀ (remaining i : Nat) (encoder decoder : σ) (w : World),
      (sendLoop env cid clientNum remaining i encoder decoder w).world.accesses k = w.accesses k ∧
      cacheLookup k (sendLoop env cid clientNum remaining i encoder decoder w).world.stateCache
        = cacheLookup k w.stateCache := by
  intro remaining
  induction remaining with
  | zero =>
    intro i encoder decoder w
    exact ⟨rfl, rfl⟩
  | succ n ih =>
    intro i encoder decoder w
    have hH := fun a b c' d e w => MakeHttpCall_accesses env a b c' d e w k
    have hH' := fun a b c' d e w => MakeHttpCall_store env a b c' d e w
    unfold sendLoop
    simp only []
    repeat' split
    all_goals
      try (have h := congrArg Prod.snd ‹MakeHttpCall env _ _ _ _ _ _ = _›; simp only [] at h
           subst h)
    all_goals first
      | (constructor
         · simp [LoopExit.world_returned, World.accesses_emit, World.accesses_update,
             Event.cacheKey, hH]
         · simp [LoopExit.world_returned, World.stateCache_emit, hH'])
      | (constructor
         · refine (ih _ _ _ _).1.trans ((reseedCheck_isolated env _ cid _ _ k hk1 hk2).1.trans ?_)
           simp [World.accesses_emit, World.accesses_update, Event.cacheKey, hH]
         · refine (ih _ _ _ _).2.trans ((reseedCheck_isolated env _ cid _ _ k hk1 hk2).2.trans ?_)
           simp [World.stateCache_emit, hH'])

end MultipleClients

/-! ## The get path of a cycle -/

namespace MultipleClients

variable {σ : Type}

theorem fetchState_world (env : Env σ) (key : String) (w : World) :
    (fetchState env key w).2 = w.emit (.cacheGet key) := by
  unfold fetchState
  simp only [World.cacheGet]
  split
  · rfl
  · split <;> rfl

theorem fetchState_value (env : Env σ) (key : String) (w w0 : World)
    (h : w.stateCache = w0.stateCache) :
    (fetchState env key w).1 = (fetchState env key w0).1 := by
  unfold fetchState
  simp only [World.cacheGet, h]
  split
  · rfl
  · split <;> rfl

/-- The get path reads the store only: its value depends on the stored entry, and it
adds the `Get` to the trace. -/
theorem fetchState_of_value (env : Env σ) (key : String) (w w0 : World)
    (v : Except Int Bytes) (hc : w.stateCache = w0.stateCache)
    (hv : (fetchState env key w0).1 = v) :
    fetchState env key w = (v, w.emit (.cacheGet key)) := by
  rw [← hv, ← fetchState_value env key w w0 hc, ← fetchState_world]

/-- The get path fails exactly when the envelope is shorter than the nonce or `Open`
rejects it, and what it returns is what `Open` returned. -/
theorem fetchState_cases (env : Env σ) (key : String) (w : World) :
    (((cacheLookup key w.stateCache).getD []).length < env.gcm.NonceSize →
      (fetchState env key w).1 = .error errorRetrievingState) ∧
    (∀ e, ¬ ((cacheLookup key w.stateCache).getD []).length < env.gcm.NonceSize →
      env.gcm.Open (((cacheLookup key w.stateCache).getD []).take env.gcm.NonceSize)
        (((cacheLookup key w.stateCache).getD []).drop env.gcm.NonceSize) = .error e →
      (fetchState env key w).1 = .error errorDecryptingState) ∧
    (∀ state, (fetchState env key w).1 = .ok state →
      env.gcm.NonceSize ≤ ((cacheLookup key w.stateCache).getD []).length ∧
      env.gcm.Open (((cacheLookup key w.stateCache).getD []).take env.gcm.NonceSize)
        (((cacheLookup key w.stateCache).getD []).drop env.gcm.NonceSize) = .ok state) := by
  refine ⟨fun h => ?_, fun e h1 h2 => ?_, fun state h => ?_⟩
  · simp [fetchState, World.cacheGet, h]
  · simp [fetchState, World.cacheGet, h1, h2]
  · unfold fetchState at h
    simp only [World.cacheGet] at h
    split at h
    · cases h
    · rename_i hlen
      split at h
      · cases h
      · rename_i s hopen
        simp only [Except.ok.injEq] at h
        subst h
        exact ⟨Nat.le_of_not_lt hlen, hopen⟩

/-- A cycle whose encoder state cannot be fetched ends with the code of the get path,
having made the encoder object and read the store. -/
theorem cycle_encoder_fetch_fails (env : Env σ) (clientId : String) (clientNum : Int) (w : World)
    (code : Int) (h : (fetchState env (encPrefix ++ clientId) w).1 = .error code) :
    SendMultiToServer env clientId clientNum w
      = { w with retcode := code
                 trace := (Event.wgDone :: .cacheGet (encPrefix ++ clientId) :: .mteNew .EncDef ::
                   w.trace) } := by
  have h1 : fetchState env (encPrefix ++ clientId) (w.emit (.mteNew .EncDef))
      = (.error code, (w.emit (.mteNew .EncDef)).emit (.cacheGet (encPrefix ++ clientId))) := by
    exact fetchState_of_value env _ _ w _ rfl h
  simp only [SendMultiToServer, sendMultiBody, h1]
  rfl

/-- A cycle whose fetched encoder state the engine does not restore ends with
`errorRestoringState`. -/
theorem cycle_encoder_restore_fails (env : Env σ) (clientId : String) (clientNum : Int) (w : World)
    (state : Bytes) (h : (fetchState env (encPrefix ++ clientId) w).1 = .ok state)
    (hR : (env.mte.RestoreState .EncDef state (env.mte.newObj .EncDef)).1 ≠ statusSuccess) :
    SendMultiToServer env clientId clientNum w
      = { w with retcode := errorRestoringState
                 trace := (Event.wgDone :: .restoreState .EncDef ::
                   .cacheGet (encPrefix ++ clientId) :: .mteNew .EncDef :: w.trace) } := by
  have h1 : fetchState env (encPrefix ++ clientId) (w.emit (.mteNew .EncDef))
      = (.ok state, (w.emit (.mteNew .EncDef)).emit (.cacheGet (encPrefix ++ clientId))) := by
    exact fetchState_of_value env _ _ w _ rfl h
  simp only [SendMultiToServer, sendMultiBody, h1, hR, ne_eq, not_false_eq_true, if_true]
  rfl

/-- A cycle whose decoder state cannot be fetched, after the encoder was restored, ends
with the code of the get path. -/
theorem cycle_decoder_fetch_fails (env : Env σ) (clientId : String) (clientNum : Int) (w : World)
    (state : Bytes) (code : Int)
    (h : (fetchState env (encPrefix ++ clientId) w).1 = .ok state)
    (hR : (env.mte.RestoreState .EncDef state (env.mte.newObj .EncDef)).1 = statusSuccess)
    (hd : (fetchState env (decPrefix ++ clientId) w).1 = .error code) :
    SendMultiToServer env clientId clientNum w
      = { w with retcode := code
                 trace := (Event.wgDone :: .cacheGet (decPrefix ++ clientId) :: .mteNew .DecDef ::
                   .restoreState .EncDef :: .cacheGet (encPrefix ++ clientId) ::
                   .mteNew .EncDef :: w.trace) } := by
  have h1 : fetchState env (encPrefix ++ clientId) (w.emit (.mteNew .EncDef))
      = (.ok state, (w.emit (.mteNew .EncDef)).emit (.cacheGet (encPrefix ++ clientId))) := by
    exact fetchState_of_value env _ _ w _ rfl h
  have h2 := fetchState_of_value env (decPrefix ++ clientId)
    ((((w.emit (.mteNew .EncDef)).emit (.cacheGet (encPrefix ++ clientId))).emit
      (.restoreState .EncDef)).emit (.mteNew .DecDef)) w _ rfl hd
  simp only [SendMultiToServer, sendMultiBody, h1, hR, ne_eq, not_true_eq_false, if_false, h2]
  rfl

/-- A cycle whose fetched decoder state the engine does not restore ends with
`errorRestoringState`. -/
theorem cycle_decoder_restore_fails (env : Env σ) (clientId : String) (clientNum : Int) (w : World)
    (state dstate : Bytes)
    (h : (fetchState env (encPrefix ++ clientId) w).1 = .ok state)
    (hR : (env.mte.RestoreState .EncDef state (env.mte.newObj .EncDef)).1 = statusSuccess)
    (hd : (fetchState env (decPrefix ++ clientId) w).1 = .ok dstate)
    (hRd : (env.mte.RestoreState .DecDef dstate (env.mte.newObj .DecDef)).1 ≠ statusSuccess) :
    SendMultiToServer env clientId clientNum w
      = { w with retcode := errorRestoringState
                 trace := (Event.wgDone :: .restoreState .DecDef ::
                   .cacheGet (decPrefix ++ clientId) :: .mteNew .DecDef ::
                   .restoreState .EncDef :: .cacheGet (encPrefix ++ clientId) ::
                   .mteNew .EncDef :: w.trace) } := by
  have h1 : fetchState env (encPrefix ++ clientId) (w.emit (.mteNew .EncDef))
      = (.ok state, (w.emit (.mteNew .EncDef)).emit (.cacheGet (encPrefix ++ clientId))) := by
    exact fetchState_of_value env _ _ w _ rfl h
  have h2 := fetchState_of_value env (decPrefix ++ clientId)
    ((((w.emit (.mteNew .EncDef)).emit (.cacheGet (encPrefix ++ clientId))).emit
      (.restoreState .EncDef)).emit (.mteNew .DecDef)) w _ rfl hd
  simp only [SendMultiToServer, sendMultiBody, h1, hR, ne_eq, not_true_eq_false, if_false, h2,
    hRd, not_false_eq_true, if_true]
  rfl

end MultipleClients

/-! ## What a cycle saves -/

namespace MultipleClients

variable {σ : Type}

/-- What the get path returns for a key depends on the entry under that key only. -/
theorem fetchState_lookup (env : Env σ) (key : String) (w w0 : World)
    (h : cacheLookup key w.stateCache = cacheLookup key w0.stateCache) :
    (fetchState env key w).1 = (fetchState env key w0).1 := by
  unfold fetchState
  simp only [World.cacheGet, h]
  split
  · rfl
  · split <;> rfl

/-- The reseed check of a round either leaves the world as it is or enters a
handshake for the client. -/
theorem reseedCheck_quiet (env : Env σ) (i : Nat) (cid : String) (encoder : σ) (w : World) :
    w.handshakes cid ≤ (reseedCheck env i cid encoder w).2.handshakes cid ∧
    ((reseedCheck env i cid encoder w).2.handshakes cid = w.handshakes cid →
      (reseedCheck env i cid encoder w).2.stateCache = w.stateCache) := by
  by_cases h : reseedExceeded (env.mte.GetReseedCounter .EncDef encoder) w.maxSeed = true
  · have := reseedCheck_rotates_multi env i cid encoder w h
    exact ⟨by omega, fun h' => by omega⟩
  · rw [reseedCheck_idle_multi env i cid encoder w (by simpa using h)]
    exact ⟨Nat.le_refl _, fun _ => rfl⟩

theorem quiet_trans (cid : String) (a b c : World)
    (h1 : a.handshakes cid ≤ b.handshakes cid ∧
      (b.handshakes cid = a.handshakes cid → b.stateCache = a.stateCache))
    (h2 : b.handshakes cid ≤ c.handshakes cid ∧
      (c.handshakes cid = b.handshakes cid → c.stateCache = b.stateCache)) :
    a.handshakes cid ≤ c.handshakes cid ∧
      (c.handshakes cid = a.handshakes cid → c.stateCache = a.stateCache) := by
  refine ⟨Nat.le_trans h1.1 h2.1, fun h => ?_⟩
  rw [h2.2 (by omega), h1.2 (by omega)]

/-- The message loop writes to the store only through a handshake it enters. -/
theorem sendLoop_quiet (env : Env σ) (cid : String) (clientNum : Int) :
    ∀ (remaining i : Nat) (encoder decoder : σ) (w : World),
      w.handshakes cid
        ≤ (sendLoop env cid clientNum remaining i encoder decoder w).world.handshakes cid ∧
      ((sendLoop env cid clientNum remaining i encoder decoder w).world.handshakes cid
          = w.handshakes cid →
        (sendLoop env cid clientNum remaining i encoder decoder w).world.stateCache
          = w.stateCache) := by
  intro remaining
  induction remaining with
  | zero =>
    intro i encoder decoder w
    exact ⟨Nat.le_refl _, fun _ => rfl⟩
  | succ n ih =>
    intro i encoder decoder w
    have hH := fun a b c' d e w => MakeHttpCall_handshakes_multi env a b c' d e w cid
    have hH' := fun a b c' d e w => MakeHttpCall_store env a b c' d e w
    unfold sendLoop
    simp only []
    split
    · exact ⟨by simp [LoopExit.world_returned, World.handshakes_emit, World.handshakes_update],
        fun _ => rfl⟩
    · split
      all_goals
        have h := congrArg Prod.snd ‹MakeHttpCall env _ _ _ _ _ _ = _›
        simp only [] at h
        subst h
      · exact ⟨by simp [LoopExit.world_returned, World.handshakes_emit, World.handshakes_update, hH],
          fun _ => by simp [LoopExit.world_returned, hH', World.emit]⟩
      · split
        · exact ⟨by simp [LoopExit.world_returned, World.handshakes_emit,
              World.handshakes_update, hH],
            fun _ => by simp [LoopExit.world_returned, hH', World.emit]⟩
        · split
          · exact ⟨by simp [LoopExit.world_returned, World.handshakes_emit,
                World.handshakes_update, hH],
              fun _ => by simp [LoopExit.world_returned, hH', World.emit]⟩
          · refine quiet_trans cid w _ _
              (quiet_trans cid w _ _ ?_ (reseedCheck_quiet env i cid _ _)) (ih _ _ _ _)
            exact ⟨by simp [World.handshakes_emit, hH], fun _ => by simp [hH', World.emit]⟩

end MultipleClients

namespace MultipleClients

variable {σ : Type}

theorem storeState_lookup_ne (env : Env σ) (key : String) (state : Bytes) (w : World)
    (k : String) (hk : k ≠ key) :
    cacheLookup k (storeState env key state w).2.stateCache = cacheLookup k w.stateCache := by
  unfold storeState
  simp only []
  split
  all_goals
    have h := congrArg Prod.snd ‹sealState env _ _ = _›
    simp only [sealState_world_multi] at h
    subst h
  all_goals
    simp [World.cacheSet, World.cacheDel, World.emit, cacheLookup_cacheInsert_ne _ _ hk,
      cacheLookup_cacheErase_ne _ _ hk]

/-- The put path followed by the get path, for any key: the write happens, it adds three
calls to the trace, and the state is read back. -/
theorem storeState_fetch (env : Env σ)
    (hOpen : ∀ nonce state : Bytes, nonce.length = env.gcm.NonceSize →
      env.gcm.Open nonce (env.gcm.Seal nonce state) = .ok state)
    (key : String) (X : Bytes) (w : World) (hRand : env.rand.cryptoError (w.now + 1) = none) :
    (storeState env key X w).1 = true ∧ (storeState env key X w).2.now = w.now + 3 ∧
    (fetchState env key (storeState env key X w).2).1 = .ok X := by
  have hnow : (w.cacheDel key).now = w.now + 1 := by simp [World.now, World.cacheDel]
  obtain ⟨envelope, w1, hseal, hfetch⟩ :=
    fetchState_cacheSet env hOpen key X (w.cacheDel key) (by rw [hnow]; exact hRand)
  have hw1 : w1 = (w.cacheDel key).emit .readNonce := by
    have := congrArg Prod.snd hseal
    simpa [sealState_world_multi] using this.symm
  have hstore : storeState env key X w = (true, w1.cacheSet key envelope) := by
    simp only [storeState, hseal]
  rw [hstore]
  refine ⟨rfl, ?_, hfetch⟩
  rw [hw1]
  simp [World.now, World.cacheSet, World.cacheDel, World.emit]

set_option maxRecDepth 8000 in
/-- C16 as written fails: client `"c1"` after its handshake, on a transport that fails
from the call of index 20 on.  The cycle restores both sessions, encodes its first
message with success and gets an error from the HTTP call; it returns with
`errorReadingResponse` (104) without saving.  The encoder state in the store is still
the export `[1, 156, 0]` of the handshake, while the export of the encoder after its
encode is `[1, 156, 1]`. -/
theorem state_saved_counterexample :
    (SendMultiToServer (Demo.envFlaky {} 20) "c1" 1
      (PerformHandshakeWithServer (Demo.envFlaky {} 20) 1 "c1" {}).2).retcode = 104 ∧
    (SendMultiToServer (Demo.envFlaky {} 20) "c1" 1
      (PerformHandshakeWithServer (Demo.envFlaky {} 20) 1 "c1" {}).2).trace.take 4
      = [.wgDone,
         .httpPost "https://dev-echo.eclypses.com/api/multiclient"
           [("x-client-id", "c1"), ("Content-Type", "text/plain")]
           "Hello from client 1 : c1 for the 1 time",
         .encode .EncDef "Hello from client 1 : c1 for the 1 time",
         .restoreState .DecDef] ∧
    (fetchState (Demo.envFlaky {} 20) "enc_c1"
      (PerformHandshakeWithServer (Demo.envFlaky {} 20) 1 "c1" {}).2).1 = .ok [1, 156, 0] ∧
    ((Demo.envFlaky {} 20).mte.EncodeStrB64 .EncDef "Hello from client 1 : c1 for the 1 time"
      { instantiated := true, seed := 156, counter := 0 }).1.2 = statusSuccess ∧
    (Demo.envFlaky {} 20).mte.SaveState .EncDef
      ((Demo.envFlaky {} 20).mte.EncodeStrB64 .EncDef "Hello from client 1 : c1 for the 1 time"
        { instantiated := true, seed := 156, counter := 0 }).2 = [1, 156, 1] ∧
    (fetchState (Demo.envFlaky {} 20) "enc_c1"
      (SendMultiToServer (Demo.envFlaky {} 20) "c1" 1
        (PerformHandshakeWithServer (Demo.envFlaky {} 20) 1 "c1" {}).2)).1 = .ok [1, 156, 0] := by
  decide

/-- C16 (amended): in `SendMultiToServer`, once both sessions were restored, the two
states are written to the store only after the message loop ran to its end: then, if
both nonces can be read and `Open` inverts `Seal`, the store holds the exports of the
encoder and of the decoder the loop ended with.  When the loop is left by a `return`
(encode failure, HTTP failure, server rejection, decode error) the cycle ends in the
world of that `return`, without saving.  The loop itself changes the store only
through a handshake it enters: if it entered none, the store at its end is the store
the cycle started with. -/
theorem state_saved_at_cycle_end (env : Env σ) (clientId : String) (clientNum : Int) (w : World)
    (encoderBlob decoderBlob : Bytes) (L : LoopExit σ)
    (hfe : (fetchState env (encPrefix ++ clientId) w).1 = .ok encoderBlob)
    (hRe : (env.mte.RestoreState .EncDef encoderBlob (env.mte.newObj .EncDef)).1 = statusSuccess)
    (hfd : (fetchState env (decPrefix ++ clientId) w).1 = .ok decoderBlob)
    (hRd : (env.mte.RestoreState .DecDef decoderBlob (env.mte.newObj .DecDef)).1 = statusSuccess)
    (hL : sendLoop env clientId clientNum
        (env.rand.Intn w.now (maxNumTrips - 1) % (maxNumTrips - 1) + 1) 1
        (env.mte.RestoreState .EncDef encoderBlob (env.mte.newObj .EncDef)).2
        (env.mte.RestoreState .DecDef decoderBlob (env.mte.newObj .DecDef)).2
        ((((((w.emit (.mteNew .EncDef)).emit (.cacheGet (encPrefix ++ clientId))).emit
          (.restoreState .EncDef)).emit (.mteNew .DecDef)).emit
          (.cacheGet (decPrefix ++ clientId))).emit (.restoreState .DecDef)) = L) :
    (∀ encoder decoder w1, L = .finished encoder decoder w1 →
      env.rand.cryptoError (w1.now + 2) = none → env.rand.cryptoError (w1.now + 6) = none →
      (∀ nonce state : Bytes, nonce.length = env.gcm.NonceSize →
        env.gcm.Open nonce (env.gcm.Seal nonce state) = .ok state) →
      (fetchState env (encPrefix ++ clientId) (SendMultiToServer env clientId clientNum w)).1
        = .ok (env.mte.SaveState .EncDef encoder) ∧
      (fetchState env (decPrefix ++ clientId) (SendMultiToServer env clientId clientNum w)).1
        = .ok (env.mte.SaveState .DecDef decoder)) ∧
    (∀ w1, L = .returned w1 → SendMultiToServer env clientId clientNum w = w1.emit .wgDone) ∧
    (L.world.handshakes clientId = w.handshakes clientId → L.world.stateCache = w.stateCache) := by
  have h1 := fetchState_of_value env (encPrefix ++ clientId) (w.emit (.mteNew .EncDef)) w _ rfl hfe
  have h2 := fetchState_of_value env (decPrefix ++ clientId)
    ((((w.emit (.mteNew .EncDef)).emit (.cacheGet (encPrefix ++ clientId))).emit
      (.restoreState .EncDef)).emit (.mteNew .DecDef)) w _ rfl hfd
  refine ⟨fun encoder decoder w1 hfin hR1 hR2 hOpen => ?_, fun w1 hret => ?_, fun hq => ?_⟩
  · rw [hfin] at hL
    obtain ⟨s1, n1, f1⟩ := storeState_fetch env hOpen (encPrefix ++ clientId)
      (env.mte.SaveState .EncDef encoder) (w1.emit (.saveState .EncDef))
      (by rw [World.now_emit]; exact hR1)
    obtain ⟨-, -, f2⟩ := storeState_fetch env hOpen (decPrefix ++ clientId)
      (env.mte.SaveState .DecDef decoder)
      ((storeState env (encPrefix ++ clientId) (env.mte.SaveState .EncDef encoder)
        (w1.emit (.saveState .EncDef))).2.emit (.saveState .DecDef))
      (by rw [World.now_emit, n1, World.now_emit]; exact hR2)
    have hS : storeState env (encPrefix ++ clientId) (env.mte.SaveState .EncDef encoder)
        (w1.emit (.saveState .EncDef))
        = (true, (storeState env (encPrefix ++ clientId) (env.mte.SaveState .EncDef encoder)
          (w1.emit (.saveState .EncDef))).2) := Prod.ext s1 rfl
    have hfinal : SendMultiToServer env clientId clientNum w
        = (storeState env (decPrefix ++ clientId) (env.mte.SaveState .DecDef decoder)
            ((storeState env (encPrefix ++ clientId) (env.mte.SaveState .EncDef encoder)
              (w1.emit (.saveState .EncDef))).2.emit (.saveState .DecDef))).2.emit .wgDone := by
      simp only [SendMultiToServer, sendMultiBody, h1, hRe, ne_eq, not_true_eq_false, if_false,
        h2, hRd, hL]
      rw [hS]
    rw [hfinal]
    have hlk : cacheLookup (encPrefix ++ clientId)
        (storeState env (decPrefix ++ clientId) (env.mte.SaveState .DecDef decoder)
          ((storeState env (encPrefix ++ clientId) (env.mte.SaveState .EncDef encoder)
            (w1.emit (.saveState .EncDef))).2.emit (.saveState .DecDef))).2.stateCache
        = cacheLookup (encPrefix ++ clientId)
          (storeState env (encPrefix ++ clientId) (env.mte.SaveState .EncDef encoder)
            (w1.emit (.saveState .EncDef))).2.stateCache :=
      storeState_lookup_ne env _ _ _ _ (Ne.symm (decKey_ne_encKey clientId))
    generalize (storeState env (decPrefix ++ clientId) (env.mte.SaveState .DecDef decoder)
      ((storeState env (encPrefix ++ clientId) (env.mte.SaveState .EncDef encoder)
        (w1.emit (.saveState .EncDef))).2.emit (.saveState .DecDef))).2 = Wd at f2 hlk ⊢
    generalize (storeState env (encPrefix ++ clientId) (env.mte.SaveState .EncDef encoder)
      (w1.emit (.saveState .EncDef))).2 = We at f1 hlk ⊢
    exact ⟨(fetchState_lookup env _ (Wd.emit .wgDone) We hlk).trans f1,
      (fetchState_lookup env _ (Wd.emit .wgDone) Wd rfl).trans f2⟩
  · rw [hret] at hL
    simp only [SendMultiToServer, sendMultiBody, h1, hRe, ne_eq, not_true_eq_false, if_false,
      h2, hRd, hL]
  · rw [← hL] at hq ⊢
    exact (sendLoop_quiet env clientId clientNum _ _ _ _ _).2 hq

set_option maxRecDepth 8000 in
/-- C16 (amended) at a concrete input: a cycle of one message of client `"c1"` that runs
to its end, from stored sessions with counter 0.  The store then holds the exports with
counter 1. -/
theorem state_saved_at_cycle_end_witness :
    (fetchState (Demo.env { interval := 10 }) "enc_c1"
      (Demo.stored { interval := 10 } 10 "c1" [1, 5, 0] [2, 6, 0])).1 = .ok [1, 5, 0] ∧
    (fetchState (Demo.env { interval := 10 }) "dec_c1"
      (Demo.stored { interval := 10 } 10 "c1" [1, 5, 0] [2, 6, 0])).1 = .ok [2, 6, 0] ∧
    (fetchState (Demo.env { interval := 10 }) (encPrefix ++ "c1")
      (SendMultiToServer (Demo.env { interval := 10 }) "c1" 1
        (Demo.stored { interval := 10 } 10 "c1" [1, 5, 0] [2, 6, 0]))).1
      = .ok ((Demo.env { interval := 10 }).mte.SaveState .EncDef
          { instantiated := true, seed := 5, counter := 1 }) ∧
    (fetchState (Demo.env { interval := 10 }) (decPrefix ++ "c1")
      (SendMultiToServer (Demo.env { interval := 10 }) "c1" 1
        (Demo.stored { interval := 10 } 10 "c1" [1, 5, 0] [2, 6, 0]))).1
      = .ok ((Demo.env { interval := 10 }).mte.SaveState .DecDef
          { instantiated := true, seed := 6, counter := 1 }) :=
  ⟨by decide, by decide,
    (state_saved_at_cycle_end (Demo.env { interval := 10 }) "c1" 1
      (Demo.stored { interval := 10 } 10 "c1" [1, 5, 0] [2, 6, 0]) [1, 5, 0] [2, 6, 0] _
      (by decide) (by decide) (by decide) (by decide) rfl).1
      { instantiated := true, seed := 5, counter := 1 }
      { instantiated := true, seed := 6, counter := 1 }
      (sendLoop (Demo.env { interval := 10 }) "c1" 1 1 1
        { instantiated := true, seed := 5, counter := 0 }
        { instantiated := true, seed := 6, counter := 0 }
        (((((((Demo.stored { interval := 10 } 10 "c1" [1, 5, 0] [2, 6, 0]).emit
          (.mteNew .EncDef)).emit (.cacheGet "enc_c1")).emit
          (.restoreState .EncDef)).emit (.mteNew .DecDef)).emit
          (.cacheGet "dec_c1")).emit (.restoreState .DecDef))).world
      rfl rfl rfl (fun nonce state _ => Demo_gcm_open_seal nonce state)⟩

end MultipleClients

namespace MultipleClients

variable {σ : Type}

theorem fetchState_error_code (env : Env σ) (key : String) (w : World) (code : Int)
    (h : (fetchState env key w).1 = .error code) :
    code = errorRetrievingState ∨ code = errorDecryptingState := by
  unfold fetchState at h
  simp only [World.cacheGet] at h
  split at h
  · simp only [Except.error.injEq] at h
    exact Or.inl h.symm
  · split at h
    · simp only [Except.error.injEq] at h
      exact Or.inr h.symm
    · cases h

set_option maxRecDepth 8000 in
/-- C17 as written fails: a cycle of client `"c1"` on a store that holds no state, on a
store whose encoder envelope was tampered with, and on a store whose encoder state the
engine does not import.  The cycle ends with `errorRetrievingState` (116),
`errorDecryptingState` (117) and `errorRestoringState` (118), and no handshake is
entered. -/
theorem state_corruption_counterexample :
    SendMultiToServer (Demo.env {}) "c1" 1 {}
      = { retcode := 116, trace := [.wgDone, .cacheGet "enc_c1", .mteNew .EncDef] } ∧
    (SendMultiToServer (Demo.env {}) "c1" 1 {}).handshakes "c1" = 0 ∧
    (SendMultiToServer (Demo.env {}) "c1" 1
      { stateCache := [("enc_c1", [0, 1, 2, 3, 4, 5, 6, 7, 8, 9, 10, 11, 1, 5, 0, 99])] }).retcode
      = 117 ∧
    (SendMultiToServer (Demo.env {}) "c1" 1
      { stateCache := [("enc_c1", [0, 1, 2, 3, 4, 5, 6, 7, 8, 9, 10, 11, 1, 5, 0, 99])]
      }).handshakes "c1" = 0 ∧
    (SendMultiToServer (Demo.env {}) "c1" 1 (Demo.stored {} 1 "c1" [9, 5, 0] [2, 6, 0])).retcode
      = 118 ∧
    (SendMultiToServer (Demo.env {}) "c1" 1
      (Demo.stored {} 1 "c1" [9, 5, 0] [2, 6, 0])).handshakes "c1" = 0 := by
  decide

/-- C17 (amended): in `SendMultiToServer`, when the stored encode state cannot be
fetched (missing or too short, or rejected by `Open`) or is not imported by the
engine, or the same happens for the decode state, the cycle ends with
`errorRetrievingState`, `errorDecryptingState` or `errorRestoringState` in `retcode`:
no handshake is entered for any client and the store is left as it was. -/
theorem state_corruption_ends_cycle (env : Env σ) (clientId : String) (clientNum : Int)
    (w : World)
    (hBad : (∃ code, (fetchState env (encPrefix ++ clientId) w).1 = .error code) ∨
      (∃ state, (fetchState env (encPrefix ++ clientId) w).1 = .ok state ∧
        (env.mte.RestoreState .EncDef state (env.mte.newObj .EncDef)).1 ≠ statusSuccess) ∨
      (∃ code, (fetchState env (decPrefix ++ clientId) w).1 = .error code) ∨
      (∃ state, (fetchState env (decPrefix ++ clientId) w).1 = .ok state ∧
        (env.mte.RestoreState .DecDef state (env.mte.newObj .DecDef)).1 ≠ statusSuccess)) :
    ((SendMultiToServer env clientId clientNum w).retcode = errorRetrievingState ∨
      (SendMultiToServer env clientId clientNum w).retcode = errorDecryptingState ∨
      (SendMultiToServer env clientId clientNum w).retcode = errorRestoringState) ∧
    (∀ c, (SendMultiToServer env clientId clientNum w).handshakes c = w.handshakes c) ∧
    (SendMultiToServer env clientId clientNum w).stateCache = w.stateCache := by
  cases hfe : (fetchState env (encPrefix ++ clientId) w).1 with
  | error code =>
    rw [cycle_encoder_fetch_fails env clientId clientNum w code hfe]
    refine ⟨?_, fun c => by simp [World.handshakes], rfl⟩
    rcases fetchState_error_code env _ w code hfe with h | h
    · exact Or.inl h
    · exact Or.inr (Or.inl h)
  | ok state =>
    by_cases hR : (env.mte.RestoreState .EncDef state (env.mte.newObj .EncDef)).1 = statusSuccess
    · cases hfd : (fetchState env (decPrefix ++ clientId) w).1 with
      | error code =>
        rw [cycle_decoder_fetch_fails env clientId clientNum w state code hfe hR hfd]
        refine ⟨?_, fun c => by simp [World.handshakes], rfl⟩
        rcases fetchState_error_code env _ w code hfd with h | h
        · exact Or.inl h
        · exact Or.inr (Or.inl h)
      | ok dstate =>
        have hRd : (env.mte.RestoreState .DecDef dstate (env.mte.newObj .DecDef)).1
            ≠ statusSuccess := by
          rcases hBad with ⟨code, h⟩ | ⟨s, h, hs⟩ | ⟨code, h⟩ | ⟨s, h, hs⟩
          · rw [hfe] at h
            cases h
          · rw [hfe] at h
            cases h
            exact absurd hR hs
          · rw [hfd] at h
            cases h
          · rw [hfd] at h
            cases h
            exact hs
        rw [cycle_decoder_restore_fails env clientId clientNum w state dstate hfe hR hfd hRd]
        exact ⟨Or.inr (Or.inr rfl), fun c => by simp [World.handshakes], rfl⟩
    · rw [cycle_encoder_restore_fails env clientId clientNum w state hfe hR]
      exact ⟨Or.inr (Or.inr rfl), fun c => by simp [World.handshakes], rfl⟩

set_option maxRecDepth 8000 in
/-- C17 (amended) at a concrete input: the store holds no state for client `"c1"`. -/
theorem state_corruption_ends_cycle_witness :
    (fetchState (Demo.env {}) (encPrefix ++ "c1") {}).1 = .error 116 ∧
    (SendMultiToServer (Demo.env {}) "c1" 1 {}).handshakes "c1" = ({} : World).handshakes "c1" ∧
    (SendMultiToServer (Demo.env {}) "c1" 1 {}).stateCache = ({} : World).stateCache :=
  ⟨by decide,
    (state_corruption_ends_cycle (Demo.env {}) "c1" 1 {} (Or.inl ⟨116, by decide⟩)).2.1 "c1",
    (state_corruption_ends_cycle (Demo.env {}) "c1" 1 {} (Or.inl ⟨116, by decide⟩)).2.2⟩

/-- A cycle whose two fetched states the engine restores runs its message loop on the
two sessions `RestoreState` made from exactly these states, the encoder from the state
fetched for the encoder and the decoder from the state fetched for the decoder, and
ends as the loop and the two end-of-cycle writes leave it. -/
theorem cycle_runs_on_restored (env : Env σ) (clientId : String) (clientNum : Int) (w : World)
    (state dstate : Bytes)
    (h : (fetchState env (encPrefix ++ clientId) w).1 = .ok state)
    (hR : (env.mte.RestoreState .EncDef state (env.mte.newObj .EncDef)).1 = statusSuccess)
    (hd : (fetchState env (decPrefix ++ clientId) w).1 = .ok dstate)
    (hRd : (env.mte.RestoreState .DecDef dstate (env.mte.newObj .DecDef)).1 = statusSuccess) :
    SendMultiToServer env clientId clientNum w
      = (match sendLoop env clientId clientNum
            (env.rand.Intn w.now (maxNumTrips - 1) % (maxNumTrips - 1) + 1) 1
            (env.mte.RestoreState .EncDef state (env.mte.newObj .EncDef)).2
            (env.mte.RestoreState .DecDef dstate (env.mte.newObj .DecDef)).2
            { w with trace := (Event.restoreState .DecDef ::
                .cacheGet (decPrefix ++ clientId) :: .mteNew .DecDef ::
                .restoreState .EncDef :: .cacheGet (encPrefix ++ clientId) ::
                .mteNew .EncDef :: w.trace) } with
        | .returned w1 => w1
        | .finished encoder decoder w1 =>
          match storeState env (encPrefix ++ clientId) (env.mte.SaveState .EncDef encoder)
              (w1.emit (.saveState .EncDef)) with
          | (false, w2) => w2
          | (true, w2) =>
            (storeState env (decPrefix ++ clientId) (env.mte.SaveState .DecDef decoder)
              (w2.emit (.saveState .DecDef))).2).emit .wgDone := by
  have h1 : fetchState env (encPrefix ++ clientId) (w.emit (.mteNew .EncDef))
      = (.ok state, (w.emit (.mteNew .EncDef)).emit (.cacheGet (encPrefix ++ clientId))) := by
    exact fetchState_of_value env _ _ w _ rfl h
  have h2 := fetchState_of_value env (decPrefix ++ clientId)
    ((((w.emit (.mteNew .EncDef)).emit (.cacheGet (encPrefix ++ clientId))).emit
      (.restoreState .EncDef)).emit (.mteNew .DecDef)) w _ rfl hd
  simp only [SendMultiToServer, sendMultiBody, h1, hR, ne_eq, not_true_eq_false, if_false, h2,
    hRd]
  rfl

/-- C18: in `SendMultiToServer`, if the envelope fetched for the encoder is shorter
than `gcm.NonceSize()` the cycle ends with `errorRetrievingState`, and if `gcm.Open`
rejects it the cycle ends with `errorDecryptingState`; the same holds for the envelope
of the decoder once the encoder was restored.  In each case the world the cycle leaves
differs from the one it started in by `retcode` and by a trace that holds no
`RestoreState` of that session, no encode, no request and no store write, so the store
is unchanged.  Whenever the get path hands a state to `RestoreState`, the envelope held
at least `gcm.NonceSize()` bytes and the state is what `gcm.Open` returned for it; and
the cycle hands to `encoder.RestoreState` and to `decoder.RestoreState` exactly the state
the get path returned for that direction: when both are restored, the message loop runs
on the two sessions `RestoreState` made from these states, and when the engine refuses
one of them the cycle ends with `errorRestoringState` before any message. -/
theorem no_wrong_plaintext (env : Env σ) (clientId : String) (clientNum : Int) (w : World) :
    (((cacheLookup (encPrefix ++ clientId) w.stateCache).getD []).length < env.gcm.NonceSize →
      SendMultiToServer env clientId clientNum w
        = { w with retcode := errorRetrievingState
                   trace := (Event.wgDone :: .cacheGet (encPrefix ++ clientId) ::
                     .mteNew .EncDef :: w.trace) }) ∧
    (∀ e, ¬ ((cacheLookup (encPrefix ++ clientId) w.stateCache).getD []).length
        < env.gcm.NonceSize →
      env.gcm.Open
        (((cacheLookup (encPrefix ++ clientId) w.stateCache).getD []).take env.gcm.NonceSize)
        (((cacheLookup (encPrefix ++ clientId) w.stateCache).getD []).drop env.gcm.NonceSize)
        = .error e →
      SendMultiToServer env clientId clientNum w
        = { w with retcode := errorDecryptingState
                   trace := (Event.wgDone :: .cacheGet (encPrefix ++ clientId) ::
                     .mteNew .EncDef :: w.trace) }) ∧
    (∀ state, (fetchState env (encPrefix ++ clientId) w).1 = .ok state →
      (env.mte.RestoreState .EncDef state (env.mte.newObj .EncDef)).1 = statusSuccess →
      (((cacheLookup (decPrefix ++ clientId) w.stateCache).getD []).length < env.gcm.NonceSize →
        SendMultiToServer env clientId clientNum w
          = { w with retcode := errorRetrievingState
                     trace := (Event.wgDone :: .cacheGet (decPrefix ++ clientId) ::
                       .mteNew .DecDef :: .restoreState .EncDef ::
                       .cacheGet (encPrefix ++ clientId) :: .mteNew .EncDef :: w.trace) }) ∧
      (∀ e, ¬ ((cacheLookup (decPrefix ++ clientId) w.stateCache).getD []).length
          < env.gcm.NonceSize →
        env.gcm.Open
          (((cacheLookup (decPrefix ++ clientId) w.stateCache).getD []).take env.gcm.NonceSize)
          (((cacheLookup (decPrefix ++ clientId) w.stateCache).getD []).drop env.gcm.NonceSize)
          = .error e →
        SendMultiToServer env clientId clientNum w
          = { w with retcode := errorDecryptingState
                     trace := (Event.wgDone :: .cacheGet (decPrefix ++ clientId) ::
                       .mteNew .DecDef :: .restoreState .EncDef ::
                       .cacheGet (encPrefix ++ clientId) :: .mteNew .EncDef :: w.trace) })) ∧
    (∀ (direction : Dir) (state : Bytes),
      (fetchState env (stateKey direction clientId) w).1 = .ok state →
      env.gcm.NonceSize
        ≤ ((cacheLookup (stateKey direction clientId) w.stateCache).getD []).length ∧
      env.gcm.Open
        (((cacheLookup (stateKey direction clientId) w.stateCache).getD []).take
          env.gcm.NonceSize)
        (((cacheLookup (stateKey direction clientId) w.stateCache).getD []).drop
          env.gcm.NonceSize) = .ok state) ∧
    (∀ state, (fetchState env (encPrefix ++ clientId) w).1 = .ok state →
      ((env.mte.RestoreState .EncDef state (env.mte.newObj .EncDef)).1 ≠ statusSuccess →
        SendMultiToServer env clientId clientNum w
          = { w with retcode := errorRestoringState
                     trace := (Event.wgDone :: .restoreState .EncDef ::
                       .cacheGet (encPrefix ++ clientId) :: .mteNew .EncDef :: w.trace) }) ∧
      ((env.mte.RestoreState .EncDef state (env.mte.newObj .EncDef)).1 = statusSuccess →
        ∀ dstate, (fetchState env (decPrefix ++ clientId) w).1 = .ok dstate →
          ((env.mte.RestoreState .DecDef dstate (env.mte.newObj .DecDef)).1 ≠ statusSuccess →
            SendMultiToServer env clientId clientNum w
              = { w with retcode := errorRestoringState
                         trace := (Event.wgDone :: .restoreState .DecDef ::
                           .cacheGet (decPrefix ++ clientId) :: .mteNew .DecDef ::
                           .restoreState .EncDef :: .cacheGet (encPrefix ++ clientId) ::
                           .mteNew .EncDef :: w.trace) }) ∧
          ((env.mte.RestoreState .DecDef dstate (env.mte.newObj .DecDef)).1 = statusSuccess →
            SendMultiToServer env clientId clientNum w
              = (match sendLoop env clientId clientNum
                    (env.rand.Intn w.now (maxNumTrips - 1) % (maxNumTrips - 1) + 1) 1
                    (env.mte.RestoreState .EncDef state (env.mte.newObj .EncDef)).2
                    (env.mte.RestoreState .DecDef dstate (env.mte.newObj .DecDef)).2
                    { w with trace := (Event.restoreState .DecDef ::
                        .cacheGet (decPrefix ++ clientId) :: .mteNew .DecDef ::
                        .restoreState .EncDef :: .cacheGet (encPrefix ++ clientId) ::
                        .mteNew .EncDef :: w.trace) } with
                | .returned w1 => w1
                | .finished encoder decoder w1 =>
                  match storeState env (encPrefix ++ clientId)
                      (env.mte.SaveState .EncDef encoder) (w1.emit (.saveState .EncDef)) with
                  | (false, w2) => w2
                  | (true, w2) =>
                    (storeState env (decPrefix ++ clientId) (env.mte.SaveState .DecDef decoder)
                      (w2.emit (.saveState .DecDef))).2).emit .wgDone))) :=
  ⟨fun h => cycle_encoder_fetch_fails env clientId clientNum w _
      ((fetchState_cases env _ w).1 h),
    fun e h1 h2 => cycle_encoder_fetch_fails env clientId clientNum w _
      ((fetchState_cases env _ w).2.1 e h1 h2),
    fun state hf hR =>
      ⟨fun h => cycle_decoder_fetch_fails env clientId clientNum w state _ hf hR
          ((fetchState_cases env _ w).1 h),
        fun e h1 h2 => cycle_decoder_fetch_fails env clientId clientNum w state _ hf hR
          ((fetchState_cases env _ w).2.1 e h1 h2)⟩,
    fun _ state h => (fetchState_cases env _ w).2.2 state h,
    fun state hf =>
      ⟨fun hR => cycle_encoder_restore_fails env clientId clientNum w state hf hR,
        fun hR dstate hd =>
          ⟨fun hRd => cycle_decoder_restore_fails env clientId clientNum w state dstate hf hR hd
              hRd,
            fun hRd => cycle_runs_on_restored env clientId clientNum w state dstate hf hR hd
              hRd⟩⟩⟩

set_option maxRecDepth 8000 in
/-- C18 at concrete inputs, for client `"c1"`: an encoder envelope of three bytes; an
encoder envelope whose last byte was changed; a store whose encoder envelope is intact
and whose decoder envelope has its last byte changed, where the cycle ends with
`errorDecryptingState` after restoring the encoder only; and a store holding the
intact envelopes of the encoder state `[1, 5, 0]` and of the decoder state `[2, 6, 0]`,
where the cycle runs one message on the sessions restored from these two states and
saves them as `[1, 5, 1]` and `[2, 6, 1]`. -/
theorem no_wrong_plaintext_witness :
    SendMultiToServer (Demo.env {}) "c1" 1 { stateCache := [("enc_c1", [1, 2, 3])] }
      = { retcode := 116, stateCache := [("enc_c1", [1, 2, 3])],
          trace := [.wgDone, .cacheGet "enc_c1", .mteNew .EncDef] } ∧
    SendMultiToServer (Demo.env {}) "c1" 1
        { stateCache := [("enc_c1", [0, 1, 2, 3, 4, 5, 6, 7, 8, 9, 10, 11, 1, 5, 0, 99])] }
      = { retcode := 117,
          stateCache := [("enc_c1", [0, 1, 2, 3, 4, 5, 6, 7, 8, 9, 10, 11, 1, 5, 0, 99])],
          trace := [.wgDone, .cacheGet "enc_c1", .mteNew .EncDef] } ∧
    SendMultiToServer (Demo.env {}) "c1" 1
        { stateCache := [("dec_c1", [4, 5, 6, 7, 8, 9, 10, 11, 12, 13, 14, 15, 2, 6, 0, 115]),
            ("enc_c1", [1, 2, 3, 4, 5, 6, 7, 8, 9, 10, 11, 12, 1, 5, 0, 78])] }
      = { retcode := 117,
          stateCache := [("dec_c1", [4, 5, 6, 7, 8, 9, 10, 11, 12, 13, 14, 15, 2, 6, 0, 115]),
            ("enc_c1", [1, 2, 3, 4, 5, 6, 7, 8, 9, 10, 11, 12, 1, 5, 0, 78])],
          trace := [.wgDone, .cacheGet "dec_c1", .mteNew .DecDef, .restoreState .EncDef,
            .cacheGet "enc_c1", .mteNew .EncDef] } ∧
    SendMultiToServer (Demo.env {}) "c1" 1
        { maxSeed := 10
          stateCache := [("dec_c1", [4, 5, 6, 7, 8, 9, 10, 11, 12, 13, 14, 15, 2, 6, 0, 114]),
            ("enc_c1", [1, 2, 3, 4, 5, 6, 7, 8, 9, 10, 11, 12, 1, 5, 0, 78])] }
      = { maxSeed := 10
          stateCache :=
            [("dec_c1", [15, 16, 17, 18, 19, 20, 21, 22, 23, 24, 25, 26, 2, 6, 1, 246]),
             ("enc_c1", [11, 12, 13, 14, 15, 16, 17, 18, 19, 20, 21, 22, 1, 5, 1, 198])]
          trace := [.wgDone,
            .cacheSet "dec_c1" [15, 16, 17, 18, 19, 20, 21, 22, 23, 24, 25, 26, 2, 6, 1, 246],
            .readNonce, .cacheDel "dec_c1", .saveState .DecDef,
            .cacheSet "enc_c1" [11, 12, 13, 14, 15, 16, 17, 18, 19, 20, 21, 22, 1, 5, 1, 198],
            .readNonce, .cacheDel "enc_c1", .saveState .EncDef,
            .decode .DecDef "Hello from client 1 : c1 for the 1 time",
            .httpPost "https://dev-echo.eclypses.com/api/multiclient"
              [("x-client-id", "c1"), ("Content-Type", "text/plain")]
              "Hello from client 1 : c1 for the 1 time",
            .encode .EncDef "Hello from client 1 : c1 for the 1 time",
            .restoreState .DecDef, .cacheGet "dec_c1", .mteNew .DecDef,
            .restoreState .EncDef, .cacheGet "enc_c1", .mteNew .EncDef] } :=
  ⟨(no_wrong_plaintext (Demo.env {}) "c1" 1 { stateCache := [("enc_c1", [1, 2, 3])] }).1
      (by decide),
    (no_wrong_plaintext (Demo.env {}) "c1" 1
      { stateCache := [("enc_c1", [0, 1, 2, 3, 4, 5, 6, 7, 8, 9, 10, 11, 1, 5, 0, 99])] }).2.1
      "cipher: message authentication failed" (by decide) (by decide),
    ((no_wrong_plaintext (Demo.env {}) "c1" 1
      { stateCache := [("dec_c1", [4, 5, 6, 7, 8, 9, 10, 11, 12, 13, 14, 15, 2, 6, 0, 115]),
          ("enc_c1", [1, 2, 3, 4, 5, 6, 7, 8, 9, 10, 11, 12, 1, 5, 0, 78])] }).2.2.1
      [1, 5, 0] (by decide) (by decide)).2
      "cipher: message authentication failed" (by decide) (by decide),
    (((((no_wrong_plaintext (Demo.env {}) "c1" 1
      { maxSeed := 10
        stateCache := [("dec_c1", [4, 5, 6, 7, 8, 9, 10, 11, 12, 13, 14, 15, 2, 6, 0, 114]),
          ("enc_c1", [1, 2, 3, 4, 5, 6, 7, 8, 9, 10, 11, 12, 1, 5, 0, 78])] }).2.2.2.2
      [1, 5, 0] (by decide)).2 (by decide)) [2, 6, 0] (by decide)).2 (by decide)).trans
      (by decide)⟩

end MultipleClients

/-! ## Writes to the store -/

theorem cacheErase_filter (key : String) (c : List (String × Bytes)) :
    (cacheErase key c).filter (fun p => p.1 = key) = [] := by
  induction c with
  | nil => rfl
  | cons p rest ih =>
    obtain ⟨k, v⟩ := p
    simp only [cacheErase]
    split
    · exact ih
    · rename_i hk
      simp [List.filter_cons, hk, ih]

/-- After a `Set` the store holds one entry under the key, the one just written. -/
theorem cacheInsert_filter (key : String) (value : Bytes) (c : List (String × Bytes)) :
    (cacheInsert key value c).filter (fun p => p.1 = key) = [(key, value)] := by
  simp [cacheInsert, List.filter_cons, cacheErase_filter]

namespace MultipleClients

variable {σ : Type}

/-- The end-of-cycle write: the `Del` of the key comes before the `Set`. -/
theorem storeState_trace (env : Env σ) (key : String) (state : Bytes) (w : World)
    (h : (storeState env key state w).1 = true) :
    ∃ envelope,
      (storeState env key state w).2.trace
        = .cacheSet key envelope :: .readNonce :: .cacheDel key :: w.trace ∧
      cacheLookup key (storeState env key state w).2.stateCache = some envelope ∧
      (storeState env key state w).2.stateCache.filter (fun p => p.1 = key)
        = [(key, envelope)] := by
  unfold storeState at h ⊢
  simp only [] at h ⊢
  split
  · rename_i e w1 hs
    rw [hs] at h
    cases h
  · rename_i envelope w1 hs
    have hw := congrArg Prod.snd hs
    simp only [sealState_world_multi] at hw
    subst hw
    exact ⟨envelope, rfl, cacheLookup_cacheInsert _ _ _, cacheInsert_filter _ _ _⟩

/-- The write of `CreateMteEncoder`: a `Set` with no `Del` before it. -/
theorem CreateMteEncoder_trace (env : Env σ) (ts cid : String) (ent : Bytes) (w w1 : World)
    (out : Int) (h : CreateMteEncoder env ts cid ent w = ((out, none), w1)) :
    ∃ nonce envelope,
      w1.trace = .cacheSet (encPrefix ++ cid) envelope :: .readNonce :: .saveState .EncDef ::
        .instantiate .EncDef ent nonce cid :: .mteNew .EncDef :: w.trace ∧
      cacheLookup (encPrefix ++ cid) w1.stateCache = some envelope ∧
      w1.stateCache.filter (fun p => p.1 = encPrefix ++ cid) = [(encPrefix ++ cid, envelope)] := by
  unfold CreateMteEncoder at h
  simp only [] at h
  split at h
  · simp at h
  · rename_i nonce hp
    split at h
    · simp at h
    · split at h
      · simp at h
      · rename_i envelope w2 hs
        have hw := congrArg Prod.snd hs
        simp only [sealState_world_multi] at hw
        subst hw
        simp only [Prod.mk.injEq] at h
        obtain ⟨-, rfl⟩ := h
        exact ⟨nonce, envelope, rfl, cacheLookup_cacheInsert _ _ _, cacheInsert_filter _ _ _⟩

/-- The write of `CreateMteDecoder`: a `Set` with no `Del` before it. -/
theorem CreateMteDecoder_trace (env : Env σ) (ts cid : String) (ent : Bytes) (w w1 : World)
    (out : Int) (h : CreateMteDecoder env ts cid ent w = ((out, none), w1)) :
    ∃ nonce envelope,
      w1.trace = .cacheSet (decPrefix ++ cid) envelope :: .readNonce :: .saveState .DecDef ::
        .instantiate .DecDef ent nonce cid :: .mteNew .DecDef :: w.trace ∧
      cacheLookup (decPrefix ++ cid) w1.stateCache = some envelope ∧
      w1.stateCache.filter (fun p => p.1 = decPrefix ++ cid) = [(decPrefix ++ cid, envelope)] := by
  unfold CreateMteDecoder at h
  simp only [] at h
  split at h
  · simp at h
  · rename_i nonce hp
    split at h
    · simp at h
    · split at h
      · simp at h
      · rename_i envelope w2 hs
        have hw := congrArg Prod.snd hs
        simp only [sealState_world_multi] at hw
        subst hw
        simp only [Prod.mk.injEq] at h
        obtain ⟨-, rfl⟩ := h
        exact ⟨nonce, envelope, rfl, cacheLookup_cacheInsert _ _ _, cacheInsert_filter _ _ _⟩

set_option maxRecDepth 8000 in
/-- C19 as written fails: a re-handshake of client `"c1"` whose store already holds an
entry under `enc_c1` and under `dec_c1`.  Among the 19 calls of the handshake there is a
`Set` of each key and no `Del` of either. -/
theorem delete_before_insert_counterexample :
    (cacheLookup "enc_c1" (Demo.stored {} 1 "c1" [1, 5, 0] [2, 6, 0]).stateCache).isSome = true ∧
    (cacheLookup "dec_c1" (Demo.stored {} 1 "c1" [1, 5, 0] [2, 6, 0]).stateCache).isSome = true ∧
    (PerformHandshakeWithServer (Demo.env {}) 1 "c1"
        (Demo.stored {} 1 "c1" [1, 5, 0] [2, 6, 0])).1 = (0, none) ∧
    (PerformHandshakeWithServer (Demo.env {}) 1 "c1"
        (Demo.stored {} 1 "c1" [1, 5, 0] [2, 6, 0])).2.trace.drop 19
      = (Demo.stored {} 1 "c1" [1, 5, 0] [2, 6, 0]).trace ∧
    ((PerformHandshakeWithServer (Demo.env {}) 1 "c1"
        (Demo.stored {} 1 "c1" [1, 5, 0] [2, 6, 0])).2.trace.take 19).filterMap
        (fun e => match e with
          | .cacheSet key _ => some ("Set " ++ key)
          | .cacheDel key => some ("Del " ++ key)
          | _ => none)
      = ["Set dec_c1", "Set enc_c1"] := by
  decide

/-- C19 (amended): in the multi-client program, an end-of-cycle write of
`SendMultiToServer` deletes the key, reads a nonce and then sets the key, in this
order; a write of `CreateMteEncoder` or `CreateMteDecoder` sets the key with no delete
before it.  After any of these writes the store holds exactly one entry under the key,
the envelope just written, and a read of the key yields it. -/
theorem overwrite_replaces_entry (env : Env σ) (key ts cid : String) (state ent : Bytes)
    (w : World) :
    ((storeState env key state w).1 = true →
      ∃ envelope,
        (storeState env key state w).2.trace
          = .cacheSet key envelope :: .readNonce :: .cacheDel key :: w.trace ∧
        cacheLookup key (storeState env key state w).2.stateCache = some envelope ∧
        (storeState env key state w).2.stateCache.filter (fun p => p.1 = key)
          = [(key, envelope)]) ∧
    ((CreateMteEncoder env ts cid ent w).1.2 = none →
      ∃ nonce envelope,
        (CreateMteEncoder env ts cid ent w).2.trace
          = .cacheSet (encPrefix ++ cid) envelope :: .readNonce :: .saveState .EncDef ::
            .instantiate .EncDef ent nonce cid :: .mteNew .EncDef :: w.trace ∧
        cacheLookup (encPrefix ++ cid) (CreateMteEncoder env ts cid ent w).2.stateCache
          = some envelope ∧
        (CreateMteEncoder env ts cid ent w).2.stateCache.filter
          (fun p => p.1 = encPrefix ++ cid) = [(encPrefix ++ cid, envelope)]) ∧
    ((CreateMteDecoder env ts cid ent w).1.2 = none →
      ∃ nonce envelope,
        (CreateMteDecoder env ts cid ent w).2.trace
          = .cacheSet (decPrefix ++ cid) envelope :: .readNonce :: .saveState .DecDef ::
            .instantiate .DecDef ent nonce cid :: .mteNew .DecDef :: w.trace ∧
        cacheLookup (decPrefix ++ cid) (CreateMteDecoder env ts cid ent w).2.stateCache
          = some envelope ∧
        (CreateMteDecoder env ts cid ent w).2.stateCache.filter
          (fun p => p.1 = decPrefix ++ cid) = [(decPrefix ++ cid, envelope)]) :=
  ⟨storeState_trace env key state w,
    fun h => CreateMteEncoder_trace env ts cid ent w _ (CreateMteEncoder env ts cid ent w).1.1
      (Prod.ext (Prod.ext rfl h) rfl),
    fun h => CreateMteDecoder_trace env ts cid ent w _ (CreateMteDecoder env ts cid ent w).1.1
      (Prod.ext (Prod.ext rfl h) rfl)⟩

set_option maxRecDepth 8000 in
/-- C19 (amended) at a concrete input: the encoder state `[1, 5, 1]` of client `"c1"`
written at the end of a cycle over a store that holds an older state under the key. -/
theorem overwrite_replaces_entry_witness :
    (cacheLookup "enc_c1" (Demo.stored {} 1 "c1" [1, 5, 0] [2, 6, 0]).stateCache).isSome = true ∧
    (storeState (Demo.env {}) "enc_c1" [1, 5, 1]
      (Demo.stored {} 1 "c1" [1, 5, 0] [2, 6, 0])).1 = true ∧
    ∃ envelope,
      (storeState (Demo.env {}) "enc_c1" [1, 5, 1]
          (Demo.stored {} 1 "c1" [1, 5, 0] [2, 6, 0])).2.trace
        = .cacheSet "enc_c1" envelope :: .readNonce :: .cacheDel "enc_c1" ::
          (Demo.stored {} 1 "c1" [1, 5, 0] [2, 6, 0]).trace ∧
      cacheLookup "enc_c1" (storeState (Demo.env {}) "enc_c1" [1, 5, 1]
          (Demo.stored {} 1 "c1" [1, 5, 0] [2, 6, 0])).2.stateCache = some envelope ∧
      (storeState (Demo.env {}) "enc_c1" [1, 5, 1]
          (Demo.stored {} 1 "c1" [1, 5, 0] [2, 6, 0])).2.stateCache.filter
        (fun p => p.1 = "enc_c1") = [("enc_c1", envelope)] :=
  ⟨by decide, by decide,
    (overwrite_replaces_entry (Demo.env {}) "enc_c1" "1700000000" "c1" [1, 5, 1] [1, 2]
      (Demo.stored {} 1 "c1" [1, 5, 0] [2, 6, 0])).1 (by decide)⟩

end MultipleClients

namespace MultipleClients

variable {σ : Type}

theorem storeState_isolated (env : Env σ) (key : String) (state : Bytes) (w : World)
    (k : String) (hk : k ≠ key) :
    (storeState env key state w).2.accesses k = w.accesses k ∧
    cacheLookup k (storeState env key state w).2.stateCache = cacheLookup k w.stateCache := by
  have hk' : ¬ key = k := fun h => hk h.symm
  unfold storeState
  simp only []
  split
  all_goals
    have h := congrArg Prod.snd ‹sealState env _ _ = _›
    simp only [sealState_world_multi] at h
    subst h
  all_goals
    refine ⟨by simp [World.accesses_emit, World.accesses_update, World.accesses_cacheSet,
        World.accesses_cacheDel, Event.cacheKey, hk'],
      by simp [World.cacheSet, World.cacheDel, World.emit, cacheLookup_cacheInsert_ne _ _ hk,
        cacheLookup_cacheErase_ne _ _ hk]⟩

theorem fetchState_isolated (env : Env σ) (key : String) (w : World) (k : String)
    (hk : k ≠ key) :
    (fetchState env key w).2.accesses k = w.accesses k ∧
    (fetchState env key w).2.stateCache = w.stateCache := by
  have hk' : ¬ key = k := fun h => hk h.symm
  rw [fetchState_world]
  exact ⟨by simp [World.accesses_emit, Event.cacheKey, hk'], rfl⟩

/-- A cycle accesses no key of the store but the two keys of its client, and leaves the
entries under the other keys as they were. -/
theorem SendMultiToServer_isolated (env : Env σ) (cid : String) (clientNum : Int) (w : World)
    (k : String) (hk1 : k ≠ encPrefix ++ cid) (hk2 : k ≠ decPrefix ++ cid) :
    (SendMultiToServer env cid clientNum w).accesses k = w.accesses k ∧
    cacheLookup k (SendMultiToServer env cid clientNum w).stateCache
      = cacheLookup k w.stateCache := by
  have hF1 := fun w => (fetchState_isolated env (encPrefix ++ cid) w k hk1).1
  have hF1' := fun w => (fetchState_isolated env (encPrefix ++ cid) w k hk1).2
  have hF2 := fun w => (fetchState_isolated env (decPrefix ++ cid) w k hk2).1
  have hF2' := fun w => (fetchState_isolated env (decPrefix ++ cid) w k hk2).2
  have hL := fun n i e d w => (sendLoop_isolated env cid clientNum k hk1 hk2 n i e d w).1
  have hL' := fun n i e d w => (sendLoop_isolated env cid clientNum k hk1 hk2 n i e d w).2
  have hS1 := fun s w => (storeState_isolated env (encPrefix ++ cid) s w k hk1).1
  have hS1' := fun s w => (storeState_isolated env (encPrefix ++ cid) s w k hk1).2
  have hS2 := fun s w => (storeState_isolated env (decPrefix ++ cid) s w k hk2).1
  have hS2' := fun s w => (storeState_isolated env (decPrefix ++ cid) s w k hk2).2
  unfold SendMultiToServer sendMultiBody
  simp only []
  repeat' split
  all_goals
    try (have h := congrArg Prod.snd ‹fetchState env (encPrefix ++ cid) _ = _›
         simp only [] at h; subst h)
  all_goals
    try (have h := congrArg Prod.snd ‹fetchState env (decPrefix ++ cid) _ = _›
         simp only [] at h; subst h)
  all_goals
    try (have h := congrArg LoopExit.world ‹sendLoop env _ _ _ _ _ _ _ = _›
         simp only [LoopExit.world_returned, LoopExit.world_finished] at h; subst h)
  all_goals
    try (have h := congrArg Prod.snd ‹storeState env (encPrefix ++ cid) _ _ = _›
         simp only [] at h; subst h)
  all_goals
    refine ⟨by simp [World.accesses_emit, World.accesses_update, Event.cacheKey,
        hF1, hF2, hL, hS1, hS2],
      by simp [World.stateCache_emit, hF1', hF2', hL', hS1', hS2']⟩

/-- The key of a direction and a client belongs to no other direction or client. -/
theorem stateKey_injective (d1 d2 : Dir) (c1 c2 : String)
    (h : stateKey d1 c1 = stateKey d2 c2) : d1 = d2 ∧ c1 = c2 := by
  have hd := congrArg String.data h
  cases d1 <;> cases d2 <;>
    simp [stateKey, encPrefix, decPrefix, String.ext_iff] at hd ⊢ <;> exact hd

/-- C20: in the multi-client program, for client ids `a ≠ b`, a cycle
`SendMultiToServer(a, ...)`, with any re-handshake it enters, makes no access (get,
delete or set) to a key of the store other than `"enc_" + a` and `"dec_" + a`, and it
leaves the entries of `b` as they were; and the key mapping
`(direction, clientId) ↦ prefix + clientId` is injective. -/
theorem per_client_isolation (env : Env σ) (a b : String) (clientNum : Int) (w : World)
    (hab : a ≠ b) :
    (∀ k, k ≠ encPrefix ++ a → k ≠ decPrefix ++ a →
      (SendMultiToServer env a clientNum w).accesses k = w.accesses k) ∧
    (∀ direction : Dir,
      cacheLookup (stateKey direction b) (SendMultiToServer env a clientNum w).stateCache
        = cacheLookup (stateKey direction b) w.stateCache) ∧
    (∀ (d1 d2 : Dir) (c1 c2 : String), stateKey d1 c1 = stateKey d2 c2 → d1 = d2 ∧ c1 = c2) := by
  refine ⟨fun k hk1 hk2 => (SendMultiToServer_isolated env a clientNum w k hk1 hk2).1,
    fun direction => ?_, stateKey_injective⟩
  have h1 : stateKey direction b ≠ encPrefix ++ a := fun h =>
    hab (stateKey_injective direction .encoder b a h).2.symm
  have h2 : stateKey direction b ≠ decPrefix ++ a := fun h =>
    hab (stateKey_injective direction .decoder b a h).2.symm
  exact (SendMultiToServer_isolated env a clientNum w _ h1 h2).2

set_option maxRecDepth 8000 in
/-- C20 at a concrete input: a cycle of client `"c1"` over a store that also holds the
states of client `"c2"`. -/
theorem per_client_isolation_witness :
    cacheLookup (stateKey .encoder "c2")
        (SendMultiToServer (Demo.env {}) "c1" 1
          (Demo.stored {} 1 "c1" [1, 5, 0] [2, 6, 0]
            |>.cacheSet "enc_c2" [7] |>.cacheSet "dec_c2" [8])).stateCache = some [7] ∧
    cacheLookup (stateKey .decoder "c2")
        (SendMultiToServer (Demo.env {}) "c1" 1
          (Demo.stored {} 1 "c1" [1, 5, 0] [2, 6, 0]
            |>.cacheSet "enc_c2" [7] |>.cacheSet "dec_c2" [8])).stateCache = some [8] :=
  ⟨(per_client_isolation (Demo.env {}) "c1" "c2" 1
      (Demo.stored {} 1 "c1" [1, 5, 0] [2, 6, 0]
        |>.cacheSet "enc_c2" [7] |>.cacheSet "dec_c2" [8]) (by decide)).2.1 .encoder,
    (per_client_isolation (Demo.env {}) "c1" "c2" 1
      (Demo.stored {} 1 "c1" [1, 5, 0] [2, 6, 0]
        |>.cacheSet "enc_c2" [7] |>.cacheSet "dec_c2" [8]) (by decide)).2.1 .decoder⟩

end MultipleClients

/-! ## Unsupported request methods -/

/-- C30: a `connectionMethod` whose upper-case form (in the file-upload, switching and
multi-client programs) or which itself (in the handshake program) is neither `"POST"`
nor `"GET"` makes `MakeHttpCall` return the empty string, the code
`errorInvalidConnectionMethod` (106) and an error, in the world it was called in, so
that no request is issued; and in the four programs the code `MakeHttpCall` returns is
0 exactly when the error it returns is `nil`. -/
theorem unsupported_method {σ : Type} (env : Env σ)
    (route connectionMethod clientId contentType payload : String) (w : World) :
    (ToUpper env connectionMethod ≠ "POST" → ToUpper env connectionMethod ≠ "GET" →
      (∃ e, FileUpload.MakeHttpCall env route connectionMethod clientId contentType payload w
        = (("", 106, some e), w)) ∧
      (∃ e, MteSwitching.MakeHttpCall env route connectionMethod clientId contentType payload w
        = (("", 106, some e), w)) ∧
      (∃ e, MultipleClients.MakeHttpCall env route connectionMethod clientId contentType payload w
        = (("", 106, some e), w))) ∧
    (connectionMethod ≠ "POST" → connectionMethod ≠ "GET" →
      ∃ e, EcdhHandshake.MakeHttpCall env route connectionMethod clientId contentType payload w
        = (("", 106, some e), w)) ∧
    ((FileUpload.MakeHttpCall env route connectionMethod clientId contentType payload w).1.2.1 = 0
      ↔ (FileUpload.MakeHttpCall env route connectionMethod clientId contentType payload w).1.2.2
        = none) ∧
    ((MteSwitching.MakeHttpCall env route connectionMethod clientId contentType payload w).1.2.1 = 0
      ↔ (MteSwitching.MakeHttpCall env route connectionMethod clientId contentType payload w).1.2.2
        = none) ∧
    ((MultipleClients.MakeHttpCall env route connectionMethod clientId contentType payload w).1.2.1
        = 0
      ↔ (MultipleClients.MakeHttpCall env route connectionMethod clientId contentType payload
          w).1.2.2 = none) ∧
    ((EcdhHandshake.MakeHttpCall env route connectionMethod clientId contentType payload w).1.2.1 = 0
      ↔ (EcdhHandshake.MakeHttpCall env route connectionMethod clientId contentType payload w).1.2.2
        = none) := by
  refine ⟨fun hP hG => ⟨⟨"invalid connection request", ?_⟩, ⟨"invalid connection request", ?_⟩,
    ⟨"invalid connection request", ?_⟩⟩, fun hP hG => ⟨"Invalid connection request.", ?_⟩,
    ?_, ?_, ?_, ?_⟩
  · simp only [FileUpload.MakeHttpCall, if_neg hP, if_neg hG]
    rfl
  · simp only [MteSwitching.MakeHttpCall, if_neg hP, if_neg hG]
    rfl
  · simp only [MultipleClients.MakeHttpCall, if_neg hP, if_neg hG]
    rfl
  · simp only [EcdhHandshake.MakeHttpCall, if_neg hP, if_neg hG]
    rfl
  · unfold FileUpload.MakeHttpCall
    simp only []
    split
    · split <;> simp [FileUpload.errorHttpPost, FileUpload.errorReadingResponse]
    · split
      · split <;> simp [FileUpload.errorHttpGet, FileUpload.errorReadingResponse]
      · simp [FileUpload.errorInvalidConnectionMethod]
  · unfold MteSwitching.MakeHttpCall
    simp only []
    split
    · split <;> simp [MteSwitching.errorReadingResponse]
    · split
      · split <;> simp [MteSwitching.errorHttpGet, MteSwitching.errorReadingResponse]
      · simp [MteSwitching.errorInvalidConnectionMethod]
  · unfold MultipleClients.MakeHttpCall
    simp only []
    split
    · split <;> simp [MultipleClients.errorReadingResponse]
    · split
      · split <;> simp [MultipleClients.errorHttpGet, MultipleClients.errorReadingResponse]
      · simp [MultipleClients.errorInvalidConnectionMethod]
  · unfold EcdhHandshake.MakeHttpCall
    simp only []
    split
    · split <;> simp [EcdhHandshake.errorHttpPost, EcdhHandshake.errorReadingResponse]
    · split
      · split <;> simp [EcdhHandshake.errorHttpGet, EcdhHandshake.errorReadingResponse]
      · simp [EcdhHandshake.errorInvalidConnectionMethod]

/-- C30 at concrete inputs: the method `"put"` is refused by the three programs that
compare in upper case, and the method `"post"` is refused by the handshake program,
which compares the method as it is given. -/
theorem unsupported_method_witness :
    (ToUpper (Demo.env {}) "put" ≠ "POST" ∧ ToUpper (Demo.env {}) "put" ≠ "GET" ∧
      (∃ e, MultipleClients.MakeHttpCall (Demo.env {}) "r" "put" "c1" "text/plain" "p" {}
        = (("", 106, some e), {}))) ∧
    (("post" : String) ≠ "POST" ∧ ("post" : String) ≠ "GET" ∧
      (∃ e, EcdhHandshake.MakeHttpCall (Demo.env {}) "r" "post" "c1" "text/plain" "p" {}
        = (("", 106, some e), {}))) :=
  ⟨⟨by decide, by decide,
     ((unsupported_method (Demo.env {}) "r" "put" "c1" "text/plain" "p" {}).1
       (by decide) (by decide)).2.2⟩,
   ⟨by decide, by decide,
     (unsupported_method (Demo.env {}) "r" "post" "c1" "text/plain" "p" {}).2.1
       (by decide) (by decide)⟩⟩

/-! ## The cached reseed interval -/

theorem World.maxSeed_emit (w : World) (e : Event) : (w.emit e).maxSeed = w.maxSeed := rfl

theorem World.maxSeed_cacheSet (w : World) (k : String) (v : Bytes) :
    (w.cacheSet k v).maxSeed = w.maxSeed := rfl

theorem World.maxSeed_cacheDel (w : World) (k : String) : (w.cacheDel k).maxSeed = w.maxSeed := rfl

theorem maxSeed_trans (a b c : World) (h1 : a.maxSeed ≠ 0 → b.maxSeed = a.maxSeed)
    (h2 : b.maxSeed ≠ 0 → c.maxSeed = b.maxSeed) : a.maxSeed ≠ 0 → c.maxSeed = a.maxSeed := by
  intro h
  rw [h2 (by rw [h1 h]; exact h), h1 h]

namespace MultipleClients

variable {σ : Type}

theorem MakeHttpCall_maxSeed_multi (env : Env σ) (route method clientId contentType payload : String)
    (w : World) :
    (MakeHttpCall env route method clientId contentType payload w).2.maxSeed = w.maxSeed := by
  unfold MakeHttpCall
  simp only []
  split
  · split <;> rfl
  · split
    · split <;> rfl
    · rfl

theorem CreateMteEncoder_maxSeed_multi (env : Env σ) (ts cid : String) (ent : Bytes) (w : World)
    (h : w.maxSeed ≠ 0) : (CreateMteEncoder env ts cid ent w).2.maxSeed = w.maxSeed := by
  unfold CreateMteEncoder
  simp only [World.maxSeed_emit, if_neg h]
  repeat' split
  all_goals
    try (have h := congrArg Prod.snd ‹sealState env _ _ = _›
         simp only [sealState_world_multi] at h; subst h)
  all_goals rfl

/-- What `CreateMteEncoder` does to a cached reseed interval of 0: it learns the reseed
interval of the DRBG of the encoder it instantiated, whether or not the state could then
be sealed, and leaves the 0 when the timestamp does not parse or the encoder is not
instantiated. -/
theorem CreateMteEncoder_learns_multi (env : Env σ) (ts cid : String) (ent : Bytes) (w : World)
    (h0 : w.maxSeed = 0) :
    (∀ nonce, ParseUint ts = .ok nonce →
      ((env.mte.InstantiateStr .EncDef ent nonce cid (env.mte.newObj .EncDef)).1
          = statusSuccess →
        (CreateMteEncoder env ts cid ent w).2.maxSeed
          = env.mte.GetDrbgsReseedInterval .EncDef
              (env.mte.InstantiateStr .EncDef ent nonce cid (env.mte.newObj .EncDef)).2
            % 2 ^ 64) ∧
      ((env.mte.InstantiateStr .EncDef ent nonce cid (env.mte.newObj .EncDef)).1
          ≠ statusSuccess →
        (CreateMteEncoder env ts cid ent w).2.maxSeed = 0)) ∧
    (∀ e, ParseUint ts = .error e → (CreateMteEncoder env ts cid ent w).2.maxSeed = 0) := by
  refine ⟨fun nonce hp => ⟨fun hs => ?_, fun hs => ?_⟩, fun e hp => ?_⟩
  · simp only [CreateMteEncoder, hp, hs, World.maxSeed_emit, if_pos h0, ne_eq,
      not_true_eq_false, if_false]
    split
    all_goals
      have h := congrArg Prod.snd ‹sealState env _ _ = _›
      simp only [sealState_world_multi] at h
      subst h
      rfl
  · simp only [CreateMteEncoder, hp, World.maxSeed_emit, if_pos h0, ne_eq, hs,
      not_false_eq_true, if_true]
    exact h0
  · simp only [CreateMteEncoder, hp]
    exact h0

theorem CreateMteDecoder_maxSeed_multi (env : Env σ) (ts cid : String) (ent : Bytes) (w : World) :
    (CreateMteDecoder env ts cid ent w).2.maxSeed = w.maxSeed := by
  unfold CreateMteDecoder
  simp only []
  repeat' split
  all_goals
    try (have h := congrArg Prod.snd ‹sealState env _ _ = _›
         simp only [sealState_world_multi] at h; subst h)
  all_goals simp [World.cacheSet, World.emit]

/-- Once the cached reseed interval is set, a handshake leaves it as it is. -/
theorem PerformHandshakeWithServer_maxSeed_multi (env : Env σ) (num : Int) (cid : String)
    (w : World) (hm : w.maxSeed ≠ 0) :
    (PerformHandshakeWithServer env num cid w).2.maxSeed = w.maxSeed := by
  have hH := fun a b c' d e w => MakeHttpCall_maxSeed_multi env a b c' d e w
  have hD := fun ts ent w => CreateMteDecoder_maxSeed_multi env ts cid ent w
  unfold PerformHandshakeWithServer
  simp only []
  repeat' split
  all_goals
    try (have h := congrArg Prod.snd ‹MakeHttpCall env _ _ _ _ _ _ = _›; simp only [] at h; subst h)
  all_goals
    try (have h := congrArg Prod.snd ‹CreateMteEncoder env _ _ _ _ = _›; simp only [] at h; subst h)
  all_goals
    try (have h := congrArg Prod.snd ‹CreateMteDecoder env _ _ _ _ = _›; simp only [] at h; subst h)
  all_goals
    try simp only [hD]
  all_goals first
    | (refine (CreateMteEncoder_maxSeed_multi env _ cid _ _ ?_).trans ?_
       · simp only [World.maxSeed_emit, hH]
         exact hm
       · simp only [World.maxSeed_emit, hH])
    | simp only [World.maxSeed_emit, hH]

theorem reseedCheck_maxSeed (env : Env σ) (i : Nat) (cid : String) (encoder : σ) (w : World)
    (h : w.maxSeed ≠ 0) : (reseedCheck env i cid encoder w).2.maxSeed = w.maxSeed := by
  unfold reseedCheck
  simp only []
  split
  · refine (PerformHandshakeWithServer_maxSeed_multi env i cid _ ?_).trans ?_
    · exact h
    · rfl
  · rfl

theorem sendLoop_maxSeed (env : Env σ) (cid : String) (clientNum : Int) :
    ∀ (remaining i : Nat) (encoder decoder : σ) (w : World), w.maxSeed ≠ 0 →
      (sendLoop env cid clientNum remaining i encoder decoder w).world.maxSeed = w.maxSeed := by
  intro remaining
  induction remaining with
  | zero =>
    intro i encoder decoder w _
    rfl
  | succ n ih =>
    intro i encoder decoder w
    have hH := fun a b c' d e w => MakeHttpCall_maxSeed_multi env a b c' d e w
    unfold sendLoop
    simp only []
    repeat' split
    all_goals
      try (have h := congrArg Prod.snd ‹MakeHttpCall env _ _ _ _ _ _ = _›; simp only [] at h
           subst h)
    all_goals first
      | (refine maxSeed_trans w _ _ (maxSeed_trans w _ _ ?_ (reseedCheck_maxSeed env _ cid _ _))
           (ih _ _ _ _)
         intro _
         simp only [World.maxSeed_emit, hH])
      | (intro _; simp only [LoopExit.world_returned, World.maxSeed_emit, hH])

theorem fetchState_maxSeed (env : Env σ) (key : String) (w : World) :
    (fetchState env key w).2.maxSeed = w.maxSeed := by
  rw [fetchState_world]
  rfl

theorem storeState_maxSeed (env : Env σ) (key : String) (state : Bytes) (w : World) :
    (storeState env key state w).2.maxSeed = w.maxSeed := by
  unfold storeState
  simp only []
  split
  all_goals
    have h := congrArg Prod.snd ‹sealState env _ _ = _›
    simp only [sealState_world_multi] at h
    subst h
    rfl

/-- Once the cached reseed interval is set, a cycle leaves it as it is. -/
theorem SendMultiToServer_maxSeed (env : Env σ) (cid : String) (clientNum : Int) (w : World)
    (h : w.maxSeed ≠ 0) : (SendMultiToServer env cid clientNum w).maxSeed = w.maxSeed := by
  unfold SendMultiToServer
  rw [World.maxSeed_emit]
  unfold sendMultiBody
  simp only []
  split
  · have h1 := congrArg Prod.snd ‹fetchState env _ _ = _›
    simp only [fetchState_world] at h1
    subst h1
    rfl
  · have h1 := congrArg Prod.snd ‹fetchState env _ _ = _›
    simp only [fetchState_world] at h1
    subst h1
    split
    · rfl
    · split
      · have h2 := congrArg Prod.snd ‹fetchState env _ _ = _›
        simp only [fetchState_world] at h2
        subst h2
        rfl
      · have h2 := congrArg Prod.snd ‹fetchState env _ _ = _›
        simp only [fetchState_world] at h2
        subst h2
        split
        · rfl
        · split
          · have h3 := congrArg LoopExit.world ‹sendLoop env _ _ _ _ _ _ _ = _›
            simp only [LoopExit.world_returned] at h3
            subst h3
            refine (sendLoop_maxSeed env cid clientNum _ _ _ _ _ ?_).trans ?_
            · simp only [World.maxSeed_emit]
              exact h
            · simp only [World.maxSeed_emit]
          · have h3 := congrArg LoopExit.world ‹sendLoop env _ _ _ _ _ _ _ = _›
            simp only [LoopExit.world_finished] at h3
            subst h3
            split
            · have h4 := congrArg Prod.snd ‹storeState env _ _ _ = _›
              simp only [] at h4
              subst h4
              refine (storeState_maxSeed env _ _ _).trans ?_
              rw [World.maxSeed_emit]
              refine (sendLoop_maxSeed env cid clientNum _ _ _ _ _ ?_).trans ?_
              · simp only [World.maxSeed_emit]
                exact h
              · simp only [World.maxSeed_emit]
            · have h4 := congrArg Prod.snd ‹storeState env _ _ _ = _›
              simp only [] at h4
              subst h4
              refine (storeState_maxSeed env _ _ _).trans ?_
              rw [World.maxSeed_emit]
              refine (storeState_maxSeed env _ _ _).trans ?_
              rw [World.maxSeed_emit]
              refine (sendLoop_maxSeed env cid clientNum _ _ _ _ _ ?_).trans ?_
              · simp only [World.maxSeed_emit]
                exact h
              · simp only [World.maxSeed_emit]

end MultipleClients

namespace FileUpload

variable {σ : Type}

theorem MakeHttpCall_maxSeed_upload (env : Env σ) (route method clientId contentType payload : String)
    (w : World) :
    (MakeHttpCall env route method clientId contentType payload w).2.maxSeed = w.maxSeed := by
  unfold MakeHttpCall
  simp only []
  split
  · split <;> rfl
  · split
    · split <;> rfl
    · rfl

theorem CreateMteEncoder_maxSeed_upload (env : Env σ) (ts cid : String) (ent : Bytes) (w : World)
    (h : w.maxSeed ≠ 0) : (CreateMteEncoder env ts cid ent w).world.maxSeed = w.maxSeed := by
  unfold CreateMteEncoder
  simp only [World.maxSeed_emit, if_neg h]
  repeat' split
  all_goals rfl

theorem CreateMteDecoder_maxSeed_upload (env : Env σ) (ts cid : String) (ent : Bytes) (w : World) :
    (CreateMteDecoder env ts cid ent w).world.maxSeed = w.maxSeed := by
  unfold CreateMteDecoder
  simp only []
  repeat' split
  all_goals simp [Run.world_done, Run.world_panic, World.emit]

/-- Once the cached reseed interval is set, a handshake leaves it as it is. -/
theorem PerformHandshakeWithServer_maxSeed_upload (env : Env σ) (cid : String) (w : World)
    (hm : w.maxSeed ≠ 0) : (PerformHandshakeWithServer env cid w).world.maxSeed = w.maxSeed := by
  have hH := fun a b c' d e w => MakeHttpCall_maxSeed_upload env a b c' d e w
  have hD := fun ts ent w => CreateMteDecoder_maxSeed_upload env ts cid ent w
  unfold PerformHandshakeWithServer
  simp only []
  repeat' split
  all_goals
    try (have h := congrArg Prod.snd ‹MakeHttpCall env _ _ _ _ _ _ = _›; simp only [] at h; subst h)
  all_goals
    try (have h := congrArg Run.world ‹CreateMteEncoder env _ _ _ _ = _›
         simp only [Run.world_done, Run.world_panic] at h; subst h)
  all_goals
    try (have h := congrArg Run.world ‹CreateMteDecoder env _ _ _ _ = _›
         simp only [Run.world_done, Run.world_panic] at h; subst h)
  all_goals
    try simp only [Run.world_done, Run.world_panic, hD]
  all_goals first
    | (refine (CreateMteEncoder_maxSeed_upload env _ cid _ _ ?_).trans ?_
       · simp only [World.maxSeed_emit, hH]
         exact hm
       · simp only [World.maxSeed_emit, hH])
    | simp only [Run.world_done, Run.world_panic, World.maxSeed_emit, hH]

theorem encoderReseedCheck_maxSeed (env : Env σ) (cid : String) (encoder : σ) (w : World)
    (h : w.maxSeed ≠ 0) : (encoderReseedCheck env cid encoder w).world.maxSeed = w.maxSeed := by
  unfold encoderReseedCheck
  simp only []
  split
  · rw [Run.world_void]
    refine (PerformHandshakeWithServer_maxSeed_upload env cid _ ?_).trans ?_
    · exact h
    · rfl
  · rfl

theorem producerAtEOF_maxSeed (env : Env σ) (cid : String) (encoder : σ) (w : World)
    (h : w.maxSeed ≠ 0) : (producerAtEOF env cid encoder w).world.maxSeed = w.maxSeed := by
  unfold producerAtEOF
  simp only []
  split
  all_goals
    refine (encoderReseedCheck_maxSeed env cid _ _ ?_).trans ?_
    · exact h
    · rfl

theorem producerLoop_maxSeed (env : Env σ) (cid : String) :
    ∀ (reads : List ReadResult) (encoder : σ) (w : World), w.maxSeed ≠ 0 →
      (producerLoop env cid reads encoder w).world.maxSeed = w.maxSeed := by
  intro reads
  induction reads with
  | nil =>
    intro encoder w h
    unfold producerLoop
    exact producerAtEOF_maxSeed env cid encoder w h
  | cons r rest ih =>
    intro encoder w h
    cases r with
    | eof =>
      unfold producerLoop
      exact producerAtEOF_maxSeed env cid encoder w h
    | failure msg =>
      unfold producerLoop
      rfl
    | data b =>
      unfold producerLoop
      simp only []
      split
      · rfl
      · refine (ih _ _ ?_).trans ?_
        · exact h
        · rfl

theorem decoderReseedCheck_maxSeed (env : Env σ) (cid : String) (decoder : σ) (w : World)
    (h : w.maxSeed ≠ 0) : (decoderReseedCheck env cid decoder w).world.maxSeed = w.maxSeed := by
  unfold decoderReseedCheck
  simp only []
  split
  · rw [Run.world_void]
    refine (PerformHandshakeWithServer_maxSeed_upload env cid _ ?_).trans ?_
    · exact h
    · rfl
  · rfl

theorem decodeResponse_maxSeed (env : Env σ) (cid : String) (serverResponse : ResponseModel String)
    (w : World) (h : w.maxSeed ≠ 0) :
    (decodeResponse env cid serverResponse w).world.maxSeed = w.maxSeed := by
  unfold decodeResponse
  simp only []
  repeat' split
  all_goals
    try (have h := congrArg Run.world ‹decoderReseedCheck env _ _ _ = _›
         simp only [Run.world_done, Run.world_panic] at h; subst h)
  all_goals first
    | rfl
    | (refine (decoderReseedCheck_maxSeed env cid _ _ ?_).trans ?_
       · exact h
       · rfl)

theorem sendUpload_maxSeed (env : Env σ) (cid uri : String) (totalSize : Nat) (w : World) :
    (sendUpload env cid uri totalSize w).world.maxSeed = w.maxSeed := by
  unfold sendUpload
  simp only []
  repeat' split
  all_goals rfl

/-- What `CreateMteEncoder` does to a cached reseed interval of 0: it learns the reseed
interval of the DRBG of the encoder it instantiated, and leaves the 0 when the timestamp
does not parse or the encoder is not instantiated. -/
theorem CreateMteEncoder_learns_upload (env : Env σ) (ts cid : String) (ent : Bytes) (w : World)
    (h0 : w.maxSeed = 0) :
    (∀ nonce, ParseUint ts = .ok nonce →
      ((env.mte.InstantiateStr .MkeEncDef ent nonce cid (env.mte.newObj .MkeEncDef)).1
          = statusSuccess →
        (CreateMteEncoder env ts cid ent w).world.maxSeed
          = env.mte.GetDrbgsReseedInterval .MkeEncDef
              (env.mte.InstantiateStr .MkeEncDef ent nonce cid (env.mte.newObj .MkeEncDef)).2
            % 2 ^ 64) ∧
      ((env.mte.InstantiateStr .MkeEncDef ent nonce cid (env.mte.newObj .MkeEncDef)).1
          ≠ statusSuccess →
        (CreateMteEncoder env ts cid ent w).world.maxSeed = 0)) ∧
    (∀ e, ParseUint ts = .error e → (CreateMteEncoder env ts cid ent w).world.maxSeed = 0) := by
  refine ⟨fun nonce hp => ⟨fun hs => ?_, fun hs => ?_⟩, fun e hp => ?_⟩
  · simp only [CreateMteEncoder, hp, hs, World.maxSeed_emit, if_pos h0, ne_eq,
      not_true_eq_false, if_false]
    rfl
  · simp only [CreateMteEncoder, hp, World.maxSeed_emit, if_pos h0, ne_eq, hs,
      not_false_eq_true, if_true]
    exact h0
  · simp only [CreateMteEncoder, hp]
    exact h0

end FileUpload

/-- C22: the cached maximum reseed interval is learned once.  While `maxSeed` is 0,
`CreateMteEncoder` of the multi-client and the file-upload program sets it to the reseed
interval of the DRBG of the encoder it has just instantiated (and leaves the 0 only when
the timestamp does not parse or the instantiation fails, where it returns before the
assignment).  Once `maxSeed` is not 0, `CreateMteEncoder`, a handshake for any client, a
whole cycle of a client, and the producer and the response decoding of an upload (which
may enter a handshake) leave it unchanged; and the other operations (`MakeHttpCall`,
`CreateMteDecoder`, the get and put paths of the store, the upload request) never write
it. -/
theorem max_seed_learned_once {σ : Type} (env : Env σ) (timestamp clientId : String)
    (entropy : Bytes) (num : Int) (w : World) :
    (w.maxSeed ≠ 0 →
      (MultipleClients.CreateMteEncoder env timestamp clientId entropy w).2.maxSeed = w.maxSeed ∧
      (FileUpload.CreateMteEncoder env timestamp clientId entropy w).world.maxSeed = w.maxSeed ∧
      (MultipleClients.PerformHandshakeWithServer env num clientId w).2.maxSeed = w.maxSeed ∧
      (FileUpload.PerformHandshakeWithServer env clientId w).world.maxSeed = w.maxSeed ∧
      (MultipleClients.SendMultiToServer env clientId num w).maxSeed = w.maxSeed ∧
      (∀ reads encoder,
        (FileUpload.producerLoop env clientId reads encoder w).world.maxSeed = w.maxSeed) ∧
      (∀ serverResponse,
        (FileUpload.decodeResponse env clientId serverResponse w).world.maxSeed = w.maxSeed)) ∧
    (w.maxSeed = 0 →
      (∀ nonce, ParseUint timestamp = .ok nonce →
        ((env.mte.InstantiateStr .EncDef entropy nonce clientId (env.mte.newObj .EncDef)).1
            = statusSuccess →
          (MultipleClients.CreateMteEncoder env timestamp clientId entropy w).2.maxSeed
            = env.mte.GetDrbgsReseedInterval .EncDef
                (env.mte.InstantiateStr .EncDef entropy nonce clientId
                  (env.mte.newObj .EncDef)).2 % 2 ^ 64) ∧
        ((env.mte.InstantiateStr .EncDef entropy nonce clientId (env.mte.newObj .EncDef)).1
            ≠ statusSuccess →
          (MultipleClients.CreateMteEncoder env timestamp clientId entropy w).2.maxSeed = 0) ∧
        ((env.mte.InstantiateStr .MkeEncDef entropy nonce clientId
            (env.mte.newObj .MkeEncDef)).1 = statusSuccess →
          (FileUpload.CreateMteEncoder env timestamp clientId entropy w).world.maxSeed
            = env.mte.GetDrbgsReseedInterval .MkeEncDef
                (env.mte.InstantiateStr .MkeEncDef entropy nonce clientId
                  (env.mte.newObj .MkeEncDef)).2 % 2 ^ 64) ∧
        ((env.mte.InstantiateStr .MkeEncDef entropy nonce clientId
            (env.mte.newObj .MkeEncDef)).1 ≠ statusSuccess →
          (FileUpload.CreateMteEncoder env timestamp clientId entropy w).world.maxSeed = 0)) ∧
      (∀ e, ParseUint timestamp = .error e →
        (MultipleClients.CreateMteEncoder env timestamp clientId entropy w).2.maxSeed = 0 ∧
        (FileUpload.CreateMteEncoder env timestamp clientId entropy w).world.maxSeed = 0)) ∧
    (∀ route method contentType payload,
      (MultipleClients.MakeHttpCall env route method clientId contentType payload w).2.maxSeed
        = w.maxSeed ∧
      (FileUpload.MakeHttpCall env route method clientId contentType payload w).2.maxSeed
        = w.maxSeed) ∧
    (MultipleClients.CreateMteDecoder env timestamp clientId entropy w).2.maxSeed = w.maxSeed ∧
    (FileUpload.CreateMteDecoder env timestamp clientId entropy w).world.maxSeed = w.maxSeed ∧
    (∀ key state, (MultipleClients.fetchState env key w).2.maxSeed = w.maxSeed ∧
      (MultipleClients.storeState env key state w).2.maxSeed = w.maxSeed) ∧
    (∀ uri totalSize, (FileUpload.sendUpload env clientId uri totalSize w).world.maxSeed
      = w.maxSeed) := by
  refine ⟨fun h => ⟨MultipleClients.CreateMteEncoder_maxSeed_multi env _ _ _ w h,
      FileUpload.CreateMteEncoder_maxSeed_upload env _ _ _ w h,
      MultipleClients.PerformHandshakeWithServer_maxSeed_multi env num clientId w h,
      FileUpload.PerformHandshakeWithServer_maxSeed_upload env clientId w h,
      MultipleClients.SendMultiToServer_maxSeed env clientId num w h,
      fun reads encoder => FileUpload.producerLoop_maxSeed env clientId reads encoder w h,
      fun r => FileUpload.decodeResponse_maxSeed env clientId r w h⟩,
    fun h0 => ⟨fun nonce hp =>
        ⟨((MultipleClients.CreateMteEncoder_learns_multi env _ _ _ w h0).1 nonce hp).1,
          ((MultipleClients.CreateMteEncoder_learns_multi env _ _ _ w h0).1 nonce hp).2,
          ((FileUpload.CreateMteEncoder_learns_upload env _ _ _ w h0).1 nonce hp).1,
          ((FileUpload.CreateMteEncoder_learns_upload env _ _ _ w h0).1 nonce hp).2⟩,
      fun e hp => ⟨(MultipleClients.CreateMteEncoder_learns_multi env _ _ _ w h0).2 e hp,
        (FileUpload.CreateMteEncoder_learns_upload env _ _ _ w h0).2 e hp⟩⟩,
    fun route method contentType payload =>
      ⟨MultipleClients.MakeHttpCall_maxSeed_multi env _ _ _ _ _ w,
        FileUpload.MakeHttpCall_maxSeed_upload env _ _ _ _ _ w⟩,
    MultipleClients.CreateMteDecoder_maxSeed_multi env _ _ _ w,
    FileUpload.CreateMteDecoder_maxSeed_upload env _ _ _ w,
    fun key state => ⟨MultipleClients.fetchState_maxSeed env key w,
      MultipleClients.storeState_maxSeed env key state w⟩,
    fun uri totalSize => FileUpload.sendUpload_maxSeed env clientId uri totalSize w⟩

set_option maxRecDepth 8000 in
/-- C22 at concrete inputs.  Learning: with the cached interval 0, `CreateMteEncoder` on
an engine whose DRBG has the reseed interval 7 leaves the cached interval 7, in both
programs.  Keeping: with the cached interval 10, a handshake on an engine whose DRBG has
the reseed interval 1 leaves the cached interval at 10, in both programs. -/
theorem max_seed_learned_once_witness :
    (({} : World).maxSeed = 0 ∧ ParseUint "1700000000" = .ok 1700000000 ∧
      ((Demo.env { interval := 7 }).mte.InstantiateStr .EncDef [1, 2] 1700000000 "c1"
        ((Demo.env { interval := 7 }).mte.newObj .EncDef)).1 = statusSuccess ∧
      (MultipleClients.CreateMteEncoder (Demo.env { interval := 7 }) "1700000000" "c1" [1, 2]
        {}).2.maxSeed = 7 ∧
      (FileUpload.CreateMteEncoder (Demo.env { interval := 7 }) "1700000000" "c1" [1, 2]
        {}).world.maxSeed = 7) ∧
    (({ maxSeed := 10 } : World).maxSeed ≠ 0 ∧
      (MultipleClients.PerformHandshakeWithServer (Demo.env {}) 1 "c1"
        { maxSeed := 10 }).2.maxSeed = 10 ∧
      (FileUpload.PerformHandshakeWithServer (Demo.env {}) "c1" { maxSeed := 10 }).world.maxSeed
        = 10) :=
  ⟨⟨rfl, by decide, by decide,
      (((max_seed_learned_once (Demo.env { interval := 7 }) "1700000000" "c1" [1, 2] 1 {}).2.1
        rfl).1 1700000000 (by decide)).1 (by decide),
      (((max_seed_learned_once (Demo.env { interval := 7 }) "1700000000" "c1" [1, 2] 1 {}).2.1
        rfl).1 1700000000 (by decide)).2.2.1 (by decide)⟩,
    ⟨by decide,
      ((max_seed_learned_once (Demo.env {}) "" "c1" [] 1 { maxSeed := 10 }).1 (by decide)).2.2.1,
      ((max_seed_learned_once (Demo.env {}) "" "c1" [] 1 { maxSeed := 10 }).1
        (by decide)).2.2.2.1⟩⟩

/-! ## A handshake that returns no error without sessions -/

set_option maxRecDepth 8000 in
/-- C25 at a failing input: the server answers the handshake with `success = true` and
`mte.InitLicense` reports failure.  In the file-upload and the switching program
`PerformHandshakeWithServer` returns `(0, nil)` although no engine object was made and
the two stored states are still empty; in the multi-client program it returns a `nil`
error although no engine object was made, no state was saved and the store is empty. -/
theorem nil_error_without_sessions :
    FileUpload.PerformHandshakeWithServer (Demo.env { licensed := false }) "c1" {}
      = .done (0, none)
         { encoderState := "", decoderState := ""
           trace := [.initLicense, .clearContainer .decoder, .clearContainer .encoder,
             .createSharedSecret .decoder [83, 68], .createSharedSecret .encoder [83, 69],
             .httpPost "https://dev-echo.eclypses.com/api/handshake"
               [("Content-Type", "application/json")] "c1|\x01|\x02",
             .getPublicKey .decoder, .getPublicKey .encoder, .handshake "c1"] } ∧
    MteSwitching.PerformHandshakeWithServer (Demo.env { licensed := false }) "c1" {}
      = .done (0, none)
         { encoderState := "", decoderState := ""
           trace := [.initLicense, .clearContainer .decoder, .clearContainer .encoder,
             .createSharedSecret .decoder [83, 68], .createSharedSecret .encoder [83, 69],
             .httpPost "https://dev-echo.eclypses.com/api/handshake"
               [("x-client-id", "c1"), ("Content-Type", "application/json")] "c1|\x01|\x02",
             .getPublicKey .decoder, .getPublicKey .encoder, .handshake "c1"] } ∧
    (MultipleClients.PerformHandshakeWithServer (Demo.env { licensed := false }) 2 "c2" {}).1.2
      = none ∧
    (MultipleClients.PerformHandshakeWithServer (Demo.env { licensed := false }) 2 "c2"
      {}).2.stateCache = [] ∧
    (MultipleClients.PerformHandshakeWithServer (Demo.env { licensed := false }) 2 "c2"
      {}).2.trace.all (fun e => match e with
        | .mteNew _ => false
        | .instantiate _ _ _ _ => false
        | .saveState _ => false
        | .cacheSet _ _ => false
        | _ => true) = true := by
  decide

/-! ## The key of the state cipher -/

namespace MultipleClients

variable {σ : Type}

theorem charsBytes_length : charsBytes.length = 63 := by decide

/-- The loop of `shortID` never indexes outside `chars`: it turns every byte into a
byte of `chars` and keeps the length. -/
theorem pickChars_spec :
    ∀ b : Bytes, ∃ id, pickChars b = some id ∧ id.length = b.length ∧ ∀ c ∈ id, c ∈ charsBytes := by
  intro b
  induction b with
  | nil => exact ⟨[], rfl, rfl, fun c hc => by cases hc⟩
  | cons x rest ih =>
    obtain ⟨id, hid, hlen, hmem⟩ := ih
    have hx : x % charsBytes.length < charsBytes.length :=
      Nat.mod_lt _ (by rw [charsBytes_length]; decide)
    refine ⟨charsBytes[x % charsBytes.length] :: id, ?_, ?_, ?_⟩
    · simp only [pickChars, List.getElem?_eq_getElem hx, hid, Option.map_some']
    · simp [hlen]
    · intro c hc
      rcases List.mem_cons.1 hc with h | h
      · rw [h]
        exact List.getElem_mem _
      · exact hmem c h

/-- C26: `chars` has 63 bytes and the index `int(b[i]) % len(chars)` is always below
that; for every length `n`, `shortID(n)` returns (it does not panic) a string of exactly
`n` bytes, each of them a byte of `chars`; and `GenerateAesCipher` passes a key of 32
bytes to `aes.NewCipher`, which accepts it, so that it returns `nil` and leaves
`retcode` as it was. -/
theorem cache_key_generation (env : Env σ) (n : Nat) (w : World) :
    charsBytes.length = 63 ∧
    (∀ x : Nat, x % charsBytes.length < charsBytes.length) ∧
    (∃ id, shortID env n w = .done id (w.emit (.mathRead n)) ∧ id.length = n ∧
      ∀ c ∈ id, c ∈ charsBytes) ∧
    (∃ aesKey, GenerateAesCipher env w
        = .done none ((w.emit (.mathRead 32)).emit (.newCipher aesKey)) ∧
      aesKey.length = 32 ∧ aesNewCipher aesKey = none ∧ ∀ c ∈ aesKey, c ∈ charsBytes) := by
  have hshort : ∀ (m : Nat) (w : World), ∃ id, shortID env m w = .done id (w.emit (.mathRead m)) ∧
      id.length = m ∧ ∀ c ∈ id, c ∈ charsBytes := by
    intro m w
    obtain ⟨id, hid, hlen, hmem⟩ :=
      pickChars_spec ((List.range m).map (fun i => env.rand.mathByte w.now i % 256))
    refine ⟨id, ?_, ?_, hmem⟩
    · simp only [shortID, hid]
    · simpa using hlen
  refine ⟨charsBytes_length, fun x => Nat.mod_lt _ (by rw [charsBytes_length]; decide),
    hshort n w, ?_⟩
  obtain ⟨aesKey, hk, hlen, hmem⟩ := hshort 32 w
  have haes : aesNewCipher aesKey = none := by
    simp [aesNewCipher, hlen]
  refine ⟨aesKey, ?_, hlen, haes, hmem⟩
  simp only [GenerateAesCipher, hk, haes]

end MultipleClients

/-! ## The exit status after a failed handshake -/

theorem World.retcode_emit (w : World) (e : Event) : (w.emit e).retcode = w.retcode := rfl

namespace EcdhHandshake

variable {σ : Type}

theorem MakeHttpCall_retcode_ecdh (env : Env σ) (route method clientId contentType payload : String)
    (w : World) :
    (MakeHttpCall env route method clientId contentType payload w).2.retcode = w.retcode := by
  unfold MakeHttpCall
  simp only []
  split
  · split <;> rfl
  · split
    · split <;> rfl
    · rfl

/-- The handshake of the handshake demo never assigns the package variable `retcode`. -/
theorem PerformHandshakeWithServer_retcode_ecdh (env : Env σ) (cid : String) (w : World) :
    (PerformHandshakeWithServer env cid w).2.retcode = w.retcode := by
  have hH := fun a b c' d e w => MakeHttpCall_retcode_ecdh env a b c' d e w
  unfold PerformHandshakeWithServer
  simp only []
  repeat' split
  all_goals
    try (have h := congrArg Prod.snd ‹MakeHttpCall env _ _ _ _ _ _ = _›; simp only [] at h; subst h)
  all_goals simp only [World.retcode_emit, hH]

end EcdhHandshake

set_option maxRecDepth 8000 in
/-- C27 at failing inputs.  In the handshake demo the process exits with status 0
whatever the handshake returns: the package variable `retcode` the deferred
`os.Exit` reads is never assigned after `retcode = 0`.  When the server rejects the
handshake, `PerformHandshakeWithServer` returns the code 107 and `main` prints it, yet
the exit status is 0, in the handshake demo and in the multi-client program alike. -/
theorem exit_status_ignores_handshake_code {σ : Type} (env : Env σ) (clientId : String)
    (w : World) :
    (EcdhHandshake.main env clientId w).retcode = 0 ∧
    (EcdhHandshake.PerformHandshakeWithServer (Demo.env { reply := "denied" }) "c1" {}).1.2
      = (107, some "denied") ∧
    (EcdhHandshake.main (Demo.env { reply := "denied" }) "c1" {}).retcode = 0 ∧
    (EcdhHandshake.main (Demo.env { reply := "denied" }) "c1" {}).trace.head?
      = some (.print "Error: denied Code: 107") ∧
    (MultipleClients.PerformHandshakeWithServer (Demo.env { reply := "denied" }) 1 "c1" {}).1
      = (107, some "denied") ∧
    (MultipleClients.main (Demo.env { reply := "denied" }) (fun _ => "c1") (.ok 2) ["n"]
      {}).world.retcode = 0 ∧
    (MultipleClients.main (Demo.env { reply := "denied" }) (fun _ => "c1") (.ok 2) ["n"]
      {}).world.trace.head? = some (.print "Error: denied Code: 107") := by
  refine ⟨?_, by decide, by decide, by decide, by decide, by decide, by decide⟩
  unfold EcdhHandshake.main
  simp only []
  split
  · have h := congrArg Prod.snd ‹EcdhHandshake.PerformHandshakeWithServer env _ _ = _›
    simp only [] at h
    subst h
    simp only [World.retcode_emit,
      EcdhHandshake.PerformHandshakeWithServer_retcode_ecdh]
  · have h := congrArg Prod.snd ‹EcdhHandshake.PerformHandshakeWithServer env _ _ = _›
    simp only [] at h
    subst h
    simp only [World.retcode_emit,
      EcdhHandshake.PerformHandshakeWithServer_retcode_ecdh]

/-! ## The access token of the switching program -/

theorem World.access_token_emit (w : World) (e : Event) :
    (w.emit e).access_token = w.access_token := rfl

namespace MteSwitching

variable {σ : Type}

theorem MakeHttpCall_access_token (env : Env σ) (route method clientId contentType payload : String)
    (w : World) :
    (MakeHttpCall env route method clientId contentType payload w).2.access_token
      = w.access_token := by
  unfold MakeHttpCall
  simp only []
  split
  · split <;> rfl
  · split
    · split <;> rfl
    · rfl

/-- A login leaves an empty `access_token` empty. -/
theorem LoginToServer_access_token (env : Env σ) (cid : String) (w : World)
    (h0 : w.access_token = "") : (LoginToServer env cid w).2.access_token = "" := by
  have hH := fun a b c' d e w => MakeHttpCall_access_token env a b c' d e w
  unfold LoginToServer
  simp only []
  repeat' split
  all_goals
    try (have h := congrArg Prod.snd ‹MakeHttpCall env _ _ _ _ _ _ = _›; simp only [] at h; subst h)
  all_goals simp only [World.access_token_emit, hH, unmarshalResponse, h0]

end MteSwitching

set_option maxRecDepth 8000 in
/-- C28 at a failing input.  Whatever document arrives, the response parsed by the
switching program has an empty `access_token`, a login that starts with an empty
`access_token` leaves it empty, and an upload request built with an empty
`access_token` carries the client-id header only (when `http.NewRequest` fails no
request is issued at all).  On a server whose every document
holds the token `"tok"`, the login after a handshake returns `(0, nil)`, the global
`access_token` is empty, and the upload request that follows has no `Authorization`
header. -/
theorem access_token_not_carried {σ : Type} (env : Env σ) (clientId uri body : String)
    (totalSize : Nat) (w : World) :
    (MteSwitching.unmarshalResponse env body).access_token = "" ∧
    (MteSwitching.LoginToServer env clientId { w with access_token := "" }).2.access_token
      = "" ∧
    (MteSwitching.sendUpload env clientId uri totalSize
        { w with access_token := "" }).world.trace
      = (match env.http.NewRequest "POST" uri with
        | some _ => w.trace
        | none => .httpDo uri [("x-client-id", clientId)] totalSize :: w.trace) ∧
    ((Demo.envToken {}).codec.unmarshalString "email@eclypses.com:P@ssw0rd!").access_token
      = "tok" ∧
    (MteSwitching.LoginToServer (Demo.envToken {}) "c1"
      (MteSwitching.PerformHandshakeWithServer (Demo.envToken {}) "c1" {}).world).1
      = (0, none) ∧
    (MteSwitching.LoginToServer (Demo.envToken {}) "c1"
      (MteSwitching.PerformHandshakeWithServer (Demo.envToken {}) "c1" {}).world).2.trace.contains
      (.httpPost "https://dev-echo.eclypses.com/api/login"
        [("x-client-id", "c1"), ("Content-Type", "text/plain")] "email@eclypses.com:P@ssw0rd!")
      = true ∧
    (MteSwitching.LoginToServer (Demo.envToken {}) "c1"
      (MteSwitching.PerformHandshakeWithServer (Demo.envToken {}) "c1" {}).world).2.access_token
      = "" ∧
    (MteSwitching.sendUpload (Demo.envToken {}) "c1"
      "https://dev-echo.eclypses.com/FileUpload/mte?name=f.txt" 10
      (MteSwitching.LoginToServer (Demo.envToken {}) "c1"
        (MteSwitching.PerformHandshakeWithServer (Demo.envToken {}) "c1"
          {}).world).2).world.trace.head?
      = some (.httpDo "https://dev-echo.eclypses.com/FileUpload/mte?name=f.txt"
          [("x-client-id", "c1")] 10) := by
  refine ⟨rfl, MteSwitching.LoginToServer_access_token env clientId _ rfl, ?_,
    by decide, by decide, by decide, by decide, by decide⟩
  unfold MteSwitching.sendUpload
  simp only [ne_eq, not_true_eq_false, if_false, List.nil_append, MteSwitching.clientIdHeader]
  cases env.http.NewRequest "POST" uri with
  | some e => rfl
  | none =>
    simp only []
    repeat' split
    all_goals rfl

/-! ## The encoded text of the jailbreak demo -/

set_option maxRecDepth 8000 in
/-- C29 at a failing input.  With the selection `"1"`, `obtainEncoded` takes the token
the scanner already holds and does not advance the scanner.  On the terminal lines
`""`, `""`, `""`, `"1"` (the settings), `"1"` (the selection), `"ENCODED"`, `"more"`,
the text handed to `DecodeStrB64` is the selection line `"1"` in both runs, and the
line `"ENCODED"` entered after the prompt is never decoded; with the selection `"2"`
the next line is read in each run. -/
theorem option_one_decodes_selection {σ : Type} (env : Env σ) (encoder : σ)
    (scanner : GoJail.Scanner) (w : World) :
    GoJail.obtainEncoded env "1" encoder scanner w
      = (.ok scanner.Text, scanner, w.emit (.print "Please enter encoded text:")) ∧
    GoJail.decodedTexts
      (GoJail.doMain (Demo.env {}) ["", "", "", "1", "1", "ENCODED", "more"] {}).2
      = ["1", "1"] ∧
    (GoJail.doMain (Demo.env {}) ["", "", "", "1", "1", "ENCODED", "more"] {}).1 = 0 ∧
    GoJail.decodedTexts
      (GoJail.doMain (Demo.env {}) ["", "", "", "1", "2", "text", "more"] {}).2
      = ["text", "more"] := by
  refine ⟨rfl, by decide, by decide, by decide⟩

/-! ## The calls a cycle does not make -/

theorem World.alien_emit (w : World) (e : Event) (c : String) :
    (w.emit e).alien c = if (e.isJoin || e.foreign c) = true then e :: w.alien c else w.alien c := by
  simp only [World.alien, World.emit, List.filter_cons]

theorem World.alien_update (r : Int) (m : Nat) (e d a : String)
    (sc : List (String × Bytes)) (w : World) (c : String) :
    (World.mk r m e d a sc w.trace).alien c = w.alien c := rfl

theorem World.alien_cacheSet (w : World) (k : String) (v : Bytes) (c : String) :
    (w.cacheSet k v).alien c = w.alien c := by
  simp [World.alien, World.cacheSet, List.filter_cons, Event.isJoin, Event.foreign]

theorem World.alien_cacheDel (w : World) (k : String) (c : String) :
    (w.cacheDel k).alien c = w.alien c := by
  simp [World.alien, World.cacheDel, List.filter_cons, Event.isJoin, Event.foreign]

theorem World.joinTrace_of_alien (w : World) (c : String) :
    w.joinTrace = (w.alien c).filter Event.isJoin := by
  simp only [World.joinTrace, World.alien, List.filter_filter]
  congr 1
  funext e
  cases e.isJoin <;> simp

theorem lookup_clientIdHeader (c : String) (rest : List (String × String)) :
    List.lookup "x-client-id" (("x-client-id", c) :: rest) = some c := by
  simp [List.lookup]

namespace MultipleClients

variable {σ : Type}

/-- A POST request of the multi-client program carries the header of its client. -/
theorem MakeHttpCall_alien_multi (env : Env σ) (route cid contentType payload : String)
    (w : World) :
    (MakeHttpCall env route "POST" cid contentType payload w).2.alien cid = w.alien cid := by
  unfold MakeHttpCall
  simp only [ToUpper_POST, if_true]
  split <;>
    simp [World.alien_emit, Event.isJoin, Event.foreign, clientIdHeader, lookup_clientIdHeader]

theorem CreateMteEncoder_alien (env : Env σ) (ts cid : String) (ent : Bytes) (w : World)
    (c : String) : (CreateMteEncoder env ts cid ent w).2.alien c = w.alien c := by
  unfold CreateMteEncoder
  simp only []
  repeat' split
  all_goals
    try (have h := congrArg Prod.snd ‹sealState env _ _ = _›
         simp only [sealState_world_multi] at h; subst h)
  all_goals
    simp [World.alien_emit, World.alien_update, World.alien_cacheSet, Event.isJoin, Event.foreign]

theorem CreateMteDecoder_alien (env : Env σ) (ts cid : String) (ent : Bytes) (w : World)
    (c : String) : (CreateMteDecoder env ts cid ent w).2.alien c = w.alien c := by
  unfold CreateMteDecoder
  simp only []
  repeat' split
  all_goals
    try (have h := congrArg Prod.snd ‹sealState env _ _ = _›
         simp only [sealState_world_multi] at h; subst h)
  all_goals
    simp [World.alien_emit, World.alien_update, World.alien_cacheSet, Event.isJoin, Event.foreign]

theorem PerformHandshakeWithServer_alien (env : Env σ) (num : Int) (cid : String) (w : World) :
    (PerformHandshakeWithServer env num cid w).2.alien cid = w.alien cid := by
  have hH := fun a d e w => MakeHttpCall_alien_multi env a cid d e w
  have hE := fun ts ent w => CreateMteEncoder_alien env ts cid ent w cid
  have hD := fun ts ent w => CreateMteDecoder_alien env ts cid ent w cid
  unfold PerformHandshakeWithServer
  simp only []
  repeat' split
  all_goals
    try (have h := congrArg Prod.snd ‹MakeHttpCall env _ _ _ _ _ _ = _›; simp only [] at h; subst h)
  all_goals
    try (have h := congrArg Prod.snd ‹CreateMteEncoder env _ _ _ _ = _›; simp only [] at h; subst h)
  all_goals
    try (have h := congrArg Prod.snd ‹CreateMteDecoder env _ _ _ _ = _›; simp only [] at h; subst h)
  all_goals
    simp [World.alien_emit, World.alien_update, Event.isJoin, Event.foreign, hH, hE, hD]

theorem reseedCheck_alien (env : Env σ) (i : Nat) (cid : String) (encoder : σ) (w : World) :
    (reseedCheck env i cid encoder w).2.alien cid = w.alien cid := by
  unfold reseedCheck
  simp only []
  split
  · refine (PerformHandshakeWithServer_alien env i cid _).trans ?_
    simp [World.alien_emit, World.alien_update, Event.isJoin, Event.foreign]
  · rfl

theorem sendLoop_alien (env : Env σ) (cid : String) (clientNum : Int) :
    ∀ (remaining i : Nat) (encoder decoder : σ) (w : World),
      (sendLoop env cid clientNum remaining i encoder decoder w).world.alien cid = w.alien cid := by
  intro remaining
  induction remaining with
  | zero =>
    intro i encoder decoder w
    rfl
  | succ n ih =>
    intro i encoder decoder w
    have hH := fun a d e w => MakeHttpCall_alien_multi env a cid d e w
    unfold sendLoop
    simp only []
    repeat' split
    all_goals
      try (have h := congrArg Prod.snd ‹MakeHttpCall env _ _ _ _ _ _ = _›; simp only [] at h
           subst h)
    all_goals first
      | (refine (ih _ _ _ _).trans ((reseedCheck_alien env _ cid _ _).trans ?_)
         simp [World.alien_emit, World.alien_update, Event.isJoin, Event.foreign, hH])
      | simp [LoopExit.world_returned, World.alien_emit, World.alien_update, Event.isJoin,
          Event.foreign, hH]

theorem storeState_alien (env : Env σ) (key : String) (state : Bytes) (w : World) (c : String) :
    (storeState env key state w).2.alien c = w.alien c := by
  unfold storeState
  simp only []
  split
  all_goals
    have h := congrArg Prod.snd ‹sealState env _ _ = _›
    simp only [sealState_world_multi] at h
    subst h
    simp [World.alien_emit, World.alien_update, World.alien_cacheSet, World.alien_cacheDel,
      Event.isJoin, Event.foreign]

/-- A cycle makes no call on the wait group, starts no worker, and sends no request
without the header of its client. -/
theorem sendMultiBody_alien (env : Env σ) (cid : String) (clientNum : Int) (w : World) :
    (sendMultiBody env cid clientNum w).alien cid = w.alien cid := by
  unfold sendMultiBody
  simp only []
  repeat' split
  all_goals
    try (have h1 := congrArg Prod.snd ‹fetchState env (encPrefix ++ cid) _ = _›
         simp only [fetchState_world] at h1; subst h1)
  all_goals
    try (have h2 := congrArg Prod.snd ‹fetchState env (decPrefix ++ cid) _ = _›
         simp only [fetchState_world] at h2; subst h2)
  all_goals
    try (have h3 := congrArg LoopExit.world ‹sendLoop env _ _ _ _ _ _ _ = _›
         simp only [LoopExit.world_returned, LoopExit.world_finished] at h3; subst h3)
  all_goals
    try (have h4 := congrArg Prod.snd ‹storeState env _ _ _ = _›; simp only [] at h4; subst h4)
  all_goals
    simp [World.alien_emit, World.alien_update, Event.isJoin, Event.foreign, storeState_alien,
      sendLoop_alien]

end MultipleClients

/-! ## The join barrier of the multi-client program -/

theorem wgDelta_sum_filter (t : List Event) :
    (t.map Event.wgDelta).sum = ((t.filter Event.isJoin).map Event.wgDelta).sum := by
  induction t with
  | nil => rfl
  | cons e rest ih =>
    cases e <;> simp [List.filter_cons, Event.isJoin, Event.wgDelta, ih]

theorem workers_foldr_filter (t : List Event) :
    t.foldr (fun e acc => match e with
      | .goStart clientId clientNum => acc ++ [(clientId, clientNum)]
      | _ => acc) ([] : List (String × Int))
    = (t.filter Event.isJoin).foldr (fun e acc => match e with
      | .goStart clientId clientNum => acc ++ [(clientId, clientNum)]
      | _ => acc) [] := by
  induction t with
  | nil => rfl
  | cons e rest ih =>
    cases e <;> simp [List.filter_cons, Event.isJoin, ih]

/-- A step that adds one `Done` to the calls on the wait group lowers its counter by
one and starts no worker. -/
theorem World.done_step (w w1 : World) (h : w1.joinTrace = .wgDone :: w.joinTrace) :
    w1.wgCounter = w.wgCounter - 1 ∧ w1.workers = w.workers := by
  constructor
  · simp only [World.wgCounter]
    rw [wgDelta_sum_filter w1.trace, wgDelta_sum_filter w.trace]
    simp only [World.joinTrace] at h
    rw [h]
    simp [Event.wgDelta]
    omega
  · simp only [World.workers]
    rw [workers_foldr_filter w1.trace, workers_foldr_filter w.trace]
    simp only [World.joinTrace] at h
    rw [h]
    simp

namespace MultipleClients

variable {σ : Type}

/-- Every path of `SendMultiToServer` makes exactly one call on the wait group, the
deferred `Done`, and starts no worker. -/
theorem SendMultiToServer_joinTrace (env : Env σ) (cid : String) (clientNum : Int) (w : World) :
    (SendMultiToServer env cid clientNum w).joinTrace = .wgDone :: w.joinTrace := by
  have hb := sendMultiBody_alien env cid clientNum w
  have h1 : (sendMultiBody env cid clientNum w).joinTrace = w.joinTrace := by
    rw [World.joinTrace_of_alien _ cid, hb, ← World.joinTrace_of_alien]
  unfold SendMultiToServer
  rw [← h1]
  simp [World.joinTrace, World.emit, List.filter_cons, Event.isJoin]

theorem startWorkers_spec (env : Env σ) (clients : Int → String) :
    ∀ (k : Nat) (i : Int) (w : World),
      (startWorkers env clients k i w).workers
        = w.workers ++ (List.range k).map (fun (j : Nat) => (clients (i + (j : Int)), i + (j : Int))) ∧
      (startWorkers env clients k i w).wgCounter = w.wgCounter - (k : Int) := by
  intro k
  induction k with
  | zero =>
    intro i w
    simp [startWorkers]
  | succ n ih =>
    intro i w
    obtain ⟨hc, hw⟩ := World.done_step _ _
      (SendMultiToServer_joinTrace env (clients i) i (w.emit (.goStart (clients i) i)))
    have hw0 : (w.emit (.goStart (clients i) i)).workers = w.workers ++ [(clients i, i)] := by
      simp [World.workers, World.emit]
    have hc0 : (w.emit (.goStart (clients i) i)).wgCounter = w.wgCounter := by
      simp [World.wgCounter, World.emit, Event.wgDelta]
    obtain ⟨ih1, ih2⟩ := ih (i + 1)
      (SendMultiToServer env (clients i) i (w.emit (.goStart (clients i) i)))
    constructor
    · rw [startWorkers, ih1, hw, hw0, List.range_succ_eq_map]
      simp only [List.map_cons, List.map_map, List.append_assoc, List.singleton_append,
        Nat.cast_zero, add_zero]
      congr 2
      apply List.map_congr_left
      intro j _
      simp only [Function.comp, Nat.succ_eq_add_one, Nat.cast_add, Nat.cast_one]
      rw [show i + 1 + (j : Int) = i + ((j : Int) + 1) by omega]
    · rw [startWorkers, ih2, hc, hc0]
      push_cast
      omega

/-- C21: in the multi-client program every path of `SendMultiToServer`, whatever the
collaborators answer, makes exactly one call on the wait group, the deferred `Done`.
In a round, after `wg.Add(numClients)` the workers started are the clients
`1..numClients`, one each, a failed cycle stopping none of the later ones; when `k`
workers have returned the counter of the wait group stands at `numClients - k`, so it
is zero only when all have returned; and `wg.Wait()` then returns, the round ending in
the world the last worker left. -/
theorem join_barrier (env : Env σ) (clients : Int → String) (numClients : Nat) (w : World) :
    (∀ clientId clientNum w1,
      (SendMultiToServer env clientId clientNum w1).joinTrace = .wgDone :: w1.joinTrace) ∧
    (∀ k : Nat,
      (startWorkers env clients k 1 (w.emit (.wgAdd numClients))).workers
        = w.workers ++ (List.range k).map (fun (j : Nat) => (clients (1 + (j : Int)), 1 + (j : Int))) ∧
      (startWorkers env clients k 1 (w.emit (.wgAdd numClients))).wgCounter - w.wgCounter
        = (numClients : Int) - (k : Int)) ∧
    round env clients numClients w
      = .done () ((startWorkers env clients numClients 1 (w.emit (.wgAdd numClients))).emit
          .wgWait) := by
  have hw0 : (w.emit (.wgAdd numClients)).workers = w.workers := by
    simp [World.workers, World.emit]
  have hc0 : (w.emit (.wgAdd numClients)).wgCounter = w.wgCounter + numClients := by
    simp [World.wgCounter, World.emit, Event.wgDelta]
    omega
  refine ⟨fun clientId clientNum w1 => SendMultiToServer_joinTrace env clientId clientNum w1,
    fun k => ?_, ?_⟩
  · obtain ⟨h1, h2⟩ := startWorkers_spec env clients k 1 (w.emit (.wgAdd numClients))
    refine ⟨by rw [h1, hw0], ?_⟩
    rw [h2, hc0]
    omega
  · obtain ⟨_, h2⟩ := startWorkers_spec env clients numClients 1 (w.emit (.wgAdd numClients))
    have hneg : ¬ ((numClients : Int) < 0) := by omega
    have hwait : ((startWorkers env clients numClients 1 (w.emit (.wgAdd numClients))).emit
        .wgWait).wgCounter - w.wgCounter = 0 := by
      have : ((startWorkers env clients numClients 1 (w.emit (.wgAdd numClients))).emit
          .wgWait).wgCounter
          = (startWorkers env clients numClients 1 (w.emit (.wgAdd numClients))).wgCounter := by
        simp [World.wgCounter, World.emit, Event.wgDelta]
      rw [this, h2, hc0]
      omega
    simp only [round, if_neg hneg, Int.toNat_ofNat, hwait, if_true]

end MultipleClients

/-! ## The client-id header of the requests -/

namespace MteSwitching

variable {σ : Type}

end MteSwitching

namespace FileUpload

variable {σ : Type}

end FileUpload

namespace CoreDemo

variable {σ : Type}

/-- On a paired encoder and decoder the loop decodes every line it is given, up to the
first line that reads `quit`, to the line without its line feeds and carriage returns,
and the calls it makes are the round trips of the lines: each stripped line is handed to
the encoder and what the encoder returned is handed to the decoder. -/
theorem encodeLoop_round_trip (env : Env σ) (Paired : σ → σ → Prop)
    (hStep : ∀ (e d : σ) (msg : String), Paired e d →
      (env.mte.EncodeStrB64 .EncDef msg e).1.2 = statusSuccess ∧
      (env.mte.DecodeStrB64 .DecDef (env.mte.EncodeStrB64 .EncDef msg e).1.1 d).1.1 = msg ∧
      env.mte.StatusIsError
        (env.mte.DecodeStrB64 .DecDef (env.mte.EncodeStrB64 .EncDef msg e).1.1 d).1.2 = false ∧
      Paired (env.mte.EncodeStrB64 .EncDef msg e).2
        (env.mte.DecodeStrB64 .DecDef (env.mte.EncodeStrB64 .EncDef msg e).1.1 d).2) :
    ∀ (lines : List String) (e d : σ) (out : List String) (w : World), Paired e d →
      (∀ l ∈ lines, ToLower env (stripNewlines l) ≠ "quit") →
      (encodeLoop env lines e d out w).1 = out ++ lines.map stripNewlines ∧
      (encodeLoop env lines e d out w).2.trace = roundTripTrace env lines e d w.trace := by
  intro lines
  induction lines with
  | nil =>
    intro e d out w _ _
    simp [encodeLoop, roundTripTrace]
  | cons line rest ih =>
    intro e d out w hp hq
    obtain ⟨h1, h2, h3, h4⟩ := hStep e d (stripNewlines line) hp
    have hline : ToLower env (stripNewlines line) ≠ "quit" := hq line (List.mem_cons_self _ _)
    have hrest : ∀ l ∈ rest, ToLower env (stripNewlines l) ≠ "quit" :=
      fun l hl => hq l (List.mem_cons_of_mem _ hl)
    unfold encodeLoop
    simp only [if_neg hline, h1, ne_eq, not_true_eq_false, if_false, h3, Bool.false_eq_true]
    obtain ⟨ih1, ih2⟩ := ih (env.mte.EncodeStrB64 .EncDef (stripNewlines line) e).2
      (env.mte.DecodeStrB64 .DecDef
        (env.mte.EncodeStrB64 .EncDef (stripNewlines line) e).1.1 d).2
      (out ++ [(env.mte.DecodeStrB64 .DecDef
        (env.mte.EncodeStrB64 .EncDef (stripNewlines line) e).1.1 d).1.1])
      (((w.emit (.encode .EncDef (stripNewlines line))).emit
        (.decode .DecDef (env.mte.EncodeStrB64 .EncDef (stripNewlines line) e).1.1)).emit
        (.print (if (env.mte.DecodeStrB64 .DecDef
            (env.mte.EncodeStrB64 .EncDef (stripNewlines line) e).1.1 d).1.1.length = 0
          then "Message was blank\n"
          else "Decoded Message: '" ++ (env.mte.DecodeStrB64 .DecDef
            (env.mte.EncodeStrB64 .EncDef (stripNewlines line) e).1.1 d).1.1 ++ "'")))
      h4 hrest
    constructor
    · rw [ih1, h2]
      simp
    · rw [ih2]
      simp only [roundTripTrace, World.emit, h2]

/-- C24: in the core console demo the encoder and the decoder are instantiated with the
same entropy (the buffer of `GetDrbgsEntropyMinBytes` bytes refilled with `'0'`), the
nonce 0 and the personalization string `"demo"`.  When the licence is accepted, both
instantiations succeed and leave a paired encoder and decoder, where on a pair the
encode succeeds, the decoder returns the encoded message without an error, and the two
stay paired, then for input lines none of which reads `quit` in lower case after its
line feeds and carriage returns are removed: every line is handed, stripped, to the
encoder, what the encoder returned is handed to the decoder (the calls of `main` after
the two instantiations are exactly these round trips, in the order of the lines), and
the decoded messages are the input lines with all line feeds and carriage returns
removed. -/
theorem console_round_trip (env : Env σ) (Paired : σ → σ → Prop) (lines : List String)
    (w : World)
    (hLic : env.mte.InitLicense w.now companyName companyLicense = true)
    (hEnc : (env.mte.InstantiateStr .EncDef
      (zeroEntropy (env.mte.GetDrbgsEntropyMinBytes .EncDef (env.mte.newObj .EncDef))) 0 "demo"
      (env.mte.newObj .EncDef)).1 = statusSuccess)
    (hDec : (env.mte.InstantiateStr .DecDef
      (zeroEntropy (env.mte.GetDrbgsEntropyMinBytes .EncDef (env.mte.newObj .EncDef))) 0 "demo"
      (env.mte.newObj .DecDef)).1 = statusSuccess)
    (hPair : Paired
      (env.mte.InstantiateStr .EncDef
        (zeroEntropy (env.mte.GetDrbgsEntropyMinBytes .EncDef (env.mte.newObj .EncDef))) 0 "demo"
        (env.mte.newObj .EncDef)).2
      (env.mte.InstantiateStr .DecDef
        (zeroEntropy (env.mte.GetDrbgsEntropyMinBytes .EncDef (env.mte.newObj .EncDef))) 0 "demo"
        (env.mte.newObj .DecDef)).2)
    (hStep : ∀ (e d : σ) (msg : String), Paired e d →
      (env.mte.EncodeStrB64 .EncDef msg e).1.2 = statusSuccess ∧
      (env.mte.DecodeStrB64 .DecDef (env.mte.EncodeStrB64 .EncDef msg e).1.1 d).1.1 = msg ∧
      env.mte.StatusIsError
        (env.mte.DecodeStrB64 .DecDef (env.mte.EncodeStrB64 .EncDef msg e).1.1 d).1.2 = false ∧
      Paired (env.mte.EncodeStrB64 .EncDef msg e).2
        (env.mte.DecodeStrB64 .DecDef (env.mte.EncodeStrB64 .EncDef msg e).1.1 d).2)
    (hQuit : ∀ l ∈ lines, ToLower env (stripNewlines l) ≠ "quit") :
    (main env lines w).1 = lines.map stripNewlines ∧
    (main env [] w).2.trace
      = [.instantiate .DecDef
          (zeroEntropy (env.mte.GetDrbgsEntropyMinBytes .EncDef (env.mte.newObj .EncDef))) 0 "demo",
         .mteNew .DecDef,
         .instantiate .EncDef
          (zeroEntropy (env.mte.GetDrbgsEntropyMinBytes .EncDef (env.mte.newObj .EncDef))) 0 "demo",
         .mteNew .EncDef, .initLicense] ++ w.trace ∧
    (main env lines w).2.trace
      = roundTripTrace env lines
          (env.mte.InstantiateStr .EncDef
            (zeroEntropy (env.mte.GetDrbgsEntropyMinBytes .EncDef (env.mte.newObj .EncDef)))
            0 "demo" (env.mte.newObj .EncDef)).2
          (env.mte.InstantiateStr .DecDef
            (zeroEntropy (env.mte.GetDrbgsEntropyMinBytes .EncDef (env.mte.newObj .EncDef)))
            0 "demo" (env.mte.newObj .DecDef)).2
          ([.instantiate .DecDef
              (zeroEntropy (env.mte.GetDrbgsEntropyMinBytes .EncDef (env.mte.newObj .EncDef)))
              0 "demo",
            .mteNew .DecDef,
            .instantiate .EncDef
              (zeroEntropy (env.mte.GetDrbgsEntropyMinBytes .EncDef (env.mte.newObj .EncDef)))
              0 "demo",
            .mteNew .EncDef, .initLicense] ++ w.trace) := by
  have hmain : ∀ ls, main env ls w
      = encodeLoop env ls
        (env.mte.InstantiateStr .EncDef
          (zeroEntropy (env.mte.GetDrbgsEntropyMinBytes .EncDef (env.mte.newObj .EncDef))) 0 "demo"
          (env.mte.newObj .EncDef)).2
        (env.mte.InstantiateStr .DecDef
          (zeroEntropy (env.mte.GetDrbgsEntropyMinBytes .EncDef (env.mte.newObj .EncDef))) 0 "demo"
          (env.mte.newObj .DecDef)).2 []
        ((((({ w with retcode := 0 }.emit .initLicense).emit (.mteNew .EncDef)).emit
          (.instantiate .EncDef
            (zeroEntropy (env.mte.GetDrbgsEntropyMinBytes .EncDef (env.mte.newObj .EncDef)))
            0 "demo")).emit (.mteNew .DecDef)).emit
          (.instantiate .DecDef
            (zeroEntropy (env.mte.GetDrbgsEntropyMinBytes .EncDef (env.mte.newObj .EncDef)))
            0 "demo")) := by
    intro ls
    have hLic' : env.mte.InitLicense ({ w with retcode := 0 } : World).now companyName
        companyLicense = true := hLic
    unfold main
    simp only [hLic', Bool.not_true, Bool.false_eq_true, if_false, nonce, personalizationString,
      hEnc, hDec, ne_eq, not_true_eq_false]
  refine ⟨?_, ?_, ?_⟩
  · rw [hmain, (encodeLoop_round_trip env Paired hStep lines _ _ [] _ hPair hQuit).1]
    simp
  · rw [hmain]
    simp [encodeLoop, World.emit]
  · rw [hmain, (encodeLoop_round_trip env Paired hStep lines _ _ [] _ hPair hQuit).2]
    rfl

set_option maxRecDepth 8000 in
/-- C24 at a concrete input, on the stand-in engine whose encoder puts `#` before the
message and whose decoder takes it off: the lines `"hello"` (ended by a line feed) and
`"a"`, carriage return, line feed, `"b"` are decoded to `"hello"` and `"ab"`, and the
calls made are the two instantiations with the entropy `"0000"`, then for each line the
encode of the stripped line and the decode of what the encoder returned (`"#hello"`,
`"#ab"`). -/
theorem console_round_trip_witness :
    (CoreDemo.main (Demo.envWrap {}) ["hello\n", "a\r\nb\n"] {}).1 = ["hello", "ab"] ∧
    (CoreDemo.main (Demo.envWrap {}) ["hello\n", "a\r\nb\n"] {}).2.trace
      = [.print "Decoded Message: 'ab'", .decode .DecDef "#ab", .encode .EncDef "ab",
         .print "Decoded Message: 'hello'", .decode .DecDef "#hello", .encode .EncDef "hello",
         .instantiate .DecDef [48, 48, 48, 48] 0 "demo", .mteNew .DecDef,
         .instantiate .EncDef [48, 48, 48, 48] 0 "demo", .mteNew .EncDef, .initLicense] :=
  ⟨(console_round_trip (Demo.envWrap {})
      (fun e d => e.instantiated = true ∧ d.instantiated = true) ["hello\n", "a\r\nb\n"] {}
      (by decide) (by decide) (by decide) (by decide)
      (by
        intro e d msg h
        obtain ⟨he, hd⟩ := h
        simp [Demo.envWrap, Demo.env, Demo.mte, he, hd, Demo.advance, statusSuccess])
      (by decide)).1,
    (console_round_trip (Demo.envWrap {})
      (fun e d => e.instantiated = true ∧ d.instantiated = true) ["hello\n", "a\r\nb\n"] {}
      (by decide) (by decide) (by decide) (by decide)
      (by
        intro e d msg h
        obtain ⟨he, hd⟩ := h
        simp [Demo.envWrap, Demo.env, Demo.mte, he, hd, Demo.advance, statusSuccess])
      (by decide)).2.2.trans (by decide)⟩

end CoreDemo

end MteSamples
